import Mathlib

/-!
# github-readme-stats (Go port): retry orchestration, paging, ranking and statistics

A shallow embedding of

* `internal/github/pat.go`      (`GetPATKeys`, `isBadCredential`, `isSuspended`),
* `internal/github/retryer.go`  (`RetryGraphQL`, `getToken`),
* `internal/common/error.go`    (`CustomError`, `MissingParamError`, `NewCustomError`),
* `internal/common/rank.go`     (`exponentialCDF`, `logNormalCDF`, `CalculateRank`),
* `internal/common/envs.go`, `internal/common/ops.go` (`ExcludeRepositories`, `ParseArray`),
* `internal/fetchers/stats.go`  (`FetchStats`, `statsFetcher`, `mergeGraphQL`,
  `isRateLimitedGraphQL`, `totalCommitsFetcher`, `retryRest`).

Effects are made explicit.  The network is a state-passing function on an arbitrary
world type `σ`; the process environment and the viper configuration are a read-only
record; library functions whose behaviour rests on tables outside the repository
(Unicode case mapping, `encoding/json`) are record parameters, so that every theorem
holds for whatever those functions compute.  float64 values are rationals and the
rounding of the float64 operations is a parameter as well (`Float64`), with IEEE rounding
(`Float64.ieee`) as its instance; a Go `int` has 64 bits.
-/

namespace GithubReadmeStats

/-! ## Go runtime values -/

/-- Go `error` values that reach the embedded code.  `errorString` is what `errors.New`
builds, `CustomError` and `MissingParamError` are the two error types of
`internal/common/error.go`, and `foreign` stands for an error value made by a package
outside the repository (`net/http`, `encoding/json`), of which only the text is kept. -/
inductive GoError where
  | errorString (s : String)
  | CustomError (Message : String) (Type_ : String) (SecondaryMessage : String)
  | MissingParamError (MissedParams : List String) (SecondaryMessage : String)
  | foreign (msg : String)
  deriving DecidableEq, Repr

/-- The `Error()` method of each error value. -/
def GoError.Error : GoError → String
  | .errorString s => s
  | .CustomError m _ _ => m
  | .MissingParamError ps _ =>
    if ps.length = 0 then "Missing params make sure you pass the parameters in URL"
    else "Missing params " ++ ", ".intercalate (ps.map fun p => "\"" ++ p ++ "\"")
      ++ " make sure you pass the parameters in URL"
  | .foreign m => m

/-- Functions of Go's `strings` package used by the code whose results depend on the
Unicode tables of the Go runtime. -/
structure Strings where
  ToLower : String → String
  ToUpper : String → String
  EqualFold : String → String → Bool
  TrimSpace : String → String

/-- Whether `c` is one of the six ASCII white-space characters. -/
def asciiSpace (c : Char) : Bool :=
  c = ' ' || c = '\t' || c = '\n' || c = '\r' || c.toNat = 11 || c.toNat = 12

/-- The `strings` functions restricted to ASCII letters and ASCII white space; they agree
with Go on every ASCII string and are used for concrete runs. -/
def Strings.ascii : Strings where
  ToLower s := ⟨s.data.map Char.toLower⟩
  ToUpper s := ⟨s.data.map Char.toUpper⟩
  EqualFold a b := decide (a.data.map Char.toLower = b.data.map Char.toLower)
  TrimSpace s := ⟨((s.data.dropWhile asciiSpace).reverse.dropWhile asciiSpace).reverse⟩

/-- Infix test on lists, the list form of `strings.Contains`. -/
def containsList : List Char → List Char → Bool
  | [], sub => sub.isEmpty
  | c :: cs, sub => sub.isPrefixOf (c :: cs) || containsList cs sub

/-- Go `strings.Contains(s, substr)`. -/
def Contains (s substr : String) : Bool :=
  containsList s.data substr.data

/-- What the process can read of its surroundings: `os.Environ()`, `viper.AllKeys()` and
`viper.GetString`. -/
structure Process where
  Environ : List String
  AllKeys : List String
  GetString : String → String

/-! ## `internal/github/client.go`: wire types -/

/-- Go `GraphQLError`; `Type_` is the field `Type`. -/
structure GraphQLError where
  Type_ : String
  Message : String
  deriving DecidableEq, Repr

/-- Go `json.RawMessage`: a byte slice. -/
abbrev RawMessage := List UInt8

/-- Go `GraphQLResponse`; the zero value has both fields empty. -/
structure GraphQLResponse where
  Data : RawMessage := []
  Errors : List GraphQLError := []
  deriving DecidableEq, Repr

/-- Go `RestError`. -/
structure RestError where
  Message : String
  deriving DecidableEq, Repr

/-- Go `RateLimit`. -/
structure RateLimit where
  Remaining : Int := 0
  ResetAt : String := ""
  deriving DecidableEq, Repr

/-- Go `RateLimitData`. -/
structure RateLimitData where
  RateLimit : RateLimit := {}
  deriving DecidableEq, Repr

/-- The four values `QueryRateLimit` returns. -/
structure QuotaResult where
  data : RateLimitData := {}
  errors : List GraphQLError := []
  restErr : Option RestError := none
  err : Option GoError := none
  deriving DecidableEq, Repr

/-- Go `QueryRateLimit` seen from its callers: one HTTP exchange for a token, which may
read and change the world `σ`. -/
abbrev QuotaUpstream (σ : Type) := String → σ → QuotaResult × σ

/-! ## `internal/github/pat.go` -/

/-- The regular expression `^PAT_\d+$` of `patKeyPattern`: the text `PAT_` followed by one
or more ASCII digits and nothing else. -/
def patKeyPattern (s : String) : Bool :=
  match s.data with
  | 'P' :: 'A' :: 'T' :: '_' :: ds => !ds.isEmpty && ds.all fun c => '0' ≤ c && c ≤ '9'
  | _ => false

/-- The element `strings.SplitN(entry, "=", 2)[0]`: the text before the first `=`. -/
def envKey (entry : String) : String :=
  ⟨entry.data.takeWhile fun c => c ≠ '='⟩

/-- Go's order `a <= b` on strings, the lexicographic order of the bytes; on UTF-8 text
it is the lexicographic order of the code points, which is what is computed here. -/
def stringLE : List Char → List Char → Bool
  | [], _ => true
  | _ :: _, [] => false
  | a :: as, b :: bs => decide (a.toNat < b.toNat) || (decide (a.toNat = b.toNat) && stringLE as bs)

/-- Go `GetPATKeys`: the names matching `patKeyPattern` among the environment names and
the upper-cased configuration keys, collected in a set (the map `keys`) and sorted
ascending by `sort.Strings`. -/
def GetPATKeys (L : Strings) (P : Process) : List String :=
  let fromEnv := (P.Environ.map envKey).filter patKeyPattern
  let fromViper := (P.AllKeys.map L.ToUpper).filter patKeyPattern
  ((fromEnv ++ fromViper).dedup).insertionSort fun a b => stringLE a.data b.data = true

/-- Go `isBadCredential`. -/
def isBadCredential (L : Strings) (msg : String) : Bool :=
  L.EqualFold msg "Bad credentials"

/-- Go `isSuspended`. -/
def isSuspended (L : Strings) (msg : String) : Bool :=
  L.EqualFold msg "Sorry. Your account was suspended."

/-- Go `getEnv`. -/
def getEnv (P : Process) (key : String) : String :=
  P.GetString key

/-! ## `internal/github/retryer.go` -/

/-- The three values a `Fetcher` returns. -/
structure FetchResult where
  resp : GraphQLResponse := {}
  restErr : Option RestError := none
  err : Option GoError := none
  deriving DecidableEq, Repr

/-- Go `Fetcher`: a call that may touch the world `σ`. -/
abbrev Fetcher (σ : Type) := String → σ → FetchResult × σ

/-- Go `RetryConfig`; `none` is the nil function. -/
structure RetryConfig where
  IsRateLimited : Option (GraphQLResponse → Bool) := none

/-- The guard `config.IsRateLimited != nil && config.IsRateLimited(resp)`. -/
def RetryConfig.rateLimited (config : RetryConfig) (resp : GraphQLResponse) : Bool :=
  match config.IsRateLimited with
  | none => false
  | some f => f resp

/-- Go `getToken`. -/
def getToken (L : Strings) (P : Process) (key : String) : String :=
  L.TrimSpace (getEnv P key)

/-- What one run of `RetryGraphQL` leaves behind: the two returned values, the world
after the run, and two traces: `attempts`, the pool keys whose token was handed to the
fetcher, in call order, and `log`, the lines written with `log.Printf`. -/
structure RetryOutcome (σ : Type) where
  resp : GraphQLResponse
  err : Option GoError
  attempts : List String
  log : List String
  state : σ

/-- Record that `key` was tried and skipped before the rest of the run `o`. -/
def RetryOutcome.skipped {σ : Type} (key : String) (o : RetryOutcome σ) : RetryOutcome σ :=
  { o with attempts := key :: o.attempts, log := (key ++ " Failed") :: o.log }

/-- The `for _, key := range keys` loop of `RetryGraphQL`, with the statement after the
loop as the case of the empty remainder. -/
def retryLoop {σ : Type} (L : Strings) (P : Process) (fetcher : Fetcher σ)
    (config : RetryConfig) : List String → σ → RetryOutcome σ
  | [], s =>
    { resp := {}, err := some (.errorString "all github api tokens failed"),
      attempts := [], log := [], state := s }
  | key :: rest, s =>
    let token := getToken L P key
    let r := fetcher token s
    match r.1.err with
    | some err => { resp := {}, err := some err, attempts := [key], log := [], state := r.2 }
    | none =>
      match r.1.restErr with
      | some restErr =>
        if isBadCredential L restErr.Message || isSuspended L restErr.Message then
          (retryLoop L P fetcher config rest r.2).skipped key
        else
          { resp := {}, err := some (.errorString restErr.Message),
            attempts := [key], log := [], state := r.2 }
      | none =>
        if config.rateLimited r.1.resp then
          (retryLoop L P fetcher config rest r.2).skipped key
        else
          { resp := r.1.resp, err := none, attempts := [key], log := [], state := r.2 }

/-- Go `RetryGraphQL`. -/
def RetryGraphQL {σ : Type} (L : Strings) (P : Process) (fetcher : Fetcher σ)
    (config : RetryConfig) (s : σ) : RetryOutcome σ :=
  let keys := GetPATKeys L P
  if keys.length = 0 then
    { resp := {}, err := some (.errorString "no github api tokens found"),
      attempts := [], log := [], state := s }
  else
    retryLoop L P fetcher config keys s

/-- The results the fetcher gives when it is invoked on the token of each key of `keys`
in turn, starting from world `s`: entry `i` is the attempt with credential `i`. -/
def attemptResults {σ : Type} (L : Strings) (P : Process) (fetcher : Fetcher σ) :
    List String → σ → List FetchResult
  | [], _ => []
  | key :: rest, s =>
    let r := fetcher (getToken L P key) s
    r.1 :: attemptResults L P fetcher rest r.2

/-- An attempt after which `RetryGraphQL` moves on to the next credential: no transport
error and either a REST error that is bad-credentials or account-suspended, or no REST
error and an envelope that the configured predicate calls rate limited. -/
def FetchResult.recoverable (L : Strings) (config : RetryConfig) (r : FetchResult) : Bool :=
  r.err.isNone &&
    (match r.restErr with
     | some e => isBadCredential L e.Message || isSuspended L e.Message
     | none => config.rateLimited r.resp)

/-- An attempt that returns an envelope: no transport error, no REST error, and the
configured predicate does not call the envelope rate limited. -/
def FetchResult.succeeds (config : RetryConfig) (r : FetchResult) : Bool :=
  r.err.isNone && r.restErr.isNone && !config.rateLimited r.resp

/-! ## `internal/github/pat.go`: `RetryRateLimit` -/

/-- Go `isRateLimited`. -/
def isRateLimited (L : Strings) (errors : List GraphQLError) : Bool :=
  match errors with
  | [] => false
  | err :: _ =>
    if err.Type_ = "RATE_LIMITED" then true
    else Contains (L.ToLower err.Message) "rate limit"

/-- The `for _, key := range keys` loop of `RetryRateLimit`, with the statement after the
loop as the case of the empty remainder; `Marshal` is `json.Marshal` on `RateLimitData`,
which cannot fail on that type. -/
def retryRateLimitLoop {σ : Type} (L : Strings) (P : Process)
    (QueryRateLimit : QuotaUpstream σ) (Marshal : RateLimitData → RawMessage) :
    List String → σ → RetryOutcome σ
  | [], s =>
    { resp := {}, err := some (.errorString "all github api tokens failed"),
      attempts := [], log := [], state := s }
  | key :: rest, s =>
    let token := getEnv P key
    let r := QueryRateLimit token s
    match r.1.err with
    | some err => { resp := {}, err := some err, attempts := [key], log := [], state := r.2 }
    | none =>
      match r.1.restErr with
      | some restErr =>
        if isBadCredential L restErr.Message || isSuspended L restErr.Message then
          (retryRateLimitLoop L P QueryRateLimit Marshal rest r.2).skipped key
        else
          { resp := {}, err := some (.errorString restErr.Message),
            attempts := [key], log := [], state := r.2 }
      | none =>
        if isRateLimited L r.1.errors then
          (retryRateLimitLoop L P QueryRateLimit Marshal rest r.2).skipped key
        else
          { resp := { Data := Marshal r.1.data, Errors := r.1.errors }, err := none,
            attempts := [key], log := [], state := r.2 }

/-- Go `RetryRateLimit`. -/
def RetryRateLimit {σ : Type} (L : Strings) (P : Process)
    (QueryRateLimit : QuotaUpstream σ) (Marshal : RateLimitData → RawMessage) (s : σ) :
    RetryOutcome σ :=
  let keys := GetPATKeys L P
  if keys.length = 0 then
    { resp := {}, err := some (.errorString "no github api tokens found"),
      attempts := [], log := [], state := s }
  else
    retryRateLimitLoop L P QueryRateLimit Marshal keys s

/-! ## `internal/common/error.go` -/

/-- Go `ErrorMaxRetry`. -/
def ErrorMaxRetry : String := "MAX_RETRY"
/-- Go `ErrorNoTokens`. -/
def ErrorNoTokens : String := "NO_TOKENS"
/-- Go `ErrorUserNotFound`. -/
def ErrorUserNotFound : String := "USER_NOT_FOUND"
/-- Go `ErrorGraphQL`. -/
def ErrorGraphQL : String := "GRAPHQL_ERROR"
/-- Go `ErrorGithubRest`. -/
def ErrorGithubRest : String := "GITHUB_REST_API_ERROR"
/-- Go `ErrorWakatime`. -/
def ErrorWakatime : String := "WAKATIME_ERROR"
/-- Go `TryAgainLater`. -/
def TryAgainLater : String := "Please try again later"

/-- Go `NewCustomError`, with the table `SecondaryErrors` written out in the branches. -/
def NewCustomError (message : String) (errType : String) : GoError :=
  let secondary :=
    if errType = ErrorMaxRetry then
      "You can deploy own instance or wait until public will be no longer limited"
    else if errType = ErrorNoTokens then
      "Please add an env variable called PAT_1 with your GitHub API token in vercel"
    else if errType = ErrorUserNotFound then
      "Make sure the provided username is not an organization"
    else if errType = ErrorGraphQL then TryAgainLater
    else if errType = ErrorGithubRest then TryAgainLater
    else if errType = ErrorWakatime then "Make sure you have a public WakaTime profile"
    else errType
  .CustomError message errType secondary

/-! ## `internal/fetchers/stats.go` -/

/-- Go `graphQLRepoNode`; `Stargazers` is the field `Stargazers.TotalCount`. -/
structure graphQLRepoNode where
  Name : String := ""
  Stargazers : Int := 0
  deriving DecidableEq, Repr

/-- Go `graphQLPageInfo`. -/
structure graphQLPageInfo where
  HasNextPage : Bool := false
  EndCursor : String := ""
  deriving DecidableEq, Repr

/-- The anonymous struct of the field `Repositories` of `graphQLUser`. -/
structure graphQLRepositories where
  TotalCount : Int := 0
  Nodes : List graphQLRepoNode := []
  PageInfo : graphQLPageInfo := {}
  deriving DecidableEq, Repr

/-- Go `graphQLUser`; a field that is a struct with one counter is that counter. -/
structure graphQLUser where
  Name : String := ""
  Login : String := ""
  Commits : Int := 0
  Reviews : Int := 0
  RepositoriesContributedTo : Int := 0
  PullRequests : Int := 0
  MergedPullRequests : Int := 0
  OpenIssues : Int := 0
  ClosedIssues : Int := 0
  Followers : Int := 0
  RepositoryDiscussions : Int := 0
  RepositoryDiscussionComments : Int := 0
  Repositories : graphQLRepositories := {}
  deriving DecidableEq, Repr

/-- Go `graphQLUserData`. -/
structure graphQLUserData where
  User : graphQLUser := {}
  deriving DecidableEq, Repr

/-- The two calls of `encoding/json` made on `graphQLUserData`: `json.Unmarshal` into a
fresh variable and `json.Marshal`. -/
structure JSON where
  Unmarshal : RawMessage → Except GoError graphQLUserData
  Marshal : graphQLUserData → Except GoError RawMessage

/-- The two query texts a page request can carry, named after their constants. -/
inductive Query where
  | graphQLStatsQuery
  | graphQLReposQuery
  deriving DecidableEq, Repr

/-- The map that `statsFetcher` calls `variables`; `none` is the value `nil`. -/
structure Variables where
  login : String
  first : Nat
  after : Option String
  includeMergedPullRequests : Bool
  includeDiscussions : Bool
  includeDiscussionsAnswers : Bool
  startTime : Option String
  deriving DecidableEq, Repr

/-- Go `DoGraphQL` seen from its callers: one HTTP exchange with the upstream, which may
read and change the world `σ`. -/
abbrev Upstream (σ : Type) := Query → Variables → String → σ → FetchResult × σ

/-- Go `isRateLimitedGraphQL`. -/
def isRateLimitedGraphQL (L : Strings) (resp : GraphQLResponse) : Bool :=
  match resp.Errors with
  | [] => false
  | err :: _ =>
    if err.Type_ = "RATE_LIMITED" then true
    else Contains (L.ToLower err.Message) "rate limit"

/-- Go `mergeGraphQL`. -/
def mergeGraphQL (J : JSON) (base next : GraphQLResponse) : GraphQLResponse :=
  if base.Data.length = 0 then next
  else if next.Data.length = 0 then base
  else
    match J.Unmarshal base.Data with
    | .error _ => next
    | .ok baseData =>
      match J.Unmarshal next.Data with
      | .error _ => base
      | .ok nextData =>
        let baseData : graphQLUserData :=
          { baseData with
            User := { baseData.User with
              Repositories := { baseData.User.Repositories with
                Nodes := baseData.User.Repositories.Nodes ++ nextData.User.Repositories.Nodes } } }
        match J.Marshal baseData with
        | .error _ => base
        | .ok merged => { base with Data := merged }

/-- One orchestrated call of `statsFetcher`: the query and the variables (`vars`) it was
made with. -/
structure PageCall where
  query : Query
  vars : Variables
  deriving DecidableEq, Repr

/-- What a run of `statsFetcher` leaves behind: `result` is the returned pair, or `none`
when the loop was still running after the allotted number of iterations; `calls` lists
the orchestrated calls in the order they were made; `state` is the world afterwards. -/
structure StatsOutcome (σ : Type) where
  result : Option (GraphQLResponse × Option GoError)
  calls : List PageCall
  state : σ

/-- Put the call `c` in front of the calls of the rest of the run. -/
def StatsOutcome.after {σ : Type} (c : PageCall) (o : StatsOutcome σ) : StatsOutcome σ :=
  { o with calls := c :: o.calls }

/-- The loop `for hasNextPage` of `statsFetcher`, entered with `hasNextPage` true, the
loop variables `statsResponse` and `endCursor`, and at most `fuel` iterations to run. -/
def statsFetcherLoop {σ : Type} (L : Strings) (P : Process) (J : JSON)
    (DoGraphQL : Upstream σ) (username : String) (includeMergedPRs : Bool)
    (includeDiscussions : Bool) (includeDiscussionAnswers : Bool) (startTime : String) :
    Nat → GraphQLResponse → String → σ → StatsOutcome σ
  | 0, _, _, s => { result := none, calls := [], state := s }
  | fuel + 1, statsResponse, endCursor, s =>
    let vars : Variables :=
      { login := username
        first := 100
        after := if endCursor ≠ "" then some endCursor else none
        includeMergedPullRequests := includeMergedPRs
        includeDiscussions := includeDiscussions
        includeDiscussionsAnswers := includeDiscussionAnswers
        startTime := if startTime ≠ "" then some startTime else none }
    let query := if endCursor ≠ "" then Query.graphQLReposQuery else Query.graphQLStatsQuery
    let r := RetryGraphQL L P (fun token => DoGraphQL query vars token)
      { IsRateLimited := some (isRateLimitedGraphQL L) } s
    let call : PageCall := { query := query, vars := vars }
    match r.err with
    | some err =>
      let errMessage := L.ToLower err.Error
      if Contains errMessage "no github api tokens found" then
        { result := some ({}, some (NewCustomError "No GitHub API tokens found" ErrorNoTokens)),
          calls := [call], state := r.state }
      else if Contains errMessage "all github api tokens failed" then
        { result := some ({}, some (NewCustomError "Downtime due to GitHub API rate limiting"
            ErrorMaxRetry)),
          calls := [call], state := r.state }
      else
        { result := some ({}, some err), calls := [call], state := r.state }
    | none =>
      let statsResponse := mergeGraphQL J statsResponse r.resp
      match J.Unmarshal statsResponse.Data with
      | .error err => { result := some ({}, some err), calls := [call], state := r.state }
      | .ok data =>
        let repoNodes := data.User.Repositories.Nodes
        if repoNodes.length = 0 then
          { result := some (statsResponse, none), calls := [call], state := r.state }
        else
          let nodesWithStars := repoNodes.countP fun node => node.Stargazers ≠ 0
          let hasNextPage :=
            decide (L.ToLower (P.GetString "FETCH_MULTI_PAGE_STARS") = "true") &&
              decide (repoNodes.length = nodesWithStars) &&
              data.User.Repositories.PageInfo.HasNextPage
          let endCursor := data.User.Repositories.PageInfo.EndCursor
          if hasNextPage then
            (statsFetcherLoop L P J DoGraphQL username includeMergedPRs includeDiscussions
              includeDiscussionAnswers startTime fuel statsResponse endCursor r.state).after call
          else
            { result := some (statsResponse, none), calls := [call], state := r.state }

/-- Go `statsFetcher`, run for at most `fuel` iterations of its loop. -/
def statsFetcher {σ : Type} (L : Strings) (P : Process) (J : JSON)
    (DoGraphQL : Upstream σ) (fuel : Nat) (username : String) (includeMergedPRs : Bool)
    (includeDiscussions : Bool) (includeDiscussionAnswers : Bool) (startTime : String)
    (s : σ) : StatsOutcome σ :=
  statsFetcherLoop L P J DoGraphQL username includeMergedPRs includeDiscussions
    includeDiscussionAnswers startTime fuel {} "" s

/-! ## float64 arithmetic -/

/-- The float64 arithmetic of the Go runtime on finite values.  A finite float64 is a
rational number; an operation returns the exact result rounded by `round`, each operation
on its own (no fused multiply-add); `Pow` is `math.Pow`.  Infinities and NaN are not
represented: the embedded code reaches them only by a division by zero (a star count of
-50 or a follower count of -10) or by an overflow of the power (a negative counter beyond
-2000), so the arithmetic describes the code for every input whose counters are not
negative, which is what the upstream counts are. -/
structure Float64 where
  round : ℚ → ℚ
  Pow : ℚ → ℚ → ℚ

/-- Go `a + b` on float64. -/
def Float64.add (F : Float64) (a b : ℚ) : ℚ := F.round (a + b)
/-- Go `a - b` on float64. -/
def Float64.sub (F : Float64) (a b : ℚ) : ℚ := F.round (a - b)
/-- Go `a * b` on float64. -/
def Float64.mul (F : Float64) (a b : ℚ) : ℚ := F.round (a * b)
/-- Go `a / b` on float64, for a divisor that is not zero (Go returns an infinity or NaN
for a zero divisor; the term below is `round 0` there). -/
def Float64.div (F : Float64) (a b : ℚ) : ℚ := F.round (a / b)
/-- Go `float64(n)` for an `int`. -/
def Float64.ofInt (F : Float64) (n : Int) : ℚ := F.round n

/-- The number of halvings that bring `n` below 2 (at most `fuel` of them): the position
of the leading bit of `n`. -/
def log2Fuel : Nat → Nat → Nat
  | 0, _ => 0
  | fuel + 1, n => if n < 2 then 0 else log2Fuel fuel (n / 2) + 1

/-- The integer `e` with `2 ^ e ≤ n / d < 2 ^ (e + 1)`, for positive `n` and `d`. -/
def floorLog2 (n d : Nat) : Int :=
  let e : Int := (log2Fuel n n : Int) - (log2Fuel d d : Int)
  if 0 ≤ e then (if d * 2 ^ e.toNat ≤ n then e else e - 1)
  else (if d ≤ n * 2 ^ (-e).toNat then e else e - 1)

/-- The integer nearest to `n / d`, the even one of the two when `n / d` lies half-way. -/
def roundHalfEven (n d : Nat) : Nat :=
  let f := n / d
  let r := n % d
  if 2 * r < d then f else if d < 2 * r then f + 1 else if f % 2 = 0 then f else f + 1

/-- The float64 nearest to the positive rational `n / d`: 53 significant bits, exponents
down to the subnormal range, ties to even. -/
def roundAbs (n d : Nat) : ℚ :=
  let ex : Int := max (floorLog2 n d - 52) (-1074)
  if 0 ≤ ex then ((roundHalfEven n (d * 2 ^ ex.toNat) * 2 ^ ex.toNat : Nat) : ℚ)
  else mkRat (roundHalfEven (n * 2 ^ (-ex).toNat) d) (2 ^ (-ex).toNat)

/-- IEEE 754 rounding to the nearest float64, ties to even, on the rationals below the
overflow threshold. -/
def roundFloat64 (q : ℚ) : ℚ :=
  if q = 0 then 0
  else if 0 < q then roundAbs q.num.natAbs q.den
  else -roundAbs q.num.natAbs q.den

/-- A lower bound of `ln 2`, to 32 decimal places. -/
def ln2Lower : ℚ := 69314718055994530941723212145817 / 100000000000000000000000000000000

/-- The sum `1 + z/k * (1 + z/(k+1) * (1 + ...))` with `fuel` terms after the first: the
tail of the exponential series of `z` in Horner form. -/
def expSeries (z : ℚ) : Nat → Nat → ℚ
  | 0, _ => 1
  | fuel + 1, k => 1 + z / k * expSeries z fuel (k + 1)

/-- The power `2 ^ y` to a relative error below `10 ^ (-30)`: the exact power of two at
the floor of `y` times the exponential series of `ln 2` times the fractional part of `y`,
cut after 30 terms.  At an integer `y` it is exactly `2 ^ y`. -/
def pow2Approx (y : ℚ) : ℚ :=
  (2 : ℚ) ^ ⌊y⌋ * expSeries (ln2Lower * (y - ⌊y⌋)) 30 1

/-- The float64 arithmetic with IEEE rounding.  `Pow` is given for the base 2, the only
base the code raises: the float64 nearest to `pow2Approx y`, which is `2 ^ y` exactly at
an integer exponent, as `math.Pow` is, and at another exponent the float64 nearest to
`2 ^ y`, from which `math.Pow` can differ in the last place.  (For another base the power
is taken at the floor of the exponent; the code does not reach it.) -/
def Float64.ieee : Float64 where
  round := roundFloat64
  Pow x y := if x = 2 then roundFloat64 (pow2Approx y) else roundFloat64 (x ^ ⌊y⌋)

/-! ## `internal/common/rank.go` -/

/-- Go `exponentialCDF`. -/
def exponentialCDF (F : Float64) (x : ℚ) : ℚ :=
  F.sub 1 (F.Pow 2 (-x))

/-- Go `logNormalCDF`.  At `x = -1` (a star count of -50, a follower count of -10) Go
divides by zero and returns an infinity, which the arithmetic does not represent: the
term describes the code at every other argument, so at every non-negative counter. -/
def logNormalCDF (F : Float64) (x : ℚ) : ℚ :=
  F.div x (F.add 1 x)

/-- Go `Rank`. -/
structure Rank where
  Level : String
  Percentile : ℚ
  deriving DecidableEq

/-- The slice `thresholds` of `CalculateRank`. -/
def thresholds : List ℚ := [1, 25 / 2, 25, 75 / 2, 50, 125 / 2, 75, 175 / 2, 100]

/-- The slice `levels` of `CalculateRank`. -/
def levels : List String := ["S", "A+", "A", "A-", "B+", "B", "B-", "C+", "C"]

/-- The loop `for idx, threshold := range thresholds` of `CalculateRank` from index `idx`
on, `rest` being the thresholds not yet visited and `level` the current value of the
variable `level`; `rank100` is the value of `rank*100`. -/
def levelLoop (rank100 : ℚ) : List ℚ → Nat → String → String
  | [], _, level => level
  | threshold :: rest, idx, level =>
    if rank100 ≤ threshold then levels.getD idx ""
    else levelLoop rank100 rest (idx + 1) level

/-- Go `CalculateRank`. -/
def CalculateRank (F : Float64) (allCommits : Bool) (commits : Int) (prs : Int)
    (issues : Int) (reviews : Int) (stars : Int) (followers : Int) : Rank :=
  let commitsMedian : ℚ := if allCommits then 1000 else 250
  let prsMedian : ℚ := 50
  let issuesMedian : ℚ := 25
  let reviewsMedian : ℚ := 2
  let starsMedian : ℚ := 50
  let followersMedian : ℚ := 10
  let commitsWeight : ℚ := 2
  let prsWeight : ℚ := 3
  let issuesWeight : ℚ := 1
  let reviewsWeight : ℚ := 1
  let starsWeight : ℚ := 4
  let followersWeight : ℚ := 1
  let totalWeight :=
    F.add (F.add (F.add (F.add (F.add commitsWeight prsWeight) issuesWeight) reviewsWeight)
      starsWeight) followersWeight
  let rank :=
    F.sub 1
      (F.div
        (F.add
          (F.add
            (F.add
              (F.add
                (F.add
                  (F.mul commitsWeight (exponentialCDF F (F.div (F.ofInt commits) commitsMedian)))
                  (F.mul prsWeight (exponentialCDF F (F.div (F.ofInt prs) prsMedian))))
                (F.mul issuesWeight (exponentialCDF F (F.div (F.ofInt issues) issuesMedian))))
              (F.mul reviewsWeight (exponentialCDF F (F.div (F.ofInt reviews) reviewsMedian))))
            (F.mul starsWeight (logNormalCDF F (F.div (F.ofInt stars) starsMedian))))
          (F.mul followersWeight (logNormalCDF F (F.div (F.ofInt followers) followersMedian))))
        totalWeight)
  let level := levelLoop (F.mul rank 100) thresholds 0 (levels.getD (levels.length - 1) "")
  { Level := level, Percentile := F.mul rank 100 }

/-! ## `internal/github/rest.go` and the REST retry of `internal/fetchers/stats.go` -/

/-- Go `RestResponse`. -/
structure RestResponse where
  TotalCount : Int := 0
  deriving DecidableEq, Repr

/-- The four values `SearchCommits` returns. -/
structure SearchResult where
  resp : RestResponse := {}
  restErr : Option RestError := none
  status : Int := 0
  err : Option GoError := none
  deriving DecidableEq, Repr

/-- Go `SearchCommits` seen from its caller: one HTTP exchange for a user name and a
token. -/
abbrev SearchUpstream (σ : Type) := String → String → σ → SearchResult × σ

/-- What a run of `retryRest` leaves behind; `attempts` lists the pool keys whose token
was handed to `SearchCommits`. -/
structure RestOutcome (σ : Type) where
  resp : RestResponse
  err : Option GoError
  attempts : List String
  state : σ

/-- Record that `key` was tried before the rest of the run `o`. -/
def RestOutcome.skipped {σ : Type} (key : String) (o : RestOutcome σ) : RestOutcome σ :=
  { o with attempts := key :: o.attempts }

/-- The loop `for _, key := range keys` of `retryRest`, with the statement after the loop
as the case of the empty remainder. -/
def retryRestLoop {σ : Type} (L : Strings) (P : Process) (SearchCommits : SearchUpstream σ)
    (username : String) : List String → σ → RestOutcome σ
  | [], s =>
    { resp := {},
      err := some (NewCustomError "Downtime due to GitHub API rate limiting" ErrorMaxRetry),
      attempts := [], state := s }
  | key :: rest, s =>
    let token := P.GetString key
    let r := SearchCommits username token s
    match r.1.err with
    | some err => { resp := {}, err := some err, attempts := [key], state := r.2 }
    | none =>
      match r.1.restErr with
      | some restErr =>
        let msg := L.ToLower restErr.Message
        if msg = "bad credentials" || msg = "sorry. your account was suspended." then
          (retryRestLoop L P SearchCommits username rest r.2).skipped key
        else
          { resp := {}, err := some (.errorString restErr.Message), attempts := [key],
            state := r.2 }
      | none => { resp := r.1.resp, err := none, attempts := [key], state := r.2 }

/-- Go `retryRest`. -/
def retryRest {σ : Type} (L : Strings) (P : Process) (SearchCommits : SearchUpstream σ)
    (username : String) (s : σ) : RestOutcome σ :=
  let keys := GetPATKeys L P
  if keys.length = 0 then
    { resp := {}, err := some (NewCustomError "No GitHub API tokens found" ErrorNoTokens),
      attempts := [], state := s }
  else
    retryRestLoop L P SearchCommits username keys s

/-- What a run of `totalCommitsFetcher` leaves behind. -/
structure CommitsOutcome (σ : Type) where
  count : Int
  err : Option GoError
  attempts : List String
  state : σ

/-- Go `totalCommitsFetcher`. -/
def totalCommitsFetcher {σ : Type} (L : Strings) (P : Process)
    (SearchCommits : SearchUpstream σ) (username : String) (s : σ) : CommitsOutcome σ :=
  let r := retryRest L P SearchCommits username s
  match r.err with
  | some err => { count := 0, err := some err, attempts := r.attempts, state := r.state }
  | none =>
    if r.resp.TotalCount = 0 then
      { count := 0,
        err := some (NewCustomError "Could not fetch total commits." ErrorGithubRest),
        attempts := r.attempts, state := r.state }
    else
      { count := r.resp.TotalCount, err := none, attempts := r.attempts, state := r.state }

/-! ## `internal/common/envs.go`, `internal/common/ops.go` -/

/-- Go `strings.Split(value, ",")` on the characters of `value`: the pieces between the
commas, `cur` being the piece under construction, in reverse. -/
def splitCommaAux : List Char → List Char → List String
  | [], cur => [⟨cur.reverse⟩]
  | c :: cs, cur =>
    if c = ',' then ⟨cur.reverse⟩ :: splitCommaAux cs [] else splitCommaAux cs (c :: cur)

/-- Go `ParseArray`. -/
def ParseArray (value : String) : List String :=
  if value = "" then []
  else (splitCommaAux value.data []).filter fun part => part ≠ ""

/-- Go `SplitComma`. -/
def SplitComma (value : String) : List String :=
  if value = "" then [] else ParseArray value

/-- Go `ExcludeRepositories`. -/
def ExcludeRepositories (P : Process) : List String :=
  if P.GetString "EXCLUDE_REPO" ≠ "" then SplitComma (P.GetString "EXCLUDE_REPO") else []

/-! ## `internal/fetchers/stats.go`: `FetchStats` -/

/-- The value of a Go `int` (64 bits) that an integer result wraps to. -/
def wrapInt (x : Int) : Int :=
  (x + 2 ^ 63) % 2 ^ 64 - 2 ^ 63

/-- Go `StatsData`; the zero value has every field zero. -/
structure StatsData where
  Name : String := ""
  TotalStars : Int := 0
  TotalCommits : Int := 0
  TotalIssues : Int := 0
  TotalPRs : Int := 0
  TotalPRsMerged : Int := 0
  MergedPRsPercentage : ℚ := 0
  TotalReviews : Int := 0
  TotalDiscussionsStarted : Int := 0
  TotalDiscussionsAnswered : Int := 0
  ContributedTo : Int := 0
  Rank : Rank := { Level := "", Percentile := 0 }
  deriving DecidableEq

/-- Go `fmtDateYear`. -/
def fmtDateYear (year : Int) : String :=
  toString year ++ "-01-01T00:00:00Z"

/-- The variable `startTime` of `FetchStats`: empty unless `commitsYear` is given. -/
def startTimeOf (commitsYear : Option Int) : String :=
  match commitsYear with
  | some year => fmtDateYear year
  | none => ""

/-- The loop `for _, node := range user.Repositories.Nodes` of `FetchStats`: the stars of
the repositories whose name is not in `excludedSet`, added to `totalStars`. -/
def totalStarsLoop (excludedSet : List String) : List graphQLRepoNode → Int → Int
  | [], totalStars => totalStars
  | node :: rest, totalStars =>
    if node.Name ∈ excludedSet then totalStarsLoop excludedSet rest totalStars
    else totalStarsLoop excludedSet rest (wrapInt (totalStars + node.Stargazers))

/-- What a run of `FetchStats` leaves behind: `result` is the returned pair, or `none`
when the loop of `statsFetcher` was still running after `fuel` iterations; `calls` are
the orchestrated GraphQL calls and `searches` the pool keys tried by the commit search,
in order; `state` is the world afterwards. -/
structure FetchStatsOutcome (σ : Type) where
  result : Option (StatsData × Option GoError)
  calls : List PageCall
  searches : List String
  state : σ

/-- The part of `FetchStats` after the commit count is known: from
`stats.TotalPRs = ...` to the return. -/
def finishStats (F : Float64) (P : Process) (includeAllCommits : Bool)
    (excludeRepo : List String) (includeMergedPRs : Bool) (includeDiscussions : Bool)
    (includeDiscussionAnswers : Bool) (user : graphQLUser) (stats : StatsData) : StatsData :=
  let stats := { stats with TotalPRs := user.PullRequests }
  let stats :=
    if includeMergedPRs then
      let stats := { stats with TotalPRsMerged := user.MergedPullRequests }
      if stats.TotalPRs > 0 then
        { stats with
          MergedPRsPercentage :=
            F.mul (F.div (F.ofInt stats.TotalPRsMerged) (F.ofInt stats.TotalPRs)) 100 }
      else stats
    else stats
  let stats := { stats with TotalReviews := user.Reviews }
  let stats := { stats with TotalIssues := wrapInt (user.OpenIssues + user.ClosedIssues) }
  let stats :=
    if includeDiscussions then
      { stats with TotalDiscussionsStarted := user.RepositoryDiscussions }
    else stats
  let stats :=
    if includeDiscussionAnswers then
      { stats with TotalDiscussionsAnswered := user.RepositoryDiscussionComments }
    else stats
  let stats := { stats with ContributedTo := user.RepositoriesContributedTo }
  let excluded := excludeRepo ++ ExcludeRepositories P
  let totalStars := totalStarsLoop excluded user.Repositories.Nodes 0
  let stats := { stats with TotalStars := totalStars }
  { stats with
    Rank := CalculateRank F includeAllCommits stats.TotalCommits stats.TotalPRs
      stats.TotalIssues stats.TotalReviews stats.TotalStars user.Followers }

/-- Go `FetchStats`, with at most `fuel` iterations for the loop of `statsFetcher`;
`commitsYear` is `none` for the nil pointer. -/
def FetchStats {σ : Type} (F : Float64) (L : Strings) (P : Process) (J : JSON)
    (DoGraphQL : Upstream σ) (SearchCommits : SearchUpstream σ) (fuel : Nat)
    (username : String) (includeAllCommits : Bool) (excludeRepo : List String)
    (includeMergedPRs : Bool) (includeDiscussions : Bool) (includeDiscussionAnswers : Bool)
    (commitsYear : Option Int) (s : σ) : FetchStatsOutcome σ :=
  if username = "" then
    { result := some ({}, some (.MissingParamError ["username"] "")),
      calls := [], searches := [], state := s }
  else
    let startTime := startTimeOf commitsYear
    let fetched := statsFetcher L P J DoGraphQL fuel username includeMergedPRs
      includeDiscussions includeDiscussionAnswers startTime s
    match fetched.result with
    | none => { result := none, calls := fetched.calls, searches := [], state := fetched.state }
    | some (_, some err) =>
      { result := some ({}, some err), calls := fetched.calls, searches := [],
        state := fetched.state }
    | some (statsResponse, none) =>
      match statsResponse.Errors with
      | e :: _ =>
        let err :=
          if e.Type_ = "NOT_FOUND" then NewCustomError e.Message ErrorUserNotFound
          else if e.Message ≠ "" then NewCustomError e.Message ErrorGraphQL
          else NewCustomError
            "Something went wrong while trying to retrieve the stats data using the GraphQL API."
            ErrorGraphQL
        { result := some ({}, some err), calls := fetched.calls, searches := [],
          state := fetched.state }
      | [] =>
        match J.Unmarshal statsResponse.Data with
        | .error err =>
          { result := some ({}, some err), calls := fetched.calls, searches := [],
            state := fetched.state }
        | .ok data =>
          let user := data.User
          let stats : StatsData := { Name := user.Name }
          let stats := if stats.Name = "" then { stats with Name := user.Login } else stats
          if includeAllCommits then
            let t := totalCommitsFetcher L P SearchCommits username fetched.state
            match t.err with
            | some err =>
              { result := some ({}, some err), calls := fetched.calls,
                searches := t.attempts, state := t.state }
            | none =>
              let stats := { stats with TotalCommits := t.count }
              { result := some (finishStats F P includeAllCommits excludeRepo includeMergedPRs
                  includeDiscussions includeDiscussionAnswers user stats, none),
                calls := fetched.calls, searches := t.attempts, state := t.state }
          else
            let stats := { stats with TotalCommits := user.Commits }
            { result := some (finishStats F P includeAllCommits excludeRepo includeMergedPRs
                includeDiscussions includeDiscussionAnswers user stats, none),
              calls := fetched.calls, searches := [], state := fetched.state }

/-! ## `internal/handlers/status.go` -/

/-- Go `patError`. -/
structure patError where
  Type_ : String
  Message : String
  deriving DecidableEq, Repr

/-- Go `patDetail`; `none` is the nil pointer. -/
structure patDetail where
  Status : String
  Remaining : Option Int := none
  ResetIn : Option String := none
  Error : Option patError := none
  deriving DecidableEq, Repr

/-- Go `map[string]patDetail`, seen through its lookups. -/
abbrev Details := String → Option patDetail

/-- The assignment `details[key] = detail`. -/
def setDetail (details : Details) (key : String) (detail : patDetail) : Details :=
  fun k => if k = key then some detail else details k

/-- Go `patInfo`. -/
structure patInfo where
  ValidPATs : List String
  ExpiredPATs : List String
  ExhaustedPATs : List String
  SuspendedPATs : List String
  ErrorPATs : List String
  Details : Details

/-- Go `strconv.Itoa`. -/
def Itoa (n : Int) : String :=
  toString n

/-- What the loop of `collectPATInfo` leaves behind: the map `details`, the error with
which the function returns from inside the loop (`none` when the loop runs to its end),
the pool keys whose token was handed to `QueryRateLimit`, and the world afterwards. -/
structure CollectOutcome (σ : Type) where
  details : Details
  err : Option GoError
  attempts : List String
  state : σ

/-- Record that `key` was checked before the rest of the run `o`. -/
def CollectOutcome.after {σ : Type} (key : String) (o : CollectOutcome σ) :
    CollectOutcome σ :=
  { o with attempts := key :: o.attempts }

/-- The `for _, key := range keys` loop of `collectPATInfo`.  `minutesUntil resetAt s` is
`time.Parse(time.RFC3339, resetAt)` followed by `int(t.Sub(time.Now()).Minutes() + 0.5)`
in world `s`, and `none` when the parse fails. -/
def collectLoop {σ : Type} (L : Strings) (P : Process) (QueryRateLimit : QuotaUpstream σ)
    (minutesUntil : String → σ → Option Int) : List String → Details → σ → CollectOutcome σ
  | [], details, s => { details := details, err := none, attempts := [], state := s }
  | key :: rest, details, s =>
    let token := P.GetString key
    let r := QueryRateLimit token s
    let data := r.1.data
    let errors := r.1.errors
    match r.1.err with
    | some err => { details := details, err := some err, attempts := [key], state := r.2 }
    | none =>
      match r.1.restErr with
      | some restErr =>
        let msg := L.ToLower restErr.Message
        if msg = "bad credentials" then
          (collectLoop L P QueryRateLimit minutesUntil rest
            (setDetail details key { Status := "expired" }) r.2).after key
        else if msg = "sorry. your account was suspended." then
          (collectLoop L P QueryRateLimit minutesUntil rest
            (setDetail details key { Status := "suspended" }) r.2).after key
        else
          { details := details, err := some (.errorString restErr.Message),
            attempts := [key], state := r.2 }
      | none =>
        if errors.length > 0 ∧ (errors.headD ⟨"", ""⟩).Type_ ≠ "RATE_LIMITED" then
          (collectLoop L P QueryRateLimit minutesUntil rest
            (setDetail details key
              { Status := "error",
                Error := some ⟨(errors.headD ⟨"", ""⟩).Type_,
                  (errors.headD ⟨"", ""⟩).Message⟩ }) r.2).after key
        else
          let limited := false
          let limited :=
            if errors.length > 0 ∧ (errors.headD ⟨"", ""⟩).Type_ = "RATE_LIMITED" then true
            else limited
          let limited := if data.RateLimit.Remaining = 0 then true else limited
          if limited then
            let resetIn :=
              if data.RateLimit.ResetAt ≠ "" then
                match minutesUntil data.RateLimit.ResetAt r.2 with
                | some minutes => Itoa minutes ++ " minutes"
                | none => "unknown"
              else "unknown"
            (collectLoop L P QueryRateLimit minutesUntil rest
              (setDetail details key
                { Status := "exhausted", Remaining := some 0, ResetIn := some resetIn })
              r.2).after key
          else
            (collectLoop L P QueryRateLimit minutesUntil rest
              (setDetail details key
                { Status := "valid", Remaining := some data.RateLimit.Remaining })
              r.2).after key

/-- The loop of Go `filterPATs`, `pats` being the slice built so far. -/
def filterPATsLoop (details : Details) (status : String) : List String → List String →
    List String
  | [], pats => pats
  | key :: rest, pats =>
    match details key with
    | none => filterPATsLoop details status rest pats
    | some detail =>
      if detail.Status = status then filterPATsLoop details status rest (pats ++ [key])
      else filterPATsLoop details status rest pats

/-- Go `filterPATs`. -/
def filterPATs (details : Details) (keys : List String) (status : String) : List String :=
  filterPATsLoop details status keys []

/-- The loop of Go `sortDetails`, `sorted` being the map built so far. -/
def sortDetailsLoop (details : Details) : List String → Details → Details
  | [], sorted => sorted
  | key :: rest, sorted =>
    match details key with
    | some detail => sortDetailsLoop details rest (setDetail sorted key detail)
    | none => sortDetailsLoop details rest sorted

/-- Go `sortDetails`. -/
def sortDetails (details : Details) (keys : List String) : Details :=
  sortDetailsLoop details keys (fun _ => none)

/-- What a run of `collectPATInfo` leaves behind: the returned pair (`info` is `none` for
the nil pointer), the pool keys checked, and the world afterwards. -/
structure PATInfoOutcome (σ : Type) where
  info : Option patInfo
  err : Option GoError
  attempts : List String
  state : σ

/-- Go `collectPATInfo`. -/
def collectPATInfo {σ : Type} (L : Strings) (P : Process) (QueryRateLimit : QuotaUpstream σ)
    (minutesUntil : String → σ → Option Int) (s : σ) : PATInfoOutcome σ :=
  let keys := GetPATKeys L P
  let o := collectLoop L P QueryRateLimit minutesUntil keys (fun _ => none) s
  match o.err with
  | some err => { info := none, err := some err, attempts := o.attempts, state := o.state }
  | none =>
    let details := o.details
    { info := some
        { ValidPATs := filterPATs details keys "valid"
          ExpiredPATs := filterPATs details keys "expired"
          ExhaustedPATs := filterPATs details keys "exhausted"
          SuspendedPATs := filterPATs details keys "suspended"
          ErrorPATs := filterPATs details keys "error"
          Details := sortDetails details keys },
      err := none, attempts := o.attempts, state := o.state }

/-! ## Predicates used to state the properties -/

/-- An attempt that yields a structured error that is neither credential-bound nor a rate
limit: no transport error and either a REST error whose message is neither bad-credentials
nor account-suspended, or an envelope that lists at least one error and that the
configured predicate does not call rate limited. -/
def FetchResult.nonRecoverableError (L : Strings) (config : RetryConfig) (r : FetchResult) :
    Bool :=
  r.err.isNone &&
    (match r.restErr with
     | some e => !(isBadCredential L e.Message || isSuspended L e.Message)
     | none => !r.resp.Errors.isEmpty && !config.rateLimited r.resp)

/-- The query of the iteration of `statsFetcher` entered with `endCursor`. -/
def pageQuery (endCursor : String) : Query :=
  if endCursor ≠ "" then Query.graphQLReposQuery else Query.graphQLStatsQuery

/-- The variables of the iteration of `statsFetcher` entered with `endCursor`. -/
def pageVars (username : String) (includeMergedPRs : Bool) (includeDiscussions : Bool)
    (includeDiscussionAnswers : Bool) (startTime : String) (endCursor : String) : Variables :=
  { login := username
    first := 100
    after := if endCursor ≠ "" then some endCursor else none
    includeMergedPullRequests := includeMergedPRs
    includeDiscussions := includeDiscussions
    includeDiscussionsAnswers := includeDiscussionAnswers
    startTime := if startTime ≠ "" then some startTime else none }

/-- The orchestrated fetch of one page: the call of `RetryGraphQL` made by the iteration
of `statsFetcher` that is entered with `endCursor` in world `s`. -/
def pageFetch {σ : Type} (L : Strings) (P : Process) (DoGraphQL : Upstream σ)
    (username : String) (includeMergedPRs : Bool) (includeDiscussions : Bool)
    (includeDiscussionAnswers : Bool) (startTime : String) (endCursor : String) (s : σ) :
    RetryOutcome σ :=
  RetryGraphQL L P
    (fun token => DoGraphQL (pageQuery endCursor)
      (pageVars username includeMergedPRs includeDiscussions includeDiscussionAnswers
        startTime endCursor) token)
    { IsRateLimited := some (isRateLimitedGraphQL L) } s

/-- The error that `statsFetcher` returns for the error `err` of an orchestrated fetch:
the `switch` on the lower-cased message. -/
def statsFetcherError (L : Strings) (err : GoError) : GoError :=
  if Contains (L.ToLower err.Error) "no github api tokens found" then
    NewCustomError "No GitHub API tokens found" ErrorNoTokens
  else if Contains (L.ToLower err.Error) "all github api tokens failed" then
    NewCustomError "Downtime due to GitHub API rate limiting" ErrorMaxRetry
  else err

/-- The record `d` with the repositories `nodes` appended to its own, all other fields
kept: the record that `mergeGraphQL` hands to `json.Marshal`. -/
def appendNodes (d : graphQLUserData) (nodes : List graphQLRepoNode) : graphQLUserData :=
  { d with User := { d.User with Repositories := { d.User.Repositories with
      Nodes := d.User.Repositories.Nodes ++ nodes } } }

/-- What the theorems on ranges and monotonicity ask of the rounding: it is monotone, it
leaves a rounded value as it is, and it leaves 0, 1 and the weights, their partial sums
and 100 as they are (all of them are float64 values). -/
structure Float64.Lawful (F : Float64) : Prop where
  mono : ∀ a b : ℚ, a ≤ b → F.round a ≤ F.round b
  idem : ∀ a : ℚ, F.round (F.round a) = F.round a
  exact : ∀ q ∈ ([0, 1, 2, 3, 4, 5, 6, 7, 11, 12, 100] : List ℚ), F.round q = q

/-- The power `math.Pow(2, y)` lies between 0 and 1 for an exponent that is not
positive. -/
def Float64.PowUnit (F : Float64) : Prop :=
  ∀ y : ℚ, y ≤ 0 → 0 ≤ F.Pow 2 y ∧ F.Pow 2 y ≤ 1

/-- The integer nearest to `t`, the even one when `t` lies half-way between two
integers. -/
def rne (t : ℚ) : Int :=
  if t - ⌊t⌋ < 1 / 2 then ⌊t⌋
  else if 1 / 2 < t - ⌊t⌋ then ⌊t⌋ + 1
  else if ⌊t⌋ % 2 = 0 then ⌊t⌋ else ⌊t⌋ + 1

/-- The exponent of the last place of the float64 values around the positive `q`. -/
def fexp (q : ℚ) : Int :=
  max (floorLog2 q.num.natAbs q.den - 52) (-1074)

/-- A non-negative integer of at most 53 bits is a float64 value. -/
def Float64.ExactInt (F : Float64) : Prop :=
  ∀ n : Int, 0 ≤ n → n ≤ 2 ^ 53 → F.round n = n

/-- The transform `E(x) = 1 - 2^(-x)` in the words of the specification, over a power
function `pow` of the field in which the formula is read. -/
def specE {K : Type} [Field K] (pow : K → K → K) (x : K) : K :=
  1 - pow 2 (-x)

/-- The transform `R(x, med) = x / (x + med)` in the words of the specification. -/
def specR {K : Type} [Field K] (x med : K) : K :=
  x / (x + med)

/-- The percentile in the words of the specification:
`100 * (1 - (2*E(commits/m) + 3*E(prs/50) + 1*E(issues/25) + 1*E(reviews/2)
+ 4*R(stars, 50) + 1*R(followers, 10)) / 12)` with `m` 1000 in all-commits mode and 250
otherwise, read in the field `K` with the power function `pow`. -/
def specPercentile {K : Type} [Field K] (pow : K → K → K) (allCommits : Bool)
    (commits prs issues reviews stars followers : Int) : K :=
  100 * (1 - (2 * specE pow ((commits : K) / (if allCommits then 1000 else 250))
    + 3 * specE pow ((prs : K) / 50) + 1 * specE pow ((issues : K) / 25)
    + 1 * specE pow ((reviews : K) / 2)
    + 4 * specR (stars : K) 50 + 1 * specR (followers : K) 10) / 12)

/-- Rounding is to a nearest float64 on the range of the computation: a value of absolute
value at most `2 ^ 64` moves by at most the fraction `2 ^ (-53)` of itself, or, in the
subnormal range, by at most `2 ^ (-1075)`, half the smallest float64. -/
def Float64.RoundsWithin (F : Float64) : Prop :=
  ∀ q : ℚ, |q| ≤ 2 ^ 64 → |F.round q - q| ≤ |q| / 2 ^ 53 + 1 / 2 ^ 1075

/-- The power `math.Pow(2, y)` is accurate at an exponent that is not positive: it is
within the fraction `2 ^ (-50)` (eight units of the last place) of the real number
`2 ^ y`, or, in the subnormal range, within `2 ^ (-1075)` of it. -/
def Float64.PowAccurate (F : Float64) : Prop :=
  ∀ y : ℚ, y ≤ 0 →
    |((F.Pow 2 y : ℚ) : ℝ) - (2 : ℝ) ^ ((y : ℚ) : ℝ)| ≤
      (2 : ℝ) ^ ((y : ℚ) : ℝ) / 2 ^ 50 + 1 / 2 ^ 1075

/-- The float64 values next to 1 are `1 - 2 ^ (-53)` and `1 + 2 ^ (-52)`: a value from
`1 - 2 ^ (-54)` to `1 + 2 ^ (-53)` rounds to 1. -/
def Float64.RoundsToOne (F : Float64) : Prop :=
  ∀ q : ℚ, 1 - 1 / 2 ^ 54 ≤ q → q ≤ 1 + 1 / 2 ^ 53 → F.round q = 1

/-- The record `stats` of `FetchStats` when the commit count `totalCommits` has been
stored: the name (the login when the name is empty) and the commits. -/
def baseStats (user : graphQLUser) (totalCommits : Int) : StatsData :=
  { (if ({ Name := user.Name } : StatsData).Name = "" then
      { ({ Name := user.Name } : StatsData) with Name := user.Login }
    else ({ Name := user.Name } : StatsData)) with TotalCommits := totalCommits }

/-- The total star count of the repositories of `nodes` that are called `name`. -/
def starsNamed (name : String) (nodes : List graphQLRepoNode) : Int :=
  ((nodes.filter fun node => node.Name = name).map fun node => node.Stargazers).sum

/-- The total star count of the repositories of `nodes` whose name is not in
`excluded`. -/
def starsCounted (excluded : List String) (nodes : List graphQLRepoNode) : Int :=
  ((nodes.filter fun node => node.Name ∉ excluded).map fun node => node.Stargazers).sum

/-- The results `SearchCommits` gives when it is invoked on the token of each key of
`keys` in turn, starting from world `s`: entry `i` is the attempt with credential `i`. -/
def searchResults {σ : Type} (P : Process) (SearchCommits : SearchUpstream σ)
    (username : String) : List String → σ → List SearchResult
  | [], _ => []
  | key :: rest, s =>
    let r := SearchCommits username (P.GetString key) s
    r.1 :: searchResults P SearchCommits username rest r.2

/-- An attempt after which `retryRest` moves on to the next credential: no transport
error and a REST error whose lower-cased message is the bad-credentials or the
account-suspended message. -/
def SearchResult.credentialBound (L : Strings) (r : SearchResult) : Bool :=
  r.err.isNone &&
    (match r.restErr with
     | some e => L.ToLower e.Message = "bad credentials" ||
         L.ToLower e.Message = "sorry. your account was suspended."
     | none => false)

/-- What `retryRest` returns when an attempt that is not credential-bound is reached: the
transport error, else the REST error as a plain error, else the response. -/
def SearchResult.outcome (r : SearchResult) : RestResponse × Option GoError :=
  match r.err with
  | some err => ({}, some err)
  | none =>
    match r.restErr with
    | some restErr => ({}, some (.errorString restErr.Message))
    | none => (r.resp, none)

/-- The five values that `collectPATInfo` stores in the field `Status`. -/
def patStatuses : List String := ["valid", "expired", "exhausted", "suspended", "error"]

/-- Whether the map `details` holds an entry of status `status` for `key`: the test made
by the loop of `filterPATs`. -/
def hasStatus (details : Details) (status : String) (key : String) : Bool :=
  match details key with
  | some detail => detail.Status = status
  | none => false

/-- The entry that one iteration of the loop of `collectPATInfo` stores in `details` for
the quota result `r`, the world after the check being `s`; `none` when the iteration
returns from the function. -/
def recordedDetail {σ : Type} (L : Strings) (minutesUntil : String → σ → Option Int)
    (r : QuotaResult) (s : σ) : Option patDetail :=
  match r.err with
  | some _ => none
  | none =>
    match r.restErr with
    | some restErr =>
      if L.ToLower restErr.Message = "bad credentials" then some { Status := "expired" }
      else if L.ToLower restErr.Message = "sorry. your account was suspended." then
        some { Status := "suspended" }
      else none
    | none =>
      if r.errors.length > 0 ∧ (r.errors.headD ⟨"", ""⟩).Type_ ≠ "RATE_LIMITED" then
        some { Status := "error",
               Error := some ⟨(r.errors.headD ⟨"", ""⟩).Type_,
                 (r.errors.headD ⟨"", ""⟩).Message⟩ }
      else if (r.errors.length > 0 ∧ (r.errors.headD ⟨"", ""⟩).Type_ = "RATE_LIMITED") ∨
          r.data.RateLimit.Remaining = 0 then
        some { Status := "exhausted", Remaining := some 0,
               ResetIn := some
                 (if r.data.RateLimit.ResetAt ≠ "" then
                    match minutesUntil r.data.RateLimit.ResetAt s with
                    | some minutes => Itoa minutes ++ " minutes"
                    | none => "unknown"
                  else "unknown") }
      else some { Status := "valid", Remaining := some r.data.RateLimit.Remaining }


/-- Whether the loop of `statsFetcher` ends with the page whose accumulated data decode to
`data`: the page lists no repository, or the continuation test of the loop is false. -/
def pagingEnds (L : Strings) (P : Process) (data : graphQLUserData) : Bool :=
  decide (data.User.Repositories.Nodes.length = 0) ||
    !(decide (L.ToLower (P.GetString "FETCH_MULTI_PAGE_STARS") = "true") &&
      decide (data.User.Repositories.Nodes.length =
        data.User.Repositories.Nodes.countP fun node => node.Stargazers ≠ 0) &&
      data.User.Repositories.PageInfo.HasNextPage)

/-- The call that the orchestrated fetch of the first page makes on each credential. -/
def firstPageCall {σ : Type} (DoGraphQL : Upstream σ) (username : String)
    (includeMergedPRs : Bool) (includeDiscussions : Bool) (includeDiscussionAnswers : Bool)
    (startTime : String) : Fetcher σ :=
  fun token => DoGraphQL (pageQuery "")
    (pageVars username includeMergedPRs includeDiscussions includeDiscussionAnswers startTime
      "") token

/-- The configuration with which `statsFetcher` calls `RetryGraphQL`. -/
def statsRetryConfig (L : Strings) : RetryConfig :=
  { IsRateLimited := some (isRateLimitedGraphQL L) }

/-! ## Concrete inputs for running the definitions -/

/-- A process with three credentials `PAT_1`, `PAT_2`, `PAT_3` (tokens `t1`, `t2`, `t3`)
and the value `multi` for `FETCH_MULTI_PAGE_STARS`. -/
def demoProcess (multi : String) : Process where
  Environ := ["HOME=/root", "PAT_2=t2", "PAT_1= t1 ", "PAT_x=zz", "PAT_3=t3"]
  AllKeys := ["pat_1", "pat_2", "pat_3", "fetch_multi_page_stars"]
  GetString key :=
    if key = "PAT_1" then " t1 " else if key = "PAT_2" then "t2"
    else if key = "PAT_3" then "t3"
    else if key = "FETCH_MULTI_PAGE_STARS" then multi else ""

/-- A process without any credential. -/
def emptyProcess : Process where
  Environ := ["HOME=/root", "PATH=/bin", "PAT_=x"]
  AllKeys := ["port"]
  GetString _ := ""

/-- A codec given by a finite table of byte strings and the records they spell: the part
of `encoding/json` that a concrete run touches.  The code looks at the bytes only through
their length and through the codec. -/
def tableJSON (table : List (RawMessage × graphQLUserData)) : JSON where
  Unmarshal b :=
    if b.length = 0 then .error (.foreign "unexpected end of JSON input")
    else
      match table.find? fun e => decide (e.1 = b) with
      | some e => .ok e.2
      | none => .error (.foreign "invalid character")
  Marshal d :=
    match table.find? fun e => decide (e.2 = d) with
    | some e => .ok e.1
    | none => .error (.foreign "json: unsupported value")

/-- First page: two starred repositories, continuation flag set, end cursor `c1`; it also
carries the scalar counters. -/
def page1 : graphQLUserData :=
  { User := { Name := "Ann", Login := "ann", Commits := 7, PullRequests := 3, Followers := 2,
              Repositories := { TotalCount := 5,
                                Nodes := [⟨"a", 9⟩, ⟨"b", 8⟩],
                                PageInfo := ⟨true, "c1"⟩ } } }

/-- Second page: two starred repositories, continuation flag set, end cursor `c2`. -/
def page2 : graphQLUserData :=
  { User := { Repositories := { TotalCount := 5,
                                Nodes := [⟨"c", 7⟩, ⟨"d", 6⟩],
                                PageInfo := ⟨true, "c2"⟩ } } }

/-- Third and last page: one starred repository, continuation flag clear. -/
def page3 : graphQLUserData :=
  { User := { Repositories := { TotalCount := 5,
                                Nodes := [⟨"e", 5⟩],
                                PageInfo := ⟨false, "c3"⟩ } } }

/-- The codec of the three-page run: the three pages as sent by the upstream, and the
records that merging can produce from them. -/
def pagesJSON : JSON :=
  tableJSON
    [([1], page1), ([2], page2), ([3], page3),
     ([12], appendNodes page1 page2.User.Repositories.Nodes),
     ([123], appendNodes (appendNodes page1 page2.User.Repositories.Nodes)
        page3.User.Repositories.Nodes),
     ([122], appendNodes (appendNodes page1 page2.User.Repositories.Nodes)
        page2.User.Repositories.Nodes),
     ([22], appendNodes (appendNodes (appendNodes page1 page2.User.Repositories.Nodes)
        page2.User.Repositories.Nodes) page2.User.Repositories.Nodes)]

/-- An upstream that serves the three pages by cursor, whatever the token, and counts the
requests it has answered. -/
def pagesUpstream : Upstream Nat := fun _ vars _ n =>
  if vars.after = none then ({ resp := { Data := [1] } }, n + 1)
  else if vars.after = some "c1" then ({ resp := { Data := [2] } }, n + 1)
  else if vars.after = some "c2" then ({ resp := { Data := [3] } }, n + 1)
  else ({ resp := { Data := [] } }, n + 1)

/-- The repositories `tag0, tag1, ...`, `count` of them, each with a non-zero star count,
in descending order of stars. -/
def starredNodes (tag : String) (count : Nat) : List graphQLRepoNode :=
  (List.range count).map fun i => ⟨tag ++ Nat.repr i, 1000 - i⟩

/-- A page of `count` starred repositories with the given continuation flag and end
cursor. -/
def starredPage (tag : String) (count : Nat) (more : Bool) (cursor : String) :
    graphQLUserData :=
  { User := { Login := "ann", Commits := 7,
              Repositories := { TotalCount := 240, Nodes := starredNodes tag count,
                                PageInfo := ⟨more, cursor⟩ } } }

/-- The codec of the run on pages of 100, 100 and 40 repositories: the three pages as
sent by the upstream (`[1]`, `[2]`, `[3]`), and the records that merging produces. -/
def fullPagesJSON : JSON :=
  tableJSON
    [([1], starredPage "a" 100 true "c1"), ([2], starredPage "b" 100 true "c2"),
     ([3], starredPage "c" 40 false "c3"),
     ([12], appendNodes (starredPage "a" 100 true "c1") (starredNodes "b" 100)),
     ([122], appendNodes (appendNodes (starredPage "a" 100 true "c1") (starredNodes "b" 100))
        (starredNodes "b" 100)),
     ([22], appendNodes (appendNodes (appendNodes (starredPage "a" 100 true "c1")
        (starredNodes "b" 100)) (starredNodes "b" 100)) (starredNodes "b" 100))]

/-- A page without repositories and with the continuation flag clear. -/
def emptyPage : graphQLUserData :=
  { User := { Repositories := { TotalCount := 2, Nodes := [], PageInfo := ⟨false, ""⟩ } } }

/-- A page whose only repository has no star, continuation flag clear. -/
def starlessPage : graphQLUserData :=
  { User := { Repositories := { TotalCount := 3, Nodes := [⟨"z", 0⟩], PageInfo := ⟨false, "c2"⟩ } } }

/-- The codec of the runs whose second page is `emptyPage`, `page3` or `starlessPage`. -/
def tailJSON : JSON :=
  tableJSON
    [([1], page1), ([3], page3), ([4], emptyPage), ([5], starlessPage),
     ([13], appendNodes page1 page3.User.Repositories.Nodes),
     ([133], appendNodes (appendNodes page1 page3.User.Repositories.Nodes)
        page3.User.Repositories.Nodes),
     ([15], appendNodes page1 starlessPage.User.Repositories.Nodes)]

/-- An upstream that serves `page1` first and fails at the transport level on every
request that carries a cursor. -/
def breakingUpstream : Upstream Unit := fun _ vars _ _ =>
  if vars.after = none then ({ resp := { Data := [1] } }, ())
  else ({ err := some (.foreign "dial tcp: i/o timeout") }, ())

/-- An upstream that serves `page1` first and the page spelled by `second` at every
cursor. -/
def twoPageUpstream (second : RawMessage) : Upstream Unit := fun _ vars _ _ =>
  if vars.after = none then ({ resp := { Data := [1] } }, ())
  else ({ resp := { Data := second } }, ())

/-- A fetcher for the pool of `demoProcess`: `t1` has bad credentials, `t2` is served an
envelope, `t3` fails at the transport level; the world counts the invocations. -/
def demoFetcher : Fetcher Nat := fun token n =>
  if token = "t1" then ({ restErr := some ⟨"Bad credentials"⟩ }, n + 1)
  else if token = "t2" then ({ resp := { Data := [1] } }, n + 1)
  else ({ err := some (.foreign "dial tcp: i/o timeout") }, n + 1)

/-- A fetcher on which every credential fails recoverably: `t1` has bad credentials, `t2`
is suspended and every other token is rate limited. -/
def failingFetcher : Fetcher Nat := fun token n =>
  if token = "t1" then ({ restErr := some ⟨"Bad credentials"⟩ }, n + 1)
  else if token = "t2" then ({ restErr := some ⟨"Sorry. Your account was suspended."⟩ }, n + 1)
  else ({ resp := { Errors := [⟨"RATE_LIMITED", "API rate limit exceeded"⟩] } }, n + 1)

/-- A fetcher that answers every token with the REST error `Not Found`. -/
def notFoundFetcher : Fetcher Nat := fun _ n =>
  ({ restErr := some ⟨"Not Found"⟩ }, n + 1)

/-- A fetcher on which `t1` has bad credentials and every other token fails at the
transport level. -/
def brokenFetcher : Fetcher Nat := fun token n =>
  if token = "t1" then ({ restErr := some ⟨"Bad credentials"⟩ }, n + 1)
  else ({ err := some (.foreign "dial tcp: i/o timeout") }, n + 1)

/-- A first and only page that carries every counter: 40 PRs of which 30 merged, three
repositories with 9, 8 and 0 stars, continuation flag clear. -/
def profilePage : graphQLUserData :=
  { User := { Name := "", Login := "ann", Commits := 120, Reviews := 4,
              RepositoriesContributedTo := 6, PullRequests := 40, MergedPullRequests := 30,
              OpenIssues := 3, ClosedIssues := 9, Followers := 12,
              RepositoryDiscussions := 1, RepositoryDiscussionComments := 2,
              Repositories := { TotalCount := 3,
                                Nodes := [⟨"a", 9⟩, ⟨"b", 8⟩, ⟨"c", 0⟩],
                                PageInfo := ⟨false, "c1"⟩ } } }

/-- The codec of the runs of `FetchStats`: `[7]` spells `profilePage` and `[9]` the data
of an unknown user, where every field is zero. -/
def profileJSON : JSON :=
  tableJSON [([7], profilePage), ([9], {})]

/-- An upstream that answers every request with `profilePage`. -/
def profileUpstream : Upstream Unit := fun _ _ _ _ =>
  ({ resp := { Data := [7] } }, ())

/-- An upstream that answers every request with the envelope of an unknown user: zero
data and a first error of type `NOT_FOUND`. -/
def unknownUserUpstream : Upstream Unit := fun _ _ _ _ =>
  ({ resp := { Data := [9],
               Errors := [⟨"NOT_FOUND", "Could not resolve to a User with the login of nobody."⟩] } },
   ())

/-- A commit search that counts 321 commits for every user and token. -/
def demoSearch : SearchUpstream Unit := fun _ _ _ =>
  ({ resp := { TotalCount := 321 }, status := 200 }, ())

/-- An upstream that answers every request with zero data and the single error of type
`kind` and text `message`. -/
def envelopeErrorUpstream (kind message : String) : Upstream Unit := fun _ _ _ _ =>
  ({ resp := { Data := [9], Errors := [⟨kind, message⟩] } }, ())

/-- An upstream that answers every request with the REST error of text `message`. -/
def restErrorUpstream (message : String) : Upstream Unit := fun _ _ _ _ =>
  ({ restErr := some ⟨message⟩ }, ())

/-- A commit search that is rate limited on the token of `PAT_1` and counts 321 commits
with every other token; the world counts the searches. -/
def limitedSearch : SearchUpstream Nat := fun _ token n =>
  if token = " t1 " then
    ({ restErr := some ⟨"API rate limit exceeded for user ID 1."⟩, status := 403 }, n + 1)
  else ({ resp := { TotalCount := 321 }, status := 200 }, n + 1)

/-- A commit search on which the tokens of `PAT_1` and `PAT_2` are credential-bound
failures and the token of `PAT_3` counts 321 commits. -/
def recoveringSearch : SearchUpstream Nat := fun _ token n =>
  if token = " t1 " then ({ restErr := some ⟨"Bad credentials"⟩, status := 401 }, n + 1)
  else if token = "t2" then
    ({ restErr := some ⟨"Sorry. Your account was suspended."⟩, status := 403 }, n + 1)
  else ({ resp := { TotalCount := 321 }, status := 200 }, n + 1)

/-- A commit search that succeeds with a count of zero. -/
def zeroSearch : SearchUpstream Unit := fun _ _ _ =>
  ({ resp := { TotalCount := 0 }, status := 200 }, ())

/-- A quota check that gives the same result for every token. -/
def constantQuota (r : QuotaResult) : QuotaUpstream Unit := fun _ _ => (r, ())

/-- A quota check for the pool of `demoProcess`: the token of `PAT_1` has bad
credentials, that of `PAT_2` has no quota left, every other token has 4999 requests
left. -/
def mixedQuota : QuotaUpstream Unit := fun token _ =>
  if token = " t1 " then ({ restErr := some ⟨"Bad credentials"⟩ }, ())
  else if token = "t2" then
    ({ data := { RateLimit := { Remaining := 0, ResetAt := "2026-01-01T00:00:00Z" } } }, ())
  else ({ data := { RateLimit := { Remaining := 4999 } } }, ())

/-- A process with the single credential `PAT_7`. -/
def soloProcess : Process where
  Environ := ["PAT_7=tok"]
  AllKeys := []
  GetString key := if key = "PAT_7" then "tok" else ""

/-- The encoding of `RateLimitData` used in concrete runs: the remaining quota as one
byte. -/
def byteMarshal (d : RateLimitData) : RawMessage :=
  [UInt8.ofNat d.RateLimit.Remaining.toNat]

/-- A clock by which every reset time lies 12 minutes ahead. -/
def fixedClock : String → Unit → Option Int := fun _ _ => some 12

/-- An upstream that answers every request with an envelope without data that lists the
single error of type `kind` and text `message`. -/
def bareErrorUpstream (kind message : String) : Upstream Unit := fun _ _ _ _ =>
  ({ resp := { Data := [], Errors := [⟨kind, message⟩] } }, ())

/-- An upstream on which the token of `PAT_1` has bad credentials and every other token
is answered with zero data and the single error of type `kind` and text `message`; the
world counts the requests. -/
def staleThenErrorUpstream (kind message : String) : Upstream Nat := fun _ _ token n =>
  if token = "t1" then ({ restErr := some ⟨"Bad credentials"⟩ }, n + 1)
  else ({ resp := { Data := [9], Errors := [⟨kind, message⟩] } }, n + 1)

/-! ## Theorems: `RetryGraphQL` -/

theorem retryOutcome_skipped_fields {σ : Type} (key : String) (o : RetryOutcome σ) :
    (o.skipped key).resp = o.resp ∧ (o.skipped key).err = o.err ∧
      (o.skipped key).attempts = key :: o.attempts ∧ (o.skipped key).state = o.state :=
  ⟨rfl, rfl, rfl, rfl⟩

/-- One step of the loop on a recoverable attempt: the key is skipped. -/
theorem retryLoop_cons_recoverable {σ : Type} (L : Strings) (P : Process)
    (fetcher : Fetcher σ) (config : RetryConfig) (key : String) (rest : List String) (s : σ)
    (h : (fetcher (getToken L P key) s).1.recoverable L config = true) :
    retryLoop L P fetcher config (key :: rest) s =
      (retryLoop L P fetcher config rest (fetcher (getToken L P key) s).2).skipped key := by
  unfold FetchResult.recoverable at h
  rw [retryLoop]
  cases herr : (fetcher (getToken L P key) s).1.err with
  | some e => simp [herr] at h
  | none =>
    cases hrest : (fetcher (getToken L P key) s).1.restErr with
    | some e =>
      simp only [herr, hrest, Option.isNone_none, Bool.true_and] at h
      simp [h]
    | none =>
      simp only [herr, hrest, Option.isNone_none, Bool.true_and] at h
      simp [h]

/-- One step of the loop on a successful attempt: its envelope is returned. -/
theorem retryLoop_cons_succeeds {σ : Type} (L : Strings) (P : Process)
    (fetcher : Fetcher σ) (config : RetryConfig) (key : String) (rest : List String) (s : σ)
    (h : (fetcher (getToken L P key) s).1.succeeds config = true) :
    retryLoop L P fetcher config (key :: rest) s =
      { resp := (fetcher (getToken L P key) s).1.resp, err := none, attempts := [key],
        log := [], state := (fetcher (getToken L P key) s).2 } := by
  unfold FetchResult.succeeds at h
  rw [retryLoop]
  cases herr : (fetcher (getToken L P key) s).1.err with
  | some e => simp [herr] at h
  | none =>
    cases hrest : (fetcher (getToken L P key) s).1.restErr with
    | some e => simp [herr, hrest] at h
    | none =>
      simp only [herr, hrest, Option.isNone_none, Bool.true_and, Bool.not_eq_true',
        Bool.and_eq_true] at h
      simp [h]

/-- One step of the loop on a transport failure: the error is returned. -/
theorem retryLoop_cons_transport {σ : Type} (L : Strings) (P : Process)
    (fetcher : Fetcher σ) (config : RetryConfig) (key : String) (rest : List String) (s : σ)
    (e : GoError) (h : (fetcher (getToken L P key) s).1.err = some e) :
    retryLoop L P fetcher config (key :: rest) s =
      { resp := {}, err := some e, attempts := [key], log := [],
        state := (fetcher (getToken L P key) s).2 } := by
  rw [retryLoop]
  simp [h]

/-- The loop skips a run of recoverable attempts and returns the first success. -/
theorem retryLoop_first_success {σ : Type} (L : Strings) (P : Process)
    (fetcher : Fetcher σ) (config : RetryConfig) :
    ∀ (keys : List String) (s : σ) (k : Nat) (rk : FetchResult),
      (∀ r ∈ (attemptResults L P fetcher keys s).take k, r.recoverable L config = true) →
      (attemptResults L P fetcher keys s)[k]? = some rk →
      rk.succeeds config = true →
      (retryLoop L P fetcher config keys s).resp = rk.resp ∧
        (retryLoop L P fetcher config keys s).err = none ∧
        (retryLoop L P fetcher config keys s).attempts = keys.take (k + 1) := by
  intro keys
  induction keys with
  | nil => intro s k rk _ hk _; simp [attemptResults] at hk
  | cons key rest ih =>
    intro s k rk hrec hk hsucc
    cases k with
    | zero =>
      simp only [attemptResults, List.getElem?_cons_zero, Option.some.injEq] at hk
      subst hk
      rw [retryLoop_cons_succeeds L P fetcher config key rest s hsucc]
      simp
    | succ k =>
      simp only [attemptResults, List.take_succ_cons, List.mem_cons, forall_eq_or_imp] at hrec
      rw [retryLoop_cons_recoverable L P fetcher config key rest s hrec.1]
      simp only [attemptResults, List.getElem?_cons_succ] at hk
      obtain ⟨h1, h2, h3⟩ := ih (fetcher (getToken L P key) s).2 k rk hrec.2 hk hsucc
      refine ⟨h1, h2, ?_⟩
      simp [RetryOutcome.skipped, h3]

theorem attemptResults_length {σ : Type} (L : Strings) (P : Process) (fetcher : Fetcher σ) :
    ∀ (keys : List String) (s : σ), (attemptResults L P fetcher keys s).length = keys.length := by
  intro keys
  induction keys with
  | nil => intro s; rfl
  | cons key rest ih => intro s; simp [attemptResults, ih]

/-- When the pool is not empty `RetryGraphQL` is the loop over the pool. -/
theorem RetryGraphQL_eq_loop {σ : Type} (L : Strings) (P : Process) (fetcher : Fetcher σ)
    (config : RetryConfig) (s : σ) (h : GetPATKeys L P ≠ []) :
    RetryGraphQL L P fetcher config s = retryLoop L P fetcher config (GetPATKeys L P) s := by
  unfold RetryGraphQL
  have : (GetPATKeys L P).length ≠ 0 := by simpa using h
  simp [this]

/-- **C1.** When the attempts with credentials `0..k-1` of the pool are all recoverable
(bad credentials, account suspended or a rate-limited envelope) and the attempt with
credential `k` returns an envelope that is not rate limited, `RetryGraphQL` returns that
envelope with a nil error and has invoked the fetcher on credentials `0..k` exactly. -/
theorem C1_first_working_credential_wins {σ : Type} (L : Strings) (P : Process)
    (fetcher : Fetcher σ) (config : RetryConfig) (s : σ) (k : Nat) (rk : FetchResult)
    (hskip : ∀ r ∈ (attemptResults L P fetcher (GetPATKeys L P) s).take k,
      r.recoverable L config = true)
    (hk : (attemptResults L P fetcher (GetPATKeys L P) s)[k]? = some rk)
    (hsucc : rk.succeeds config = true) :
    (RetryGraphQL L P fetcher config s).resp = rk.resp ∧
      (RetryGraphQL L P fetcher config s).err = none ∧
      (RetryGraphQL L P fetcher config s).attempts = (GetPATKeys L P).take (k + 1) ∧
      (RetryGraphQL L P fetcher config s).attempts.length = k + 1 := by
  have hlen : k < (GetPATKeys L P).length := by
    have := (List.getElem?_eq_some.mp hk).1
    rwa [attemptResults_length] at this
  have hne : GetPATKeys L P ≠ [] := by
    intro h; rw [h] at hlen; simp at hlen
  rw [RetryGraphQL_eq_loop L P fetcher config s hne]
  obtain ⟨h1, h2, h3⟩ :=
    retryLoop_first_success L P fetcher config (GetPATKeys L P) s k rk hskip hk hsucc
  refine ⟨h1, h2, h3, ?_⟩
  rw [h3, List.length_take]
  omega

/-- **C2.** With an empty pool `RetryGraphQL` returns the error
`no github api tokens found` with the zero response, the fetcher is not invoked and the
world is untouched, whatever the fetcher and the configuration are. -/
theorem C2_empty_pool_no_attempt {σ : Type} (L : Strings) (P : Process)
    (fetcher : Fetcher σ) (config : RetryConfig) (s : σ) (h : GetPATKeys L P = []) :
    (RetryGraphQL L P fetcher config s).err =
        some (GoError.errorString "no github api tokens found") ∧
      (RetryGraphQL L P fetcher config s).resp = {} ∧
      (RetryGraphQL L P fetcher config s).attempts = [] ∧
      (RetryGraphQL L P fetcher config s).state = s := by
  unfold RetryGraphQL
  simp [h]

/-- The loop over a pool whose attempts are all recoverable tries every key and ends in
the statement after the loop. -/
theorem retryLoop_all_recoverable {σ : Type} (L : Strings) (P : Process)
    (fetcher : Fetcher σ) (config : RetryConfig) :
    ∀ (keys : List String) (s : σ),
      (∀ r ∈ attemptResults L P fetcher keys s, r.recoverable L config = true) →
      (retryLoop L P fetcher config keys s).err =
          some (GoError.errorString "all github api tokens failed") ∧
        (retryLoop L P fetcher config keys s).resp = {} ∧
        (retryLoop L P fetcher config keys s).attempts = keys := by
  intro keys
  induction keys with
  | nil => intro s _; simp [retryLoop]
  | cons key rest ih =>
    intro s hrec
    simp only [attemptResults, List.mem_cons, forall_eq_or_imp] at hrec
    rw [retryLoop_cons_recoverable L P fetcher config key rest s hrec.1]
    obtain ⟨h1, h2, h3⟩ := ih (fetcher (getToken L P key) s).2 hrec.2
    exact ⟨h1, h2, by simp [RetryOutcome.skipped, h3]⟩

/-- **C3.** With a non-empty pool in which the attempt with every credential is
recoverable, `RetryGraphQL` returns the error `all github api tokens failed` together
with the zero response, after having tried every credential of the pool. -/
theorem C3_all_recoverable_exhausted {σ : Type} (L : Strings) (P : Process)
    (fetcher : Fetcher σ) (config : RetryConfig) (s : σ)
    (hne : GetPATKeys L P ≠ [])
    (hrec : ∀ r ∈ attemptResults L P fetcher (GetPATKeys L P) s,
      r.recoverable L config = true) :
    (RetryGraphQL L P fetcher config s).err =
        some (GoError.errorString "all github api tokens failed") ∧
      (RetryGraphQL L P fetcher config s).resp = {} ∧
      (RetryGraphQL L P fetcher config s).attempts = GetPATKeys L P := by
  rw [RetryGraphQL_eq_loop L P fetcher config s hne]
  exact retryLoop_all_recoverable L P fetcher config (GetPATKeys L P) s hrec

/-- One step of the loop on an attempt that is not recoverable: the loop returns at once,
so the key is the only one tried. -/
theorem retryLoop_cons_not_recoverable {σ : Type} (L : Strings) (P : Process)
    (fetcher : Fetcher σ) (config : RetryConfig) (key : String) (rest : List String) (s : σ)
    (h : (fetcher (getToken L P key) s).1.recoverable L config = false) :
    (retryLoop L P fetcher config (key :: rest) s).attempts = [key] := by
  unfold FetchResult.recoverable at h
  rw [retryLoop]
  cases herr : (fetcher (getToken L P key) s).1.err with
  | some e => simp
  | none =>
    cases hrest : (fetcher (getToken L P key) s).1.restErr with
    | some e =>
      simp only [herr, hrest, Option.isNone_none, Bool.true_and] at h
      simp [h]
    | none =>
      simp only [herr, hrest, Option.isNone_none, Bool.true_and] at h
      simp [h]

/-- One step of the loop on a REST error that is not credential-bound: the loop returns
the message as an error. -/
theorem retryLoop_cons_restErr {σ : Type} (L : Strings) (P : Process)
    (fetcher : Fetcher σ) (config : RetryConfig) (key : String) (rest : List String) (s : σ)
    (e : RestError)
    (herr : (fetcher (getToken L P key) s).1.err = none)
    (hrest : (fetcher (getToken L P key) s).1.restErr = some e)
    (hbound : (isBadCredential L e.Message || isSuspended L e.Message) = false) :
    retryLoop L P fetcher config (key :: rest) s =
      { resp := {}, err := some (GoError.errorString e.Message), attempts := [key], log := [],
        state := (fetcher (getToken L P key) s).2 } := by
  rw [retryLoop]
  simp [herr, hrest, hbound]

/-- **C4.** In a pool of at least two credentials, when the attempt with the first
credential yields a structured error that is neither credential-bound nor a rate limit,
`RetryGraphQL` returns at once: the fetcher has been invoked on the first credential
only, exactly once, and a REST error comes back as an error carrying its message (an
envelope that lists errors comes back as it is, with a nil error). -/
theorem C4_non_recoverable_error_aborts {σ : Type} (L : Strings) (P : Process)
    (fetcher : Fetcher σ) (config : RetryConfig) (s : σ) (r0 : FetchResult)
    (hpool : 2 ≤ (GetPATKeys L P).length)
    (h0 : (attemptResults L P fetcher (GetPATKeys L P) s)[0]? = some r0)
    (herr : r0.nonRecoverableError L config = true) :
    (RetryGraphQL L P fetcher config s).attempts = (GetPATKeys L P).take 1 ∧
      (RetryGraphQL L P fetcher config s).attempts.length = 1 ∧
      (RetryGraphQL L P fetcher config s).err =
        r0.restErr.map fun e => GoError.errorString e.Message := by
  have hne : GetPATKeys L P ≠ [] := by
    intro h; rw [h] at hpool; simp at hpool
  rw [RetryGraphQL_eq_loop L P fetcher config s hne]
  cases hkeys : GetPATKeys L P with
  | nil => exact absurd hkeys hne
  | cons key rest =>
    rw [hkeys] at h0
    simp only [attemptResults, List.getElem?_cons_zero, Option.some.injEq] at h0
    subst h0
    unfold FetchResult.nonRecoverableError at herr
    have hnone : (fetcher (getToken L P key) s).1.err = none := by
      cases h : (fetcher (getToken L P key) s).1.err with
      | none => rfl
      | some e => simp [h] at herr
    cases hrest : (fetcher (getToken L P key) s).1.restErr with
    | some e =>
      have hb : (isBadCredential L e.Message || isSuspended L e.Message) = false := by
        simpa [hnone, hrest] using herr
      rw [retryLoop_cons_restErr L P fetcher config key rest s e hnone hrest hb]
      simp
    | none =>
      simp only [hnone, hrest, Option.isNone_none, Bool.true_and, Bool.and_eq_true,
        Bool.not_eq_true'] at herr
      have hs : (fetcher (getToken L P key) s).1.succeeds config = true := by
        simp [FetchResult.succeeds, hnone, hrest, herr.2]
      rw [retryLoop_cons_succeeds L P fetcher config key rest s hs]
      simp

/-- The attempts made by the loop are never more than the keys it was given. -/
theorem retryLoop_attempts_length_le {σ : Type} (L : Strings) (P : Process)
    (fetcher : Fetcher σ) (config : RetryConfig) :
    ∀ (keys : List String) (s : σ),
      (retryLoop L P fetcher config keys s).attempts.length ≤ keys.length := by
  intro keys
  induction keys with
  | nil => intro s; simp [retryLoop]
  | cons key rest ih =>
    intro s
    cases hr : (fetcher (getToken L P key) s).1.recoverable L config with
    | true =>
      rw [retryLoop_cons_recoverable L P fetcher config key rest s hr]
      have := ih (fetcher (getToken L P key) s).2
      simp only [RetryOutcome.skipped, List.length_cons]
      omega
    | false =>
      rw [retryLoop_cons_not_recoverable L P fetcher config key rest s hr]
      simp

/-- An attempt that the loop reaches and that fails at the transport level ends the loop
with that error. -/
theorem retryLoop_transport_failure {σ : Type} (L : Strings) (P : Process)
    (fetcher : Fetcher σ) (config : RetryConfig) :
    ∀ (keys : List String) (s : σ) (j : Nat) (r : FetchResult) (e : GoError),
      j < (retryLoop L P fetcher config keys s).attempts.length →
      (attemptResults L P fetcher keys s)[j]? = some r →
      r.err = some e →
      (retryLoop L P fetcher config keys s).err = some e ∧
        (retryLoop L P fetcher config keys s).resp = {} ∧
        (retryLoop L P fetcher config keys s).attempts = keys.take (j + 1) := by
  intro keys
  induction keys with
  | nil => intro s j r e _ hj _; simp [attemptResults] at hj
  | cons key rest ih =>
    intro s j r e hlt hj he
    cases j with
    | zero =>
      simp only [attemptResults, List.getElem?_cons_zero, Option.some.injEq] at hj
      subst hj
      rw [retryLoop_cons_transport L P fetcher config key rest s e he]
      simp
    | succ j =>
      cases hr : (fetcher (getToken L P key) s).1.recoverable L config with
      | true =>
        rw [retryLoop_cons_recoverable L P fetcher config key rest s hr] at hlt ⊢
        simp only [attemptResults, List.getElem?_cons_succ] at hj
        have hlt2 : j < (retryLoop L P fetcher config rest
            (fetcher (getToken L P key) s).2).attempts.length := by
          simpa [RetryOutcome.skipped] using hlt
        obtain ⟨h1, h2, h3⟩ := ih (fetcher (getToken L P key) s).2 j r e hlt2 hj he
        exact ⟨h1, h2, by simp [RetryOutcome.skipped, h3]⟩
      | false =>
        rw [retryLoop_cons_not_recoverable L P fetcher config key rest s hr] at hlt
        simp at hlt

/-- **C5.** Whenever the attempt with credential `j` is made (`j` indexes an attempt of
the run) and the fetcher returns a non-nil error on it, `RetryGraphQL` returns that very
error with the zero response, and the credentials it has tried are `0..j`: none after
`j`. -/
theorem C5_transport_failure_aborts {σ : Type} (L : Strings) (P : Process)
    (fetcher : Fetcher σ) (config : RetryConfig) (s : σ) (j : Nat) (r : FetchResult)
    (e : GoError)
    (hmade : j < (RetryGraphQL L P fetcher config s).attempts.length)
    (hj : (attemptResults L P fetcher (GetPATKeys L P) s)[j]? = some r)
    (he : r.err = some e) :
    (RetryGraphQL L P fetcher config s).err = some e ∧
      (RetryGraphQL L P fetcher config s).resp = {} ∧
      (RetryGraphQL L P fetcher config s).attempts = (GetPATKeys L P).take (j + 1) ∧
      (RetryGraphQL L P fetcher config s).attempts.length = j + 1 := by
  have hlen : j < (GetPATKeys L P).length := by
    have := (List.getElem?_eq_some.mp hj).1
    rwa [attemptResults_length] at this
  have hne : GetPATKeys L P ≠ [] := by
    intro h; rw [h] at hlen; simp at hlen
  rw [RetryGraphQL_eq_loop L P fetcher config s hne] at hmade ⊢
  obtain ⟨h1, h2, h3⟩ :=
    retryLoop_transport_failure L P fetcher config (GetPATKeys L P) s j r e hmade hj he
  refine ⟨h1, h2, h3, ?_⟩
  rw [h3, List.length_take]
  omega

/-! ## Concrete runs of `RetryGraphQL` -/

/-- Witness of C1: in the pool `PAT_1, PAT_2, PAT_3`, `PAT_1` has bad credentials and
`PAT_2` succeeds, so the envelope of `PAT_2` is returned and `PAT_3` is never tried. -/
theorem C1_first_working_credential_wins_witness :
    (RetryGraphQL Strings.ascii (demoProcess "false") demoFetcher {} 0).resp =
        { Data := [1] } ∧
      (RetryGraphQL Strings.ascii (demoProcess "false") demoFetcher {} 0).err = none ∧
      (RetryGraphQL Strings.ascii (demoProcess "false") demoFetcher {} 0).attempts =
        (GetPATKeys Strings.ascii (demoProcess "false")).take (1 + 1) ∧
      (RetryGraphQL Strings.ascii (demoProcess "false") demoFetcher {} 0).attempts.length =
        1 + 1 :=
  C1_first_working_credential_wins Strings.ascii (demoProcess "false") demoFetcher {} 0 1
    { resp := { Data := [1] } } (by decide) (by decide) (by decide)

/-- Witness of C2: a process without credentials. -/
theorem C2_empty_pool_no_attempt_witness :
    (RetryGraphQL Strings.ascii emptyProcess demoFetcher {} 0).err =
        some (GoError.errorString "no github api tokens found") ∧
      (RetryGraphQL Strings.ascii emptyProcess demoFetcher {} 0).resp = {} ∧
      (RetryGraphQL Strings.ascii emptyProcess demoFetcher {} 0).attempts = [] ∧
      (RetryGraphQL Strings.ascii emptyProcess demoFetcher {} 0).state = 0 :=
  C2_empty_pool_no_attempt Strings.ascii emptyProcess demoFetcher {} 0 (by decide)

/-- Witness of C3: bad credentials, a suspended account and a rate limit in turn. -/
theorem C3_all_recoverable_exhausted_witness :
    (RetryGraphQL Strings.ascii (demoProcess "false") failingFetcher
        { IsRateLimited := some (isRateLimitedGraphQL Strings.ascii) } 0).err =
        some (GoError.errorString "all github api tokens failed") ∧
      (RetryGraphQL Strings.ascii (demoProcess "false") failingFetcher
        { IsRateLimited := some (isRateLimitedGraphQL Strings.ascii) } 0).resp = {} ∧
      (RetryGraphQL Strings.ascii (demoProcess "false") failingFetcher
        { IsRateLimited := some (isRateLimitedGraphQL Strings.ascii) } 0).attempts =
        GetPATKeys Strings.ascii (demoProcess "false") :=
  C3_all_recoverable_exhausted Strings.ascii (demoProcess "false") failingFetcher
    { IsRateLimited := some (isRateLimitedGraphQL Strings.ascii) } 0 (by decide) (by decide)

/-- Witness of C4: the REST error `Not Found` on the first of three credentials. -/
theorem C4_non_recoverable_error_aborts_witness :
    (RetryGraphQL Strings.ascii (demoProcess "false") notFoundFetcher {} 0).attempts =
        (GetPATKeys Strings.ascii (demoProcess "false")).take 1 ∧
      (RetryGraphQL Strings.ascii (demoProcess "false") notFoundFetcher {} 0).attempts.length
        = 1 ∧
      (RetryGraphQL Strings.ascii (demoProcess "false") notFoundFetcher {} 0).err =
        (some (RestError.mk "Not Found")).map fun e => GoError.errorString e.Message :=
  C4_non_recoverable_error_aborts Strings.ascii (demoProcess "false") notFoundFetcher {} 0
    { restErr := some ⟨"Not Found"⟩ } (by decide) (by decide) (by decide)

/-- Witness of C5: `PAT_1` is skipped for bad credentials and the attempt with `PAT_2`
fails at the transport level; `PAT_3` is not tried. -/
theorem C5_transport_failure_aborts_witness :
    (RetryGraphQL Strings.ascii (demoProcess "false") brokenFetcher {} 0).err =
        some (GoError.foreign "dial tcp: i/o timeout") ∧
      (RetryGraphQL Strings.ascii (demoProcess "false") brokenFetcher {} 0).resp = {} ∧
      (RetryGraphQL Strings.ascii (demoProcess "false") brokenFetcher {} 0).attempts =
        (GetPATKeys Strings.ascii (demoProcess "false")).take (1 + 1) ∧
      (RetryGraphQL Strings.ascii (demoProcess "false") brokenFetcher {} 0).attempts.length =
        1 + 1 :=
  C5_transport_failure_aborts Strings.ascii (demoProcess "false") brokenFetcher {} 0 1
    { err := some (.foreign "dial tcp: i/o timeout") } (.foreign "dial tcp: i/o timeout")
    (by decide) (by decide) rfl

/-! ## Theorems: `mergeGraphQL` and `statsFetcher` -/

/-- Merging two decodable, non-empty responses marshals the base record with the
repositories of `next` appended, and keeps the error list of `base`. -/
theorem mergeGraphQL_decodable (J : JSON) (base next : GraphQLResponse)
    (b n : graphQLUserData) (bytes : RawMessage)
    (hb0 : base.Data ≠ []) (hn0 : next.Data ≠ [])
    (hb : J.Unmarshal base.Data = .ok b) (hn : J.Unmarshal next.Data = .ok n)
    (hm : J.Marshal (appendNodes b n.User.Repositories.Nodes) = .ok bytes) :
    mergeGraphQL J base next = { Data := bytes, Errors := base.Errors } := by
  unfold mergeGraphQL
  have h1 : base.Data.length ≠ 0 := by simpa using hb0
  have h2 : next.Data.length ≠ 0 := by simpa using hn0
  unfold appendNodes at hm
  simp [h1, h2, hb, hn, hm]

/-- Merging into the zero response gives the second response. -/
theorem mergeGraphQL_zero (J : JSON) (next : GraphQLResponse) :
    mergeGraphQL J {} next = next := by
  simp [mergeGraphQL]

/-- **C10.** For responses `base` and `next` whose data are non-empty and decode to `b`
and `n`, and for a JSON library that encodes the merged record and decodes it back, the
data of `mergeGraphQL base next` decode to a record whose repository sequence is the
repositories of `b` followed by those of `n`, of length the sum of the two lengths, and
whose name, login and counters (commits, reviews, contributed-to, PRs, merged PRs, open
and closed issues, followers, discussions, discussion answers) are those of `b`. -/
theorem C10_merge_appends_repositories_keeps_scalars (J : JSON)
    (base next : GraphQLResponse) (b n : graphQLUserData) (bytes : RawMessage)
    (hb0 : base.Data ≠ []) (hn0 : next.Data ≠ [])
    (hb : J.Unmarshal base.Data = .ok b) (hn : J.Unmarshal next.Data = .ok n)
    (hm : J.Marshal (appendNodes b n.User.Repositories.Nodes) = .ok bytes)
    (hr : J.Unmarshal bytes = .ok (appendNodes b n.User.Repositories.Nodes)) :
    ∃ m, J.Unmarshal (mergeGraphQL J base next).Data = .ok m ∧
      m.User.Repositories.Nodes = b.User.Repositories.Nodes ++ n.User.Repositories.Nodes ∧
      m.User.Repositories.Nodes.length =
        b.User.Repositories.Nodes.length + n.User.Repositories.Nodes.length ∧
      m.User.Name = b.User.Name ∧ m.User.Login = b.User.Login ∧
      m.User.Commits = b.User.Commits ∧ m.User.Reviews = b.User.Reviews ∧
      m.User.RepositoriesContributedTo = b.User.RepositoriesContributedTo ∧
      m.User.PullRequests = b.User.PullRequests ∧
      m.User.MergedPullRequests = b.User.MergedPullRequests ∧
      m.User.OpenIssues = b.User.OpenIssues ∧ m.User.ClosedIssues = b.User.ClosedIssues ∧
      m.User.Followers = b.User.Followers ∧
      m.User.RepositoryDiscussions = b.User.RepositoryDiscussions ∧
      m.User.RepositoryDiscussionComments = b.User.RepositoryDiscussionComments := by
  refine ⟨appendNodes b n.User.Repositories.Nodes, ?_, ?_⟩
  · rw [mergeGraphQL_decodable J base next b n bytes hb0 hn0 hb hn hm]
    exact hr
  · simp [appendNodes]

/-- Witness of C10: the first two pages of the three-page run. -/
theorem C10_merge_appends_repositories_keeps_scalars_witness :
    ∃ m, pagesJSON.Unmarshal (mergeGraphQL pagesJSON { Data := [1] } { Data := [2] }).Data
        = .ok m ∧
      m.User.Repositories.Nodes =
        page1.User.Repositories.Nodes ++ page2.User.Repositories.Nodes ∧
      m.User.Repositories.Nodes.length =
        page1.User.Repositories.Nodes.length + page2.User.Repositories.Nodes.length ∧
      m.User.Name = page1.User.Name ∧ m.User.Login = page1.User.Login ∧
      m.User.Commits = page1.User.Commits ∧ m.User.Reviews = page1.User.Reviews ∧
      m.User.RepositoriesContributedTo = page1.User.RepositoriesContributedTo ∧
      m.User.PullRequests = page1.User.PullRequests ∧
      m.User.MergedPullRequests = page1.User.MergedPullRequests ∧
      m.User.OpenIssues = page1.User.OpenIssues ∧
      m.User.ClosedIssues = page1.User.ClosedIssues ∧
      m.User.Followers = page1.User.Followers ∧
      m.User.RepositoryDiscussions = page1.User.RepositoryDiscussions ∧
      m.User.RepositoryDiscussionComments = page1.User.RepositoryDiscussionComments :=
  C10_merge_appends_repositories_keeps_scalars pagesJSON { Data := [1] } { Data := [2] }
    page1 page2 [12] (by decide) (by decide) rfl rfl rfl rfl

/-- What `mergeGraphQL` keeps besides the counters: the page information of the merged
record is that of `base`, so after a merge the continuation flag and the end cursor are
those of the first page. -/
theorem mergeGraphQL_pageInfo (b : graphQLUserData) (nodes : List graphQLRepoNode) :
    (appendNodes b nodes).User.Repositories.PageInfo = b.User.Repositories.PageInfo := rfl


/-- With `FETCH_MULTI_PAGE_STARS` not spelling `true` in lower case, one iteration of the
loop returns, having made one orchestrated call. -/
theorem statsFetcherLoop_single_call {σ : Type} (L : Strings) (P : Process) (J : JSON)
    (DoGraphQL : Upstream σ) (username : String) (includeMergedPRs : Bool)
    (includeDiscussions : Bool) (includeDiscussionAnswers : Bool) (startTime : String)
    (fuel : Nat) (statsResponse : GraphQLResponse) (endCursor : String) (s : σ)
    (hmulti : L.ToLower (P.GetString "FETCH_MULTI_PAGE_STARS") ≠ "true") :
    (statsFetcherLoop L P J DoGraphQL username includeMergedPRs includeDiscussions
        includeDiscussionAnswers startTime (fuel + 1) statsResponse endCursor s).calls.length
        = 1 ∧
      (statsFetcherLoop L P J DoGraphQL username includeMergedPRs includeDiscussions
        includeDiscussionAnswers startTime (fuel + 1) statsResponse endCursor
        s).result.isSome = true := by
  rw [statsFetcherLoop]
  simp only [hmulti, decide_False, Bool.false_and]
  split
  · split
    · simp
    · split <;> simp
  · split
    · simp
    · split <;> simp

/-- **C9 (amended).** When the lower-cased value of `FETCH_MULTI_PAGE_STARS` is not
`true`, `statsFetcher` returns after exactly one orchestrated call, whatever that call
brings back: in particular when the first page holds a repository with a non-zero star
count, and whatever its continuation flag says. -/
theorem C9_single_call_when_multi_page_disabled {σ : Type} (L : Strings) (P : Process)
    (J : JSON) (DoGraphQL : Upstream σ) (fuel : Nat) (username : String)
    (includeMergedPRs : Bool) (includeDiscussions : Bool) (includeDiscussionAnswers : Bool)
    (startTime : String) (s : σ)
    (hmulti : L.ToLower (P.GetString "FETCH_MULTI_PAGE_STARS") ≠ "true") :
    (statsFetcher L P J DoGraphQL (fuel + 1) username includeMergedPRs includeDiscussions
        includeDiscussionAnswers startTime s).calls.length = 1 ∧
      (statsFetcher L P J DoGraphQL (fuel + 1) username includeMergedPRs includeDiscussions
        includeDiscussionAnswers startTime s).result.isSome = true :=
  statsFetcherLoop_single_call L P J DoGraphQL username includeMergedPRs includeDiscussions
    includeDiscussionAnswers startTime fuel {} "" s hmulti

/-- Witness of C9 (amended): `FETCH_MULTI_PAGE_STARS=false` and a first page of two
starred repositories whose continuation flag is set. -/
theorem C9_single_call_when_multi_page_disabled_witness :
    (statsFetcher Strings.ascii (demoProcess "false") pagesJSON pagesUpstream (3 + 1) "ann"
        false false false "" 0).calls.length = 1 ∧
      (statsFetcher Strings.ascii (demoProcess "false") pagesJSON pagesUpstream (3 + 1) "ann"
        false false false "" 0).result.isSome = true :=
  C9_single_call_when_multi_page_disabled Strings.ascii (demoProcess "false") pagesJSON
    pagesUpstream 3 "ann" false false false "" 0 (by decide)

/-- **C9, counterexample.** `FETCH_MULTI_PAGE_STARS=TRUE` is not equal to `true`, the
first page (`page1`) holds repositories with non-zero star counts, and `statsFetcher`
makes two orchestrated calls before it returns. -/
theorem C9_counterexample_uppercase_setting :
    (demoProcess "TRUE").GetString "FETCH_MULTI_PAGE_STARS" ≠ "true" ∧
      tailJSON.Unmarshal [1] = .ok page1 ∧
      (∃ node ∈ page1.User.Repositories.Nodes, node.Stargazers ≠ 0) ∧
      (statsFetcher Strings.ascii (demoProcess "TRUE") tailJSON (twoPageUpstream [5]) 5 "ann"
        false false false "" ()).result = some ({ Data := [15] }, none) ∧
      (statsFetcher Strings.ascii (demoProcess "TRUE") tailJSON (twoPageUpstream [5]) 5 "ann"
        false false false "" ()).calls.length = 2 :=
  ⟨by decide, rfl, by decide, by decide, by decide⟩

set_option maxRecDepth 100000

/-- **C6, the code on pages of 100, 100 and 40.** With multi-page fetching enabled and
an upstream that serves by cursor three pages of 100, 100 and 40 starred repositories
(continuation flags set, set, clear), the loop has not returned after three calls: a
fourth call is made, every call after the first asks for the page at cursor `c1`, and
the response accumulated by then (`[22]`) holds 400 repositories, the second page three
times over. -/
theorem C6_three_pages_fourth_call :
    fullPagesJSON.Unmarshal [1] = .ok (starredPage "a" 100 true "c1") ∧
      fullPagesJSON.Unmarshal [2] = .ok (starredPage "b" 100 true "c2") ∧
      fullPagesJSON.Unmarshal [3] = .ok (starredPage "c" 40 false "c3") ∧
      (statsFetcher Strings.ascii (demoProcess "true") fullPagesJSON pagesUpstream 4 "ann"
        false false false "" 0).result = none ∧
      (statsFetcher Strings.ascii (demoProcess "true") fullPagesJSON pagesUpstream 4 "ann"
        false false false "" 0).calls.length = 4 ∧
      ((statsFetcher Strings.ascii (demoProcess "true") fullPagesJSON pagesUpstream 4 "ann"
        false false false "" 0).calls.map fun c => c.vars.after) =
        [none, some "c1", some "c1", some "c1"] :=
  ⟨rfl, rfl, rfl, by decide, by decide, by decide⟩

/-- **C7, the code on three pages.** The second call returns `page2`, whose end cursor is
`c2`, and the third call is made with the cursor `c1` of the first page. -/
theorem C7_third_call_repeats_first_cursor :
    pagesJSON.Unmarshal [2] = .ok page2 ∧
      page2.User.Repositories.PageInfo.EndCursor = "c2" ∧
      ((statsFetcher Strings.ascii (demoProcess "true") pagesJSON pagesUpstream 3 "ann"
        false false false "" 0).calls.map fun c => c.vars.after) =
        [none, some "c1", some "c1"] :=
  ⟨rfl, rfl, by decide⟩


/-- On the upstream whose second page is empty, an iteration entered with the first page
as accumulated response and its cursor `c1` makes a call and goes round again with the
same loop variables. -/
theorem statsFetcherLoop_empty_tail_step (fuel : Nat) :
    statsFetcherLoop Strings.ascii (demoProcess "true") tailJSON (twoPageUpstream [4]) "ann"
        false false false "" (fuel + 1) { Data := [1] } "c1" () =
      (statsFetcherLoop Strings.ascii (demoProcess "true") tailJSON (twoPageUpstream [4])
        "ann" false false false "" fuel { Data := [1] } "c1" ()).after
        { query := Query.graphQLReposQuery,
          vars := { login := "ann", first := 100, after := some "c1",
                    includeMergedPullRequests := false, includeDiscussions := false,
                    includeDiscussionsAnswers := false, startTime := none } } := by
  rfl

/-- On that upstream the loop never returns: whatever the number of iterations allowed,
each of them makes a call and none ends the loop. -/
theorem statsFetcherLoop_empty_tail_runs_on (fuel : Nat) :
    (statsFetcherLoop Strings.ascii (demoProcess "true") tailJSON (twoPageUpstream [4]) "ann"
        false false false "" fuel { Data := [1] } "c1" ()).result = none ∧
      (statsFetcherLoop Strings.ascii (demoProcess "true") tailJSON (twoPageUpstream [4])
        "ann" false false false "" fuel { Data := [1] } "c1" ()).calls.length = fuel := by
  induction fuel with
  | zero => exact ⟨rfl, rfl⟩
  | succ fuel ih =>
    rw [statsFetcherLoop_empty_tail_step]
    exact ⟨ih.1, by simp [StatsOutcome.after, ih.2]⟩

/-- The first iteration on that upstream fetches the first page and enters the loop
again with its cursor. -/
theorem statsFetcher_empty_tail_first (fuel : Nat) :
    statsFetcher Strings.ascii (demoProcess "true") tailJSON (twoPageUpstream [4])
        (fuel + 1) "ann" false false false "" () =
      (statsFetcherLoop Strings.ascii (demoProcess "true") tailJSON (twoPageUpstream [4])
        "ann" false false false "" fuel { Data := [1] } "c1" ()).after
        { query := Query.graphQLStatsQuery,
          vars := { login := "ann", first := 100, after := none,
                    includeMergedPullRequests := false, includeDiscussions := false,
                    includeDiscussionsAnswers := false, startTime := none } } := by
  rfl

/-- **C8, the code after an empty page and after a last page.** With multi-page fetching
enabled and a first page of starred repositories whose continuation flag is set:
when the second page has no repository and a clear flag, `statsFetcher` never returns
(for every number of iterations allowed, the loop is still running and has made that
many calls); and when the second page is a non-empty page with a clear flag, a third
call is made after it. -/
theorem C8_paging_continues_after_final_page :
    tailJSON.Unmarshal [4] = .ok emptyPage ∧
      emptyPage.User.Repositories.Nodes = [] ∧
      emptyPage.User.Repositories.PageInfo.HasNextPage = false ∧
      (∀ fuel : Nat,
        (statsFetcher Strings.ascii (demoProcess "true") tailJSON (twoPageUpstream [4])
          fuel "ann" false false false "" ()).result = none ∧
        (statsFetcher Strings.ascii (demoProcess "true") tailJSON (twoPageUpstream [4])
          fuel "ann" false false false "" ()).calls.length = fuel) ∧
      tailJSON.Unmarshal [3] = .ok page3 ∧
      page3.User.Repositories.PageInfo.HasNextPage = false ∧
      (statsFetcher Strings.ascii (demoProcess "true") tailJSON (twoPageUpstream [3])
        3 "ann" false false false "" ()).result = none ∧
      (statsFetcher Strings.ascii (demoProcess "true") tailJSON (twoPageUpstream [3])
        3 "ann" false false false "" ()).calls.length = 3 := by
  refine ⟨rfl, rfl, rfl, ?_, rfl, rfl, by decide, by decide⟩
  intro fuel
  cases fuel with
  | zero => exact ⟨rfl, rfl⟩
  | succ fuel =>
    rw [statsFetcher_empty_tail_first]
    have h := statsFetcherLoop_empty_tail_runs_on fuel
    exact ⟨h.1, by simp [StatsOutcome.after, h.2]⟩


/-! ## Theorems: failure of a page fetch in `statsFetcher` -/

/-- An iteration whose orchestrated fetch fails returns the zero response and the error
that the `switch` makes of the fetch error, after one call. -/
theorem statsFetcherLoop_fetch_error {σ : Type} (L : Strings) (P : Process) (J : JSON)
    (DoGraphQL : Upstream σ) (username : String) (includeMergedPRs : Bool)
    (includeDiscussions : Bool) (includeDiscussionAnswers : Bool) (startTime : String)
    (fuel : Nat) (statsResponse : GraphQLResponse) (endCursor : String) (s : σ) (e : GoError)
    (he : (pageFetch L P DoGraphQL username includeMergedPRs includeDiscussions
      includeDiscussionAnswers startTime endCursor s).err = some e) :
    (statsFetcherLoop L P J DoGraphQL username includeMergedPRs includeDiscussions
        includeDiscussionAnswers startTime (fuel + 1) statsResponse endCursor s).result =
        some ({}, some (statsFetcherError L e)) ∧
      (statsFetcherLoop L P J DoGraphQL username includeMergedPRs includeDiscussions
        includeDiscussionAnswers startTime (fuel + 1) statsResponse endCursor s).calls.length
        = 1 := by
  unfold pageFetch pageQuery pageVars at he
  rw [statsFetcherLoop]
  simp only [he, statsFetcherError]
  split
  · simp
  · split <;> simp

/-- Whenever the loop returns an error, the response it returns with it is the zero
response. -/
theorem statsFetcherLoop_error_response_empty {σ : Type} (L : Strings) (P : Process)
    (J : JSON) (DoGraphQL : Upstream σ) (username : String) (includeMergedPRs : Bool)
    (includeDiscussions : Bool) (includeDiscussionAnswers : Bool) (startTime : String) :
    ∀ (fuel : Nat) (statsResponse : GraphQLResponse) (endCursor : String) (s : σ)
      (resp : GraphQLResponse) (e : GoError),
      (statsFetcherLoop L P J DoGraphQL username includeMergedPRs includeDiscussions
        includeDiscussionAnswers startTime fuel statsResponse endCursor s).result =
        some (resp, some e) → resp = {} := by
  intro fuel
  induction fuel with
  | zero => intro sr ec s resp e h; simp [statsFetcherLoop] at h
  | succ fuel ih =>
    intro sr ec s resp e h
    rw [statsFetcherLoop] at h
    simp only at h
    split at h
    · split at h
      · simp at h; exact h.1.symm
      · split at h
        · simp at h; exact h.1.symm
        · simp at h; exact h.1.symm
    · split at h
      · simp at h; exact h.1.symm
      · split at h
        · simp at h
        · split at h
          · exact ih _ _ _ resp e (by simpa [StatsOutcome.after] using h)
          · simp at h

/-- **C11 (amended).** When the orchestrated fetch of a page fails with error `e`,
whatever response `statsResponse` the earlier pages have accumulated, `statsFetcher`
returns the zero response, with no repository or counter of the earlier pages, together
with the error that its `switch` makes of `e`: the `NO_TOKENS` custom error when the
lower-cased message of `e` contains `no github api tokens found`, the `MAX_RETRY` custom
error when it contains `all github api tokens failed`, and `e` itself otherwise.  And
every error that a run of `statsFetcher` returns comes with the zero response. -/
theorem C11_page_failure_discards_partial_results {σ : Type} (L : Strings) (P : Process)
    (J : JSON) (DoGraphQL : Upstream σ) (username : String) (includeMergedPRs : Bool)
    (includeDiscussions : Bool) (includeDiscussionAnswers : Bool) (startTime : String)
    (fuel : Nat) (statsResponse : GraphQLResponse) (endCursor : String) (s : σ) (e : GoError)
    (he : (pageFetch L P DoGraphQL username includeMergedPRs includeDiscussions
      includeDiscussionAnswers startTime endCursor s).err = some e) :
    (statsFetcherLoop L P J DoGraphQL username includeMergedPRs includeDiscussions
        includeDiscussionAnswers startTime (fuel + 1) statsResponse endCursor s).result =
        some ({}, some (statsFetcherError L e)) ∧
      (∀ (n : Nat) (s0 : σ) (resp : GraphQLResponse) (e0 : GoError),
        (statsFetcher L P J DoGraphQL n username includeMergedPRs includeDiscussions
          includeDiscussionAnswers startTime s0).result = some (resp, some e0) →
        resp = {}) :=
  ⟨(statsFetcherLoop_fetch_error L P J DoGraphQL username includeMergedPRs
      includeDiscussions includeDiscussionAnswers startTime fuel statsResponse endCursor s e
      he).1,
    fun n s0 resp e0 h =>
      statsFetcherLoop_error_response_empty L P J DoGraphQL username includeMergedPRs
        includeDiscussions includeDiscussionAnswers startTime n {} "" s0 resp e0 h⟩

/-- Witness of C11 (amended): the first page has been accumulated (`[1]`, cursor `c1`)
and the fetch of the second page fails at the transport level. -/
theorem C11_page_failure_discards_partial_results_witness :
    (statsFetcherLoop Strings.ascii (demoProcess "true") pagesJSON breakingUpstream "ann"
        false false false "" (2 + 1) { Data := [1] } "c1" ()).result =
        some ({}, some (statsFetcherError Strings.ascii
          (GoError.foreign "dial tcp: i/o timeout"))) ∧
      (∀ (n : Nat) (s0 : Unit) (resp : GraphQLResponse) (e0 : GoError),
        (statsFetcher Strings.ascii (demoProcess "true") pagesJSON breakingUpstream n "ann"
          false false false "" s0).result = some (resp, some e0) →
        resp = {}) :=
  C11_page_failure_discards_partial_results Strings.ascii (demoProcess "true") pagesJSON
    breakingUpstream "ann" false false false "" 2 { Data := [1] } "c1" ()
    (GoError.foreign "dial tcp: i/o timeout") (by decide)

/-- The run behind the witness of C11: the second call fails and the whole run returns
the zero response with that error, the first page being dropped. -/
theorem statsFetcher_breaking_run :
    (statsFetcher Strings.ascii (demoProcess "true") pagesJSON breakingUpstream 3 "ann"
        false false false "" ()).result =
        some ({}, some (GoError.foreign "dial tcp: i/o timeout")) ∧
      (statsFetcher Strings.ascii (demoProcess "true") pagesJSON breakingUpstream 3 "ann"
        false false false "" ()).calls.length = 2 :=
  ⟨by decide, by decide⟩

/-- **C11, counterexample.** With an empty pool the orchestrated fetch of the first page
fails with the error `no github api tokens found` made by `errors.New`, and
`statsFetcher` returns another error value, the `NO_TOKENS` custom error with the message
`No GitHub API tokens found`. -/
theorem C11_counterexample_error_is_replaced :
    (pageFetch Strings.ascii emptyProcess pagesUpstream "ann" false false false "" "" 0).err =
        some (GoError.errorString "no github api tokens found") ∧
      (statsFetcher Strings.ascii emptyProcess pagesJSON pagesUpstream 3 "ann"
        false false false "" 0).result =
        some ({}, some (GoError.CustomError "No GitHub API tokens found" "NO_TOKENS"
          "Please add an env variable called PAT_1 with your GitHub API token in vercel")) ∧
      GoError.CustomError "No GitHub API tokens found" "NO_TOKENS"
          "Please add an env variable called PAT_1 with your GitHub API token in vercel" ≠
        GoError.errorString "no github api tokens found" :=
  ⟨by decide, by decide, by decide⟩

/-! ## Theorems: `CalculateRank` -/

theorem Float64.Lawful.round_zero {F : Float64} (h : F.Lawful) : F.round 0 = 0 :=
  h.exact 0 (by simp)

theorem Float64.Lawful.round_one {F : Float64} (h : F.Lawful) : F.round 1 = 1 :=
  h.exact 1 (by simp)

theorem Float64.Lawful.round_nonneg {F : Float64} (h : F.Lawful) {a : ℚ} (ha : 0 ≤ a) :
    0 ≤ F.round a := by
  have := h.mono 0 a ha
  rwa [h.round_zero] at this

theorem rne_floor_le (t : ℚ) : ⌊t⌋ ≤ rne t := by
  unfold rne
  split_ifs <;> omega

theorem rne_le_floor_succ (t : ℚ) : rne t ≤ ⌊t⌋ + 1 := by
  unfold rne
  split_ifs <;> omega

theorem rne_intCast (n : Int) : rne (n : ℚ) = n := by
  unfold rne
  simp

theorem rne_mono {a b : ℚ} (h : a ≤ b) : rne a ≤ rne b := by
  have hf : ⌊a⌋ ≤ ⌊b⌋ := Int.floor_le_floor h
  rcases lt_or_eq_of_le hf with hlt | heq
  · calc rne a ≤ ⌊a⌋ + 1 := rne_le_floor_succ a
      _ ≤ ⌊b⌋ := hlt
      _ ≤ rne b := rne_floor_le b
  · unfold rne
    rw [heq]
    have hab : a - (⌊b⌋ : ℚ) ≤ b - (⌊b⌋ : ℚ) := by linarith
    split_ifs <;> first | omega | linarith

theorem rne_abs_le (t : ℚ) : |(rne t : ℚ) - t| ≤ 1 / 2 := by
  have h1 : (⌊t⌋ : ℚ) ≤ t := Int.floor_le t
  have h2 : t < (⌊t⌋ : ℚ) + 1 := Int.lt_floor_add_one t
  unfold rne
  rw [abs_le]
  split_ifs <;> push_cast <;> constructor <;> linarith

theorem roundHalfEven_eq (n d : Nat) (hd : 0 < d) :
    (roundHalfEven n d : Int) = rne ((n : ℚ) / d) := by
  have hdq : (0 : ℚ) < d := by exact_mod_cast hd
  have hfloor : ⌊(n : ℚ) / d⌋ = ((n / d : Nat) : Int) := by
    rw [Int.floor_eq_iff]
    constructor
    · rw [le_div_iff₀ hdq]
      have := Nat.div_mul_le_self n d
      exact_mod_cast this
    · rw [div_lt_iff₀ hdq]
      have := Nat.lt_div_mul_add hd (a := n)
      have h2 : n < (n / d + 1) * d := by
        rw [Nat.add_mul, Nat.one_mul]
        exact this
      exact_mod_cast h2
  have hmod : (n : ℚ) / d - ((n / d : Nat) : Int) = ((n % d : Nat) : ℚ) / d := by
    have hq : (n : ℚ) = d * ((n / d : Nat) : ℚ) + ((n % d : Nat) : ℚ) := by
      exact_mod_cast (Nat.div_add_mod n d).symm
    rw [Int.cast_natCast, eq_div_iff hdq.ne', sub_mul, div_mul_cancel₀ _ hdq.ne']
    linarith
  unfold rne roundHalfEven
  rw [hfloor, hmod]
  have h1 : ((n % d : Nat) : ℚ) / d < 1 / 2 ↔ 2 * (n % d) < d := by
    rw [div_lt_div_iff₀ hdq (by norm_num)]
    constructor
    · intro h
      have : ((2 * (n % d) : Nat) : ℚ) < (d : ℚ) := by push_cast; linarith
      exact_mod_cast this
    · intro h
      have : ((2 * (n % d) : Nat) : ℚ) < (d : ℚ) := by exact_mod_cast h
      push_cast at this
      linarith
  have h2 : 1 / 2 < ((n % d : Nat) : ℚ) / d ↔ d < 2 * (n % d) := by
    rw [div_lt_div_iff₀ (by norm_num) hdq]
    constructor
    · intro h
      have : (d : ℚ) < ((2 * (n % d) : Nat) : ℚ) := by push_cast; linarith
      exact_mod_cast this
    · intro h
      have : (d : ℚ) < ((2 * (n % d) : Nat) : ℚ) := by exact_mod_cast h
      push_cast at this
      linarith
  have h3 : ((n / d : Nat) : Int) % 2 = 0 ↔ (n / d) % 2 = 0 := by omega
  simp only [h1, h2, h3]
  split_ifs <;> simp

theorem log2Fuel_spec : ∀ (fuel n : Nat), 0 < n → n ≤ fuel →
    2 ^ log2Fuel fuel n ≤ n ∧ n < 2 ^ (log2Fuel fuel n + 1) := by
  intro fuel
  induction fuel with
  | zero => intro n h1 h2; omega
  | succ fuel ih =>
    intro n h1 h2
    unfold log2Fuel
    by_cases hn : n < 2
    · simp only [hn, if_true]
      omega
    · simp only [hn, if_false]
      have hpos : 0 < n / 2 := by omega
      have hle : n / 2 ≤ fuel := by omega
      obtain ⟨ha, hb⟩ := ih (n / 2) hpos hle
      constructor
      · rw [pow_succ]
        omega
      · rw [pow_succ]
        omega

theorem floorLog2_spec (n d : Nat) (hn : 0 < n) (hd : 0 < d) :
    (2 : ℚ) ^ floorLog2 n d ≤ (n : ℚ) / d ∧ (n : ℚ) / d < (2 : ℚ) ^ (floorLog2 n d + 1) := by
  obtain ⟨n1, n2⟩ := log2Fuel_spec n n hn (le_refl n)
  obtain ⟨d1, d2⟩ := log2Fuel_spec d d hd (le_refl d)
  have hdq : (0 : ℚ) < d := by exact_mod_cast hd
  have hnq : (0 : ℚ) < n := by exact_mod_cast hn
  set kn := log2Fuel n n with hkn
  set kd := log2Fuel d d with hkd
  have n1q : (2 : ℚ) ^ (kn : Int) ≤ n := by
    rw [zpow_natCast]; exact_mod_cast n1
  have n2q : (n : ℚ) < (2 : ℚ) ^ ((kn : Int) + 1) := by
    have : (n : ℚ) < (2 : ℚ) ^ (kn + 1) := by exact_mod_cast n2
    rw [← zpow_natCast] at this
    exact_mod_cast this
  have d1q : (2 : ℚ) ^ (kd : Int) ≤ d := by
    rw [zpow_natCast]; exact_mod_cast d1
  have d2q : (d : ℚ) < (2 : ℚ) ^ ((kd : Int) + 1) := by
    have : (d : ℚ) < (2 : ℚ) ^ (kd + 1) := by exact_mod_cast d2
    rw [← zpow_natCast] at this
    exact_mod_cast this
  have two_pos : ∀ z : Int, (0 : ℚ) < (2 : ℚ) ^ z := fun z => zpow_pos (by norm_num) z
  -- the quotient lies strictly between 2^(e-1) and 2^(e+1)
  have hlow : (2 : ℚ) ^ ((kn : Int) - kd - 1) ≤ (n : ℚ) / d := by
    rw [le_div_iff₀ hdq]
    calc (2 : ℚ) ^ ((kn : Int) - kd - 1) * d
        ≤ (2 : ℚ) ^ ((kn : Int) - kd - 1) * (2 : ℚ) ^ ((kd : Int) + 1) :=
          mul_le_mul_of_nonneg_left d2q.le (two_pos _).le
      _ = (2 : ℚ) ^ (kn : Int) := by
          rw [← zpow_add₀ (by norm_num : (2 : ℚ) ≠ 0)]
          congr 1
          ring
      _ ≤ n := n1q
  have hhigh : (n : ℚ) / d < (2 : ℚ) ^ ((kn : Int) - kd + 1) := by
    rw [div_lt_iff₀ hdq]
    calc (n : ℚ) < (2 : ℚ) ^ ((kn : Int) + 1) := n2q
      _ = (2 : ℚ) ^ ((kn : Int) - kd + 1) * (2 : ℚ) ^ (kd : Int) := by
          rw [← zpow_add₀ (by norm_num : (2 : ℚ) ≠ 0)]
          congr 1
          ring
      _ ≤ (2 : ℚ) ^ ((kn : Int) - kd + 1) * d :=
          mul_le_mul_of_nonneg_left d1q (two_pos _).le
  unfold floorLog2
  simp only [← hkn, ← hkd]
  by_cases h0 : (0 : Int) ≤ (kn : Int) - kd
  · simp only [h0, if_true]
    have hcast : (2 : ℚ) ^ ((kn : Int) - kd) = ((2 ^ ((kn : Int) - kd).toNat : Nat) : ℚ) := by
      push_cast
      rw [← zpow_natCast, Int.toNat_of_nonneg h0]
    by_cases ht : d * 2 ^ ((kn : Int) - kd).toNat ≤ n
    · simp only [ht, if_true]
      refine ⟨?_, hhigh⟩
      rw [le_div_iff₀ hdq, hcast]
      have : ((d * 2 ^ ((kn : Int) - kd).toNat : Nat) : ℚ) ≤ (n : ℚ) := by exact_mod_cast ht
      push_cast at this ⊢
      linarith
    · simp only [ht, if_false]
      refine ⟨hlow, ?_⟩
      rw [sub_add_cancel, div_lt_iff₀ hdq, hcast]
      have : (n : ℚ) < ((d * 2 ^ ((kn : Int) - kd).toNat : Nat) : ℚ) := by
        exact_mod_cast Nat.lt_of_not_le ht
      push_cast at this ⊢
      linarith
  · simp only [h0, if_false]
    have h0' : (0 : Int) ≤ -((kn : Int) - kd) := by omega
    have hcast : (2 : ℚ) ^ ((kn : Int) - kd) =
        1 / ((2 ^ (-((kn : Int) - kd)).toNat : Nat) : ℚ) := by
      push_cast
      rw [← zpow_natCast, Int.toNat_of_nonneg h0', zpow_neg, one_div, inv_inv]
    have hpos : (0 : ℚ) < ((2 ^ (-((kn : Int) - kd)).toNat : Nat) : ℚ) := by
      push_cast
      positivity
    by_cases ht : d ≤ n * 2 ^ (-((kn : Int) - kd)).toNat
    · simp only [ht, if_true]
      refine ⟨?_, hhigh⟩
      rw [le_div_iff₀ hdq, hcast, div_mul_eq_mul_div, one_mul, div_le_iff₀ hpos]
      exact_mod_cast ht
    · simp only [ht, if_false]
      refine ⟨hlow, ?_⟩
      rw [sub_add_cancel, div_lt_iff₀ hdq, hcast, div_mul_eq_mul_div, one_mul, lt_div_iff₀ hpos]
      exact_mod_cast Nat.lt_of_not_le ht

theorem roundAbs_eq (n d : Nat) (hd : 0 < d) :
    roundAbs n d =
      (rne ((n : ℚ) / d / (2 : ℚ) ^ (max (floorLog2 n d - 52) (-1074))) : ℚ) *
        (2 : ℚ) ^ (max (floorLog2 n d - 52) (-1074)) := by
  unfold roundAbs
  simp only
  set ex := max (floorLog2 n d - 52) (-1074) with hex
  by_cases h0 : 0 ≤ ex
  · simp only [h0, if_true]
    have hz : (2 : ℚ) ^ ex = ((2 ^ ex.toNat : Nat) : ℚ) := by
      push_cast
      rw [← zpow_natCast, Int.toNat_of_nonneg h0]
    have hpos : 0 < d * 2 ^ ex.toNat := Nat.mul_pos hd (by positivity)
    have h := roundHalfEven_eq n (d * 2 ^ ex.toNat) hpos
    have hq : (n : ℚ) / ((d * 2 ^ ex.toNat : Nat) : ℚ) = (n : ℚ) / d / (2 : ℚ) ^ ex := by
      rw [hz]
      push_cast
      rw [div_div]
    rw [hq] at h
    rw [← h, hz]
    push_cast
    ring
  · simp only [h0, if_false]
    have h0' : 0 ≤ -ex := by omega
    have hz : (2 : ℚ) ^ ex = 1 / ((2 ^ (-ex).toNat : Nat) : ℚ) := by
      push_cast
      rw [← zpow_natCast, Int.toNat_of_nonneg h0', zpow_neg, one_div, inv_inv]
    have h := roundHalfEven_eq (n * 2 ^ (-ex).toNat) d hd
    have hq : ((n * 2 ^ (-ex).toNat : Nat) : ℚ) / (d : ℚ) = (n : ℚ) / d / (2 : ℚ) ^ ex := by
      rw [hz]
      push_cast
      field_simp
    rw [hq] at h
    rw [Rat.mkRat_eq_div, h, hz]
    push_cast
    ring

theorem roundFloat64_pos_eq (q : ℚ) (hq : 0 < q) :
    roundFloat64 q = (rne (q / (2 : ℚ) ^ fexp q) : ℚ) * (2 : ℚ) ^ fexp q := by
  unfold roundFloat64
  rw [if_neg hq.ne', if_pos hq, roundAbs_eq _ _ q.den_pos]
  have hnum : ((q.num.natAbs : Nat) : ℚ) = (q.num : ℚ) := by
    have : (0 : Int) < q.num := Rat.num_pos.mpr hq
    rw [Nat.cast_natAbs, abs_of_pos this]
  have hval : ((q.num.natAbs : Nat) : ℚ) / (q.den : ℚ) = q := by
    rw [hnum]
    exact Rat.num_div_den q
  unfold fexp
  rw [hval]

/-- The binary exponent of a positive rational: `2 ^ e ≤ q < 2 ^ (e + 1)`. -/
theorem floorLog2_rat (q : ℚ) (hq : 0 < q) :
    (2 : ℚ) ^ floorLog2 q.num.natAbs q.den ≤ q ∧
      q < (2 : ℚ) ^ (floorLog2 q.num.natAbs q.den + 1) := by
  have hnpos : 0 < q.num.natAbs := by
    have : (0 : Int) < q.num := Rat.num_pos.mpr hq
    omega
  have h := floorLog2_spec q.num.natAbs q.den hnpos q.den_pos
  have hnum : ((q.num.natAbs : Nat) : ℚ) = (q.num : ℚ) := by
    have : (0 : Int) < q.num := Rat.num_pos.mpr hq
    rw [Nat.cast_natAbs, abs_of_pos this]
  have hval : ((q.num.natAbs : Nat) : ℚ) / (q.den : ℚ) = q := by
    rw [hnum]
    exact Rat.num_div_den q
  rwa [hval] at h

theorem two_zpow_pos (z : Int) : (0 : ℚ) < (2 : ℚ) ^ z := zpow_pos (by norm_num) z

theorem floorLog2_rat_mono {a b : ℚ} (ha : 0 < a) (hab : a ≤ b) :
    floorLog2 a.num.natAbs a.den ≤ floorLog2 b.num.natAbs b.den := by
  obtain ⟨a1, -⟩ := floorLog2_rat a ha
  obtain ⟨-, b2⟩ := floorLog2_rat b (lt_of_lt_of_le ha hab)
  by_contra hlt
  push_neg at hlt
  have hle : floorLog2 b.num.natAbs b.den + 1 ≤ floorLog2 a.num.natAbs a.den := hlt
  have : (2 : ℚ) ^ (floorLog2 b.num.natAbs b.den + 1) ≤
      (2 : ℚ) ^ floorLog2 a.num.natAbs a.den :=
    zpow_le_zpow_right₀ (by norm_num) hle
  linarith

theorem fexp_mono {a b : ℚ} (ha : 0 < a) (hab : a ≤ b) : fexp a ≤ fexp b := by
  have := floorLog2_rat_mono ha hab
  unfold fexp
  omega

theorem rne_two_zpow (k : Int) (hk : 0 ≤ k) : (rne ((2 : ℚ) ^ k) : ℚ) = (2 : ℚ) ^ k := by
  have h : (2 : ℚ) ^ k = (((2 : Int) ^ k.toNat : Int) : ℚ) := by
    push_cast
    rw [← zpow_natCast, Int.toNat_of_nonneg hk]
  rw [h, rne_intCast]

theorem roundFloat64_mono_pos {a b : ℚ} (ha : 0 < a) (hab : a ≤ b) :
    roundFloat64 a ≤ roundFloat64 b := by
  have hb : 0 < b := lt_of_lt_of_le ha hab
  rw [roundFloat64_pos_eq a ha, roundFloat64_pos_eq b hb]
  have hx := fexp_mono ha hab
  rcases lt_or_eq_of_le hx with hlt | heq
  · -- the two values are separated by the power of two that starts the binade of `b`
    have hbx : fexp b = floorLog2 b.num.natAbs b.den - 52 := by
      have h1 : (-1074 : Int) ≤ fexp a := by unfold fexp; omega
      unfold fexp at hlt h1 ⊢
      omega
    have hax : floorLog2 a.num.natAbs a.den - 52 ≤ fexp a := by unfold fexp; omega
    obtain ⟨-, a2⟩ := floorLog2_rat a ha
    obtain ⟨b1, -⟩ := floorLog2_rat b hb
    set eb := floorLog2 b.num.natAbs b.den with heb
    have hab2 : a ≤ (2 : ℚ) ^ eb := by
      have : (2 : ℚ) ^ (floorLog2 a.num.natAbs a.den + 1) ≤ (2 : ℚ) ^ eb :=
        zpow_le_zpow_right₀ (by norm_num) (by omega)
      linarith
    have hleft : (rne (a / (2 : ℚ) ^ fexp a) : ℚ) * (2 : ℚ) ^ fexp a ≤ (2 : ℚ) ^ eb := by
      have hk : 0 ≤ eb - fexp a := by omega
      have h1 : a / (2 : ℚ) ^ fexp a ≤ (2 : ℚ) ^ (eb - fexp a) := by
        rw [div_le_iff₀ (two_zpow_pos _), ← zpow_add₀ (by norm_num : (2 : ℚ) ≠ 0)]
        simpa using hab2
      have h2 : (rne (a / (2 : ℚ) ^ fexp a) : ℚ) ≤ (2 : ℚ) ^ (eb - fexp a) := by
        rw [← rne_two_zpow _ hk]
        exact_mod_cast rne_mono h1
      calc (rne (a / (2 : ℚ) ^ fexp a) : ℚ) * (2 : ℚ) ^ fexp a
          ≤ (2 : ℚ) ^ (eb - fexp a) * (2 : ℚ) ^ fexp a :=
            mul_le_mul_of_nonneg_right h2 (two_zpow_pos _).le
        _ = (2 : ℚ) ^ eb := by
            rw [← zpow_add₀ (by norm_num : (2 : ℚ) ≠ 0)]
            congr 1
            ring
    have hright : (2 : ℚ) ^ eb ≤ (rne (b / (2 : ℚ) ^ fexp b) : ℚ) * (2 : ℚ) ^ fexp b := by
      have hk : 0 ≤ eb - fexp b := by omega
      have h1 : (2 : ℚ) ^ (eb - fexp b) ≤ b / (2 : ℚ) ^ fexp b := by
        rw [le_div_iff₀ (two_zpow_pos _), ← zpow_add₀ (by norm_num : (2 : ℚ) ≠ 0)]
        simpa using b1
      have h2 : (2 : ℚ) ^ (eb - fexp b) ≤ (rne (b / (2 : ℚ) ^ fexp b) : ℚ) := by
        rw [← rne_two_zpow _ hk]
        exact_mod_cast rne_mono h1
      calc (2 : ℚ) ^ eb = (2 : ℚ) ^ (eb - fexp b) * (2 : ℚ) ^ fexp b := by
            rw [← zpow_add₀ (by norm_num : (2 : ℚ) ≠ 0)]
            congr 1
            ring
        _ ≤ (rne (b / (2 : ℚ) ^ fexp b) : ℚ) * (2 : ℚ) ^ fexp b :=
            mul_le_mul_of_nonneg_right h2 (two_zpow_pos _).le
    exact le_trans hleft hright
  · rw [heq]
    apply mul_le_mul_of_nonneg_right _ (two_zpow_pos _).le
    have : a / (2 : ℚ) ^ fexp b ≤ b / (2 : ℚ) ^ fexp b :=
      div_le_div_of_nonneg_right hab (two_zpow_pos _).le
    exact_mod_cast rne_mono this

theorem roundFloat64_nonneg {q : ℚ} (hq : 0 ≤ q) : 0 ≤ roundFloat64 q := by
  rcases lt_or_eq_of_le hq with h | h
  · rw [roundFloat64_pos_eq q h]
    apply mul_nonneg _ (two_zpow_pos _).le
    have h0 : (0 : ℚ) ≤ q / (2 : ℚ) ^ fexp q := div_nonneg hq (two_zpow_pos _).le
    have := rne_mono h0
    have h00 : rne (0 : ℚ) = 0 := by simpa using rne_intCast 0
    rw [h00] at this
    exact_mod_cast this
  · rw [← h]
    simp [roundFloat64]

theorem roundFloat64_neg (q : ℚ) : roundFloat64 (-q) = -roundFloat64 q := by
  unfold roundFloat64
  rcases lt_trichotomy q 0 with h | h | h
  · have h1 : ¬ (-q = 0) := by intro h'; linarith
    have h2 : (0 : ℚ) < -q := by linarith
    have h3 : ¬ (q = 0) := by intro h'; linarith
    have h4 : ¬ ((0 : ℚ) < q) := by linarith
    simp [h1, h2, h3, h4]
  · simp [h]
  · have h1 : ¬ (-q = 0) := by intro h'; linarith
    have h2 : ¬ ((0 : ℚ) < -q) := by linarith
    have h3 : ¬ (q = 0) := by intro h'; linarith
    simp [h1, h2, h3, h]

/-- IEEE rounding is monotone. -/
theorem roundFloat64_mono {a b : ℚ} (hab : a ≤ b) : roundFloat64 a ≤ roundFloat64 b := by
  rcases lt_or_le 0 a with ha | ha
  · exact roundFloat64_mono_pos ha hab
  · rcases le_or_lt 0 b with hb | hb
    · have h1 : roundFloat64 a ≤ 0 := by
        have := roundFloat64_nonneg (q := -a) (by linarith)
        rw [roundFloat64_neg] at this
        linarith
      exact le_trans h1 (roundFloat64_nonneg hb)
    · have h := roundFloat64_mono_pos (a := -b) (b := -a) (by linarith) (by linarith)
      rw [roundFloat64_neg, roundFloat64_neg] at h
      linarith

/-- A positive rational that is a whole number of units of its last place is a float64
value: rounding leaves it as it is. -/
theorem roundFloat64_of_unit_multiple (q : ℚ) (hq : 0 < q) (z : Int)
    (hz : q / (2 : ℚ) ^ fexp q = z) : roundFloat64 q = q := by
  rw [roundFloat64_pos_eq q hq, hz, rne_intCast, ← hz]
  exact div_mul_cancel₀ _ (two_zpow_pos _).ne'

/-- The exponent of a rational below `2 ^ k` is below `k`. -/
theorem floorLog2_rat_lt {q : ℚ} (hq : 0 < q) {k : Int} (h : q < (2 : ℚ) ^ k) :
    floorLog2 q.num.natAbs q.den < k := by
  obtain ⟨h1, -⟩ := floorLog2_rat q hq
  by_contra hge
  push_neg at hge
  have : (2 : ℚ) ^ k ≤ (2 : ℚ) ^ floorLog2 q.num.natAbs q.den :=
    zpow_le_zpow_right₀ (by norm_num) hge
  linarith

/-- The exponent of a rational that is at least `2 ^ k` is at least `k`. -/
theorem le_floorLog2_rat {q : ℚ} (hq : 0 < q) {k : Int} (h : (2 : ℚ) ^ k ≤ q) :
    k ≤ floorLog2 q.num.natAbs q.den := by
  obtain ⟨-, h2⟩ := floorLog2_rat q hq
  by_contra hlt
  push_neg at hlt
  have : (2 : ℚ) ^ (floorLog2 q.num.natAbs q.den + 1) ≤ (2 : ℚ) ^ k :=
    zpow_le_zpow_right₀ (by norm_num) (by omega)
  linarith

/-- An integer times a power of two, the integer below `2 ^ 53` and the exponent not below
the smallest one, is a float64 value. -/
theorem roundFloat64_int_mul_zpow (m : Int) (e : Int) (hm0 : 0 < m) (hm : m ≤ 2 ^ 53)
    (he : -1074 ≤ e) : roundFloat64 ((m : ℚ) * (2 : ℚ) ^ e) = (m : ℚ) * (2 : ℚ) ^ e := by
  set q : ℚ := (m : ℚ) * (2 : ℚ) ^ e with hqdef
  have hmq : (0 : ℚ) < m := by exact_mod_cast hm0
  have hq : 0 < q := mul_pos hmq (two_zpow_pos e)
  rcases lt_or_eq_of_le hm with hlt | heq
  · have hmlt : (m : ℚ) < (2 : ℚ) ^ (53 : Int) := by
      have : ((m : Int) : ℚ) < (((2 : Int) ^ 53 : Int) : ℚ) := by exact_mod_cast hlt
      rw [show (2 : ℚ) ^ (53 : Int) = (((2 : Int) ^ 53 : Int) : ℚ) by norm_num]
      exact this
    have hqlt : q < (2 : ℚ) ^ (e + 53) := by
      rw [zpow_add₀ (by norm_num : (2 : ℚ) ≠ 0), mul_comm ((2 : ℚ) ^ e)]
      exact mul_lt_mul_of_pos_right hmlt (two_zpow_pos e)
    have hL := floorLog2_rat_lt hq hqlt
    have hfe : fexp q ≤ e := by
      unfold fexp
      omega
    have hk : 0 ≤ e - fexp q := by omega
    apply roundFloat64_of_unit_multiple q hq (m * 2 ^ (e - fexp q).toNat)
    rw [hqdef, mul_div_assoc, ← zpow_sub₀ (by norm_num : (2 : ℚ) ≠ 0)]
    push_cast
    rw [← zpow_natCast, Int.toNat_of_nonneg hk]
  · have hq2 : q = (2 : ℚ) ^ (e + 53) := by
      rw [hqdef, heq, zpow_add₀ (by norm_num : (2 : ℚ) ≠ 0), mul_comm]
      norm_num
    have hL1 := le_floorLog2_rat hq (le_of_eq hq2.symm)
    have hL2 := floorLog2_rat_lt hq
      (show q < (2 : ℚ) ^ (e + 54) by
        rw [hq2]
        exact zpow_lt_zpow_right₀ (by norm_num) (by omega))
    have hfe : fexp q = e + 1 := by
      unfold fexp
      omega
    apply roundFloat64_of_unit_multiple q hq ((2 : Int) ^ 52)
    rw [hfe, hq2, ← zpow_sub₀ (by norm_num : (2 : ℚ) ≠ 0)]
    have : e + 53 - (e + 1) = (52 : Int) := by ring
    rw [this]
    norm_num

/-- The significand that rounding gives is at most `2 ^ 53`. -/
theorem rne_significand_le (q : ℚ) (hq : 0 < q) :
    rne (q / (2 : ℚ) ^ fexp q) ≤ 2 ^ 53 := by
  obtain ⟨-, h2⟩ := floorLog2_rat q hq
  have hfe : floorLog2 q.num.natAbs q.den + 1 ≤ fexp q + 53 := by
    unfold fexp
    omega
  have h3 : q < (2 : ℚ) ^ (fexp q + 53) :=
    lt_of_lt_of_le h2 (zpow_le_zpow_right₀ (by norm_num) hfe)
  have h4 : q / (2 : ℚ) ^ fexp q ≤ (((2 : Int) ^ 53 : Int) : ℚ) := by
    rw [div_le_iff₀ (two_zpow_pos _)]
    have : (((2 : Int) ^ 53 : Int) : ℚ) * (2 : ℚ) ^ fexp q = (2 : ℚ) ^ (fexp q + 53) := by
      rw [zpow_add₀ (by norm_num : (2 : ℚ) ≠ 0), mul_comm]
      norm_num
    rw [this]
    exact h3.le
  have := rne_mono h4
  rwa [rne_intCast] at this

theorem fexp_ge (q : ℚ) : -1074 ≤ fexp q := by
  unfold fexp
  omega

/-- IEEE rounding leaves a rounded value as it is. -/
theorem roundFloat64_idem_pos (q : ℚ) (hq : 0 < q) :
    roundFloat64 (roundFloat64 q) = roundFloat64 q := by
  have hnn : 0 ≤ rne (q / (2 : ℚ) ^ fexp q) := by
    have h0 : (0 : ℚ) ≤ q / (2 : ℚ) ^ fexp q := div_nonneg hq.le (two_zpow_pos _).le
    have := rne_mono h0
    have h00 : rne (0 : ℚ) = 0 := by simpa using rne_intCast 0
    rwa [h00] at this
  rw [roundFloat64_pos_eq q hq]
  rcases lt_or_eq_of_le hnn with hpos | hzero
  · exact roundFloat64_int_mul_zpow _ _ hpos (rne_significand_le q hq) (fexp_ge q)
  · rw [← hzero]
    simp [roundFloat64]

theorem roundFloat64_idem (q : ℚ) : roundFloat64 (roundFloat64 q) = roundFloat64 q := by
  rcases lt_trichotomy q 0 with h | h | h
  · have := roundFloat64_idem_pos (-q) (by linarith)
    rw [roundFloat64_neg, roundFloat64_neg] at this
    linarith
  · rw [h]
    simp [roundFloat64]
  · exact roundFloat64_idem_pos q h

/-- IEEE rounding leaves an integer of at most 53 bits as it is. -/
theorem roundFloat64_intCast (n : Int) (h0 : 0 ≤ n) (h : n ≤ 2 ^ 53) :
    roundFloat64 (n : ℚ) = n := by
  rcases lt_or_eq_of_le h0 with hpos | hzero
  · have := roundFloat64_int_mul_zpow n 0 hpos h (by norm_num)
    simpa using this
  · rw [← hzero]
    simp [roundFloat64]

/-- IEEE rounding moves a value of the normal range by at most the fraction `2 ^ (-53)`
of itself. -/
theorem roundFloat64_accurate (q : ℚ) (hq : (2 : ℚ) ^ (-1022 : Int) ≤ q) :
    |roundFloat64 q - q| ≤ q / 2 ^ 53 := by
  have hpos : 0 < q := lt_of_lt_of_le (two_zpow_pos _) hq
  obtain ⟨h1, -⟩ := floorLog2_rat q hpos
  have hL := le_floorLog2_rat hpos hq
  have hfe : fexp q = floorLog2 q.num.natAbs q.den - 52 := by
    unfold fexp
    omega
  rw [roundFloat64_pos_eq q hpos]
  have hsplit : (rne (q / (2 : ℚ) ^ fexp q) : ℚ) * (2 : ℚ) ^ fexp q - q =
      ((rne (q / (2 : ℚ) ^ fexp q) : ℚ) - q / (2 : ℚ) ^ fexp q) * (2 : ℚ) ^ fexp q := by
    rw [sub_mul, div_mul_cancel₀ _ (two_zpow_pos _).ne']
  rw [hsplit, abs_mul, abs_of_pos (two_zpow_pos _)]
  have hr := rne_abs_le (q / (2 : ℚ) ^ fexp q)
  have hb : (2 : ℚ) ^ fexp q = (2 : ℚ) ^ floorLog2 q.num.natAbs q.den / 2 ^ 52 := by
    rw [hfe, zpow_sub₀ (by norm_num : (2 : ℚ) ≠ 0)]
    norm_num
  calc |(rne (q / (2 : ℚ) ^ fexp q) : ℚ) - q / (2 : ℚ) ^ fexp q| * (2 : ℚ) ^ fexp q
      ≤ 1 / 2 * (2 : ℚ) ^ fexp q := mul_le_mul_of_nonneg_right hr (two_zpow_pos _).le
    _ = (2 : ℚ) ^ floorLog2 q.num.natAbs q.den / 2 ^ 53 := by
        rw [hb]
        ring
    _ ≤ q / 2 ^ 53 := div_le_div_of_nonneg_right h1 (by positivity)

theorem expSeries_one_le {z : ℚ} (hz : 0 ≤ z) : ∀ (fuel k : Nat), 1 ≤ expSeries z fuel k := by
  intro fuel
  induction fuel with
  | zero => intro k; simp [expSeries]
  | succ n ih =>
    intro k
    have h1 := ih (k + 1)
    have h2 : (0 : ℚ) ≤ z / k := div_nonneg hz (by positivity)
    have h3 : 0 ≤ z / k * expSeries z n (k + 1) := mul_nonneg h2 (by linarith)
    simp only [expSeries]
    linarith

theorem expSeries_mono {a b : ℚ} (ha : 0 ≤ a) (hab : a ≤ b) :
    ∀ (fuel k : Nat), expSeries a fuel k ≤ expSeries b fuel k := by
  intro fuel
  induction fuel with
  | zero => intro k; simp [expSeries]
  | succ n ih =>
    intro k
    have h1 := ih (k + 1)
    have h2 : (0 : ℚ) ≤ a / k := div_nonneg ha (by positivity)
    have h3 : a / k ≤ b / k := div_le_div_of_nonneg_right hab (by positivity)
    have h4 := expSeries_one_le ha n (k + 1)
    have h5 : a / k * expSeries a n (k + 1) ≤ b / k * expSeries b n (k + 1) :=
      mul_le_mul h3 h1 (by linarith) (le_trans h2 h3)
    simp only [expSeries]
    linarith

/-- The series at `ln 2` stays below 2: the lower bound of `ln 2` is below `ln 2`. -/
theorem expSeries_ln2Lower_le : expSeries ln2Lower 30 1 ≤ 2 := by decide!

theorem expSeries_zero : expSeries 0 30 1 = 1 := by decide!

theorem ln2Lower_nonneg : (0 : ℚ) ≤ ln2Lower := by decide!

theorem pow2Approx_lower (y : ℚ) : (2 : ℚ) ^ ⌊y⌋ ≤ pow2Approx y := by
  unfold pow2Approx
  have hfr : (0 : ℚ) ≤ y - ⌊y⌋ := by linarith [Int.floor_le y]
  have h := expSeries_one_le (mul_nonneg ln2Lower_nonneg hfr) 30 1
  have := mul_le_mul_of_nonneg_left h (two_zpow_pos ⌊y⌋).le
  simpa using this

theorem pow2Approx_upper (y : ℚ) : pow2Approx y ≤ (2 : ℚ) ^ (⌊y⌋ + 1) := by
  unfold pow2Approx
  have hfr0 : (0 : ℚ) ≤ y - ⌊y⌋ := by linarith [Int.floor_le y]
  have hfr1 : y - ⌊y⌋ ≤ 1 := by linarith [Int.lt_floor_add_one y]
  have hz : ln2Lower * (y - ⌊y⌋) ≤ ln2Lower := by
    have := mul_le_mul_of_nonneg_left hfr1 ln2Lower_nonneg
    simpa using this
  have h := le_trans (expSeries_mono (mul_nonneg ln2Lower_nonneg hfr0) hz 30 1)
    expSeries_ln2Lower_le
  rw [zpow_add₀ (by norm_num : (2 : ℚ) ≠ 0), zpow_one]
  exact mul_le_mul_of_nonneg_left h (two_zpow_pos ⌊y⌋).le

/-- The approximated power of two grows with the exponent. -/
theorem pow2Approx_mono {a b : ℚ} (hab : a ≤ b) : pow2Approx a ≤ pow2Approx b := by
  rcases lt_or_eq_of_le (Int.floor_le_floor hab) with hlt | heq
  · calc pow2Approx a ≤ (2 : ℚ) ^ (⌊a⌋ + 1) := pow2Approx_upper a
      _ ≤ (2 : ℚ) ^ ⌊b⌋ := zpow_le_zpow_right₀ (by norm_num) hlt
      _ ≤ pow2Approx b := pow2Approx_lower b
  · unfold pow2Approx
    rw [heq]
    apply mul_le_mul_of_nonneg_left _ (two_zpow_pos ⌊b⌋).le
    apply expSeries_mono
    · apply mul_nonneg ln2Lower_nonneg
      have := Int.floor_le a
      rw [heq] at this
      linarith
    · apply mul_le_mul_of_nonneg_left _ ln2Lower_nonneg
      linarith

theorem pow2Approx_zero : pow2Approx 0 = 1 := by
  unfold pow2Approx
  simp [expSeries_zero]

theorem roundFloat64_one : roundFloat64 1 = 1 := by decide!

/-- The rounding of IEEE arithmetic is lawful. -/
theorem Float64.ieee_lawful : Float64.ieee.Lawful := by
  refine ⟨fun a b h => roundFloat64_mono h, roundFloat64_idem, ?_⟩
  intro q hq
  simp only [List.mem_cons, List.mem_singleton, List.not_mem_nil, or_false] at hq
  rcases hq with h | h | h | h | h | h | h | h | h | h | h <;> subst h <;> decide!

/-- The power of IEEE arithmetic lies between 0 and 1 at exponents that are not
positive. -/
theorem Float64.ieee_powUnit : Float64.ieee.PowUnit := by
  intro y hy
  show 0 ≤ (if (2 : ℚ) = 2 then roundFloat64 (pow2Approx y) else roundFloat64 ((2 : ℚ) ^ ⌊y⌋)) ∧
    (if (2 : ℚ) = 2 then roundFloat64 (pow2Approx y) else roundFloat64 ((2 : ℚ) ^ ⌊y⌋)) ≤ 1
  rw [if_pos rfl]
  constructor
  · exact roundFloat64_nonneg (le_trans (two_zpow_pos ⌊y⌋).le (pow2Approx_lower y))
  · have h := roundFloat64_mono (pow2Approx_mono hy)
    rwa [pow2Approx_zero, roundFloat64_one] at h

/-- **C12 (amended).** For every float64 arithmetic in which 0, 1, the partial sums of
the weights and 100 are float64 values and `math.Pow(2, 0)` is 1,
`CalculateRank(false, 0, 0, 0, 0, 0, 0)` yields the lowest grade `C` and the percentile
100. -/
theorem C12_zero_counters_lowest_grade_percentile_100 (F : Float64)
    (hround : ∀ q ∈ ([0, 1, 5, 6, 7, 11, 12, 100] : List ℚ), F.round q = q)
    (hpow : F.Pow 2 0 = 1) :
    CalculateRank F false 0 0 0 0 0 0 = { Level := "C", Percentile := 100 } := by
  have h0 : F.round 0 = 0 := hround 0 (by simp)
  have h1 : F.round 1 = 1 := hround 1 (by simp)
  have h5 : F.round 5 = 5 := hround 5 (by simp)
  have h6 : F.round 6 = 6 := hround 6 (by simp)
  have h7 : F.round 7 = 7 := hround 7 (by simp)
  have h11 : F.round 11 = 11 := hround 11 (by simp)
  have h12 : F.round 12 = 12 := hround 12 (by simp)
  have h100 : F.round 100 = 100 := hround 100 (by simp)
  have hE : ∀ m : ℚ, exponentialCDF F (F.div (F.ofInt 0) m) = 0 := by
    intro m
    simp [exponentialCDF, Float64.div, Float64.ofInt, Float64.sub, h0, hpow]
  have hR : ∀ m : ℚ, logNormalCDF F (F.div (F.ofInt 0) m) = 0 := by
    intro m
    simp [logNormalCDF, Float64.div, Float64.ofInt, Float64.add, h0, h1]
  have hw : F.add (F.add (F.add (F.add (F.add 2 3) 1) 1) 4) 1 = 12 := by
    simp only [Float64.add]
    norm_num [h5, h6, h7, h11, h12]
  simp only [CalculateRank, hE, hR, hw]
  simp only [Float64.mul, Float64.add, Float64.div, Float64.sub, mul_zero, add_zero, h0,
    zero_div, sub_zero, h1, one_mul, h100, Bool.false_eq_true, if_false]
  have hl : levelLoop 100 thresholds 0 (levels.getD (levels.length - 1) "") = "C" := by
    simp only [thresholds, levelLoop]
    norm_num
    rfl
  rw [hl]

/-- Witness of C12 (amended): the IEEE arithmetic. -/
theorem C12_zero_counters_lowest_grade_percentile_100_witness :
    CalculateRank Float64.ieee false 0 0 0 0 0 0 = { Level := "C", Percentile := 100 } :=
  C12_zero_counters_lowest_grade_percentile_100 Float64.ieee (by decide!) (by decide!)

/-- **C12, counterexample.** In IEEE arithmetic `CalculateRank(false, 0, 0, 0, 0, 0, 0)`
has the lowest grade `C` and the percentile 100, which is not 0. -/
theorem C12_counterexample_percentile_is_100 :
    (CalculateRank Float64.ieee false 0 0 0 0 0 0).Level = "C" ∧
      (CalculateRank Float64.ieee false 0 0 0 0 0 0).Percentile = 100 ∧
      (CalculateRank Float64.ieee false 0 0 0 0 0 0).Percentile ≠ 0 :=
  ⟨by decide!, by decide!, by decide!⟩

theorem counterArg_mono {F : Float64} (hF : F.Lawful) {n k : Int} (h : n ≤ k) {m : ℚ}
    (hm : 0 ≤ m) : F.div (F.ofInt n) m ≤ F.div (F.ofInt k) m := by
  unfold Float64.div Float64.ofInt
  apply hF.mono
  apply div_le_div_of_nonneg_right _ hm
  apply hF.mono
  exact_mod_cast h

theorem counterArg_nonneg {F : Float64} (hF : F.Lawful) {n : Int} (h : 0 ≤ n) {m : ℚ}
    (hm : 0 ≤ m) : 0 ≤ F.div (F.ofInt n) m := by
  unfold Float64.div Float64.ofInt
  apply hF.round_nonneg
  apply div_nonneg _ hm
  apply hF.round_nonneg
  exact_mod_cast h

theorem Float64.mul_mono {F : Float64} (hF : F.Lawful) {w a b : ℚ} (hw : 0 ≤ w)
    (h : a ≤ b) : F.mul w a ≤ F.mul w b :=
  hF.mono _ _ (mul_le_mul_of_nonneg_left h hw)

theorem Float64.add_mono {F : Float64} (hF : F.Lawful) {a b c d : ℚ} (h1 : a ≤ c)
    (h2 : b ≤ d) : F.add a b ≤ F.add c d :=
  hF.mono _ _ (add_le_add h1 h2)

theorem Float64.mul_mono_right {F : Float64} (hF : F.Lawful) {a b : ℚ} (h : a ≤ b) :
    F.mul a 100 ≤ F.mul b 100 :=
  hF.mono _ _ (mul_le_mul_of_nonneg_right h (by norm_num))

/-- The sum of the weights is 12 in lawful arithmetic. -/
theorem totalWeight_eq {F : Float64} (hF : F.Lawful) :
    F.add (F.add (F.add (F.add (F.add 2 3) 1) 1) 4) 1 = 12 := by
  have h5 : F.round 5 = 5 := hF.exact 5 (by simp)
  have h6 : F.round 6 = 6 := hF.exact 6 (by simp)
  have h7 : F.round 7 = 7 := hF.exact 7 (by simp)
  have h11 : F.round 11 = 11 := hF.exact 11 (by simp)
  have h12 : F.round 12 = 12 := hF.exact 12 (by simp)
  simp only [Float64.add]
  norm_num [h5, h6, h7, h11, h12]

/-- The real power `2 ^ (-d)` lies between `1 - d` and 1 for `d ≥ 0`. -/
theorem two_rpow_neg_bounds {d : ℝ} (hd : 0 ≤ d) :
    1 - d ≤ (2 : ℝ) ^ (-d) ∧ (2 : ℝ) ^ (-d) ≤ 1 := by
  constructor
  · rw [Real.rpow_def_of_pos (by norm_num : (0 : ℝ) < 2)]
    have h1 := Real.add_one_le_exp (Real.log 2 * -d)
    have h2 : Real.log 2 ≤ 1 := by
      have := Real.log_two_lt_d9
      linarith
    nlinarith
  · exact Real.rpow_le_one_of_one_le_of_nonpos (by norm_num) (by linarith)

/-- The decrease of `2 ^ (-y)` from `a` to `b ≥ a` is at most `2 ^ (-a) * (b - a)`. -/
theorem two_rpow_neg_sub_le {a b : ℝ} (hab : a ≤ b) :
    0 ≤ (2 : ℝ) ^ (-a) - (2 : ℝ) ^ (-b) ∧
      (2 : ℝ) ^ (-a) - (2 : ℝ) ^ (-b) ≤ (2 : ℝ) ^ (-a) * (b - a) := by
  have hsplit : (2 : ℝ) ^ (-b) = (2 : ℝ) ^ (-a) * (2 : ℝ) ^ (-(b - a)) := by
    rw [← Real.rpow_add (by norm_num : (0 : ℝ) < 2)]
    congr 1
    ring
  obtain ⟨h1, h2⟩ := two_rpow_neg_bounds (d := b - a) (by linarith)
  have hpos : 0 < (2 : ℝ) ^ (-a) := Real.rpow_pos_of_pos (by norm_num) _
  rw [hsplit]
  constructor
  · nlinarith
  · nlinarith

/-- The product `t * 2 ^ (-t / 2)` stays below 3. -/
theorem mul_two_rpow_neg_half_le {t : ℝ} (ht : 0 ≤ t) : t * (2 : ℝ) ^ (-(t / 2)) ≤ 3 := by
  have hpos : 0 < (2 : ℝ) ^ (-(t / 2)) := Real.rpow_pos_of_pos (by norm_num) _
  have hinv : (2 : ℝ) ^ (t / 2) * (2 : ℝ) ^ (-(t / 2)) = 1 := by
    rw [← Real.rpow_add (by norm_num : (0 : ℝ) < 2)]
    simp
  have hge : t ≤ 3 * (2 : ℝ) ^ (t / 2) := by
    rw [Real.rpow_def_of_pos (by norm_num : (0 : ℝ) < 2)]
    have h1 := Real.add_one_le_exp (Real.log 2 * (t / 2))
    have h2 : (2 : ℝ) / 3 ≤ Real.log 2 := by
      have := Real.log_two_gt_d9
      norm_num at this ⊢
      linarith
    nlinarith
  calc t * (2 : ℝ) ^ (-(t / 2)) ≤ 3 * (2 : ℝ) ^ (t / 2) * (2 : ℝ) ^ (-(t / 2)) :=
        mul_le_mul_of_nonneg_right hge hpos.le
    _ = 3 := by rw [mul_assoc, hinv, mul_one]

/-- The power `2 ^ (-x)` at an argument `x` that carries the relative error `u` and the
absolute error `η` of a rounding of `t`: it is within `6 u + 2 η` of `2 ^ (-t)`. -/
theorem two_rpow_neg_close {t x u η : ℝ} (ht : 0 ≤ t) (hu0 : 0 ≤ u)
    (hu : u ≤ 1 / 4) (hη0 : 0 ≤ η) (hη : η ≤ 1 / 4) (h : |x - t| ≤ t * u + η) :
    |(2 : ℝ) ^ (-x) - (2 : ℝ) ^ (-t)| ≤ 6 * u + 2 * η := by
  obtain ⟨hl, hr⟩ := abs_le.mp h
  have htu : t * u ≤ t * (1 / 4) := mul_le_mul_of_nonneg_left hu ht
  have hhalf : (2 : ℝ) ^ (-(t / 2)) ≤ 1 :=
    Real.rpow_le_one_of_one_le_of_nonpos (by norm_num) (by linarith)
  have hhalf0 : 0 < (2 : ℝ) ^ (-(t / 2)) := Real.rpow_pos_of_pos (by norm_num) _
  have hprod := mul_two_rpow_neg_half_le ht
  -- the value at the smaller of the two arguments is at most `2 * 2 ^ (-t / 2)`
  have hsmall : ∀ a : ℝ, t / 2 - 1 ≤ a → (2 : ℝ) ^ (-a) ≤ 2 * (2 : ℝ) ^ (-(t / 2)) := by
    intro a ha
    have h1 : (2 : ℝ) ^ (-a) ≤ (2 : ℝ) ^ (1 + -(t / 2)) :=
      Real.rpow_le_rpow_of_exponent_le (by norm_num) (by linarith)
    rw [Real.rpow_add (by norm_num : (0 : ℝ) < 2), Real.rpow_one] at h1
    exact h1
  have hbound : ∀ a b : ℝ, a ≤ b → t / 2 - 1 ≤ a → b - a ≤ t * u + η →
      (2 : ℝ) ^ (-a) - (2 : ℝ) ^ (-b) ≤ 6 * u + 2 * η := by
    intro a b hab ha hba
    obtain ⟨-, h2⟩ := two_rpow_neg_sub_le hab
    have h3 := hsmall a ha
    have hpos : 0 < (2 : ℝ) ^ (-a) := Real.rpow_pos_of_pos (by norm_num) _
    have h4 : (2 : ℝ) ^ (-a) * (b - a) ≤ 2 * (2 : ℝ) ^ (-(t / 2)) * (t * u + η) :=
      mul_le_mul h3 hba (by linarith) (by linarith)
    have h5 : 2 * (2 : ℝ) ^ (-(t / 2)) * (t * u + η) =
        2 * u * (t * (2 : ℝ) ^ (-(t / 2))) + 2 * η * (2 : ℝ) ^ (-(t / 2)) := by ring
    have h6 : 2 * u * (t * (2 : ℝ) ^ (-(t / 2))) ≤ 2 * u * 3 :=
      mul_le_mul_of_nonneg_left hprod (by linarith)
    have h7 : 2 * η * (2 : ℝ) ^ (-(t / 2)) ≤ 2 * η * 1 :=
      mul_le_mul_of_nonneg_left hhalf (by linarith)
    linarith
  rcases le_total x t with hxt | hxt
  · obtain ⟨h0, -⟩ := two_rpow_neg_sub_le hxt
    have := hbound x t hxt (by linarith) (by linarith)
    rw [abs_of_nonneg h0]
    exact this
  · obtain ⟨h0, -⟩ := two_rpow_neg_sub_le hxt
    have := hbound t x hxt (by linarith) (by linarith)
    rw [abs_sub_comm, abs_of_nonneg h0]
    exact this

/-- The quotient `x / D` of a rounded argument `x` of `t` and a rounded denominator `D`
of `1 + x` is within `3 u + 2 η` of `t / (1 + t)`. -/
theorem ratio_close {t x D u η : ℝ} (ht : 0 ≤ t) (hx : 0 ≤ x) (hD : 1 ≤ D) (hu0 : 0 ≤ u)
    (hu : u ≤ 1 / 4) (hη0 : 0 ≤ η) (hη : η ≤ 1 / 4) (h1 : |x - t| ≤ t * u + η)
    (h2 : |D - (1 + x)| ≤ (1 + x) * u + η) : |x / D - t / (1 + t)| ≤ 3 * u + 2 * η := by
  have hD0 : 0 < D := by linarith
  have ht1 : 0 < 1 + t := by linarith
  obtain ⟨h1l, h1r⟩ := abs_le.mp h1
  obtain ⟨h2l, h2r⟩ := abs_le.mp h2
  have hxu : (1 + x) * u ≤ (1 + x) * (1 / 4) := mul_le_mul_of_nonneg_left hu (by linarith)
  have hD2 : 1 + x ≤ 2 * D := by linarith
  have hden : 0 < D * (1 + t) := mul_pos hD0 ht1
  have hdiff : x / D - t / (1 + t) = ((x - t) - t * (D - (1 + x))) / (D * (1 + t)) := by
    field_simp
    ring
  rw [hdiff, abs_div, abs_of_pos hden, div_le_iff₀ hden]
  have hnum : |(x - t) - t * (D - (1 + x))| ≤ (t * u + η) + t * ((1 + x) * u + η) := by
    calc |(x - t) - t * (D - (1 + x))| ≤ |x - t| + |t * (D - (1 + x))| := abs_sub _ _
      _ = |x - t| + t * |D - (1 + x)| := by rw [abs_mul, abs_of_nonneg ht]
      _ ≤ (t * u + η) + t * ((1 + x) * u + η) :=
          add_le_add h1 (mul_le_mul_of_nonneg_left h2 ht)
  refine le_trans hnum ?_
  -- each part of the numerator against its share of `(3 u + 2 η) * (D * (1 + t))`
  have hDt : 1 + t ≤ D * (1 + t) := by nlinarith
  have p1 : t * u ≤ u * (D * (1 + t)) := by nlinarith
  have p2 : η + t * η ≤ 2 * η * (D * (1 + t)) := by nlinarith
  have p3 : t * ((1 + x) * u) ≤ 2 * u * (D * (1 + t)) := by
    have : t * (1 + x) ≤ (1 + t) * (2 * D) :=
      mul_le_mul (by linarith) hD2 (by linarith) (by linarith)
    nlinarith
  nlinarith

/-- One rounded operation: when the exact result `q` of the operation on the computed
operands is within `α` of the real value `X`, and `X` is at most `K` in absolute value, the
rounded result is within `α + 1.12e-16 * K` of `X`. -/
theorem Float64.RoundsWithin.step {F : Float64} (hA : F.RoundsWithin) {q : ℚ}
    {X α K : ℝ} (h : |(q : ℝ) - X| ≤ α) (hX : |X| ≤ K) (hK1 : 1 ≤ K) (hK2 : K ≤ 1000)
    (hα : α ≤ 1 / 1000) : |((F.round q : ℚ) : ℝ) - X| ≤ α + K * (112 / 10 ^ 18) := by
  have hα0 : 0 ≤ α := le_trans (abs_nonneg _) h
  have hq : |(q : ℝ)| ≤ K + α := by
    have := abs_sub_abs_le_abs_sub (q : ℝ) X
    linarith
  have hq64 : |q| ≤ 2 ^ 64 := by
    have h1 : |(q : ℝ)| ≤ 2 ^ 64 := by
      have : (1001 : ℝ) ≤ 2 ^ 64 := by norm_num
      linarith
    have h2 : ((|q| : ℚ) : ℝ) ≤ (((2 : ℚ) ^ 64 : ℚ) : ℝ) := by
      push_cast
      exact h1
    exact_mod_cast h2
  have hr : |((F.round q : ℚ) : ℝ) - (q : ℝ)| ≤ |(q : ℝ)| / 2 ^ 53 + 1 / 2 ^ 1075 := by
    have h1 := hA q hq64
    have h2 : ((|F.round q - q| : ℚ) : ℝ) ≤ ((|q| / 2 ^ 53 + 1 / 2 ^ 1075 : ℚ) : ℝ) :=
      Rat.cast_le.mpr h1
    push_cast at h2
    exact h2
  have hu : |(q : ℝ)| / 2 ^ 53 ≤ (K + α) * (1111 / 10 ^ 19) := by
    rw [div_eq_mul_one_div]
    have h53 : (1 : ℝ) / 2 ^ 53 ≤ 1111 / 10 ^ 19 := by norm_num
    exact mul_le_mul hq h53 (by positivity) (by linarith)
  have hη : (1 : ℝ) / 2 ^ 1075 ≤ 1 / 10 ^ 20 := by
    rw [div_le_div_iff₀ (by positivity) (by positivity)]
    norm_num
  have htri : |((F.round q : ℚ) : ℝ) - X| ≤
      |((F.round q : ℚ) : ℝ) - (q : ℝ)| + |(q : ℝ) - X| := abs_sub_le _ _ _
  nlinarith

/-- The argument handed to a transform: the rounded quotient of a counter and its median
is not negative and carries the error of one rounding. -/
theorem counterArg_close {F : Float64} (hF : F.Lawful) (hA : F.RoundsWithin)
    (hI : F.ExactInt) {n : Int} (hn0 : 0 ≤ n) (hn : n ≤ 2 ^ 53) {m : ℚ} (hm : 1 ≤ m) :
    0 ≤ ((F.div (F.ofInt n) m : ℚ) : ℝ) ∧
      |((F.div (F.ofInt n) m : ℚ) : ℝ) - (n : ℝ) / (m : ℝ)| ≤
        (n : ℝ) / (m : ℝ) * (1 / 2 ^ 53) + 1 / 2 ^ 1075 := by
  have hm0 : (0 : ℚ) < m := by linarith
  have hnq0 : (0 : ℚ) ≤ n := by exact_mod_cast hn0
  have hnq : (n : ℚ) ≤ 2 ^ 53 := by exact_mod_cast hn
  have ht0 : (0 : ℚ) ≤ (n : ℚ) / m := div_nonneg hnq0 hm0.le
  have htn : (n : ℚ) / m ≤ n := div_le_self hnq0 hm
  constructor
  · have := counterArg_nonneg hF hn0 hm0.le
    exact_mod_cast this
  · unfold Float64.div Float64.ofInt
    rw [hI n hn0 hn]
    have h64 : |(n : ℚ) / m| ≤ 2 ^ 64 := by
      rw [abs_of_nonneg ht0]
      have : (2 : ℚ) ^ 53 ≤ 2 ^ 64 := by norm_num
      linarith
    have h1 := hA ((n : ℚ) / m) h64
    rw [abs_of_nonneg ht0] at h1
    have h2 : ((|F.round ((n : ℚ) / m) - (n : ℚ) / m| : ℚ) : ℝ) ≤
        (((n : ℚ) / m / 2 ^ 53 + 1 / 2 ^ 1075 : ℚ) : ℝ) := Rat.cast_le.mpr h1
    push_cast at h2
    rw [div_eq_mul_one_div ((n : ℝ) / (m : ℝ))] at h2
    exact h2

/-- The exponential transform of a counter is within `1.8e-15` of the real number
`E(n / m) = 1 - 2 ^ (-(n / m))`. -/
theorem exponentialCDF_close {F : Float64} (hF : F.Lawful) (hA : F.RoundsWithin)
    (hI : F.ExactInt) (hPw : F.PowAccurate) {n : Int} (hn0 : 0 ≤ n) (hn : n ≤ 2 ^ 53)
    {m : ℚ} (hm : 1 ≤ m) :
    |((exponentialCDF F (F.div (F.ofInt n) m) : ℚ) : ℝ) -
        specE (fun x y : ℝ => x ^ y) ((n : ℝ) / (m : ℝ))| ≤ 18 / 10 ^ 16 ∧
      |specE (fun x y : ℝ => x ^ y) ((n : ℝ) / (m : ℝ))| ≤ 1 := by
  obtain ⟨hx0, hx⟩ := counterArg_close hF hA hI hn0 hn hm
  have hm0 : (0 : ℝ) < (m : ℝ) := by
    have : (0 : ℚ) < m := by linarith
    exact_mod_cast this
  have ht0 : (0 : ℝ) ≤ (n : ℝ) / (m : ℝ) :=
    div_nonneg (by exact_mod_cast hn0) hm0.le
  set x : ℚ := F.div (F.ofInt n) m with hxdef
  set t : ℝ := (n : ℝ) / (m : ℝ) with htdef
  have hxq0 : (0 : ℚ) ≤ x := by exact_mod_cast hx0
  have hP := hPw (-x) (by linarith)
  have hcast : (((-x : ℚ) : ℚ) : ℝ) = -(x : ℝ) := by push_cast; ring
  rw [hcast] at hP
  have hclose := two_rpow_neg_close (t := t) (x := (x : ℝ)) (u := 1 / 2 ^ 53)
    (η := 1 / 2 ^ 1075) ht0 (by positivity) (by norm_num) (by positivity)
    (by
      rw [div_le_div_iff₀ (by positivity) (by positivity)]
      norm_num) hx
  have hη : (1 : ℝ) / 2 ^ 1075 ≤ 1 / 10 ^ 20 := by
    rw [div_le_div_iff₀ (by positivity) (by positivity)]
    norm_num
  obtain ⟨hb1, hb2⟩ := two_rpow_neg_bounds ht0
  have hpos : 0 < (2 : ℝ) ^ (-t) := Real.rpow_pos_of_pos (by norm_num) _
  have hPx : (2 : ℝ) ^ (-(x : ℝ)) / 2 ^ 50 ≤ 1 / 2 ^ 50 :=
    div_le_div_of_nonneg_right (two_rpow_neg_bounds hx0).2 (by positivity)
  have hE : |specE (fun x y : ℝ => x ^ y) t| ≤ 1 := by
    simp only [specE]
    rw [abs_le]
    constructor <;> linarith
  refine ⟨?_, hE⟩
  unfold exponentialCDF Float64.sub
  have hv : |(((1 - F.Pow 2 (-x) : ℚ) : ℚ) : ℝ) - specE (fun x y : ℝ => x ^ y) t| ≤
      16 / 10 ^ 16 := by
    simp only [specE]
    push_cast
    have h1 : (1 : ℝ) - ((F.Pow 2 (-x) : ℚ) : ℝ) - (1 - (2 : ℝ) ^ (-t)) =
        -((((F.Pow 2 (-x) : ℚ) : ℝ) - (2 : ℝ) ^ (-(x : ℝ))) +
          ((2 : ℝ) ^ (-(x : ℝ)) - (2 : ℝ) ^ (-t))) := by ring
    rw [h1, abs_neg]
    have h2 := abs_add (((F.Pow 2 (-x) : ℚ) : ℝ) - (2 : ℝ) ^ (-(x : ℝ)))
      ((2 : ℝ) ^ (-(x : ℝ)) - (2 : ℝ) ^ (-t))
    have h3 : (1 : ℝ) / 2 ^ 50 + 1 / 10 ^ 20 + (6 * (1 / 2 ^ 53) + 2 * (1 / 10 ^ 20)) ≤
        16 / 10 ^ 16 := by
      norm_num
    linarith
  have := hA.step hv hE (le_refl 1) (by norm_num) (by norm_num)
  have h4 : (16 : ℝ) / 10 ^ 16 + 1 * (112 / 10 ^ 18) ≤ 18 / 10 ^ 16 := by norm_num
  linarith

/-- The rational transform of a counter is within `6e-16` of the real number
`R(n, med) = n / (n + med)`. -/
theorem logNormalCDF_close {F : Float64} (hF : F.Lawful) (hA : F.RoundsWithin)
    (hI : F.ExactInt) {n : Int} (hn0 : 0 ≤ n) (hn : n ≤ 2 ^ 53) {m : ℚ} (hm : 1 ≤ m) :
    |((logNormalCDF F (F.div (F.ofInt n) m) : ℚ) : ℝ) - specR (n : ℝ) (m : ℝ)| ≤
        6 / 10 ^ 16 ∧
      |specR (n : ℝ) (m : ℝ)| ≤ 1 := by
  obtain ⟨hx0, hx⟩ := counterArg_close hF hA hI hn0 hn hm
  have hm1 : (1 : ℝ) ≤ (m : ℝ) := by exact_mod_cast hm
  have hm0 : (0 : ℝ) < (m : ℝ) := by linarith
  have hnr0 : (0 : ℝ) ≤ (n : ℝ) := by exact_mod_cast hn0
  have hnr : (n : ℝ) ≤ 2 ^ 53 := by exact_mod_cast hn
  have ht0 : (0 : ℝ) ≤ (n : ℝ) / (m : ℝ) := div_nonneg hnr0 hm0.le
  have htn : (n : ℝ) / (m : ℝ) ≤ n := div_le_self hnr0 hm1
  set x : ℚ := F.div (F.ofInt n) m with hxdef
  set t : ℝ := (n : ℝ) / (m : ℝ) with htdef
  have hxq0 : (0 : ℚ) ≤ x := by exact_mod_cast hx0
  have hη : (1 : ℝ) / 2 ^ 1075 ≤ 1 / 10 ^ 20 := by
    rw [div_le_div_iff₀ (by positivity) (by positivity)]
    norm_num
  have hspec : specR (n : ℝ) (m : ℝ) = t / (1 + t) := by
    unfold specR
    have h2 : (m : ℝ) * (1 + (n : ℝ) / (m : ℝ)) = (n : ℝ) + (m : ℝ) := by
      field_simp
      ring
    rw [htdef, div_div, h2]
  have hR : |specR (n : ℝ) (m : ℝ)| ≤ 1 := by
    rw [hspec, abs_of_nonneg (div_nonneg ht0 (by linarith)), div_le_one (by linarith)]
    linarith
  refine ⟨?_, hR⟩
  -- the argument is at most `2 ^ 55`
  have hxle : (x : ℝ) ≤ 2 ^ 55 := by
    obtain ⟨-, h2⟩ := abs_le.mp hx
    have h3 : t * (1 / 2 ^ 53) ≤ t * 1 :=
      mul_le_mul_of_nonneg_left (by norm_num) ht0
    have : (2 : ℝ) ^ 53 + 2 ^ 53 + 1 / 10 ^ 20 ≤ 2 ^ 55 := by norm_num
    linarith
  have hD64 : |1 + x| ≤ 2 ^ 64 := by
    rw [abs_of_nonneg (by linarith)]
    have h1 : ((1 + x : ℚ) : ℝ) ≤ 2 ^ 64 := by
      push_cast
      have : (2 : ℝ) ^ 55 + 1 ≤ 2 ^ 64 := by norm_num
      linarith
    exact_mod_cast h1
  have hD := hA (1 + x) hD64
  rw [abs_of_nonneg (by linarith : (0 : ℚ) ≤ 1 + x)] at hD
  have hD2 : ((|F.round (1 + x) - (1 + x)| : ℚ) : ℝ) ≤
      (((1 + x) / 2 ^ 53 + 1 / 2 ^ 1075 : ℚ) : ℝ) := Rat.cast_le.mpr hD
  push_cast at hD2
  rw [div_eq_mul_one_div (1 + (x : ℝ))] at hD2
  have hD1 : (1 : ℝ) ≤ ((F.round (1 + x) : ℚ) : ℝ) := by
    have h1 : F.round 1 ≤ F.round (1 + x) := hF.mono _ _ (by linarith)
    rw [hF.round_one] at h1
    exact_mod_cast h1
  have hclose := ratio_close (t := t) (x := (x : ℝ)) (D := ((F.round (1 + x) : ℚ) : ℝ))
    (u := 1 / 2 ^ 53) (η := 1 / 2 ^ 1075) ht0 hx0 hD1 (by positivity) (by norm_num)
    (by positivity)
    (by
      rw [div_le_div_iff₀ (by positivity) (by positivity)]
      norm_num) hx hD2
  unfold logNormalCDF Float64.div Float64.add
  have hv : |(((x / F.round (1 + x) : ℚ) : ℚ) : ℝ) - specR (n : ℝ) (m : ℝ)| ≤
      4 / 10 ^ 16 := by
    rw [hspec]
    push_cast
    have h3 : (3 : ℝ) * (1 / 2 ^ 53) + 2 * (1 / 10 ^ 20) ≤ 4 / 10 ^ 16 := by norm_num
    linarith
  have := hA.step hv hR (le_refl 1) (by norm_num) (by norm_num)
  have h4 : (4 : ℝ) / 10 ^ 16 + 1 * (112 / 10 ^ 18) ≤ 6 / 10 ^ 16 := by norm_num
  linarith

/-- IEEE rounding moves a positive value by at most half a unit of its last place. -/
theorem roundFloat64_half_ulp (q : ℚ) (hq : 0 < q) :
    |roundFloat64 q - q| ≤ (2 : ℚ) ^ fexp q / 2 := by
  rw [roundFloat64_pos_eq q hq]
  have hsplit : (rne (q / (2 : ℚ) ^ fexp q) : ℚ) * (2 : ℚ) ^ fexp q - q =
      ((rne (q / (2 : ℚ) ^ fexp q) : ℚ) - q / (2 : ℚ) ^ fexp q) * (2 : ℚ) ^ fexp q := by
    rw [sub_mul, div_mul_cancel₀ _ (two_zpow_pos _).ne']
  rw [hsplit, abs_mul, abs_of_pos (two_zpow_pos _)]
  have hr := rne_abs_le (q / (2 : ℚ) ^ fexp q)
  calc |(rne (q / (2 : ℚ) ^ fexp q) : ℚ) - q / (2 : ℚ) ^ fexp q| * (2 : ℚ) ^ fexp q
      ≤ 1 / 2 * (2 : ℚ) ^ fexp q := mul_le_mul_of_nonneg_right hr (two_zpow_pos _).le
    _ = (2 : ℚ) ^ fexp q / 2 := by ring

/-- IEEE rounding moves a positive value by at most the fraction `2 ^ (-53)` of itself
or by at most `2 ^ (-1075)`. -/
theorem roundFloat64_within_pos (q : ℚ) (hq : 0 < q) :
    |roundFloat64 q - q| ≤ q / 2 ^ 53 + 1 / 2 ^ 1075 := by
  have h := roundFloat64_half_ulp q hq
  obtain ⟨h1, -⟩ := floorLog2_rat q hq
  have hq53 : 0 ≤ q / 2 ^ 53 := by positivity
  rcases le_total (floorLog2 q.num.natAbs q.den - 52) (-1074) with hsub | hnorm
  · have hfe : fexp q = -1074 := by
      unfold fexp
      omega
    rw [hfe] at h
    have hval : (2 : ℚ) ^ (-1074 : Int) / 2 = 1 / 2 ^ 1075 := by
      rw [zpow_neg]
      norm_num
    rw [hval] at h
    linarith
  · have hfe : fexp q = floorLog2 q.num.natAbs q.den - 52 := by
      unfold fexp
      omega
    rw [hfe, zpow_sub₀ (by norm_num : (2 : ℚ) ≠ 0)] at h
    have hval : (2 : ℚ) ^ floorLog2 q.num.natAbs q.den / (2 : ℚ) ^ (52 : Int) / 2 =
        (2 : ℚ) ^ floorLog2 q.num.natAbs q.den / 2 ^ 53 := by
      norm_num
      ring
    rw [hval] at h
    have h2 : (2 : ℚ) ^ floorLog2 q.num.natAbs q.den / 2 ^ 53 ≤ q / 2 ^ 53 :=
      div_le_div_of_nonneg_right h1 (by positivity)
    have h3 : (0 : ℚ) ≤ 1 / 2 ^ 1075 := by positivity
    linarith

/-- IEEE arithmetic rounds to a nearest float64. -/
theorem Float64.ieee_roundsWithin : Float64.ieee.RoundsWithin := by
  intro q _
  show |roundFloat64 q - q| ≤ |q| / 2 ^ 53 + 1 / 2 ^ 1075
  rcases lt_trichotomy q 0 with h | h | h
  · have h1 := roundFloat64_within_pos (-q) (by linarith)
    rw [roundFloat64_neg] at h1
    have h2 : -roundFloat64 q - -q = -(roundFloat64 q - q) := by ring
    rw [h2, abs_neg] at h1
    rw [abs_of_neg h]
    exact h1
  · rw [h]
    have : roundFloat64 0 = 0 := by simp [roundFloat64]
    rw [this]
    simp
  · rw [abs_of_pos h]
    exact roundFloat64_within_pos q h

/-- The Horner form of the series is the partial sum of the exponential series. -/
theorem expSeries_eq_sum (z : ℚ) : ∀ (n k : Nat),
    expSeries z n (k + 1) =
      ∑ j ∈ Finset.range (n + 1), z ^ j * (k.factorial : ℚ) / ((k + j).factorial : ℚ) := by
  intro n
  induction n with
  | zero =>
    intro k
    have hk : ((k.factorial : Nat) : ℚ) ≠ 0 := by exact_mod_cast Nat.factorial_ne_zero k
    simp [expSeries, hk]
  | succ n ih =>
    intro k
    have hk : ((k.factorial : Nat) : ℚ) ≠ 0 := by exact_mod_cast Nat.factorial_ne_zero k
    rw [Finset.sum_range_succ', expSeries, ih (k + 1), Finset.mul_sum]
    have h0 : z ^ 0 * (k.factorial : ℚ) / (((k + 0).factorial : Nat) : ℚ) = 1 := by
      simp [hk]
    rw [h0, add_comm]
    congr 1
    apply Finset.sum_congr rfl
    intro j _
    have hkj : (((k + 1 + j).factorial : Nat) : ℚ) ≠ 0 := by
      exact_mod_cast Nat.factorial_ne_zero _
    have hk1 : (((k + 1 : Nat) : ℚ)) ≠ 0 := by exact_mod_cast Nat.succ_ne_zero k
    have hidx : k + (j + 1) = k + 1 + j := by omega
    rw [hidx, Nat.factorial_succ k]
    push_cast
    field_simp
    ring

/-- The series with 30 terms is within `1e-30` of the exponential on `[0, 1]`. -/
theorem expSeries_close (z : ℚ) (hz0 : 0 ≤ z) (hz1 : z ≤ 1) :
    |Real.exp (z : ℝ) - ((expSeries z 30 1 : ℚ) : ℝ)| ≤ 1 / 10 ^ 30 := by
  have hzr0 : (0 : ℝ) ≤ (z : ℝ) := by exact_mod_cast hz0
  have hzr1 : (z : ℝ) ≤ 1 := by exact_mod_cast hz1
  have habs : |(z : ℝ)| ≤ 1 := by
    rw [abs_of_nonneg hzr0]
    exact hzr1
  have hb := Real.exp_bound habs (n := 31) (by norm_num)
  have hsum : ((expSeries z 30 1 : ℚ) : ℝ) =
      ∑ m ∈ Finset.range 31, (z : ℝ) ^ m / (m.factorial : ℝ) := by
    have h := expSeries_eq_sum z 30 0
    simp only [Nat.factorial_zero, Nat.cast_one, mul_one, zero_add] at h
    rw [h]
    push_cast
    rfl
  rw [hsum]
  refine le_trans hb ?_
  have hpow : |(z : ℝ)| ^ 31 ≤ 1 := pow_le_one₀ (abs_nonneg _) habs
  have hc : (0 : ℝ) ≤ ((31 : Nat).succ : ℝ) / (((31 : Nat).factorial : ℝ) * ((31 : Nat) : ℝ)) := by
    positivity
  have hval : ((31 : Nat).succ : ℝ) / (((31 : Nat).factorial : ℝ) * ((31 : Nat) : ℝ)) ≤
      1 / 10 ^ 30 := by
    have hf : ((31 : Nat).factorial : ℝ) = 8222838654177922817725562880000000 := by
      have : (31 : Nat).factorial = 8222838654177922817725562880000000 := by decide
      rw [this]
      norm_num
    rw [hf]
    norm_num
  calc |(z : ℝ)| ^ 31 * (((31 : Nat).succ : ℝ) / (((31 : Nat).factorial : ℝ) * ((31 : Nat) : ℝ)))
      ≤ 1 * (((31 : Nat).succ : ℝ) / (((31 : Nat).factorial : ℝ) * ((31 : Nat) : ℝ))) :=
        mul_le_mul_of_nonneg_right hpow hc
    _ ≤ 1 / 10 ^ 30 := by rw [one_mul]; exact hval

/-- The exponential changes by at most three times the change of its argument below 1. -/
theorem exp_sub_exp_le {a b : ℝ} (ha : a ≤ 1) (hb : b ≤ 1) :
    |Real.exp a - Real.exp b| ≤ 3 * |a - b| := by
  have key : ∀ c d : ℝ, c ≤ d → d ≤ 1 →
      0 ≤ Real.exp d - Real.exp c ∧ Real.exp d - Real.exp c ≤ 3 * (d - c) := by
    intro c d hcd hd
    have h1 : Real.exp c = Real.exp d * Real.exp (-(d - c)) := by
      rw [← Real.exp_add]
      congr 1
      ring
    have h2 := Real.add_one_le_exp (-(d - c))
    have h3 : Real.exp (-(d - c)) ≤ 1 := by
      rw [Real.exp_le_one_iff]
      linarith
    have h4 : Real.exp d ≤ 3 := by
      have h5 : Real.exp d ≤ Real.exp 1 := Real.exp_le_exp.mpr hd
      have h6 := Real.exp_one_lt_d9
      norm_num at h6
      linarith
    have h7 : 0 < Real.exp d := Real.exp_pos d
    constructor
    · rw [h1]
      nlinarith
    · rw [h1]
      have h8 : Real.exp d * (1 - Real.exp (-(d - c))) ≤ 3 * (d - c) :=
        mul_le_mul h4 (by linarith) (by linarith) (by norm_num)
      linarith
  rcases le_total a b with h | h
  · obtain ⟨k1, k2⟩ := key a b h hb
    rw [abs_sub_comm, abs_of_nonneg k1, abs_sub_comm, abs_of_nonneg (by linarith)]
    exact k2
  · obtain ⟨k1, k2⟩ := key b a h ha
    rw [abs_of_nonneg k1, abs_of_nonneg (by linarith)]
    exact k2

/-- The rational `ln2Lower` is within `1e-16` of `ln 2`. -/
theorem ln2Lower_close : |Real.log 2 - ((ln2Lower : ℚ) : ℝ)| ≤ 1 / 10 ^ 16 := by
  have h := Real.abs_log_sub_add_sum_range_le (x := 1 / 2)
    (by rw [abs_of_pos] <;> norm_num) 56
  have hlog : Real.log (1 - 1 / 2) = -Real.log 2 := by
    rw [show (1 : ℝ) - 1 / 2 = 2⁻¹ by norm_num, Real.log_inv]
  rw [hlog, abs_of_pos (by norm_num : (0 : ℝ) < 1 / 2)] at h
  have hsum : |(∑ i ∈ Finset.range 56, ((1 : ℝ) / 2) ^ (i + 1) / ((i : ℝ) + 1)) -
      ((ln2Lower : ℚ) : ℝ)| ≤ 1 / 10 ^ 17 := by
    unfold ln2Lower
    simp only [Finset.sum_range_succ, Finset.sum_range_zero]
    push_cast
    rw [abs_le]
    constructor <;> norm_num
  have hb : ((1 : ℝ) / 2) ^ (56 + 1) / (1 - 1 / 2) ≤ 2 / 10 ^ 17 := by norm_num
  have htri : |Real.log 2 - ((ln2Lower : ℚ) : ℝ)| ≤
      |(∑ i ∈ Finset.range 56, ((1 : ℝ) / 2) ^ (i + 1) / ((i : ℝ) + 1)) + -Real.log 2| +
        |(∑ i ∈ Finset.range 56, ((1 : ℝ) / 2) ^ (i + 1) / ((i : ℝ) + 1)) -
          ((ln2Lower : ℚ) : ℝ)| := by
    have e : Real.log 2 - ((ln2Lower : ℚ) : ℝ) =
        -((∑ i ∈ Finset.range 56, ((1 : ℝ) / 2) ^ (i + 1) / ((i : ℝ) + 1)) + -Real.log 2) +
          ((∑ i ∈ Finset.range 56, ((1 : ℝ) / 2) ^ (i + 1) / ((i : ℝ) + 1)) -
            ((ln2Lower : ℚ) : ℝ)) := by ring
    rw [e]
    refine le_trans (abs_add _ _) ?_
    rw [abs_neg]
  have hfin : (2 : ℝ) / 10 ^ 17 + 1 / 10 ^ 17 ≤ 1 / 10 ^ 16 := by norm_num
  linarith

/-- The approximated power is within the fraction `4e-16` of the real power `2 ^ y` at
an exponent that is not positive. -/
theorem pow2Approx_close (y : ℚ) (hy : y ≤ 0) :
    |((pow2Approx y : ℚ) : ℝ) - (2 : ℝ) ^ ((y : ℚ) : ℝ)| ≤
      (2 : ℝ) ^ ((y : ℚ) : ℝ) * (4 / 10 ^ 16) := by
  have hfl : ⌊y⌋ ≤ 0 := by
    have := Int.floor_le_floor hy
    simpa using this
  have hfr0 : (0 : ℚ) ≤ y - ⌊y⌋ := by linarith [Int.floor_le y]
  have hfr1 : y - ⌊y⌋ ≤ 1 := by linarith [Int.lt_floor_add_one y]
  have hln0 : (0 : ℚ) ≤ ln2Lower := ln2Lower_nonneg
  have hln1 : ln2Lower ≤ 1 := by decide!
  have hz0 : (0 : ℚ) ≤ ln2Lower * (y - ⌊y⌋) := mul_nonneg hln0 hfr0
  have hz1 : ln2Lower * (y - ⌊y⌋) ≤ 1 := by
    have := mul_le_mul hln1 hfr1 hfr0 (by norm_num : (0 : ℚ) ≤ 1)
    linarith
  have hS := expSeries_close (ln2Lower * (y - ⌊y⌋)) hz0 hz1
  set S : ℚ := expSeries (ln2Lower * (y - ⌊y⌋)) 30 1 with hSdef
  -- the real power, split at the floor of the exponent
  have hfrr0 : (0 : ℝ) ≤ (y : ℝ) - (⌊y⌋ : ℝ) := by exact_mod_cast hfr0
  have hfrr1 : (y : ℝ) - (⌊y⌋ : ℝ) ≤ 1 := by exact_mod_cast hfr1
  have hsplit : (2 : ℝ) ^ ((y : ℚ) : ℝ) =
      (2 : ℝ) ^ ⌊y⌋ * Real.exp (Real.log 2 * ((y : ℝ) - (⌊y⌋ : ℝ))) := by
    have h1 : (2 : ℝ) ^ ((y : ℚ) : ℝ) =
        (2 : ℝ) ^ (((⌊y⌋ : Int) : ℝ) + ((y : ℝ) - (⌊y⌋ : ℝ))) := by
      congr 1
      ring
    rw [h1, Real.rpow_add (by norm_num : (0 : ℝ) < 2), Real.rpow_intCast,
      Real.rpow_def_of_pos (by norm_num : (0 : ℝ) < 2) ((y : ℝ) - (⌊y⌋ : ℝ))]
  have hcast : ((pow2Approx y : ℚ) : ℝ) = (2 : ℝ) ^ ⌊y⌋ * (S : ℝ) := by
    unfold pow2Approx
    push_cast
    rfl
  have hp0 : (0 : ℝ) < (2 : ℝ) ^ ⌊y⌋ := zpow_pos (by norm_num) _
  have hp1 : (2 : ℝ) ^ ⌊y⌋ ≤ 1 := zpow_le_one_of_nonpos₀ (by norm_num) hfl
  have hlog := ln2Lower_close
  have hlog1 : Real.log 2 ≤ 1 := by
    have := Real.log_two_lt_d9
    linarith
  have hlog0 : 0 ≤ Real.log 2 := Real.log_nonneg (by norm_num)
  have harg : |((ln2Lower * (y - ⌊y⌋) : ℚ) : ℝ) - Real.log 2 * ((y : ℝ) - (⌊y⌋ : ℝ))| ≤
      1 / 10 ^ 16 := by
    push_cast
    have h1 : (ln2Lower : ℝ) * ((y : ℝ) - (⌊y⌋ : ℝ)) - Real.log 2 * ((y : ℝ) - (⌊y⌋ : ℝ)) =
        -((Real.log 2 - (ln2Lower : ℝ)) * ((y : ℝ) - (⌊y⌋ : ℝ))) := by ring
    rw [h1, abs_neg, abs_mul, abs_of_nonneg hfrr0]
    calc |Real.log 2 - (ln2Lower : ℝ)| * ((y : ℝ) - (⌊y⌋ : ℝ))
        ≤ 1 / 10 ^ 16 * 1 :=
          mul_le_mul hlog hfrr1 hfrr0 (by positivity)
      _ = 1 / 10 ^ 16 := by ring
  have hexp := exp_sub_exp_le (a := ((ln2Lower * (y - ⌊y⌋) : ℚ) : ℝ))
    (b := Real.log 2 * ((y : ℝ) - (⌊y⌋ : ℝ))) (by exact_mod_cast hz1)
    (by
      have := mul_le_mul hlog1 hfrr1 hfrr0 (by norm_num : (0 : ℝ) ≤ 1)
      linarith)
  have hinner : |(S : ℝ) - Real.exp (Real.log 2 * ((y : ℝ) - (⌊y⌋ : ℝ)))| ≤ 4 / 10 ^ 16 := by
    have h1 : (S : ℝ) - Real.exp (Real.log 2 * ((y : ℝ) - (⌊y⌋ : ℝ))) =
        -(Real.exp ((ln2Lower * (y - ⌊y⌋) : ℚ) : ℝ) - (S : ℝ)) +
          (Real.exp ((ln2Lower * (y - ⌊y⌋) : ℚ) : ℝ) -
            Real.exp (Real.log 2 * ((y : ℝ) - (⌊y⌋ : ℝ)))) := by ring
    rw [h1]
    refine le_trans (abs_add _ _) ?_
    rw [abs_neg]
    have h2 : (1 : ℝ) / 10 ^ 30 + 3 * (1 / 10 ^ 16) ≤ 4 / 10 ^ 16 := by norm_num
    linarith
  have hexp1 : 1 ≤ Real.exp (Real.log 2 * ((y : ℝ) - (⌊y⌋ : ℝ))) :=
    Real.one_le_exp (mul_nonneg hlog0 hfrr0)
  rw [hcast, hsplit, ← mul_sub, abs_mul, abs_of_pos hp0, mul_assoc]
  apply mul_le_mul_of_nonneg_left _ hp0.le
  calc |(S : ℝ) - Real.exp (Real.log 2 * ((y : ℝ) - (⌊y⌋ : ℝ)))|
      ≤ 1 * (4 / 10 ^ 16) := by rw [one_mul]; exact hinner
    _ ≤ Real.exp (Real.log 2 * ((y : ℝ) - (⌊y⌋ : ℝ))) * (4 / 10 ^ 16) :=
        mul_le_mul_of_nonneg_right hexp1 (by positivity)

/-- The power of IEEE arithmetic is accurate at an exponent that is not positive. -/
theorem Float64.ieee_powAccurate : Float64.ieee.PowAccurate := by
  intro y hy
  show |(((if (2 : ℚ) = 2 then roundFloat64 (pow2Approx y)
      else roundFloat64 ((2 : ℚ) ^ ⌊y⌋) : ℚ)) : ℝ) - (2 : ℝ) ^ ((y : ℚ) : ℝ)| ≤
    (2 : ℝ) ^ ((y : ℚ) : ℝ) / 2 ^ 50 + 1 / 2 ^ 1075
  rw [if_pos rfl]
  have hq0 : 0 ≤ pow2Approx y := le_trans (two_zpow_pos ⌊y⌋).le (pow2Approx_lower y)
  have hq1 : pow2Approx y ≤ 1 := by
    have := pow2Approx_mono hy
    rwa [pow2Approx_zero] at this
  have h64 : |pow2Approx y| ≤ 2 ^ 64 := by
    rw [abs_of_nonneg hq0]
    have : (1 : ℚ) ≤ 2 ^ 64 := by norm_num
    linarith
  have hr := Float64.ieee_roundsWithin (pow2Approx y) h64
  have hr2 : ((|roundFloat64 (pow2Approx y) - pow2Approx y| : ℚ) : ℝ) ≤
      ((|pow2Approx y| / 2 ^ 53 + 1 / 2 ^ 1075 : ℚ) : ℝ) := Rat.cast_le.mpr hr
  rw [abs_of_nonneg hq0] at hr2
  push_cast at hr2
  have hc := pow2Approx_close y hy
  have hY : 0 < (2 : ℝ) ^ ((y : ℚ) : ℝ) := Real.rpow_pos_of_pos (by norm_num) _
  have hqY : ((pow2Approx y : ℚ) : ℝ) ≤
      (2 : ℝ) ^ ((y : ℚ) : ℝ) + (2 : ℝ) ^ ((y : ℚ) : ℝ) * (4 / 10 ^ 16) := by
    have := (abs_le.mp hc).2
    linarith
  have hdiv : ((pow2Approx y : ℚ) : ℝ) / 2 ^ 53 ≤
      ((2 : ℝ) ^ ((y : ℚ) : ℝ) + (2 : ℝ) ^ ((y : ℚ) : ℝ) * (4 / 10 ^ 16)) / 2 ^ 53 :=
    div_le_div_of_nonneg_right hqY (by positivity)
  have htri : |((roundFloat64 (pow2Approx y) : ℚ) : ℝ) - (2 : ℝ) ^ ((y : ℚ) : ℝ)| ≤
      |((roundFloat64 (pow2Approx y) : ℚ) : ℝ) - ((pow2Approx y : ℚ) : ℝ)| +
        |((pow2Approx y : ℚ) : ℝ) - (2 : ℝ) ^ ((y : ℚ) : ℝ)| := abs_sub_le _ _ _
  have hfin : ((2 : ℝ) ^ ((y : ℚ) : ℝ) + (2 : ℝ) ^ ((y : ℚ) : ℝ) * (4 / 10 ^ 16)) / 2 ^ 53 +
      (2 : ℝ) ^ ((y : ℚ) : ℝ) * (4 / 10 ^ 16) ≤ (2 : ℝ) ^ ((y : ℚ) : ℝ) / 2 ^ 50 := by
    have e : (2 : ℝ) ^ ((y : ℚ) : ℝ) / 2 ^ 50 -
        (((2 : ℝ) ^ ((y : ℚ) : ℝ) + (2 : ℝ) ^ ((y : ℚ) : ℝ) * (4 / 10 ^ 16)) / 2 ^ 53 +
          (2 : ℝ) ^ ((y : ℚ) : ℝ) * (4 / 10 ^ 16)) =
        (2 : ℝ) ^ ((y : ℚ) : ℝ) *
          (1 / 2 ^ 50 - ((1 + 4 / 10 ^ 16) / 2 ^ 53 + 4 / 10 ^ 16)) := by ring
    have hc0 : (0 : ℝ) ≤ 1 / 2 ^ 50 - ((1 + 4 / 10 ^ 16) / 2 ^ 53 + 4 / 10 ^ 16) := by
      norm_num
    have := mul_nonneg hY.le hc0
    linarith
  linarith

/-- IEEE rounding takes the values from `1 - 2 ^ (-54)` to `1 + 2 ^ (-53)` to 1. -/
theorem Float64.ieee_roundsToOne : Float64.ieee.RoundsToOne := by
  intro q h1 h2
  have a := roundFloat64_mono h1
  have b := roundFloat64_mono h2
  have ea : roundFloat64 (1 - 1 / 2 ^ 54) = 1 := by decide!
  have eb : roundFloat64 (1 + 1 / 2 ^ 53) = 1 := by decide!
  rw [ea] at a
  rw [eb] at b
  exact le_antisymm b a

/-- The two bounds that rounding to a nearest float64 gives for a value between 1/64 and
`2 ^ 32`: the error is at most the fraction `2 ^ (-53) + 64 * 2 ^ (-1075)` of the
value. -/
theorem Float64.RoundsWithin.bounds {F : Float64} (h : F.RoundsWithin) {q : ℚ}
    (h1 : 1 / 64 ≤ q) (h2 : q ≤ 2 ^ 32) :
    q - q * (1 / 2 ^ 53 + 64 / 2 ^ 1075) ≤ F.round q ∧
      F.round q ≤ q + q * (1 / 2 ^ 53 + 64 / 2 ^ 1075) := by
  have hq0 : 0 ≤ q := by linarith
  have h64 : |q| ≤ 2 ^ 64 := by
    rw [abs_of_nonneg hq0]
    have : (2 : ℚ) ^ 32 ≤ 2 ^ 64 := by norm_num
    linarith
  have h3 := abs_le.mp (h q h64)
  rw [abs_of_nonneg hq0] at h3
  have hη : (1 : ℚ) / 2 ^ 1075 ≤ q * (64 / 2 ^ 1075) := by
    have : (1 : ℚ) / 64 * (64 / 2 ^ 1075) ≤ q * (64 / 2 ^ 1075) :=
      mul_le_mul_of_nonneg_right h1 (by positivity)
    have e : (1 : ℚ) / 64 * (64 / 2 ^ 1075) = 1 / 2 ^ 1075 := by ring
    linarith
  have e2 : q * (1 / 2 ^ 53 + 64 / 2 ^ 1075) = q / 2 ^ 53 + q * (64 / 2 ^ 1075) := by ring
  constructor
  · linarith [h3.1]
  · linarith [h3.2]

/-- The real power `2 ^ (-d)` is at most `3000 / 3001` for `d ≥ 1 / 2000`. -/
theorem two_rpow_neg_step {d : ℝ} (hd : 1 / 2000 ≤ d) : (2 : ℝ) ^ (-d) ≤ 3000 / 3001 := by
  have h1 : (2 : ℝ) ^ (-d) ≤ (2 : ℝ) ^ (-(1 / 2000 : ℝ)) :=
    Real.rpow_le_rpow_of_exponent_le (by norm_num) (by linarith)
  have hpos : 0 < (2 : ℝ) ^ (-(1 / 2000 : ℝ)) := Real.rpow_pos_of_pos (by norm_num) _
  have hinv : (2 : ℝ) ^ (1 / 2000 : ℝ) * (2 : ℝ) ^ (-(1 / 2000 : ℝ)) = 1 := by
    rw [← Real.rpow_add (by norm_num : (0 : ℝ) < 2)]
    simp
  have hge : (3001 : ℝ) / 3000 ≤ (2 : ℝ) ^ (1 / 2000 : ℝ) := by
    rw [Real.rpow_def_of_pos (by norm_num : (0 : ℝ) < 2)]
    have h2 := Real.add_one_le_exp (Real.log 2 * (1 / 2000))
    have h3 : (2 : ℝ) / 3 ≤ Real.log 2 := by
      have := Real.log_two_gt_d9
      norm_num at this ⊢
      linarith
    linarith
  have h4 : (3001 : ℝ) / 3000 * (2 : ℝ) ^ (-(1 / 2000 : ℝ)) ≤ 1 :=
    le_trans (mul_le_mul_of_nonneg_right hge hpos.le) (le_of_eq hinv)
  linarith

/-- The real power `2 ^ (-64)`. -/
theorem two_rpow_neg_64 : (2 : ℝ) ^ (-(64 : ℝ)) = 1 / 2 ^ 64 := by
  rw [Real.rpow_neg (by norm_num), show (64 : ℝ) = ((64 : Nat) : ℝ) by norm_num,
    Real.rpow_natCast]
  norm_num

/-- What the accuracy of the power gives at the argument `-x` of the exponential
transform, in the reals. -/
theorem Float64.PowAccurate.at_neg {F : Float64} (hPw : F.PowAccurate) {x : ℚ}
    (hx : 0 ≤ x) :
    (2 : ℝ) ^ (-(x : ℝ)) - (2 : ℝ) ^ (-(x : ℝ)) / 2 ^ 50 - 1 / 2 ^ 1075 ≤
        ((F.Pow 2 (-x) : ℚ) : ℝ) ∧
      ((F.Pow 2 (-x) : ℚ) : ℝ) ≤
        (2 : ℝ) ^ (-(x : ℝ)) + (2 : ℝ) ^ (-(x : ℝ)) / 2 ^ 50 + 1 / 2 ^ 1075 := by
  have h := hPw (-x) (by linarith)
  have hcast : (((-x : ℚ) : ℚ) : ℝ) = -(x : ℝ) := by push_cast; ring
  rw [hcast] at h
  obtain ⟨h1, h2⟩ := abs_le.mp h
  constructor <;> linarith

/-- The exponential transform is at most 1 at an argument that is not negative. -/
theorem exponentialCDF_le_one {F : Float64} (hF : F.Lawful) (hPw : F.PowAccurate)
    (hOne : F.RoundsToOne) {x : ℚ} (hx : 0 ≤ x) : exponentialCDF F x ≤ 1 := by
  obtain ⟨h1, -⟩ := hPw.at_neg hx
  have hY : 0 < (2 : ℝ) ^ (-(x : ℝ)) := Real.rpow_pos_of_pos (by norm_num) _
  have hYs : (2 : ℝ) ^ (-(x : ℝ)) / 2 ^ 50 ≤ (2 : ℝ) ^ (-(x : ℝ)) :=
    div_le_self hY.le (by norm_num)
  have hη : (1 : ℝ) / 2 ^ 1075 ≤ 1 / 2 ^ 53 := by
    rw [div_le_div_iff₀ (by positivity) (by positivity)]
    norm_num
  have hle : 1 - F.Pow 2 (-x) ≤ 1 + 1 / 2 ^ 53 := by
    have : (((1 - F.Pow 2 (-x) : ℚ) : ℚ) : ℝ) ≤ (((1 + 1 / 2 ^ 53 : ℚ) : ℚ) : ℝ) := by
      push_cast
      linarith
    exact_mod_cast this
  have h2 := hF.mono _ _ hle
  rw [hOne (1 + 1 / 2 ^ 53) (by norm_num) (le_refl _)] at h2
  exact h2

/-- The exponential transform is 1 from the argument 64 on: the power is below
`2 ^ (-54)` there. -/
theorem exponentialCDF_eq_one {F : Float64} (hPw : F.PowAccurate) (hOne : F.RoundsToOne)
    {x : ℚ} (hx : 64 ≤ x) : exponentialCDF F x = 1 := by
  obtain ⟨h1, h2⟩ := hPw.at_neg (x := x) (by linarith)
  have hY : 0 < (2 : ℝ) ^ (-(x : ℝ)) := Real.rpow_pos_of_pos (by norm_num) _
  have hx64 : (64 : ℝ) ≤ (x : ℝ) := by exact_mod_cast hx
  have hY64 : (2 : ℝ) ^ (-(x : ℝ)) ≤ 1 / 2 ^ 64 := by
    rw [← two_rpow_neg_64]
    exact Real.rpow_le_rpow_of_exponent_le (by norm_num) (by linarith)
  have hYs : (2 : ℝ) ^ (-(x : ℝ)) / 2 ^ 50 ≤ (2 : ℝ) ^ (-(x : ℝ)) :=
    div_le_self hY.le (by norm_num)
  have hη : (1 : ℝ) / 2 ^ 1075 ≤ 1 / 2 ^ 64 := by
    rw [div_le_div_iff₀ (by positivity) (by positivity)]
    norm_num
  have hnum : (1 : ℝ) / 2 ^ 64 + 1 / 2 ^ 64 + 1 / 2 ^ 64 ≤ 1 / 2 ^ 54 := by norm_num
  have hnum2 : (1 : ℝ) / 2 ^ 64 ≤ 1 / 2 ^ 53 := by norm_num
  have hlo : 1 - 1 / 2 ^ 54 ≤ 1 - F.Pow 2 (-x) := by
    have : (((1 - 1 / 2 ^ 54 : ℚ) : ℚ) : ℝ) ≤ (((1 - F.Pow 2 (-x) : ℚ) : ℚ) : ℝ) := by
      push_cast
      linarith
    exact_mod_cast this
  have hhi : 1 - F.Pow 2 (-x) ≤ 1 + 1 / 2 ^ 53 := by
    have : (((1 - F.Pow 2 (-x) : ℚ) : ℚ) : ℝ) ≤ (((1 + 1 / 2 ^ 53 : ℚ) : ℚ) : ℝ) := by
      push_cast
      linarith
    exact_mod_cast this
  unfold exponentialCDF Float64.sub
  exact hOne _ hlo hhi

/-- The exponential transform of a counter does not decrease when the counter grows: one
step of the counter moves the argument by about `1 / m`, which outweighs the errors of
the rounding and of the power while the argument is below 64, and from 64 on the
transform is 1. -/
theorem exponentialCDF_counter_mono {F : Float64} (hF : F.Lawful) (hA : F.RoundsWithin)
    (hI : F.ExactInt) (hPw : F.PowAccurate) (hOne : F.RoundsToOne) {m : ℚ} (hm1 : 1 ≤ m)
    (hm : m ≤ 1000) {a b : Int} (ha : 0 ≤ a) (hab : a ≤ b) :
    exponentialCDF F (F.div (F.ofInt a) m) ≤ exponentialCDF F (F.div (F.ofInt b) m) := by
  have hm0 : (0 : ℚ) < m := by linarith
  have hb0 : 0 ≤ b := le_trans ha hab
  have hx0 : 0 ≤ F.div (F.ofInt a) m := counterArg_nonneg hF ha hm0.le
  have hxx : F.div (F.ofInt a) m ≤ F.div (F.ofInt b) m := counterArg_mono hF hab hm0.le
  rcases le_or_lt 64 (F.div (F.ofInt b) m) with hbig | hsmall
  · rw [exponentialCDF_eq_one hPw hOne hbig]
    exact exponentialCDF_le_one hF hPw hOne hx0
  rcases eq_or_lt_of_le hab with heq | hlt
  · rw [heq]
  -- the larger counter has at most 53 bits, or its argument would be beyond 64
  have hb53 : b ≤ 2 ^ 53 := by
    by_contra hcon
    push_neg at hcon
    have h1 : F.round ((2 : ℚ) ^ 53) ≤ F.round (b : ℚ) :=
      hF.mono _ _ (by exact_mod_cast hcon.le)
    have e1 : F.round ((2 : ℚ) ^ 53) = 2 ^ 53 := by
      have := hI (2 ^ 53) (by norm_num) (le_refl _)
      simpa using this
    rw [e1] at h1
    have h2 : (2 : ℚ) ^ 43 ≤ F.round (b : ℚ) / m := by
      rw [le_div_iff₀ hm0]
      have : (2 : ℚ) ^ 43 * m ≤ 2 ^ 43 * 1000 := mul_le_mul_of_nonneg_left hm (by norm_num)
      have : (2 : ℚ) ^ 43 * 1000 ≤ 2 ^ 53 := by norm_num
      linarith
    have h3 : F.round ((2 : ℚ) ^ 43) ≤ F.round (F.round (b : ℚ) / m) := hF.mono _ _ h2
    have e3 : F.round ((2 : ℚ) ^ 43) = 2 ^ 43 := by
      have := hI (2 ^ 43) (by norm_num) (by norm_num)
      simpa using this
    rw [e3] at h3
    have h4 : F.div (F.ofInt b) m = F.round (F.round (b : ℚ) / m) := rfl
    rw [h4] at hsmall
    have : (64 : ℚ) ≤ 2 ^ 43 := by norm_num
    linarith
  have ha53 : a ≤ 2 ^ 53 := le_trans hab hb53
  obtain ⟨hxa0, hxa⟩ := counterArg_close hF hA hI ha ha53 hm1
  obtain ⟨hxb0, hxb⟩ := counterArg_close hF hA hI hb0 hb53 hm1
  set x : ℚ := F.div (F.ofInt a) m with hxdef
  set x' : ℚ := F.div (F.ofInt b) m with hxdef'
  have hm0r : (0 : ℝ) < (m : ℝ) := by exact_mod_cast hm0
  have hmr : (m : ℝ) ≤ 1000 := by exact_mod_cast hm
  have har : (0 : ℝ) ≤ (a : ℝ) := by exact_mod_cast ha
  have habr : (a : ℝ) + 1 ≤ (b : ℝ) := by exact_mod_cast hlt
  have ht0 : (0 : ℝ) ≤ (a : ℝ) / (m : ℝ) := div_nonneg har hm0r.le
  have hgap : (a : ℝ) / (m : ℝ) + 1 / 1000 ≤ (b : ℝ) / (m : ℝ) := by
    have h1 : (a : ℝ) / (m : ℝ) + 1 / (m : ℝ) ≤ (b : ℝ) / (m : ℝ) := by
      rw [← add_div]
      exact div_le_div_of_nonneg_right habr hm0r.le
    have h2 : (1 : ℝ) / 1000 ≤ 1 / (m : ℝ) := one_div_le_one_div_of_le hm0r hmr
    linarith
  set t : ℝ := (a : ℝ) / (m : ℝ) with htdef
  set t' : ℝ := (b : ℝ) / (m : ℝ) with htdef'
  have hsmallr : (x' : ℝ) < 64 := by exact_mod_cast hsmall
  have hxxr : (x : ℝ) ≤ (x' : ℝ) := by exact_mod_cast hxx
  obtain ⟨hxa1, hxa2⟩ := abs_le.mp hxa
  obtain ⟨hxb1, hxb2⟩ := abs_le.mp hxb
  have hη : (1 : ℝ) / 2 ^ 1075 ≤ 1 / 10 ^ 20 := by
    rw [div_le_div_iff₀ (by positivity) (by positivity)]
    norm_num
  have ht'0 : 0 ≤ t' := by linarith
  have htu : t' * (1 / 2 ^ 53) ≤ t' * (1 / 100) :=
    mul_le_mul_of_nonneg_left (by norm_num) ht'0
  have ht65 : t' ≤ 65 := by linarith
  have ht65a : t ≤ 65 := by linarith
  have htu2 : t' * (1 / 2 ^ 53) ≤ 65 * (1 / 2 ^ 53) :=
    mul_le_mul_of_nonneg_right ht65 (by positivity)
  have htu3 : t * (1 / 2 ^ 53) ≤ 65 * (1 / 2 ^ 53) :=
    mul_le_mul_of_nonneg_right ht65a (by positivity)
  have hstep : 1 / 2000 ≤ (x' : ℝ) - (x : ℝ) := by
    have : (130 : ℝ) * (1 / 2 ^ 53) + 2 * (1 / 10 ^ 20) ≤ 1 / 2000 := by norm_num
    linarith
  -- the real powers at the two arguments
  have hY : 0 < (2 : ℝ) ^ (-(x : ℝ)) := Real.rpow_pos_of_pos (by norm_num) _
  have hY64 : 1 / 2 ^ 64 ≤ (2 : ℝ) ^ (-(x : ℝ)) := by
    rw [← two_rpow_neg_64]
    exact Real.rpow_le_rpow_of_exponent_le (by norm_num) (by linarith)
  have hY' : (2 : ℝ) ^ (-(x' : ℝ)) ≤ (2 : ℝ) ^ (-(x : ℝ)) * (3000 / 3001) := by
    have hsplit : (2 : ℝ) ^ (-(x' : ℝ)) =
        (2 : ℝ) ^ (-(x : ℝ)) * (2 : ℝ) ^ (-((x' : ℝ) - (x : ℝ))) := by
      rw [← Real.rpow_add (by norm_num : (0 : ℝ) < 2)]
      congr 1
      ring
    rw [hsplit]
    exact mul_le_mul_of_nonneg_left (two_rpow_neg_step hstep) hY.le
  have hY'0 : 0 < (2 : ℝ) ^ (-(x' : ℝ)) := Real.rpow_pos_of_pos (by norm_num) _
  obtain ⟨hP1, -⟩ := hPw.at_neg hx0
  obtain ⟨-, hP2⟩ := hPw.at_neg (x := x') (le_trans hx0 hxx)
  have hY'd : (2 : ℝ) ^ (-(x' : ℝ)) / 2 ^ 50 ≤
      (2 : ℝ) ^ (-(x : ℝ)) * (3000 / 3001) / 2 ^ 50 :=
    div_le_div_of_nonneg_right hY' (by positivity)
  have hPP : ((F.Pow 2 (-x') : ℚ) : ℝ) ≤ ((F.Pow 2 (-x) : ℚ) : ℝ) := by
    have hc : (2 : ℝ) ^ (-(x : ℝ)) * (3000 / 3001) +
        (2 : ℝ) ^ (-(x : ℝ)) * (3000 / 3001) / 2 ^ 50 + 1 / 2 ^ 1075 ≤
        (2 : ℝ) ^ (-(x : ℝ)) - (2 : ℝ) ^ (-(x : ℝ)) / 2 ^ 50 - 1 / 2 ^ 1075 := by
      have e : (2 : ℝ) ^ (-(x : ℝ)) - (2 : ℝ) ^ (-(x : ℝ)) / 2 ^ 50 - 1 / 2 ^ 1075 -
          ((2 : ℝ) ^ (-(x : ℝ)) * (3000 / 3001) +
            (2 : ℝ) ^ (-(x : ℝ)) * (3000 / 3001) / 2 ^ 50 + 1 / 2 ^ 1075) =
          (2 : ℝ) ^ (-(x : ℝ)) * (1 - 1 / 2 ^ 50 - 3000 / 3001 * (1 + 1 / 2 ^ 50)) -
            2 / 2 ^ 1075 := by ring
      have hc0 : (1 : ℝ) / 4000 ≤ 1 - 1 / 2 ^ 50 - 3000 / 3001 * (1 + 1 / 2 ^ 50) := by
        norm_num
      have h1 : (1 : ℝ) / 2 ^ 64 * (1 / 4000) ≤
          (2 : ℝ) ^ (-(x : ℝ)) * (1 - 1 / 2 ^ 50 - 3000 / 3001 * (1 + 1 / 2 ^ 50)) :=
        mul_le_mul hY64 hc0 (by norm_num) hY.le
      have h2 : (2 : ℝ) / 2 ^ 1075 ≤ 1 / 2 ^ 64 * (1 / 4000) := by
        rw [div_le_iff₀ (by positivity)]
        norm_num
      linarith
    linarith
  have hPPq : F.Pow 2 (-x') ≤ F.Pow 2 (-x) := by exact_mod_cast hPP
  unfold exponentialCDF Float64.sub
  exact hF.mono _ _ (by linarith)

theorem Float64.ieee_exactInt : Float64.ieee.ExactInt :=
  fun n h0 h => roundFloat64_intCast n h0 h

/-- The step of a counter against the rounding errors: with relative errors of at most
`u` in the arguments and in the denominators, the quotient `x / (1 + x)` keeps its
order when the exact arguments are `d` apart and `(5 M + 3 M ^ 2) u ≤ d`. -/
theorem ratio_step_outweighs_rounding {u p q xa xb Da Db M d : ℚ} (hu0 : 0 ≤ u)
    (hu1 : u ≤ 1 / 100) (hp0 : 0 ≤ p) (hpq : p + d ≤ q) (hd : 0 ≤ d) (hqM : q ≤ M)
    (hM : (5 * M + 3 * M ^ 2) * u ≤ d)
    (hxa1 : p - p * u ≤ xa) (hxa2 : xa ≤ p + p * u)
    (hxb1 : q - q * u ≤ xb) (hxb2 : xb ≤ q + q * u)
    (hDa1 : (1 + xa) - (1 + xa) * u ≤ Da) (hDb2 : Db ≤ (1 + xb) + (1 + xb) * u) :
    xa * Db ≤ xb * Da := by
  have hq0 : 0 ≤ q := by linarith
  have hpM : p ≤ M := by linarith
  have hM0 : 0 ≤ M := by linarith
  have hpu : 0 ≤ p * u := mul_nonneg hp0 hu0
  have hqu : 0 ≤ q * u := mul_nonneg hq0 hu0
  have hpu2 : p * u ≤ p * (1 / 100) := mul_le_mul_of_nonneg_left hu1 hp0
  have hqu2 : q * u ≤ q * (1 / 100) := mul_le_mul_of_nonneg_left hu1 hq0
  have hxa0 : 0 ≤ xa := by linarith
  have hxb0 : 0 ≤ xb := by linarith
  have hxaM : xa ≤ 101 / 100 * M := by linarith
  have hxbM : xb ≤ 101 / 100 * M := by linarith
  have hprod : xa * xb ≤ (101 / 100 * M) * (101 / 100 * M) :=
    mul_le_mul hxaM hxbM hxb0 (by linarith)
  have hM2 : 0 ≤ M ^ 2 := by positivity
  have hsum : xa + xb + 2 * (xa * xb) ≤ 3 * M + 3 * M ^ 2 := by
    have h : (101 / 100 * M) * (101 / 100 * M) = 10201 / 10000 * M ^ 2 := by ring
    rw [h] at hprod
    linarith
  have hsumu : (xa + xb + 2 * (xa * xb)) * u ≤ (3 * M + 3 * M ^ 2) * u :=
    mul_le_mul_of_nonneg_right hsum hu0
  have hpMu : p * u ≤ M * u := mul_le_mul_of_nonneg_right hpM hu0
  have hqMu : q * u ≤ M * u := mul_le_mul_of_nonneg_right hqM hu0
  have hkey : xa * ((1 + xb) + (1 + xb) * u) ≤ xb * ((1 + xa) - (1 + xa) * u) := by
    have hexp : xb * ((1 + xa) - (1 + xa) * u) - xa * ((1 + xb) + (1 + xb) * u) =
        (xb - xa) - (xa + xb + 2 * (xa * xb)) * u := by ring
    have hM3 : (5 * M + 3 * M ^ 2) * u = 2 * (M * u) + (3 * M + 3 * M ^ 2) * u := by ring
    linarith
  calc xa * Db ≤ xa * ((1 + xb) + (1 + xb) * u) := mul_le_mul_of_nonneg_left hDb2 hxa0
    _ ≤ xb * ((1 + xa) - (1 + xa) * u) := hkey
    _ ≤ xb * Da := mul_le_mul_of_nonneg_left hDa1 hxb0

/-- The rational transform of a counter does not decrease when the counter grows, as long
as the counter stays so small that one step of it outweighs the rounding: `M` bounds the
counter divided by the median. -/
theorem logNormalCDF_counter_mono {F : Float64} (hF : F.Lawful) (hA : F.RoundsWithin)
    (hI : F.ExactInt) {med M : ℚ} (hmed1 : 1 ≤ med) (hmed : med ≤ 64)
    (hM32 : 1 + 2 * M ≤ 2 ^ 32)
    (hM : (5 * M + 3 * M ^ 2) * (1 / 2 ^ 53 + 64 / 2 ^ 1075) ≤ 1 / med)
    {a b : Int} (ha : 0 ≤ a) (hab : a ≤ b) (hb : (b : ℚ) ≤ M * med) (hb53 : b ≤ 2 ^ 53) :
    logNormalCDF F (F.div (F.ofInt a) med) ≤ logNormalCDF F (F.div (F.ofInt b) med) := by
  have hmed0 : (0 : ℚ) < med := by linarith
  have ha53 : a ≤ 2 ^ 53 := le_trans hab hb53
  have hb0 : 0 ≤ b := le_trans ha hab
  have h0 : F.round 0 = 0 := hF.round_zero
  have h1 : F.round 1 = 1 := hF.round_one
  unfold logNormalCDF Float64.div Float64.add Float64.ofInt
  rw [hI a ha ha53, hI b hb0 hb53]
  rcases eq_or_lt_of_le hab with heq | hlt
  · rw [heq]
  rcases eq_or_lt_of_le ha with hz | hpos
  · -- the smaller counter is zero: its transform is zero
    rw [← hz]
    simp only [Int.cast_zero, zero_div, h0]
    have hxb : 0 ≤ F.round ((b : ℚ) / med) :=
      hF.round_nonneg (div_nonneg (by exact_mod_cast hb0) hmed0.le)
    have hDb : 0 ≤ F.round (1 + F.round ((b : ℚ) / med)) := hF.round_nonneg (by linarith)
    exact hF.round_nonneg (div_nonneg hxb hDb)
  -- both counters are positive
  have hu1 : (1 : ℚ) / 2 ^ 53 + 64 / 2 ^ 1075 ≤ 1 / 100 := by norm_num
  have ha1 : (1 : ℚ) ≤ a := by exact_mod_cast hpos
  have hab1 : (a : ℚ) + 1 ≤ b := by exact_mod_cast hlt
  have hpq : (a : ℚ) / med + 1 / med ≤ (b : ℚ) / med := by
    rw [← add_div]
    exact div_le_div_of_nonneg_right hab1 hmed0.le
  have hinv : (1 : ℚ) / 64 ≤ 1 / med := one_div_le_one_div_of_le hmed0 hmed
  have hinv0 : (0 : ℚ) < 1 / med := by positivity
  have hpm : 1 / med ≤ (a : ℚ) / med := div_le_div_of_nonneg_right ha1 hmed0.le
  have hp64 : 1 / 64 ≤ (a : ℚ) / med := by linarith
  have hq64 : 1 / 64 ≤ (b : ℚ) / med := by linarith
  have hqM : (b : ℚ) / med ≤ M := by
    rw [div_le_iff₀ hmed0]
    exact hb
  have hpM : (a : ℚ) / med ≤ M := by linarith
  have hM32b : M ≤ 2 ^ 32 := by linarith
  obtain ⟨hxa1, hxa2⟩ := hA.bounds hp64 (le_trans hpM hM32b)
  obtain ⟨hxb1, hxb2⟩ := hA.bounds hq64 (le_trans hqM hM32b)
  have hp0 : (0 : ℚ) ≤ (a : ℚ) / med := by linarith
  have hq0 : (0 : ℚ) ≤ (b : ℚ) / med := by linarith
  have hxa0 : 0 ≤ F.round ((a : ℚ) / med) := hF.round_nonneg hp0
  have hxb0 : 0 ≤ F.round ((b : ℚ) / med) := hF.round_nonneg hq0
  have hxaM : F.round ((a : ℚ) / med) ≤ 2 * M := by linarith
  have hxbM : F.round ((b : ℚ) / med) ≤ 2 * M := by linarith
  obtain ⟨hDa1, -⟩ := hA.bounds (q := 1 + F.round ((a : ℚ) / med)) (by linarith)
    (by linarith)
  obtain ⟨-, hDb2⟩ := hA.bounds (q := 1 + F.round ((b : ℚ) / med)) (by linarith)
    (by linarith)
  have hDa0 : 0 < F.round (1 + F.round ((a : ℚ) / med)) := by
    have hle : F.round 1 ≤ F.round (1 + F.round ((a : ℚ) / med)) :=
      hF.mono _ _ (by linarith)
    rw [h1] at hle
    linarith
  have hDb0 : 0 < F.round (1 + F.round ((b : ℚ) / med)) := by
    have hle : F.round 1 ≤ F.round (1 + F.round ((b : ℚ) / med)) :=
      hF.mono _ _ (by linarith)
    rw [h1] at hle
    linarith
  apply hF.mono
  rw [div_le_div_iff₀ hDa0 hDb0]
  exact ratio_step_outweighs_rounding (by positivity) hu1 hp0 hpq hinv0.le hqM hM hxa1 hxa2
    hxb1 hxb2 hDa1 hDb2


/-- The rational transform of the stars does not decrease while the stars grow up to
`10 ^ 8`. -/
theorem logNormalCDF_stars_mono {F : Float64} (hF : F.Lawful) (hA : F.RoundsWithin)
    (hI : F.ExactInt) {a b : Int} (ha : 0 ≤ a) (hab : a ≤ b) (hb : b ≤ 10 ^ 8) :
    logNormalCDF F (F.div (F.ofInt a) 50) ≤ logNormalCDF F (F.div (F.ofInt b) 50) := by
  have hbq : (b : ℚ) ≤ 2000000 * 50 := by
    have : ((b : Int) : ℚ) ≤ (((10 : Int) ^ 8 : Int) : ℚ) := by exact_mod_cast hb
    norm_num at this ⊢
    exact this
  exact logNormalCDF_counter_mono hF hA hI (M := 2000000) (by norm_num) (by norm_num)
    (by norm_num) (by norm_num) ha hab hbq (le_trans hb (by norm_num))

/-- The rational transform of the followers does not decrease while the followers grow up
to `10 ^ 8`. -/
theorem logNormalCDF_followers_mono {F : Float64} (hF : F.Lawful) (hA : F.RoundsWithin)
    (hI : F.ExactInt) {a b : Int} (ha : 0 ≤ a) (hab : a ≤ b) (hb : b ≤ 10 ^ 8) :
    logNormalCDF F (F.div (F.ofInt a) 10) ≤ logNormalCDF F (F.div (F.ofInt b) 10) := by
  have hbq : (b : ℚ) ≤ 10000000 * 10 := by
    have : ((b : Int) : ℚ) ≤ (((10 : Int) ^ 8 : Int) : ℚ) := by exact_mod_cast hb
    norm_num at this ⊢
    exact this
  exact logNormalCDF_counter_mono hF hA hI (M := 10000000) (by norm_num) (by norm_num)
    (by norm_num) (by norm_num) ha hab hbq (le_trans hb (by norm_num))

/-- The percentile does not increase when the transforms of the counters do not
decrease. -/
theorem CalculateRank_percentile_antitone {F : Float64} (hF : F.Lawful)
    (allCommits : Bool) {c p i r s f c' p' i' r' s' f' : Int}
    (hc : exponentialCDF F (F.div (F.ofInt c) (if allCommits = true then 1000 else 250)) ≤
      exponentialCDF F (F.div (F.ofInt c') (if allCommits = true then 1000 else 250)))
    (hp : exponentialCDF F (F.div (F.ofInt p) 50) ≤ exponentialCDF F (F.div (F.ofInt p') 50))
    (hi : exponentialCDF F (F.div (F.ofInt i) 25) ≤ exponentialCDF F (F.div (F.ofInt i') 25))
    (hr : exponentialCDF F (F.div (F.ofInt r) 2) ≤ exponentialCDF F (F.div (F.ofInt r') 2))
    (hs : logNormalCDF F (F.div (F.ofInt s) 50) ≤ logNormalCDF F (F.div (F.ofInt s') 50))
    (hf : logNormalCDF F (F.div (F.ofInt f) 10) ≤ logNormalCDF F (F.div (F.ofInt f') 10)) :
    (CalculateRank F allCommits c' p' i' r' s' f').Percentile ≤
      (CalculateRank F allCommits c p i r s f).Percentile := by
  simp only [CalculateRank, totalWeight_eq hF]
  apply Float64.mul_mono_right hF
  unfold Float64.sub
  apply hF.mono
  apply sub_le_sub_left
  unfold Float64.div
  apply hF.mono
  apply div_le_div_of_nonneg_right _ (by norm_num)
  repeat' apply Float64.add_mono hF
  · exact Float64.mul_mono hF (by norm_num) hc
  · exact Float64.mul_mono hF (by norm_num) hp
  · exact Float64.mul_mono hF (by norm_num) hi
  · exact Float64.mul_mono hF (by norm_num) hr
  · exact Float64.mul_mono hF (by norm_num) hs
  · exact Float64.mul_mono hF (by norm_num) hf

/-- **C13 (amended).** In float64 arithmetic (rounding monotone, idempotent, to a nearest
value, exact on the small constants and on the integers of at most 53 bits;
`math.Pow(2, y)` within eight units of the last place of the real power for `y ≤ 0`),
for every mode flag and all non-negative counters, increasing any single one of commits,
PRs, issues and reviews by `d ≥ 0` while the other five counters are held fixed never
increases the percentile returned by `CalculateRank`, and increasing the stars or the
followers by `d ≥ 0` never increases it as long as the increased count is at most
`10 ^ 8`. -/
theorem C13_percentile_never_increases (F : Float64) (hF : F.Lawful)
    (hA : F.RoundsWithin) (hI : F.ExactInt) (hPw : F.PowAccurate) (hOne : F.RoundsToOne)
    (allCommits : Bool) (c p i r s f d : Int) (hc : 0 ≤ c) (hp : 0 ≤ p) (hi : 0 ≤ i)
    (hr : 0 ≤ r) (hs : 0 ≤ s) (hf : 0 ≤ f) (hd : 0 ≤ d) :
    (CalculateRank F allCommits (c + d) p i r s f).Percentile ≤
        (CalculateRank F allCommits c p i r s f).Percentile ∧
      (CalculateRank F allCommits c (p + d) i r s f).Percentile ≤
        (CalculateRank F allCommits c p i r s f).Percentile ∧
      (CalculateRank F allCommits c p (i + d) r s f).Percentile ≤
        (CalculateRank F allCommits c p i r s f).Percentile ∧
      (CalculateRank F allCommits c p i (r + d) s f).Percentile ≤
        (CalculateRank F allCommits c p i r s f).Percentile ∧
      (s + d ≤ 10 ^ 8 →
        (CalculateRank F allCommits c p i r (s + d) f).Percentile ≤
          (CalculateRank F allCommits c p i r s f).Percentile) ∧
      (f + d ≤ 10 ^ 8 →
        (CalculateRank F allCommits c p i r s (f + d)).Percentile ≤
          (CalculateRank F allCommits c p i r s f).Percentile) := by
  have hle : ∀ n : Int, n ≤ n + d := fun n => by omega
  have hm : (1 : ℚ) ≤ (if allCommits = true then 1000 else 250) ∧
      (if allCommits = true then (1000 : ℚ) else 250) ≤ 1000 := by
    split <;> norm_num
  exact
    ⟨CalculateRank_percentile_antitone hF allCommits
        (exponentialCDF_counter_mono hF hA hI hPw hOne hm.1 hm.2 hc (hle c))
        (le_refl _) (le_refl _) (le_refl _) (le_refl _) (le_refl _),
      CalculateRank_percentile_antitone hF allCommits (le_refl _)
        (exponentialCDF_counter_mono hF hA hI hPw hOne (by norm_num) (by norm_num) hp (hle p))
        (le_refl _) (le_refl _) (le_refl _) (le_refl _),
      CalculateRank_percentile_antitone hF allCommits (le_refl _) (le_refl _)
        (exponentialCDF_counter_mono hF hA hI hPw hOne (by norm_num) (by norm_num) hi (hle i))
        (le_refl _) (le_refl _) (le_refl _),
      CalculateRank_percentile_antitone hF allCommits (le_refl _) (le_refl _) (le_refl _)
        (exponentialCDF_counter_mono hF hA hI hPw hOne (by norm_num) (by norm_num) hr (hle r))
        (le_refl _) (le_refl _),
      fun hb => CalculateRank_percentile_antitone hF allCommits (le_refl _) (le_refl _)
        (le_refl _) (le_refl _) (logNormalCDF_stars_mono hF hA hI hs (hle s) hb) (le_refl _),
      fun hb => CalculateRank_percentile_antitone hF allCommits (le_refl _) (le_refl _)
        (le_refl _) (le_refl _) (le_refl _)
        (logNormalCDF_followers_mono hF hA hI hf (hle f) hb)⟩

/-- Witness of C13 (amended): IEEE arithmetic, the counters 100, 10, 5, 3, 20, 4 and an
increase of 50. -/
theorem C13_percentile_never_increases_witness :
    (CalculateRank Float64.ieee false (100 + 50) 10 5 3 20 4).Percentile ≤
        (CalculateRank Float64.ieee false 100 10 5 3 20 4).Percentile ∧
      (CalculateRank Float64.ieee false 100 (10 + 50) 5 3 20 4).Percentile ≤
        (CalculateRank Float64.ieee false 100 10 5 3 20 4).Percentile ∧
      (CalculateRank Float64.ieee false 100 10 (5 + 50) 3 20 4).Percentile ≤
        (CalculateRank Float64.ieee false 100 10 5 3 20 4).Percentile ∧
      (CalculateRank Float64.ieee false 100 10 5 (3 + 50) 20 4).Percentile ≤
        (CalculateRank Float64.ieee false 100 10 5 3 20 4).Percentile ∧
      ((20 : Int) + 50 ≤ 10 ^ 8 →
        (CalculateRank Float64.ieee false 100 10 5 3 (20 + 50) 4).Percentile ≤
          (CalculateRank Float64.ieee false 100 10 5 3 20 4).Percentile) ∧
      ((4 : Int) + 50 ≤ 10 ^ 8 →
        (CalculateRank Float64.ieee false 100 10 5 3 20 (4 + 50)).Percentile ≤
          (CalculateRank Float64.ieee false 100 10 5 3 20 4).Percentile) :=
  C13_percentile_never_increases Float64.ieee Float64.ieee_lawful
    Float64.ieee_roundsWithin Float64.ieee_exactInt Float64.ieee_powAccurate
    Float64.ieee_roundsToOne false 100 10 5 3 20 4 50 (by decide) (by decide) (by decide)
    (by decide) (by decide) (by decide) (by decide)

/-- **C13, counterexample.** In IEEE arithmetic, raising the commits from 0 to 250 with
the other counters at 0 lowers the percentile from 100 to about 91.67, so a larger
counter does decrease the percentile; and raising the followers from 90071992547409920 by
20 with the other counters at 0 raises the percentile by one unit of the last place, so
for the stars and the followers the percentile is monotone only within a bound. -/
theorem C13_counterexample_more_commits_lower_percentile :
    (CalculateRank Float64.ieee false 0 0 0 0 0 0).Percentile = 100 ∧
      (CalculateRank Float64.ieee false 250 0 0 0 0 0).Percentile =
        3225234108142933 / 35184372088832 ∧
      (CalculateRank Float64.ieee false 250 0 0 0 0 0).Percentile <
        (CalculateRank Float64.ieee false 0 0 0 0 0 0).Percentile ∧
      (CalculateRank Float64.ieee false 0 0 0 0 0 90071992547409920).Percentile <
        (CalculateRank Float64.ieee false 0 0 0 0 0 (90071992547409920 + 20)).Percentile :=
  ⟨by decide!, by decide!, by decide!, by decide!⟩

/-- What the loop over the thresholds returns: the initial `level` when `rank100` exceeds
every threshold, and otherwise the label at the first index whose threshold is not
exceeded. -/
theorem levelLoop_spec (rank100 : ℚ) :
    ∀ (ts : List ℚ) (idx : Nat) (level : String),
      ((∀ t ∈ ts, ¬ rank100 ≤ t) ∧ levelLoop rank100 ts idx level = level) ∨
      (∃ k, k < ts.length ∧ rank100 ≤ ts.getD k 0 ∧ (∀ j, j < k → ¬ rank100 ≤ ts.getD j 0) ∧
        levelLoop rank100 ts idx level = levels.getD (idx + k) "") := by
  intro ts
  induction ts with
  | nil => intro idx level; left; simp [levelLoop]
  | cons t rest ih =>
    intro idx level
    by_cases h : rank100 ≤ t
    · right
      refine ⟨0, by simp, by simpa using h, by simp, by simp [levelLoop, h]⟩
    · rcases ih (idx + 1) level with ⟨hall, hres⟩ | ⟨k, hk, hle, hmin, hres⟩
      · left
        refine ⟨?_, by simp [levelLoop, h, hres]⟩
        intro u hu
        rcases List.mem_cons.mp hu with rfl | hu
        · exact h
        · exact hall u hu
      · right
        refine ⟨k + 1, by simpa using hk, by simpa using hle, ?_, ?_⟩
        · intro j hj
          cases j with
          | zero => simpa using h
          | succ j => simpa using hmin j (by omega)
        · simp only [levelLoop, h, if_false, hres]
          congr 1
          omega

/-- **C14.** For every input and every float64 arithmetic, the grade returned by
`CalculateRank` is the label at the smallest index `k` whose threshold is not exceeded by
the percentile, the thresholds 1, 12.5, 25, 37.5, 50, 62.5, 75, 87.5, 100 being paired in
order with the labels S, A+, A, A-, B+, B, B-, C+, C; and it is the lowest grade `C` when
the percentile exceeds every threshold. -/
theorem C14_grade_is_first_threshold_not_exceeded (F : Float64) (allCommits : Bool)
    (c p i r s f : Int) :
    (∀ k, k < thresholds.length →
      (CalculateRank F allCommits c p i r s f).Percentile ≤ thresholds.getD k 0 →
      (∀ j, j < k → ¬ (CalculateRank F allCommits c p i r s f).Percentile ≤
        thresholds.getD j 0) →
      (CalculateRank F allCommits c p i r s f).Level = levels.getD k "") ∧
    ((∀ t ∈ thresholds, ¬ (CalculateRank F allCommits c p i r s f).Percentile ≤ t) →
      (CalculateRank F allCommits c p i r s f).Level = "C") ∧
    thresholds.zip levels =
      [(1, "S"), (25 / 2, "A+"), (25, "A"), (75 / 2, "A-"), (50, "B+"), (125 / 2, "B"),
       (75, "B-"), (175 / 2, "C+"), (100, "C")] := by
  have hspec := levelLoop_spec (CalculateRank F allCommits c p i r s f).Percentile thresholds 0
    (levels.getD (levels.length - 1) "")
  have hL : (CalculateRank F allCommits c p i r s f).Level =
      levelLoop (CalculateRank F allCommits c p i r s f).Percentile thresholds 0
        (levels.getD (levels.length - 1) "") := rfl
  refine ⟨?_, ?_, rfl⟩
  · intro k hk hle hmin
    rcases hspec with ⟨hall, _⟩ | ⟨k0, hk0, hle0, hmin0, hres⟩
    · exact absurd hle (hall _ (by
        rw [List.getD_eq_getElem _ _ hk]
        exact List.getElem_mem _))
    · have hkk : k = k0 := by
        rcases Nat.lt_trichotomy k k0 with hlt | heq | hgt
        · exact absurd hle (hmin0 k hlt)
        · exact heq
        · exact absurd hle0 (hmin k0 hgt)
      rw [hL, hres, hkk, Nat.zero_add]
  · intro hall
    rcases hspec with ⟨_, hres⟩ | ⟨k0, hk0, hle0, _, _⟩
    · rw [hL, hres]
      rfl
    · exact absurd hle0 (hall _ (by
        rw [List.getD_eq_getElem _ _ hk0]
        exact List.getElem_mem _))

/-- The exponential transform lies between 0 and 1 at a non-negative argument. -/
theorem exponentialCDF_range {F : Float64} (hF : F.Lawful) (hU : F.PowUnit) {x : ℚ}
    (hx : 0 ≤ x) : 0 ≤ exponentialCDF F x ∧ exponentialCDF F x ≤ 1 := by
  obtain ⟨h0, h1⟩ := hU (-x) (by linarith)
  unfold exponentialCDF Float64.sub
  constructor
  · exact hF.round_nonneg (by linarith)
  · have := hF.mono (1 - F.Pow 2 (-x)) 1 (by linarith)
    rwa [hF.round_one] at this

/-- The rational transform lies between 0 and 1 at a non-negative float64 argument. -/
theorem logNormalCDF_range {F : Float64} (hF : F.Lawful) {x : ℚ} (hx : 0 ≤ x)
    (hxr : F.round x = x) : 0 ≤ logNormalCDF F x ∧ logNormalCDF F x ≤ 1 := by
  have hden1 : 1 ≤ F.add 1 x := by
    have := hF.mono 1 (1 + x) (by linarith)
    rwa [hF.round_one] at this
  have hdenx : x ≤ F.add 1 x := by
    have := hF.mono x (1 + x) (by linarith)
    rwa [hxr] at this
  unfold logNormalCDF Float64.div
  constructor
  · exact hF.round_nonneg (div_nonneg hx (by linarith))
  · have hq : x / F.add 1 x ≤ 1 := by
      rw [div_le_one (by linarith)]
      exact hdenx
    have := hF.mono _ 1 hq
    rwa [hF.round_one] at this

/-- The argument handed to a transform is a float64 value. -/
theorem counterArg_round {F : Float64} (hF : F.Lawful) (n : Int) (m : ℚ) :
    F.round (F.div (F.ofInt n) m) = F.div (F.ofInt n) m :=
  hF.idem _

/-- A weighted transform lies between 0 and its weight. -/
theorem Float64.mul_range {F : Float64} (hF : F.Lawful) {w a : ℚ}
    (hw : w ∈ ([0, 1, 2, 3, 4, 5, 6, 7, 11, 12, 100] : List ℚ)) (hw0 : 0 ≤ w) (ha : 0 ≤ a)
    (ha1 : a ≤ 1) : 0 ≤ F.mul w a ∧ F.mul w a ≤ w := by
  unfold Float64.mul
  constructor
  · exact hF.round_nonneg (mul_nonneg hw0 ha)
  · have := hF.mono (w * a) w (by nlinarith)
    rwa [hF.exact w hw] at this

/-- A rounded sum of two values within `[0, u]` and `[0, v]` lies within `[0, u + v]` when
`u + v` is a float64 value. -/
theorem Float64.add_range {F : Float64} (hF : F.Lawful) {a b u v : ℚ}
    (huv : u + v ∈ ([0, 1, 2, 3, 4, 5, 6, 7, 11, 12, 100] : List ℚ))
    (ha : 0 ≤ a ∧ a ≤ u) (hb : 0 ≤ b ∧ b ≤ v) : 0 ≤ F.add a b ∧ F.add a b ≤ u + v := by
  unfold Float64.add
  constructor
  · exact hF.round_nonneg (by linarith [ha.1, hb.1])
  · have := hF.mono (a + b) (u + v) (by linarith [ha.2, hb.2])
    rwa [hF.exact _ huv] at this

/-- The grade returned by `CalculateRank` is one of the nine labels. -/
theorem CalculateRank_level_mem (F : Float64) (allCommits : Bool) (c p i r s f : Int) :
    (CalculateRank F allCommits c p i r s f).Level ∈ levels := by
  have hL : (CalculateRank F allCommits c p i r s f).Level =
      levelLoop (CalculateRank F allCommits c p i r s f).Percentile thresholds 0
        (levels.getD (levels.length - 1) "") := rfl
  rcases levelLoop_spec (CalculateRank F allCommits c p i r s f).Percentile thresholds 0
    (levels.getD (levels.length - 1) "") with ⟨_, hres⟩ | ⟨k, hk, _, _, hres⟩
  · rw [hL, hres]
    decide
  · rw [hL, hres, Nat.zero_add]
    have hk9 : k < levels.length := by simpa [thresholds, levels] using hk
    rw [List.getD_eq_getElem _ _ hk9]
    exact List.getElem_mem _

/-- The percentile lies between 0 and 100 for non-negative counters. -/
theorem CalculateRank_percentile_range {F : Float64} (hF : F.Lawful) (hU : F.PowUnit)
    (allCommits : Bool) {c p i r s f : Int} (hc : 0 ≤ c) (hp : 0 ≤ p) (hi : 0 ≤ i)
    (hr : 0 ≤ r) (hs : 0 ≤ s) (hf : 0 ≤ f) :
    0 ≤ (CalculateRank F allCommits c p i r s f).Percentile ∧
      (CalculateRank F allCommits c p i r s f).Percentile ≤ 100 := by
  have hm : (0 : ℚ) ≤ if allCommits = true then 1000 else 250 := by split <;> norm_num
  have hEc := exponentialCDF_range hF hU (counterArg_nonneg hF hc hm)
  have hEp := exponentialCDF_range hF hU (counterArg_nonneg hF hp (show (0 : ℚ) ≤ 50 by norm_num))
  have hEi := exponentialCDF_range hF hU (counterArg_nonneg hF hi (show (0 : ℚ) ≤ 25 by norm_num))
  have hEr := exponentialCDF_range hF hU (counterArg_nonneg hF hr (show (0 : ℚ) ≤ 2 by norm_num))
  have hRs := logNormalCDF_range hF (counterArg_nonneg hF hs (show (0 : ℚ) ≤ 50 by norm_num))
    (counterArg_round hF s 50)
  have hRf := logNormalCDF_range hF (counterArg_nonneg hF hf (show (0 : ℚ) ≤ 10 by norm_num))
    (counterArg_round hF f 10)
  have h1 := Float64.mul_range hF (w := 2) (by simp) (by norm_num) hEc.1 hEc.2
  have h2 := Float64.mul_range hF (w := 3) (by simp) (by norm_num) hEp.1 hEp.2
  have h3 := Float64.mul_range hF (w := 1) (by simp) (by norm_num) hEi.1 hEi.2
  have h4 := Float64.mul_range hF (w := 1) (by simp) (by norm_num) hEr.1 hEr.2
  have h5 := Float64.mul_range hF (w := 4) (by simp) (by norm_num) hRs.1 hRs.2
  have h6 := Float64.mul_range hF (w := 1) (by simp) (by norm_num) hRf.1 hRf.2
  have s1 := Float64.add_range hF (u := 2) (v := 3) (by norm_num) h1 h2
  have s2 := Float64.add_range hF (u := 2 + 3) (v := 1) (by norm_num) s1 h3
  have s3 := Float64.add_range hF (u := 2 + 3 + 1) (v := 1) (by norm_num) s2 h4
  have s4 := Float64.add_range hF (u := 2 + 3 + 1 + 1) (v := 4) (by norm_num) s3 h5
  have s5 := Float64.add_range hF (u := 2 + 3 + 1 + 1 + 4) (v := 1) (by norm_num) s4 h6
  simp only [CalculateRank, totalWeight_eq hF]
  set S := F.add (F.add (F.add (F.add (F.add
    (F.mul 2 (exponentialCDF F (F.div (F.ofInt c) (if allCommits = true then 1000 else 250))))
    (F.mul 3 (exponentialCDF F (F.div (F.ofInt p) 50))))
    (F.mul 1 (exponentialCDF F (F.div (F.ofInt i) 25))))
    (F.mul 1 (exponentialCDF F (F.div (F.ofInt r) 2))))
    (F.mul 4 (logNormalCDF F (F.div (F.ofInt s) 50))))
    (F.mul 1 (logNormalCDF F (F.div (F.ofInt f) 10))) with hS
  have hq0 : 0 ≤ F.div S 12 := hF.round_nonneg (div_nonneg s5.1 (by norm_num))
  have hq1 : F.div S 12 ≤ 1 := by
    have := hF.mono (S / 12) 1 (by
      rw [div_le_one (by norm_num)]
      linarith [s5.2])
    rwa [hF.round_one] at this
  have hr0 : 0 ≤ F.sub 1 (F.div S 12) := hF.round_nonneg (by linarith)
  have hr1 : F.sub 1 (F.div S 12) ≤ 1 := by
    have := hF.mono (1 - F.div S 12) 1 (by linarith)
    rwa [hF.round_one] at this
  constructor
  · exact hF.round_nonneg (mul_nonneg hr0 (by norm_num))
  · have := hF.mono (F.sub 1 (F.div S 12) * 100) 100 (by linarith)
    rwa [hF.exact 100 (by simp)] at this

/-- **C15 (amended).** In lawful float64 arithmetic whose power `math.Pow(2, y)` lies
in `[0, 1]` for `y ≤ 0`, both transforms map a non-negative float64 argument into the
closed interval `[0, 1]`, and for all non-negative counters and either mode the
percentile returned by `CalculateRank` lies in `[0, 100]` and its level is one of the
nine grades. -/
theorem C15_transforms_and_percentile_ranges (F : Float64) (hF : F.Lawful) (hU : F.PowUnit)
    (x : ℚ) (hx : 0 ≤ x) (hxr : F.round x = x) (allCommits : Bool) (c p i r s f : Int)
    (hc : 0 ≤ c) (hp : 0 ≤ p) (hi : 0 ≤ i) (hr : 0 ≤ r) (hs : 0 ≤ s) (hf : 0 ≤ f) :
    (0 ≤ exponentialCDF F x ∧ exponentialCDF F x ≤ 1) ∧
      (0 ≤ logNormalCDF F x ∧ logNormalCDF F x ≤ 1) ∧
      (0 ≤ (CalculateRank F allCommits c p i r s f).Percentile ∧
        (CalculateRank F allCommits c p i r s f).Percentile ≤ 100) ∧
      (CalculateRank F allCommits c p i r s f).Level ∈ levels :=
  ⟨exponentialCDF_range hF hU hx, logNormalCDF_range hF hx hxr,
    CalculateRank_percentile_range hF hU allCommits hc hp hi hr hs hf,
    CalculateRank_level_mem F allCommits c p i r s f⟩

/-- Witness of C15 (amended): IEEE arithmetic, the argument 3 and the counters 100, 10,
5, 3, 20, 4. -/
theorem C15_transforms_and_percentile_ranges_witness :
    (0 ≤ exponentialCDF Float64.ieee 3 ∧ exponentialCDF Float64.ieee 3 ≤ 1) ∧
      (0 ≤ logNormalCDF Float64.ieee 3 ∧ logNormalCDF Float64.ieee 3 ≤ 1) ∧
      (0 ≤ (CalculateRank Float64.ieee true 100 10 5 3 20 4).Percentile ∧
        (CalculateRank Float64.ieee true 100 10 5 3 20 4).Percentile ≤ 100) ∧
      (CalculateRank Float64.ieee true 100 10 5 3 20 4).Level ∈ levels :=
  C15_transforms_and_percentile_ranges Float64.ieee Float64.ieee_lawful
    Float64.ieee_powUnit 3 (by norm_num) (by decide!) true 100 10 5 3 20 4 (by decide)
    (by decide) (by decide) (by decide) (by decide) (by decide)

/-- **C15, counterexample.** In IEEE arithmetic 15000 commits in the default mode give
the argument 60, a non-negative float64 value, and the exponential transform maps 60 to
1: `1 - 2^(-60)` rounds to 1, which is outside `[0, 1)`. -/
theorem C15_counterexample_transform_reaches_one :
    Float64.ieee.div (Float64.ieee.ofInt 15000) 250 = 60 ∧
      (0 : ℚ) ≤ 60 ∧
      Float64.ieee.Pow 2 (-60) = 1 / 1152921504606846976 ∧
      exponentialCDF Float64.ieee 60 = 1 ∧
      ¬ exponentialCDF Float64.ieee 60 < 1 :=
  ⟨by decide!, by decide!, by decide!, by decide!, by decide!⟩

/-- A rounded product with a weight between 1 and 4: the error of the factor times the
weight, and one rounding. -/
theorem Float64.mul_close {F : Float64} (hA : F.RoundsWithin) {w e : ℚ} {E α : ℝ}
    (hw1 : 1 ≤ w) (hw4 : w ≤ 4) (h : |(e : ℝ) - E| ≤ α) (hE : |E| ≤ 1)
    (hα : α ≤ 1 / 10 ^ 4) :
    |((F.mul w e : ℚ) : ℝ) - (w : ℝ) * E| ≤ (w : ℝ) * α + (w : ℝ) * (112 / 10 ^ 18) ∧
      |(w : ℝ) * E| ≤ (w : ℝ) := by
  have hw1r : (1 : ℝ) ≤ (w : ℝ) := by exact_mod_cast hw1
  have hw4r : (w : ℝ) ≤ 4 := by exact_mod_cast hw4
  have hw0 : (0 : ℝ) ≤ (w : ℝ) := by linarith
  have hα0 : 0 ≤ α := le_trans (abs_nonneg _) h
  have hX : |(w : ℝ) * E| ≤ (w : ℝ) := by
    rw [abs_mul, abs_of_nonneg hw0]
    exact mul_le_of_le_one_right hw0 hE
  have hq : |((w * e : ℚ) : ℝ) - (w : ℝ) * E| ≤ (w : ℝ) * α := by
    push_cast
    rw [← mul_sub, abs_mul, abs_of_nonneg hw0]
    exact mul_le_mul_of_nonneg_left h hw0
  refine ⟨?_, hX⟩
  unfold Float64.mul
  exact hA.step hq hX hw1r (by linarith) (by nlinarith)

/-- A rounded sum: the errors of the two terms, and one rounding. -/
theorem Float64.add_close {F : Float64} (hA : F.RoundsWithin) {a b : ℚ} {A B α β K : ℝ}
    (ha : |(a : ℝ) - A| ≤ α) (hb : |(b : ℝ) - B| ≤ β) (hK : |A + B| ≤ K) (hK1 : 1 ≤ K)
    (hK2 : K ≤ 1000) (hαβ : α + β ≤ 1 / 1000) :
    |((F.add a b : ℚ) : ℝ) - (A + B)| ≤ α + β + K * (112 / 10 ^ 18) := by
  have hq : |((a + b : ℚ) : ℝ) - (A + B)| ≤ α + β := by
    push_cast
    have h1 : (a : ℝ) + (b : ℝ) - (A + B) = ((a : ℝ) - A) + ((b : ℝ) - B) := by ring
    rw [h1]
    exact le_trans (abs_add _ _) (add_le_add ha hb)
  unfold Float64.add
  exact hA.step hq hK hK1 hK2 hαβ

/-- The weighted average, the score and the percentile from transforms that are close to
their real values: the percentile is within `1e-12` of the real formula. -/
theorem percentile_close_of_terms {F : Float64} (hA : F.RoundsWithin)
    {e1 e2 e3 e4 r1 r2 : ℚ} {E1 E2 E3 E4 R1 R2 : ℝ}
    (h1 : |(e1 : ℝ) - E1| ≤ 18 / 10 ^ 16) (b1 : |E1| ≤ 1)
    (h2 : |(e2 : ℝ) - E2| ≤ 18 / 10 ^ 16) (b2 : |E2| ≤ 1)
    (h3 : |(e3 : ℝ) - E3| ≤ 18 / 10 ^ 16) (b3 : |E3| ≤ 1)
    (h4 : |(e4 : ℝ) - E4| ≤ 18 / 10 ^ 16) (b4 : |E4| ≤ 1)
    (h5 : |(r1 : ℝ) - R1| ≤ 6 / 10 ^ 16) (b5 : |R1| ≤ 1)
    (h6 : |(r2 : ℝ) - R2| ≤ 6 / 10 ^ 16) (b6 : |R2| ≤ 1) :
    |((F.mul (F.sub 1 (F.div (F.add (F.add (F.add (F.add (F.add
        (F.mul 2 e1) (F.mul 3 e2)) (F.mul 1 e3)) (F.mul 1 e4)) (F.mul 4 r1)) (F.mul 1 r2))
        12)) 100 : ℚ) : ℝ) -
      100 * (1 - (2 * E1 + 3 * E2 + 1 * E3 + 1 * E4 + 4 * R1 + 1 * R2) / 12)| ≤
      1 / 10 ^ 12 := by
  obtain ⟨m1, k1⟩ := Float64.mul_close hA (w := 2) (by norm_num) (by norm_num) h1 b1
    (by norm_num)
  obtain ⟨m2, k2⟩ := Float64.mul_close hA (w := 3) (by norm_num) (by norm_num) h2 b2
    (by norm_num)
  obtain ⟨m3, k3⟩ := Float64.mul_close hA (w := 1) (by norm_num) (by norm_num) h3 b3
    (by norm_num)
  obtain ⟨m4, k4⟩ := Float64.mul_close hA (w := 1) (by norm_num) (by norm_num) h4 b4
    (by norm_num)
  obtain ⟨m5, k5⟩ := Float64.mul_close hA (w := 4) (by norm_num) (by norm_num) h5 b5
    (by norm_num)
  obtain ⟨m6, k6⟩ := Float64.mul_close hA (w := 1) (by norm_num) (by norm_num) h6 b6
    (by norm_num)
  simp only [Rat.cast_ofNat, Rat.cast_one] at m1 m2 m3 m4 m5 m6 k1 k2 k3 k4 k5 k6
  have a1 : |2 * E1 + 3 * E2| ≤ 5 := by
    have := abs_add (2 * E1) (3 * E2)
    linarith
  have s1 := Float64.add_close hA m1 m2 a1 (by norm_num) (by norm_num) (by norm_num)
  have a2 : |2 * E1 + 3 * E2 + 1 * E3| ≤ 6 := by
    have := abs_add (2 * E1 + 3 * E2) (1 * E3)
    linarith
  have s2 := Float64.add_close hA s1 m3 a2 (by norm_num) (by norm_num) (by norm_num)
  have a3 : |2 * E1 + 3 * E2 + 1 * E3 + 1 * E4| ≤ 7 := by
    have := abs_add (2 * E1 + 3 * E2 + 1 * E3) (1 * E4)
    linarith
  have s3 := Float64.add_close hA s2 m4 a3 (by norm_num) (by norm_num) (by norm_num)
  have a4 : |2 * E1 + 3 * E2 + 1 * E3 + 1 * E4 + 4 * R1| ≤ 11 := by
    have := abs_add (2 * E1 + 3 * E2 + 1 * E3 + 1 * E4) (4 * R1)
    linarith
  have s4 := Float64.add_close hA s3 m5 a4 (by norm_num) (by norm_num) (by norm_num)
  have a5 : |2 * E1 + 3 * E2 + 1 * E3 + 1 * E4 + 4 * R1 + 1 * R2| ≤ 12 := by
    have := abs_add (2 * E1 + 3 * E2 + 1 * E3 + 1 * E4 + 4 * R1) (1 * R2)
    linarith
  have s5 := Float64.add_close hA s4 m6 a5 (by norm_num) (by norm_num) (by norm_num)
  set S : ℚ := F.add (F.add (F.add (F.add (F.add
    (F.mul 2 e1) (F.mul 3 e2)) (F.mul 1 e3)) (F.mul 1 e4)) (F.mul 4 r1)) (F.mul 1 r2) with hS
  set T : ℝ := 2 * E1 + 3 * E2 + 1 * E3 + 1 * E4 + 4 * R1 + 1 * R2 with hT
  have s5b : |(S : ℝ) - T| ≤ 222 / 10 ^ 16 := by
    refine le_trans s5 ?_
    norm_num
  -- the weighted average
  have aq : |T / 12| ≤ 1 := by
    rw [abs_div, abs_of_pos (by norm_num : (0 : ℝ) < 12), div_le_one (by norm_num)]
    exact a5
  have hq0 : |((S / 12 : ℚ) : ℝ) - T / 12| ≤ 222 / 10 ^ 16 / 12 := by
    push_cast
    rw [← sub_div, abs_div, abs_of_pos (by norm_num : (0 : ℝ) < 12)]
    exact div_le_div_of_nonneg_right s5b (by norm_num)
  have hq := hA.step hq0 aq (le_refl 1) (by norm_num) (by norm_num)
  -- the score
  have ar : |1 - T / 12| ≤ 2 := by
    have := abs_sub (1 : ℝ) (T / 12)
    rw [abs_one] at this
    linarith
  have hr0 : |((1 - F.round (S / 12) : ℚ) : ℝ) - (1 - T / 12)| ≤
      222 / 10 ^ 16 / 12 + 1 * (112 / 10 ^ 18) := by
    push_cast
    have h : (1 : ℝ) - ((F.round (S / 12) : ℚ) : ℝ) - (1 - T / 12) =
        -(((F.round (S / 12) : ℚ) : ℝ) - T / 12) := by ring
    rw [h, abs_neg]
    exact hq
  have hr := hA.step hr0 ar (by norm_num) (by norm_num) (by norm_num)
  -- the percentile
  have ap : |100 * (1 - T / 12)| ≤ 200 := by
    rw [abs_mul, abs_of_pos (by norm_num : (0 : ℝ) < 100)]
    linarith
  have hp0 : |((F.round (1 - F.round (S / 12)) * 100 : ℚ) : ℝ) - 100 * (1 - T / 12)| ≤
      100 * (222 / 10 ^ 16 / 12 + 1 * (112 / 10 ^ 18) + 2 * (112 / 10 ^ 18)) := by
    push_cast
    have h : ((F.round (1 - F.round (S / 12)) : ℚ) : ℝ) * 100 - 100 * (1 - T / 12) =
        100 * (((F.round (1 - F.round (S / 12)) : ℚ) : ℝ) - (1 - T / 12)) := by ring
    rw [h, abs_mul, abs_of_pos (by norm_num : (0 : ℝ) < 100)]
    exact mul_le_mul_of_nonneg_left hr (by norm_num)
  have hp := hA.step hp0 ap (by norm_num) (by norm_num) (by norm_num)
  unfold Float64.mul Float64.sub Float64.div
  refine le_trans hp ?_
  norm_num

/-- **C16 (amended).** In float64 arithmetic (rounding monotone, idempotent, exact on the
small constants and on the integers of at most 53 bits, to a nearest value;
`math.Pow(2, y)` within `2 ^ (-50)` of the real power for `y ≤ 0`), for all counters
from 0 to `2 ^ 53` and either mode, the percentile returned by `CalculateRank` differs by
at most `10 ^ (-12)` from the real number
`100 * (1 - (2*E(commits/m) + 3*E(prs/50) + 1*E(issues/25) + 1*E(reviews/2)
+ 4*R(stars, 50) + 1*R(followers, 10)) / 12)` with `E(x) = 1 - 2^(-x)`,
`R(x, med) = x / (x + med)` and `m` 1000 in all-commits mode and 250 otherwise. -/
theorem C16_percentile_formula (F : Float64) (hF : F.Lawful) (hA : F.RoundsWithin)
    (hI : F.ExactInt) (hPw : F.PowAccurate) (allCommits : Bool) (c p i r s f : Int)
    (hc : 0 ≤ c) (hc' : c ≤ 2 ^ 53) (hp : 0 ≤ p) (hp' : p ≤ 2 ^ 53)
    (hi : 0 ≤ i) (hi' : i ≤ 2 ^ 53) (hr : 0 ≤ r) (hr' : r ≤ 2 ^ 53)
    (hs : 0 ≤ s) (hs' : s ≤ 2 ^ 53) (hf : 0 ≤ f) (hf' : f ≤ 2 ^ 53) :
    |(((CalculateRank F allCommits c p i r s f).Percentile : ℚ) : ℝ) -
        specPercentile (fun x y : ℝ => x ^ y) allCommits c p i r s f| ≤ 1 / 10 ^ 12 := by
  have h2 := exponentialCDF_close hF hA hI hPw hp hp' (m := 50) (by norm_num)
  have h3 := exponentialCDF_close hF hA hI hPw hi hi' (m := 25) (by norm_num)
  have h4 := exponentialCDF_close hF hA hI hPw hr hr' (m := 2) (by norm_num)
  have h5 := logNormalCDF_close hF hA hI hs hs' (m := 50) (by norm_num)
  have h6 := logNormalCDF_close hF hA hI hf hf' (m := 10) (by norm_num)
  simp only [Rat.cast_ofNat] at h2 h3 h4 h5 h6
  cases allCommits
  · have h1 := exponentialCDF_close hF hA hI hPw hc hc' (m := 250) (by norm_num)
    simp only [Rat.cast_ofNat] at h1
    simp only [CalculateRank, totalWeight_eq hF, specPercentile, Bool.false_eq_true,
      if_false]
    exact percentile_close_of_terms hA h1.1 h1.2 h2.1 h2.2 h3.1 h3.2 h4.1 h4.2 h5.1 h5.2
      h6.1 h6.2
  · have h1 := exponentialCDF_close hF hA hI hPw hc hc' (m := 1000) (by norm_num)
    simp only [Rat.cast_ofNat] at h1
    simp only [CalculateRank, totalWeight_eq hF, specPercentile, if_true]
    exact percentile_close_of_terms hA h1.1 h1.2 h2.1 h2.2 h3.1 h3.2 h4.1 h4.2 h5.1 h5.2
      h6.1 h6.2

/-- Witness of C16 (amended): IEEE arithmetic and the counters 300, 40, 30, 3, 120, 25 in
the default mode. -/
theorem C16_percentile_formula_witness :
    |(((CalculateRank Float64.ieee false 300 40 30 3 120 25).Percentile : ℚ) : ℝ) -
        specPercentile (fun x y : ℝ => x ^ y) false 300 40 30 3 120 25| ≤ 1 / 10 ^ 12 :=
  C16_percentile_formula Float64.ieee Float64.ieee_lawful Float64.ieee_roundsWithin
    Float64.ieee_exactInt Float64.ieee_powAccurate false 300 40 30 3 120 25
    (by decide) (by norm_num) (by decide) (by norm_num) (by decide) (by norm_num)
    (by decide) (by norm_num) (by decide) (by norm_num) (by decide) (by norm_num)

/-- **C16, counterexample.** With 250 commits and the other counters at 0 the formula of
the specification gives `100 * (1 - (2 * (1 - 2^(-1))) / 12) = 275/3`, which is no float64
value; in IEEE arithmetic `CalculateRank` returns the float64
`3225234108142933 / 35184372088832`, which is below `275/3` by about `9.5e-15`. -/
theorem C16_counterexample_float_rounding :
    specPercentile (fun x y : ℚ => x ^ ⌊y⌋) false 250 0 0 0 0 0 = 275 / 3 ∧
      (CalculateRank Float64.ieee false 250 0 0 0 0 0).Percentile =
        3225234108142933 / 35184372088832 ∧
      (CalculateRank Float64.ieee false 250 0 0 0 0 0).Percentile ≠
        specPercentile (fun x y : ℚ => x ^ ⌊y⌋) false 250 0 0 0 0 0 :=
  ⟨by decide!, by decide!, by decide!⟩


/-! ## Theorems: `FetchStats` -/

/-- **C17.** For every combination of the other options and every world, `FetchStats`
called with the empty username returns the zero record and the missing-parameter error
whose list is exactly `["username"]`; no orchestrated GraphQL call and no commit search
is made and the world is untouched. -/
theorem C17_empty_username_missing_param {σ : Type} (F : Float64) (L : Strings)
    (P : Process) (J : JSON) (DoGraphQL : Upstream σ) (SearchCommits : SearchUpstream σ)
    (fuel : Nat) (includeAllCommits : Bool) (excludeRepo : List String)
    (includeMergedPRs : Bool) (includeDiscussions : Bool) (includeDiscussionAnswers : Bool)
    (commitsYear : Option Int) (s : σ) :
    (FetchStats F L P J DoGraphQL SearchCommits fuel "" includeAllCommits excludeRepo
        includeMergedPRs includeDiscussions includeDiscussionAnswers commitsYear s).result =
        some ({}, some (GoError.MissingParamError ["username"] "")) ∧
      (FetchStats F L P J DoGraphQL SearchCommits fuel "" includeAllCommits excludeRepo
        includeMergedPRs includeDiscussions includeDiscussionAnswers commitsYear s).calls
        = [] ∧
      (FetchStats F L P J DoGraphQL SearchCommits fuel "" includeAllCommits excludeRepo
        includeMergedPRs includeDiscussions includeDiscussionAnswers commitsYear s).searches
        = [] ∧
      (FetchStats F L P J DoGraphQL SearchCommits fuel "" includeAllCommits excludeRepo
        includeMergedPRs includeDiscussions includeDiscussionAnswers commitsYear s).state
        = s := by
  simp [FetchStats]

/-- The record that `FetchStats` returns when the stats query succeeds without error
entries, its data decode to `data`, and the commit search, if it is made, succeeds. -/
theorem FetchStats_success {σ : Type} (F : Float64) (L : Strings) (P : Process) (J : JSON)
    (DoGraphQL : Upstream σ) (SearchCommits : SearchUpstream σ) (fuel : Nat)
    (username : String) (includeAllCommits : Bool) (excludeRepo : List String)
    (includeMergedPRs : Bool) (includeDiscussions : Bool) (includeDiscussionAnswers : Bool)
    (commitsYear : Option Int) (s : σ) (resp : GraphQLResponse) (data : graphQLUserData)
    (hname : username ≠ "")
    (hfetch : (statsFetcher L P J DoGraphQL fuel username includeMergedPRs includeDiscussions
      includeDiscussionAnswers (startTimeOf commitsYear) s).result = some (resp, none))
    (herrs : resp.Errors = [])
    (hdata : J.Unmarshal resp.Data = .ok data)
    (hcommits : includeAllCommits = true →
      (totalCommitsFetcher L P SearchCommits username
        (statsFetcher L P J DoGraphQL fuel username includeMergedPRs includeDiscussions
          includeDiscussionAnswers (startTimeOf commitsYear) s).state).err = none) :
    (FetchStats F L P J DoGraphQL SearchCommits fuel username includeAllCommits excludeRepo
        includeMergedPRs includeDiscussions includeDiscussionAnswers commitsYear s).result =
      some (finishStats F P includeAllCommits excludeRepo includeMergedPRs includeDiscussions
        includeDiscussionAnswers data.User
        (baseStats data.User
          (if includeAllCommits then
            (totalCommitsFetcher L P SearchCommits username
              (statsFetcher L P J DoGraphQL fuel username includeMergedPRs includeDiscussions
                includeDiscussionAnswers (startTimeOf commitsYear) s).state).count
          else data.User.Commits)), none) := by
  unfold FetchStats
  simp only [hname, if_false, hfetch, herrs, hdata]
  cases includeAllCommits with
  | false => simp [baseStats]
  | true =>
    have h := hcommits rfl
    simp [h, baseStats]


theorem wrapInt_add_wrapInt (a b : Int) : wrapInt (wrapInt a + b) = wrapInt (a + b) := by
  unfold wrapInt
  congr 1
  omega

theorem wrapInt_wrapInt_sub (a b : Int) : wrapInt (wrapInt a - b) = wrapInt (a - b) := by
  unfold wrapInt
  congr 1
  omega

theorem wrapInt_idem (a : Int) : wrapInt (wrapInt a) = wrapInt a := by
  unfold wrapInt
  omega

/-- The loop over the repositories wraps the sum of the counted stars. -/
theorem totalStarsLoop_eq (excluded : List String) :
    ∀ (nodes : List graphQLRepoNode) (acc : Int), wrapInt acc = acc →
      totalStarsLoop excluded nodes acc = wrapInt (acc + starsCounted excluded nodes) := by
  intro nodes
  induction nodes with
  | nil => intro acc h; simp [totalStarsLoop, starsCounted, h]
  | cons node rest ih =>
    intro acc h
    by_cases hx : node.Name ∈ excluded
    · have := ih acc h
      simp only [totalStarsLoop, hx, if_true, this]
      simp [starsCounted, hx]
    · have := ih (wrapInt (acc + node.Stargazers)) (wrapInt_idem _)
      simp only [totalStarsLoop, hx, if_false, this]
      rw [wrapInt_add_wrapInt]
      simp [starsCounted, hx, add_assoc]

theorem starsCounted_cons_excluded (excluded : List String) (node : graphQLRepoNode)
    (rest : List graphQLRepoNode) (h : node.Name ∈ excluded) :
    starsCounted excluded (node :: rest) = starsCounted excluded rest := by
  simp [starsCounted, List.filter_cons, h]

theorem starsCounted_cons_counted (excluded : List String) (node : graphQLRepoNode)
    (rest : List graphQLRepoNode) (h : node.Name ∉ excluded) :
    starsCounted excluded (node :: rest) = node.Stargazers + starsCounted excluded rest := by
  simp [starsCounted, List.filter_cons, h]

theorem starsNamed_cons_same (name : String) (node : graphQLRepoNode)
    (rest : List graphQLRepoNode) (h : node.Name = name) :
    starsNamed name (node :: rest) = node.Stargazers + starsNamed name rest := by
  simp [starsNamed, List.filter_cons, h]

theorem starsNamed_cons_other (name : String) (node : graphQLRepoNode)
    (rest : List graphQLRepoNode) (h : node.Name ≠ name) :
    starsNamed name (node :: rest) = starsNamed name rest := by
  simp [starsNamed, List.filter_cons, h]

/-- Excluding one more name removes the stars of the repositories of that name that
were counted. -/
theorem starsCounted_add_name (excluded excluded' : List String) (name : String)
    (hmem : ∀ x, x ∈ excluded' ↔ x ∈ excluded ∨ x = name) :
    ∀ nodes : List graphQLRepoNode,
      starsCounted excluded' nodes =
        starsCounted excluded nodes -
          (if name ∈ excluded then 0 else starsNamed name nodes) := by
  intro nodes
  induction nodes with
  | nil => simp [starsCounted, starsNamed]
  | cons node rest ih =>
    by_cases hx : node.Name ∈ excluded
    · have hx' : node.Name ∈ excluded' := (hmem _).mpr (Or.inl hx)
      rw [starsCounted_cons_excluded _ _ _ hx, starsCounted_cons_excluded _ _ _ hx', ih]
      by_cases hn : name ∈ excluded
      · simp [hn]
      · have hne : node.Name ≠ name := fun h => hn (h ▸ hx)
        simp [hn, starsNamed_cons_other _ _ _ hne]
    · by_cases hne : node.Name = name
      · have hx' : node.Name ∈ excluded' := (hmem _).mpr (Or.inr hne)
        have hn : name ∉ excluded := fun h => hx (hne ▸ h)
        rw [starsCounted_cons_counted _ _ _ hx, starsCounted_cons_excluded _ _ _ hx', ih]
        simp only [hn, if_false, starsNamed_cons_same _ _ _ hne]
        ring
      · have hx' : node.Name ∉ excluded' := fun h => by
          rcases (hmem _).mp h with h | h
          · exact hx h
          · exact hne h
        rw [starsCounted_cons_counted _ _ _ hx, starsCounted_cons_counted _ _ _ hx', ih,
          starsNamed_cons_other _ _ _ hne]
        ring

/-- A name that no fetched repository bears has no stars. -/
theorem starsNamed_absent (name : String) (nodes : List graphQLRepoNode)
    (h : ∀ node ∈ nodes, node.Name ≠ name) : starsNamed name nodes = 0 := by
  unfold starsNamed
  have : (nodes.filter fun node => decide (node.Name = name)) = [] := by
    rw [List.filter_eq_nil_iff]
    intro node hn
    simpa using h node hn
  simp [this]

/-- The field `TotalStars` of the record built by `finishStats`. -/
theorem finishStats_TotalStars (F : Float64) (P : Process) (includeAllCommits : Bool)
    (excludeRepo : List String) (includeMergedPRs : Bool) (includeDiscussions : Bool)
    (includeDiscussionAnswers : Bool) (user : graphQLUser) (stats : StatsData) :
    (finishStats F P includeAllCommits excludeRepo includeMergedPRs includeDiscussions
      includeDiscussionAnswers user stats).TotalStars =
      wrapInt (starsCounted (excludeRepo ++ ExcludeRepositories P) user.Repositories.Nodes) := by
  have h := totalStarsLoop_eq (excludeRepo ++ ExcludeRepositories P) user.Repositories.Nodes 0
    (by decide)
  simp only [zero_add] at h
  simp only [finishStats, h]


/-- **C18 (amended).** When `FetchStats` returns a record for the fetched repositories
`data.User.Repositories.Nodes`, the run with `name` added to the exclusion list returns
a record too, and its `TotalStars` is: unchanged if no fetched repository is called
`name`; and, if `name` was not yet excluded (neither by the list nor by `EXCLUDE_REPO`),
the former `TotalStars` lowered by the star count of the fetched repositories called
`name`, which is that repository's star count when the name occurs once (`wrapInt` is the
identity on the values of a Go `int`). -/
theorem C18_exclusion_changes_total_stars {σ : Type} (F : Float64) (L : Strings)
    (P : Process) (J : JSON) (DoGraphQL : Upstream σ) (SearchCommits : SearchUpstream σ)
    (fuel : Nat) (username : String) (includeAllCommits : Bool) (excludeRepo : List String)
    (includeMergedPRs : Bool) (includeDiscussions : Bool) (includeDiscussionAnswers : Bool)
    (commitsYear : Option Int) (s : σ) (resp : GraphQLResponse) (data : graphQLUserData)
    (name : String)
    (hname : username ≠ "")
    (hfetch : (statsFetcher L P J DoGraphQL fuel username includeMergedPRs includeDiscussions
      includeDiscussionAnswers (startTimeOf commitsYear) s).result = some (resp, none))
    (herrs : resp.Errors = [])
    (hdata : J.Unmarshal resp.Data = .ok data)
    (hcommits : includeAllCommits = true →
      (totalCommitsFetcher L P SearchCommits username
        (statsFetcher L P J DoGraphQL fuel username includeMergedPRs includeDiscussions
          includeDiscussionAnswers (startTimeOf commitsYear) s).state).err = none) :
    ∃ stats stats',
      (FetchStats F L P J DoGraphQL SearchCommits fuel username includeAllCommits excludeRepo
        includeMergedPRs includeDiscussions includeDiscussionAnswers commitsYear s).result =
        some (stats, none) ∧
      (FetchStats F L P J DoGraphQL SearchCommits fuel username includeAllCommits
        (excludeRepo ++ [name]) includeMergedPRs includeDiscussions includeDiscussionAnswers
        commitsYear s).result = some (stats', none) ∧
      ((∀ node ∈ data.User.Repositories.Nodes, node.Name ≠ name) →
        stats'.TotalStars = stats.TotalStars) ∧
      (name ∉ excludeRepo ++ ExcludeRepositories P →
        stats'.TotalStars =
          wrapInt (stats.TotalStars - starsNamed name data.User.Repositories.Nodes)) ∧
      (name ∉ excludeRepo ++ ExcludeRepositories P →
        ∀ node, (data.User.Repositories.Nodes.filter fun n => n.Name = name) = [node] →
          stats'.TotalStars = wrapInt (stats.TotalStars - node.Stargazers)) := by
  have h1 := FetchStats_success F L P J DoGraphQL SearchCommits fuel username
    includeAllCommits excludeRepo includeMergedPRs includeDiscussions includeDiscussionAnswers
    commitsYear s resp data hname hfetch herrs hdata hcommits
  have h2 := FetchStats_success F L P J DoGraphQL SearchCommits fuel username
    includeAllCommits (excludeRepo ++ [name]) includeMergedPRs includeDiscussions
    includeDiscussionAnswers commitsYear s resp data hname hfetch herrs hdata hcommits
  have hmem : ∀ x, x ∈ (excludeRepo ++ [name]) ++ ExcludeRepositories P ↔
      x ∈ excludeRepo ++ ExcludeRepositories P ∨ x = name := by
    intro x
    simp only [List.mem_append, List.mem_singleton]
    tauto
  have hsum := starsCounted_add_name (excludeRepo ++ ExcludeRepositories P)
    ((excludeRepo ++ [name]) ++ ExcludeRepositories P) name hmem
    data.User.Repositories.Nodes
  refine ⟨_, _, h1, h2, ?_, ?_, ?_⟩
  · intro habs
    rw [finishStats_TotalStars, finishStats_TotalStars, hsum,
      starsNamed_absent name _ habs]
    simp
  · intro hnew
    rw [finishStats_TotalStars, finishStats_TotalStars, hsum, wrapInt_wrapInt_sub]
    simp [hnew]
  · intro hnew node hone
    rw [finishStats_TotalStars, finishStats_TotalStars, hsum, wrapInt_wrapInt_sub]
    have : starsNamed name data.User.Repositories.Nodes = node.Stargazers := by
      unfold starsNamed
      rw [hone]
      simp
    simp [hnew, this]

/-- Witness of C18 (amended): `profilePage` is fetched, `b` is excluded and `a` is
added. -/
theorem C18_exclusion_changes_total_stars_witness :
    ∃ stats stats',
      (FetchStats Float64.ieee Strings.ascii (demoProcess "false") profileJSON
        profileUpstream demoSearch 3 "ann" false ["b"] true false false none ()).result =
        some (stats, none) ∧
      (FetchStats Float64.ieee Strings.ascii (demoProcess "false") profileJSON
        profileUpstream demoSearch 3 "ann" false (["b"] ++ ["a"]) true false false none
        ()).result = some (stats', none) ∧
      ((∀ node ∈ profilePage.User.Repositories.Nodes, node.Name ≠ "a") →
        stats'.TotalStars = stats.TotalStars) ∧
      ("a" ∉ ["b"] ++ ExcludeRepositories (demoProcess "false") →
        stats'.TotalStars =
          wrapInt (stats.TotalStars - starsNamed "a" profilePage.User.Repositories.Nodes)) ∧
      ("a" ∉ ["b"] ++ ExcludeRepositories (demoProcess "false") →
        ∀ node, (profilePage.User.Repositories.Nodes.filter fun n => n.Name = "a") = [node] →
          stats'.TotalStars = wrapInt (stats.TotalStars - node.Stargazers)) :=
  C18_exclusion_changes_total_stars Float64.ieee Strings.ascii (demoProcess "false")
    profileJSON profileUpstream demoSearch 3 "ann" false ["b"] true false false none ()
    { Data := [7] } profilePage "a" (by decide) (by decide) rfl rfl (by decide)

/-- **C18, counterexample.** `profilePage` holds the repository `a` with 9 stars; with
`a` already in the exclusion list `TotalStars` is 8, and adding `a` to the list leaves it
at 8 instead of lowering it by 9. -/
theorem C18_counterexample_name_already_excluded :
    (⟨"a", 9⟩ : graphQLRepoNode) ∈ profilePage.User.Repositories.Nodes ∧
      ((FetchStats Float64.ieee Strings.ascii (demoProcess "false") profileJSON
        profileUpstream demoSearch 3 "ann" false ["a"] true false false none ()).result.map
          fun r => (r.1.TotalStars, r.2)) = some (8, none) ∧
      ((FetchStats Float64.ieee Strings.ascii (demoProcess "false") profileJSON
        profileUpstream demoSearch 3 "ann" false (["a"] ++ ["a"]) true false false none
        ()).result.map fun r => (r.1.TotalStars, r.2)) = some (8, none) ∧
      (8 : Int) ≠ 8 - 9 :=
  ⟨by decide, by decide, by decide, by decide⟩


/-- The merged-PR fields of the record built by `finishStats`. -/
theorem finishStats_merged (F : Float64) (P : Process) (includeAllCommits : Bool)
    (excludeRepo : List String) (includeMergedPRs : Bool) (includeDiscussions : Bool)
    (includeDiscussionAnswers : Bool) (user : graphQLUser) (totalCommits : Int) :
    (finishStats F P includeAllCommits excludeRepo includeMergedPRs includeDiscussions
        includeDiscussionAnswers user (baseStats user totalCommits)).TotalPRs
        = user.PullRequests ∧
      (finishStats F P includeAllCommits excludeRepo includeMergedPRs includeDiscussions
        includeDiscussionAnswers user (baseStats user totalCommits)).TotalPRsMerged
        = (if includeMergedPRs then user.MergedPullRequests else 0) ∧
      (finishStats F P includeAllCommits excludeRepo includeMergedPRs includeDiscussions
        includeDiscussionAnswers user (baseStats user totalCommits)).MergedPRsPercentage
        = (if includeMergedPRs = true ∧ 0 < user.PullRequests then
            F.mul (F.div (F.ofInt user.MergedPullRequests) (F.ofInt user.PullRequests)) 100
          else 0) := by
  cases includeMergedPRs with
  | false =>
    refine ⟨?_, ?_, ?_⟩ <;> simp only [finishStats, baseStats] <;> (repeat' split) <;>
      simp_all
  | true =>
    by_cases hp : 0 < user.PullRequests
    · refine ⟨?_, ?_, ?_⟩ <;> simp only [finishStats, baseStats] <;> (repeat' split) <;>
        simp_all
    · refine ⟨?_, ?_, ?_⟩ <;> simp only [finishStats, baseStats] <;> (repeat' split) <;>
        simp_all

/-- **C19.** When `FetchStats` returns a record for the decoded user `data.User`: with
merged-PR inclusion requested and a total PR count of zero the percentage is 0 (the
division is not made); with the count positive the percentage is
`float64(merged) / float64(total) * 100` and the merged count is the upstream one; and
without the request the percentage and the merged count are 0 whatever the upstream data
holds. -/
theorem C19_merged_pr_percentage {σ : Type} (F : Float64) (L : Strings)
    (P : Process) (J : JSON) (DoGraphQL : Upstream σ) (SearchCommits : SearchUpstream σ)
    (fuel : Nat) (username : String) (includeAllCommits : Bool) (excludeRepo : List String)
    (includeMergedPRs : Bool) (includeDiscussions : Bool) (includeDiscussionAnswers : Bool)
    (commitsYear : Option Int) (s : σ) (resp : GraphQLResponse) (data : graphQLUserData)
    (hname : username ≠ "")
    (hfetch : (statsFetcher L P J DoGraphQL fuel username includeMergedPRs includeDiscussions
      includeDiscussionAnswers (startTimeOf commitsYear) s).result = some (resp, none))
    (herrs : resp.Errors = [])
    (hdata : J.Unmarshal resp.Data = .ok data)
    (hcommits : includeAllCommits = true →
      (totalCommitsFetcher L P SearchCommits username
        (statsFetcher L P J DoGraphQL fuel username includeMergedPRs includeDiscussions
          includeDiscussionAnswers (startTimeOf commitsYear) s).state).err = none) :
    ∃ stats,
      (FetchStats F L P J DoGraphQL SearchCommits fuel username includeAllCommits excludeRepo
        includeMergedPRs includeDiscussions includeDiscussionAnswers commitsYear s).result =
        some (stats, none) ∧
      stats.TotalPRs = data.User.PullRequests ∧
      (includeMergedPRs = true → data.User.PullRequests = 0 →
        stats.MergedPRsPercentage = 0) ∧
      (includeMergedPRs = true → 0 < data.User.PullRequests →
        stats.MergedPRsPercentage =
          F.mul (F.div (F.ofInt data.User.MergedPullRequests)
            (F.ofInt data.User.PullRequests)) 100 ∧
        stats.TotalPRsMerged = data.User.MergedPullRequests) ∧
      (includeMergedPRs = false →
        stats.MergedPRsPercentage = 0 ∧ stats.TotalPRsMerged = 0) := by
  have h1 := FetchStats_success F L P J DoGraphQL SearchCommits fuel username
    includeAllCommits excludeRepo includeMergedPRs includeDiscussions includeDiscussionAnswers
    commitsYear s resp data hname hfetch herrs hdata hcommits
  obtain ⟨ht, hm, hp⟩ := finishStats_merged F P includeAllCommits excludeRepo
    includeMergedPRs includeDiscussions includeDiscussionAnswers data.User
    (if includeAllCommits then
      (totalCommitsFetcher L P SearchCommits username
        (statsFetcher L P J DoGraphQL fuel username includeMergedPRs includeDiscussions
          includeDiscussionAnswers (startTimeOf commitsYear) s).state).count
    else data.User.Commits)
  refine ⟨_, h1, ht, ?_, ?_, ?_⟩
  · intro hinc hzero
    rw [hp]
    simp [hzero]
  · intro hinc hpos
    rw [hp, hm]
    simp [hinc, hpos]
  · intro hinc
    rw [hp, hm]
    simp [hinc]

/-- Witness of C19: `profilePage` (40 PRs, 30 merged) with merged-PR inclusion
requested. -/
theorem C19_merged_pr_percentage_witness :
    ∃ stats,
      (FetchStats Float64.ieee Strings.ascii (demoProcess "false") profileJSON
        profileUpstream demoSearch 3 "ann" true [] true false false none ()).result =
        some (stats, none) ∧
      stats.TotalPRs = profilePage.User.PullRequests ∧
      (true = true → profilePage.User.PullRequests = 0 → stats.MergedPRsPercentage = 0) ∧
      (true = true → 0 < profilePage.User.PullRequests →
        stats.MergedPRsPercentage =
          Float64.ieee.mul (Float64.ieee.div
            (Float64.ieee.ofInt profilePage.User.MergedPullRequests)
            (Float64.ieee.ofInt profilePage.User.PullRequests)) 100 ∧
        stats.TotalPRsMerged = profilePage.User.MergedPullRequests) ∧
      (true = false → stats.MergedPRsPercentage = 0 ∧ stats.TotalPRsMerged = 0) :=
  C19_merged_pr_percentage Float64.ieee Strings.ascii (demoProcess "false") profileJSON
    profileUpstream demoSearch 3 "ann" true [] true false false none () { Data := [7] }
    profilePage (by decide) (by decide) rfl rfl (by intro _; decide)

/-- The run behind the witness of C19: 30 merged PRs out of 40 give 75 percent, and the
commit search supplies the 321 commits. -/
theorem FetchStats_profile_run :
    ((FetchStats Float64.ieee Strings.ascii (demoProcess "false") profileJSON
      profileUpstream demoSearch 3 "ann" true [] true false false none ()).result.map
        fun r => (r.1.MergedPRsPercentage, r.1.TotalPRsMerged, r.2)) =
        some ((75 : ℚ), (30 : Int), (none : Option GoError)) ∧
      ((FetchStats Float64.ieee Strings.ascii (demoProcess "false") profileJSON
      profileUpstream demoSearch 3 "ann" true [] true false false none ()).result.map
        fun r => (r.1.TotalCommits, r.1.TotalStars, r.1.TotalIssues, r.1.Name)) =
        some ((321 : Int), (17 : Int), (12 : Int), "ann") :=
  ⟨by decide!, by decide!⟩

/-- When the response that `statsFetcher` returns lists a first error of type `NOT_FOUND`,
`FetchStats` returns the zero record and the custom error of type `USER_NOT_FOUND` with
the message of that error; it differs from the generic GraphQL error with the same
message. -/
theorem FetchStats_not_found_response {σ : Type} (F : Float64) (L : Strings)
    (P : Process) (J : JSON) (DoGraphQL : Upstream σ) (SearchCommits : SearchUpstream σ)
    (fuel : Nat) (username : String) (includeAllCommits : Bool) (excludeRepo : List String)
    (includeMergedPRs : Bool) (includeDiscussions : Bool) (includeDiscussionAnswers : Bool)
    (commitsYear : Option Int) (s : σ) (resp : GraphQLResponse) (e : GraphQLError)
    (rest : List GraphQLError)
    (hname : username ≠ "")
    (hfetch : (statsFetcher L P J DoGraphQL fuel username includeMergedPRs includeDiscussions
      includeDiscussionAnswers (startTimeOf commitsYear) s).result = some (resp, none))
    (herrs : resp.Errors = e :: rest)
    (htype : e.Type_ = "NOT_FOUND") :
    (FetchStats F L P J DoGraphQL SearchCommits fuel username includeAllCommits excludeRepo
        includeMergedPRs includeDiscussions includeDiscussionAnswers commitsYear s).result =
        some ({}, some (GoError.CustomError e.Message "USER_NOT_FOUND"
          "Make sure the provided username is not an organization")) ∧
      GoError.CustomError e.Message "USER_NOT_FOUND"
          "Make sure the provided username is not an organization" ≠
        NewCustomError e.Message ErrorGraphQL := by
  constructor
  · unfold FetchStats
    simp only [hname, if_false, hfetch, herrs, htype, if_true]
    rfl
  · simp [NewCustomError, ErrorGraphQL, ErrorMaxRetry, ErrorNoTokens, ErrorUserNotFound]

/-! ## Theorems: `GetPATKeys` -/

theorem char_toNat_inj {a b : Char} (h : a.toNat = b.toNat) : a = b := by
  apply Char.ext
  apply UInt32.ext
  exact h

theorem stringLE_refl : ∀ a : List Char, stringLE a a = true := by
  intro a
  induction a with
  | nil => rfl
  | cons c cs ih => simp [stringLE, ih]

theorem stringLE_total : ∀ a b : List Char, stringLE a b = true ∨ stringLE b a = true := by
  intro a
  induction a with
  | nil => intro b; left; cases b <;> rfl
  | cons c cs ih =>
    intro b
    cases b with
    | nil => right; rfl
    | cons d ds =>
      simp only [stringLE, Bool.or_eq_true, Bool.and_eq_true, decide_eq_true_eq]
      rcases Nat.lt_trichotomy c.toNat d.toNat with h | h | h
      · left; left; exact h
      · rcases ih ds with h' | h'
        · left; right; exact ⟨h, h'⟩
        · right; right; exact ⟨h.symm, h'⟩
      · right; left; exact h

theorem stringLE_trans : ∀ a b c : List Char, stringLE a b = true → stringLE b c = true →
    stringLE a c = true := by
  intro a
  induction a with
  | nil => intro b c _ _; cases c <;> rfl
  | cons x xs ih =>
    intro b c hab hbc
    cases b with
    | nil => simp [stringLE] at hab
    | cons y ys =>
      cases c with
      | nil => simp [stringLE] at hbc
      | cons z zs =>
        simp only [stringLE, Bool.or_eq_true, Bool.and_eq_true, decide_eq_true_eq] at hab hbc ⊢
        rcases hab with h1 | ⟨h1, h1'⟩
        · rcases hbc with h2 | ⟨h2, _⟩
          · left; omega
          · left; omega
        · rcases hbc with h2 | ⟨h2, h2'⟩
          · left; omega
          · right; exact ⟨by omega, ih ys zs h1' h2'⟩

theorem stringLE_antisymm : ∀ a b : List Char, stringLE a b = true → stringLE b a = true →
    a = b := by
  intro a
  induction a with
  | nil => intro b _ hba; cases b with
    | nil => rfl
    | cons d ds => simp [stringLE] at hba
  | cons x xs ih =>
    intro b hab hba
    cases b with
    | nil => simp [stringLE] at hab
    | cons y ys =>
      simp only [stringLE, Bool.or_eq_true, Bool.and_eq_true, decide_eq_true_eq] at hab hba
      rcases hab with h1 | ⟨h1, h1'⟩
      · rcases hba with h2 | ⟨h2, _⟩ <;> omega
      · rcases hba with h2 | ⟨_, h2'⟩
        · omega
        · rw [char_toNat_inj h1, ih ys h1' h2']

/-- The order by which `GetPATKeys` sorts, on strings. -/
theorem keyOrder_instances :
    IsTotal String (fun a b => stringLE a.data b.data = true) ∧
      IsTrans String (fun a b => stringLE a.data b.data = true) ∧
      IsAntisymm String (fun a b => stringLE a.data b.data = true) :=
  ⟨⟨fun a b => stringLE_total a.data b.data⟩,
    ⟨fun a b c => stringLE_trans a.data b.data c.data⟩,
    ⟨fun a b h1 h2 => by
      have := stringLE_antisymm a.data b.data h1 h2
      cases a; cases b; simp_all⟩⟩

/-- The result of `GetPATKeys` is a permutation of the set of matching names. -/
theorem GetPATKeys_perm (L : Strings) (P : Process) :
    (GetPATKeys L P).Perm
      (((P.Environ.map envKey).filter patKeyPattern ++
        (P.AllKeys.map L.ToUpper).filter patKeyPattern).dedup) := by
  unfold GetPATKeys
  exact List.perm_insertionSort _ _

/-- The result of `GetPATKeys` has no duplicates. -/
theorem GetPATKeys_nodup (L : Strings) (P : Process) : (GetPATKeys L P).Nodup :=
  (GetPATKeys_perm L P).nodup_iff.mpr (List.nodup_dedup _)

/-- The result of `GetPATKeys` is ascending. -/
theorem GetPATKeys_sorted (L : Strings) (P : Process) :
    (GetPATKeys L P).Sorted (fun a b => stringLE a.data b.data = true) := by
  obtain ⟨h1, h2, _⟩ := keyOrder_instances
  unfold GetPATKeys
  exact List.sorted_insertionSort _ _

/-- Membership in the result of `GetPATKeys`. -/
theorem GetPATKeys_mem (L : Strings) (P : Process) (x : String) :
    x ∈ GetPATKeys L P ↔
      patKeyPattern x = true ∧ (x ∈ P.Environ.map envKey ∨ x ∈ P.AllKeys.map L.ToUpper) := by
  rw [(GetPATKeys_perm L P).mem_iff, List.mem_dedup, List.mem_append, List.mem_filter,
    List.mem_filter]
  tauto

/-- The names that `patKeyPattern` accepts: `PAT_` followed by one or more ASCII
digits. -/
theorem patKeyPattern_iff (x : String) :
    patKeyPattern x = true ↔
      ∃ ds : List Char, ds ≠ [] ∧ (∀ c ∈ ds, '0' ≤ c ∧ c ≤ '9') ∧
        x = ⟨'P' :: 'A' :: 'T' :: '_' :: ds⟩ := by
  cases x with
  | mk data =>
    constructor
    · intro h
      unfold patKeyPattern at h
      split at h
      · rename_i ds heq
        simp only [Bool.and_eq_true, Bool.not_eq_true', List.all_eq_true,
          decide_eq_true_eq] at h
        refine ⟨ds, ?_, ?_, ?_⟩
        · intro hnil
          simp [hnil] at h
        · intro c hc
          simpa using h.2 c hc
        · simp only at heq
          rw [heq]
      · simp at h
    · rintro ⟨ds, hne, hdig, hx⟩
      rw [hx]
      unfold patKeyPattern
      simp only [Bool.and_eq_true, Bool.not_eq_true', List.all_eq_true, decide_eq_true_eq]
      refine ⟨?_, ?_⟩
      · cases ds with
        | nil => exact absurd rfl hne
        | cons d ds => rfl
      · intro c hc
        simpa using hdig c hc

/-- **C24.** For every environment and every set of configuration keys, the list that
`GetPATKeys` returns is strictly ascending in the lexicographic order of the code points
(which is the byte order, the names being ASCII), has no duplicates, contains exactly the
names of the form `PAT_` followed by one or more digits that occur among the environment
names and the upper-cased configuration keys, is empty when there are none, and is the
same for every order in which the entries are enumerated, indeed for any two processes
that offer the same set of names. -/
theorem C24_pat_keys_sorted_unique_exact (L : Strings) (P : Process) :
    (GetPATKeys L P).Sorted (fun a b => stringLE a.data b.data = true ∧ a ≠ b) ∧
      (GetPATKeys L P).Nodup ∧
      (∀ x, x ∈ GetPATKeys L P ↔
        (∃ ds : List Char, ds ≠ [] ∧ (∀ c ∈ ds, '0' ≤ c ∧ c ≤ '9') ∧
          x = ⟨'P' :: 'A' :: 'T' :: '_' :: ds⟩) ∧
        (x ∈ P.Environ.map envKey ∨ x ∈ P.AllKeys.map L.ToUpper)) ∧
      (∀ x ∈ GetPATKeys L P, ∀ c ∈ x.data, c.toNat < 128) ∧
      ((∀ x, x ∈ P.Environ.map envKey ∨ x ∈ P.AllKeys.map L.ToUpper →
        patKeyPattern x = false) → GetPATKeys L P = []) ∧
      (∀ P' : Process, P'.Environ.Perm P.Environ → P'.AllKeys.Perm P.AllKeys →
        GetPATKeys L P' = GetPATKeys L P) ∧
      (∀ P' : Process,
        (∀ x, (x ∈ P'.Environ.map envKey ∨ x ∈ P'.AllKeys.map L.ToUpper) ↔
          (x ∈ P.Environ.map envKey ∨ x ∈ P.AllKeys.map L.ToUpper)) →
        GetPATKeys L P' = GetPATKeys L P) := by
  obtain ⟨htot, htrans, hanti⟩ := keyOrder_instances
  refine ⟨?_, GetPATKeys_nodup L P, ?_, ?_, ?_, ?_, ?_⟩
  · have hs := GetPATKeys_sorted L P
    have hn := GetPATKeys_nodup L P
    unfold List.Sorted at hs ⊢
    unfold List.Nodup at hn
    exact List.Pairwise.and hs hn
  · intro x
    rw [GetPATKeys_mem, patKeyPattern_iff]
  · intro x hx c hc
    obtain ⟨hpat, _⟩ := (GetPATKeys_mem L P x).mp hx
    obtain ⟨ds, _, hdig, rfl⟩ := (patKeyPattern_iff x).mp hpat
    simp only [List.mem_cons] at hc
    rcases hc with rfl | rfl | rfl | rfl | hc
    · decide
    · decide
    · decide
    · decide
    · have h9 := (hdig c hc).2
      have : c.toNat ≤ ('9' : Char).toNat := h9
      have h57 : ('9' : Char).toNat = 57 := by decide
      omega
  · intro hnone
    apply List.eq_nil_iff_forall_not_mem.mpr
    intro x hx
    obtain ⟨hpat, hsrc⟩ := (GetPATKeys_mem L P x).mp hx
    rw [hnone x hsrc] at hpat
    exact Bool.false_ne_true hpat
  · intro P' hE hA
    apply List.eq_of_perm_of_sorted _ (GetPATKeys_sorted L P') (GetPATKeys_sorted L P)
    apply (List.perm_ext_iff_of_nodup (GetPATKeys_nodup L P') (GetPATKeys_nodup L P)).mpr
    intro x
    rw [GetPATKeys_mem, GetPATKeys_mem, (hE.map envKey).mem_iff, (hA.map L.ToUpper).mem_iff]
  · intro P' hsame
    apply List.eq_of_perm_of_sorted _ (GetPATKeys_sorted L P') (GetPATKeys_sorted L P)
    apply (List.perm_ext_iff_of_nodup (GetPATKeys_nodup L P') (GetPATKeys_nodup L P)).mpr
    intro x
    rw [GetPATKeys_mem, GetPATKeys_mem, hsame x]

/-! ## Theorems: the attempts of one `RetryGraphQL` run -/

/-- The keys tried by the loop are an initial segment of the keys it is given. -/
theorem retryLoop_attempts_initial {σ : Type} (L : Strings) (P : Process)
    (fetcher : Fetcher σ) (config : RetryConfig) :
    ∀ (keys : List String) (s : σ),
      (retryLoop L P fetcher config keys s).attempts =
        keys.take (retryLoop L P fetcher config keys s).attempts.length := by
  intro keys
  induction keys with
  | nil => intro s; simp [retryLoop]
  | cons key rest ih =>
    intro s
    cases hr : (fetcher (getToken L P key) s).1.recoverable L config with
    | true =>
      rw [retryLoop_cons_recoverable L P fetcher config key rest s hr]
      have := ih (fetcher (getToken L P key) s).2
      simp only [RetryOutcome.skipped, List.length_cons, List.take_succ_cons]
      rw [← this]
    | false =>
      rw [retryLoop_cons_not_recoverable L P fetcher config key rest s hr]
      simp

/-- **C25.** For every list of keys and every fetcher, the keys on whose token the loop
of `RetryGraphQL` invokes the fetcher are an initial segment of the list, in its order,
so there are at most as many attempts as keys; and for the pool that `GetPATKeys`
returns, one run of `RetryGraphQL` tries an initial segment of the pool, no credential
twice, and makes at most as many attempts as the pool has credentials. -/
theorem C25_attempts_are_initial_segment {σ : Type} (L : Strings) (P : Process)
    (fetcher : Fetcher σ) (config : RetryConfig) (s : σ) :
    (∀ keys : List String,
      (retryLoop L P fetcher config keys s).attempts =
          keys.take (retryLoop L P fetcher config keys s).attempts.length ∧
        (retryLoop L P fetcher config keys s).attempts.length ≤ keys.length) ∧
      (RetryGraphQL L P fetcher config s).attempts =
        (GetPATKeys L P).take (RetryGraphQL L P fetcher config s).attempts.length ∧
      (RetryGraphQL L P fetcher config s).attempts.Nodup ∧
      (RetryGraphQL L P fetcher config s).attempts.length ≤ (GetPATKeys L P).length := by
  have hpre : (RetryGraphQL L P fetcher config s).attempts =
      (GetPATKeys L P).take (RetryGraphQL L P fetcher config s).attempts.length := by
    by_cases h : GetPATKeys L P = []
    · simp [RetryGraphQL, h]
    · rw [RetryGraphQL_eq_loop L P fetcher config s h]
      exact retryLoop_attempts_initial L P fetcher config _ s
  refine ⟨fun keys => ⟨retryLoop_attempts_initial L P fetcher config keys s,
    retryLoop_attempts_length_le L P fetcher config keys s⟩, hpre, ?_, ?_⟩
  · rw [hpre]
    exact (GetPATKeys_nodup L P).sublist (List.take_sublist _ _)
  · by_cases h : GetPATKeys L P = []
    · simp [RetryGraphQL, h]
    · rw [RetryGraphQL_eq_loop L P fetcher config s h]
      exact retryLoop_attempts_length_le L P fetcher config _ s

/-! ## Theorems: the two rate-limit predicates -/

/-- The predicate `isRateLimited` looks at the first error only. -/
theorem isRateLimited_iff (L : Strings) (errors : List GraphQLError) :
    isRateLimited L errors = true ↔
      ∃ e rest, errors = e :: rest ∧
        (e.Type_ = "RATE_LIMITED" ∨ Contains (L.ToLower e.Message) "rate limit" = true) := by
  cases errors with
  | nil => simp [isRateLimited]
  | cons e rest =>
    by_cases ht : e.Type_ = "RATE_LIMITED"
    · simp [isRateLimited, ht]
    · simp [isRateLimited, ht]

/-- **C28.** For every response `resp`, `isRateLimitedGraphQL resp` and
`isRateLimited resp.Errors` are the same value; it is true exactly when the error list is
not empty and its first element has type `RATE_LIMITED` or a lower-cased message that
contains `rate limit`; the elements after the first do not count: the value on a list is
the value on its first element alone, and a list whose first element is no rate-limit
error is not recognised whatever errors follow. -/
theorem C28_rate_limit_predicates_agree (L : Strings) (resp : GraphQLResponse) :
    isRateLimitedGraphQL L resp = isRateLimited L resp.Errors ∧
      (isRateLimited L resp.Errors = true ↔
        ∃ e rest, resp.Errors = e :: rest ∧
          (e.Type_ = "RATE_LIMITED" ∨
            Contains (L.ToLower e.Message) "rate limit" = true)) ∧
      (∀ (e : GraphQLError) (later : List GraphQLError),
        isRateLimited L (e :: later) = isRateLimited L [e] ∧
          isRateLimitedGraphQL L { resp with Errors := e :: later } =
            isRateLimitedGraphQL L { resp with Errors := [e] }) ∧
      (∀ (e : GraphQLError) (later : List GraphQLError),
        e.Type_ ≠ "RATE_LIMITED" → Contains (L.ToLower e.Message) "rate limit" = false →
        isRateLimited L (e :: later) = false ∧
          isRateLimitedGraphQL L { resp with Errors := e :: later } = false) := by
  refine ⟨rfl, isRateLimited_iff L resp.Errors, fun e later => ⟨rfl, rfl⟩, ?_⟩
  intro e later ht hm
  constructor
  · simp [isRateLimited, ht, hm]
  · simp [isRateLimitedGraphQL, ht, hm]

/-- A run of the two predicates: a rate-limit error in second position is not
recognised, in first position it is, by its type or by its message in any letter case. -/
theorem isRateLimited_positions :
    isRateLimited Strings.ascii
        [⟨"FORBIDDEN", "nope"⟩, ⟨"RATE_LIMITED", "API rate limit exceeded"⟩] = false ∧
      isRateLimitedGraphQL Strings.ascii
        { Errors := [⟨"FORBIDDEN", "nope"⟩, ⟨"RATE_LIMITED", "API rate limit exceeded"⟩] }
        = false ∧
      isRateLimited Strings.ascii [⟨"RATE_LIMITED", ""⟩, ⟨"FORBIDDEN", "nope"⟩] = true ∧
      isRateLimited Strings.ascii [⟨"FORBIDDEN", "API Rate Limit exceeded"⟩] = true :=
  ⟨by decide, by decide, by decide, by decide⟩

/-! ## Theorems: errors of the envelope and of the orchestrator in `FetchStats` -/

/-- When the response that `statsFetcher` returns lists a first error whose type is not
`NOT_FOUND`, `FetchStats` returns the zero record and the custom error of type
`GRAPHQL_ERROR`, with the message of that error, or a fixed text when that message is
empty. -/
theorem FetchStats_other_error_response {σ : Type} (F : Float64) (L : Strings)
    (P : Process) (J : JSON) (DoGraphQL : Upstream σ) (SearchCommits : SearchUpstream σ)
    (fuel : Nat) (username : String) (includeAllCommits : Bool) (excludeRepo : List String)
    (includeMergedPRs : Bool) (includeDiscussions : Bool) (includeDiscussionAnswers : Bool)
    (commitsYear : Option Int) (s : σ) (resp : GraphQLResponse) (e : GraphQLError)
    (rest : List GraphQLError)
    (hname : username ≠ "")
    (hfetch : (statsFetcher L P J DoGraphQL fuel username includeMergedPRs includeDiscussions
      includeDiscussionAnswers (startTimeOf commitsYear) s).result = some (resp, none))
    (herrs : resp.Errors = e :: rest)
    (htype : e.Type_ ≠ "NOT_FOUND") :
    (FetchStats F L P J DoGraphQL SearchCommits fuel username includeAllCommits excludeRepo
        includeMergedPRs includeDiscussions includeDiscussionAnswers commitsYear s).result =
      some ({}, some (GoError.CustomError
        (if e.Message ≠ "" then e.Message
          else "Something went wrong while trying to retrieve the stats data using the GraphQL API.")
        "GRAPHQL_ERROR" "Please try again later")) := by
  unfold FetchStats
  simp only [hname, if_false, hfetch, herrs, htype]
  by_cases hm : e.Message = ""
  · simp [hm]; rfl
  · simp [hm]; rfl

/-- **C22 (amended).** Every error `e` with which the orchestrated fetch of the first
page ends and whose lower-cased message contains neither `no github api tokens found` nor
`all github api tokens failed` is returned by `statsFetcher`, and hence by `FetchStats`,
verbatim: the same error value with the zero response or the zero record. -/
theorem C22_other_errors_returned_verbatim {σ : Type} (F : Float64) (L : Strings)
    (P : Process) (J : JSON) (DoGraphQL : Upstream σ) (SearchCommits : SearchUpstream σ)
    (fuel : Nat) (username : String) (includeAllCommits : Bool) (excludeRepo : List String)
    (includeMergedPRs : Bool) (includeDiscussions : Bool) (includeDiscussionAnswers : Bool)
    (commitsYear : Option Int) (s : σ) (e : GoError)
    (hname : username ≠ "")
    (he : (pageFetch L P DoGraphQL username includeMergedPRs includeDiscussions
      includeDiscussionAnswers (startTimeOf commitsYear) "" s).err = some e)
    (hempty : Contains (L.ToLower e.Error) "no github api tokens found" = false)
    (hexhausted : Contains (L.ToLower e.Error) "all github api tokens failed" = false) :
    (statsFetcher L P J DoGraphQL (fuel + 1) username includeMergedPRs includeDiscussions
        includeDiscussionAnswers (startTimeOf commitsYear) s).result = some ({}, some e) ∧
      (FetchStats F L P J DoGraphQL SearchCommits (fuel + 1) username includeAllCommits
        excludeRepo includeMergedPRs includeDiscussions includeDiscussionAnswers commitsYear
        s).result = some ({}, some e) := by
  have h := (statsFetcherLoop_fetch_error L P J DoGraphQL username includeMergedPRs
    includeDiscussions includeDiscussionAnswers (startTimeOf commitsYear) fuel {} "" s e he).1
  have hsame : statsFetcherError L e = e := by
    simp [statsFetcherError, hempty, hexhausted]
  rw [hsame] at h
  have h' : (statsFetcher L P J DoGraphQL (fuel + 1) username includeMergedPRs
      includeDiscussions includeDiscussionAnswers (startTimeOf commitsYear) s).result =
      some ({}, some e) := h
  refine ⟨h', ?_⟩
  unfold FetchStats
  simp only [hname, if_false, h']

/-- Witness of C22 (amended): every credential is answered with the REST error
`Not Found`. -/
theorem C22_other_errors_returned_verbatim_witness :
    (statsFetcher Strings.ascii (demoProcess "false") profileJSON
        (restErrorUpstream "Not Found") (2 + 1) "ann" false false false
        (startTimeOf none) ()).result =
        some ({}, some (GoError.errorString "Not Found")) ∧
      (FetchStats Float64.ieee Strings.ascii (demoProcess "false") profileJSON
        (restErrorUpstream "Not Found") demoSearch (2 + 1) "ann" false [] false false false
        none ()).result = some ({}, some (GoError.errorString "Not Found")) :=
  C22_other_errors_returned_verbatim Float64.ieee Strings.ascii (demoProcess "false")
    profileJSON (restErrorUpstream "Not Found") demoSearch 2 "ann" false [] false false false
    none () (GoError.errorString "Not Found") (by decide) (by decide) (by decide) (by decide)

/-- **C22, counterexample.** The first credential is answered with a REST error that is
neither bad-credentials nor account-suspended, so the orchestrator aborts on it with the
pool neither empty nor exhausted (one attempt of three); the text of that error contains
`all github api tokens failed`, and `statsFetcher` and `FetchStats` return the
credentials-exhausted error `MAX_RETRY` in its place. -/
theorem C22_counterexample_rest_error_reclassified :
    (pageFetch Strings.ascii (demoProcess "false")
        (restErrorUpstream "All GitHub API tokens failed validation") "ann" false false false
        "" "" ()).err = some (GoError.errorString "All GitHub API tokens failed validation") ∧
      (pageFetch Strings.ascii (demoProcess "false")
        (restErrorUpstream "All GitHub API tokens failed validation") "ann" false false false
        "" "" ()).attempts = ["PAT_1"] ∧
      GetPATKeys Strings.ascii (demoProcess "false") = ["PAT_1", "PAT_2", "PAT_3"] ∧
      (statsFetcher Strings.ascii (demoProcess "false") profileJSON
        (restErrorUpstream "All GitHub API tokens failed validation") 3 "ann" false false
        false "" ()).result =
        some ({}, some (GoError.CustomError "Downtime due to GitHub API rate limiting"
          "MAX_RETRY"
          "You can deploy own instance or wait until public will be no longer limited")) ∧
      (FetchStats Float64.ieee Strings.ascii (demoProcess "false") profileJSON
        (restErrorUpstream "All GitHub API tokens failed validation") demoSearch 3 "ann"
        false [] false false false none ()).result =
        some ({}, some (GoError.CustomError "Downtime due to GitHub API rate limiting"
          "MAX_RETRY"
          "You can deploy own instance or wait until public will be no longer limited")) :=
  ⟨by decide, by decide, by decide, by decide, by decide⟩

/-! ## Theorems: `retryRest` -/

/-- One step of the loop of `retryRest` on a credential-bound failure: the next key is
tried. -/
theorem retryRestLoop_cons_bound {σ : Type} (L : Strings) (P : Process)
    (SearchCommits : SearchUpstream σ) (username : String) (key : String)
    (rest : List String) (s : σ)
    (h : (SearchCommits username (P.GetString key) s).1.credentialBound L = true) :
    retryRestLoop L P SearchCommits username (key :: rest) s =
      (retryRestLoop L P SearchCommits username rest
        (SearchCommits username (P.GetString key) s).2).skipped key := by
  unfold SearchResult.credentialBound at h
  rw [retryRestLoop]
  cases herr : (SearchCommits username (P.GetString key) s).1.err with
  | some e => simp [herr] at h
  | none =>
    cases hrest : (SearchCommits username (P.GetString key) s).1.restErr with
    | some e =>
      simp only [herr, hrest, Option.isNone_none, Bool.true_and] at h
      simp only [h, if_true]
    | none => simp [herr, hrest] at h

/-- One step of the loop of `retryRest` on any other attempt: the loop ends with the
outcome of that attempt. -/
theorem retryRestLoop_cons_final {σ : Type} (L : Strings) (P : Process)
    (SearchCommits : SearchUpstream σ) (username : String) (key : String)
    (rest : List String) (s : σ)
    (h : (SearchCommits username (P.GetString key) s).1.credentialBound L = false) :
    retryRestLoop L P SearchCommits username (key :: rest) s =
      { resp := (SearchCommits username (P.GetString key) s).1.outcome.1,
        err := (SearchCommits username (P.GetString key) s).1.outcome.2,
        attempts := [key], state := (SearchCommits username (P.GetString key) s).2 } := by
  unfold SearchResult.credentialBound at h
  unfold SearchResult.outcome
  rw [retryRestLoop]
  cases herr : (SearchCommits username (P.GetString key) s).1.err with
  | some e => simp
  | none =>
    cases hrest : (SearchCommits username (P.GetString key) s).1.restErr with
    | some e =>
      simp only [herr, hrest, Option.isNone_none, Bool.true_and] at h
      simp [h]
    | none => simp

/-- The loop of `retryRest` skips a run of credential-bound failures and ends on the
first attempt of another kind. -/
theorem retryRestLoop_first_final {σ : Type} (L : Strings) (P : Process)
    (SearchCommits : SearchUpstream σ) (username : String) :
    ∀ (keys : List String) (s : σ) (k : Nat) (rk : SearchResult),
      (∀ r ∈ (searchResults P SearchCommits username keys s).take k,
        r.credentialBound L = true) →
      (searchResults P SearchCommits username keys s)[k]? = some rk →
      rk.credentialBound L = false →
      (retryRestLoop L P SearchCommits username keys s).resp = rk.outcome.1 ∧
        (retryRestLoop L P SearchCommits username keys s).err = rk.outcome.2 ∧
        (retryRestLoop L P SearchCommits username keys s).attempts = keys.take (k + 1) := by
  intro keys
  induction keys with
  | nil => intro s k rk _ hk _; simp [searchResults] at hk
  | cons key rest ih =>
    intro s k rk hskip hk hfinal
    cases k with
    | zero =>
      simp only [searchResults, List.getElem?_cons_zero, Option.some.injEq] at hk
      rw [retryRestLoop_cons_final L P SearchCommits username key rest s (by rw [hk]; exact hfinal)]
      simp [hk]
    | succ k =>
      have h0 : (SearchCommits username (P.GetString key) s).1.credentialBound L = true :=
        hskip _ (by simp [searchResults])
      rw [retryRestLoop_cons_bound L P SearchCommits username key rest s h0]
      have := ih (SearchCommits username (P.GetString key) s).2 k rk
        (fun r hr => hskip r (by
          simp only [searchResults, List.take_succ_cons, List.mem_cons]
          exact Or.inr hr))
        (by simpa [searchResults] using hk) hfinal
      simpa [RestOutcome.skipped] using this

/-- When every attempt is a credential-bound failure the loop of `retryRest` tries every
key and ends with the `MAX_RETRY` error. -/
theorem retryRestLoop_all_bound {σ : Type} (L : Strings) (P : Process)
    (SearchCommits : SearchUpstream σ) (username : String) :
    ∀ (keys : List String) (s : σ),
      (∀ r ∈ searchResults P SearchCommits username keys s, r.credentialBound L = true) →
      (retryRestLoop L P SearchCommits username keys s).err =
          some (NewCustomError "Downtime due to GitHub API rate limiting" ErrorMaxRetry) ∧
        (retryRestLoop L P SearchCommits username keys s).attempts = keys := by
  intro keys
  induction keys with
  | nil => intro s _; simp [retryRestLoop]
  | cons key rest ih =>
    intro s hall
    have h0 : (SearchCommits username (P.GetString key) s).1.credentialBound L = true :=
      hall _ (by simp [searchResults])
    rw [retryRestLoop_cons_bound L P SearchCommits username key rest s h0]
    have := ih (SearchCommits username (P.GetString key) s).2
      (fun r hr => hall r (by
        simp only [searchResults, List.mem_cons]
        exact Or.inr hr))
    simpa [RestOutcome.skipped] using this

/-- When the pool is not empty `retryRest` is the loop over the pool. -/
theorem retryRest_eq_loop {σ : Type} (L : Strings) (P : Process)
    (SearchCommits : SearchUpstream σ) (username : String) (s : σ)
    (h : GetPATKeys L P ≠ []) :
    retryRest L P SearchCommits username s =
      retryRestLoop L P SearchCommits username (GetPATKeys L P) s := by
  unfold retryRest
  have : (GetPATKeys L P).length ≠ 0 := by simpa using h
  simp [this]

/-- **C23 (amended).** The commit search `retryRest` tries the credentials in pool order
and advances to the next credential on a credential-bound failure only (a REST error
whose lower-cased message is the bad-credentials or the account-suspended message); it
has no rule for rate limits.  When the attempts with credentials `0..k-1` are
credential-bound failures and the attempt with credential `k` is not, the search has
tried credentials `0..k` exactly and ends with the outcome of attempt `k`: its transport
error, else its REST error as a plain error whatever its text (a rate-limit text
included), else its response.  And when every credential of a pool that is not empty
fails credential-bound, the search has tried the whole pool and fails with the
`MAX_RETRY` custom error. -/
theorem C23_rest_retry_skips_credential_failures_only {σ : Type} (L : Strings)
    (P : Process) (SearchCommits : SearchUpstream σ) (username : String) (s : σ) (k : Nat)
    (rk : SearchResult)
    (hskip : ∀ r ∈ (searchResults P SearchCommits username (GetPATKeys L P) s).take k,
      r.credentialBound L = true)
    (hk : (searchResults P SearchCommits username (GetPATKeys L P) s)[k]? = some rk)
    (hfinal : rk.credentialBound L = false) :
    (retryRest L P SearchCommits username s).attempts = (GetPATKeys L P).take (k + 1) ∧
      (∀ e, rk.err = some e →
        (retryRest L P SearchCommits username s).err = some e) ∧
      (∀ e, rk.err = none → rk.restErr = some e →
        (retryRest L P SearchCommits username s).err = some (.errorString e.Message)) ∧
      (rk.err = none → rk.restErr = none →
        (retryRest L P SearchCommits username s).err = none ∧
          (retryRest L P SearchCommits username s).resp = rk.resp) ∧
      (∀ s0 : σ,
        (∀ r ∈ searchResults P SearchCommits username (GetPATKeys L P) s0,
          r.credentialBound L = true) →
        (retryRest L P SearchCommits username s0).attempts = GetPATKeys L P ∧
          (retryRest L P SearchCommits username s0).err =
            some (GoError.CustomError "Downtime due to GitHub API rate limiting" "MAX_RETRY"
              "You can deploy own instance or wait until public will be no longer limited"))
    := by
  have hne : GetPATKeys L P ≠ [] := by
    intro h
    rw [h] at hk
    simp [searchResults] at hk
  obtain ⟨h1, h2, h3⟩ := retryRestLoop_first_final L P SearchCommits username
    (GetPATKeys L P) s k rk hskip hk hfinal
  rw [← retryRest_eq_loop L P SearchCommits username s hne] at h1 h2 h3
  refine ⟨h3, ?_, ?_, ?_, ?_⟩
  · intro e he
    rw [h2]
    simp [SearchResult.outcome, he]
  · intro e he hr
    rw [h2]
    simp [SearchResult.outcome, he, hr]
  · intro he hr
    rw [h1, h2]
    simp [SearchResult.outcome, he, hr]
  · intro s0 hall
    rw [retryRest_eq_loop L P SearchCommits username s0 hne]
    obtain ⟨h4, h5⟩ := retryRestLoop_all_bound L P SearchCommits username (GetPATKeys L P)
      s0 hall
    exact ⟨h5, h4⟩

/-- Witness of C23 (amended): `PAT_1` has bad credentials, `PAT_2` is suspended and
`PAT_3` is served. -/
theorem C23_rest_retry_skips_credential_failures_only_witness :
    (retryRest Strings.ascii (demoProcess "false") recoveringSearch "ann" 0).attempts =
        (GetPATKeys Strings.ascii (demoProcess "false")).take (2 + 1) ∧
      (∀ e, (SearchResult.mk ⟨321⟩ none 200 none).err = some e →
        (retryRest Strings.ascii (demoProcess "false") recoveringSearch "ann" 0).err =
          some e) ∧
      (∀ e, (SearchResult.mk ⟨321⟩ none 200 none).err = none →
        (SearchResult.mk ⟨321⟩ none 200 none).restErr = some e →
        (retryRest Strings.ascii (demoProcess "false") recoveringSearch "ann" 0).err =
          some (.errorString e.Message)) ∧
      ((SearchResult.mk ⟨321⟩ none 200 none).err = none →
        (SearchResult.mk ⟨321⟩ none 200 none).restErr = none →
        (retryRest Strings.ascii (demoProcess "false") recoveringSearch "ann" 0).err = none ∧
          (retryRest Strings.ascii (demoProcess "false") recoveringSearch "ann" 0).resp =
            (SearchResult.mk ⟨321⟩ none 200 none).resp) ∧
      (∀ s0 : Nat,
        (∀ r ∈ searchResults (demoProcess "false") recoveringSearch "ann"
            (GetPATKeys Strings.ascii (demoProcess "false")) s0,
          r.credentialBound Strings.ascii = true) →
        (retryRest Strings.ascii (demoProcess "false") recoveringSearch "ann" s0).attempts =
            GetPATKeys Strings.ascii (demoProcess "false") ∧
          (retryRest Strings.ascii (demoProcess "false") recoveringSearch "ann" s0).err =
            some (GoError.CustomError "Downtime due to GitHub API rate limiting" "MAX_RETRY"
              "You can deploy own instance or wait until public will be no longer limited"))
    :=
  C23_rest_retry_skips_credential_failures_only Strings.ascii (demoProcess "false")
    recoveringSearch "ann" 0 2 (SearchResult.mk ⟨321⟩ none 200 none)
    (by decide) (by decide) (by decide)

/-- **C23, counterexample.** The pool holds three credentials and the commit search is
rate limited on the first one only (the text of its REST error contains `rate limit`):
`retryRest` does not advance to the second credential, on which the search would count
321 commits; it has made one attempt and fails with that error, and so does `FetchStats`
in all-commits mode. -/
theorem C23_counterexample_rate_limit_aborts :
    GetPATKeys Strings.ascii (demoProcess "false") = ["PAT_1", "PAT_2", "PAT_3"] ∧
      Contains (Strings.ascii.ToLower "API rate limit exceeded for user ID 1.") "rate limit"
        = true ∧
      (limitedSearch "ann" ((demoProcess "false").GetString "PAT_2") 1).1.resp.TotalCount
        = 321 ∧
      (retryRest Strings.ascii (demoProcess "false") limitedSearch "ann" 0).attempts =
        ["PAT_1"] ∧
      (retryRest Strings.ascii (demoProcess "false") limitedSearch "ann" 0).state = 1 ∧
      (retryRest Strings.ascii (demoProcess "false") limitedSearch "ann" 0).err =
        some (GoError.errorString "API rate limit exceeded for user ID 1.") ∧
      (FetchStats Float64.ieee Strings.ascii (demoProcess "false") profileJSON
        (fun _ _ _ n => ({ resp := { Data := [7] } }, n)) limitedSearch 3 "ann" true []
        false false false none 0).result =
        some ({}, some (GoError.errorString "API rate limit exceeded for user ID 1.")) :=
  ⟨by decide, by decide, by decide, by decide, by decide, by decide, by decide⟩

/-- The run in which every credential fails credential-bound: the whole pool is tried
and the search fails with the `MAX_RETRY` error. -/
theorem retryRest_exhausted_run :
    (retryRest Strings.ascii (demoProcess "false")
        (fun _ _ n => ({ restErr := some ⟨"Bad credentials"⟩, status := 401 }, n + 1))
        "ann" 0).attempts = ["PAT_1", "PAT_2", "PAT_3"] ∧
      (retryRest Strings.ascii (demoProcess "false")
        (fun _ _ n => ({ restErr := some ⟨"Bad credentials"⟩, status := 401 }, n + 1))
        "ann" 0).err =
        some (GoError.CustomError "Downtime due to GitHub API rate limiting" "MAX_RETRY"
          "You can deploy own instance or wait until public will be no longer limited") :=
  ⟨by decide, by decide⟩

/-! ## Theorems: the all-commits mode and the exclusion list of `FetchStats` -/

/-- The record built by `finishStats` does not read the windowed commit counter of the
user. -/
theorem finishStats_ignores_commits (F : Float64) (P : Process) (includeAllCommits : Bool)
    (excludeRepo : List String) (includeMergedPRs : Bool) (includeDiscussions : Bool)
    (includeDiscussionAnswers : Bool) (user : graphQLUser) (totalCommits c : Int) :
    finishStats F P includeAllCommits excludeRepo includeMergedPRs includeDiscussions
        includeDiscussionAnswers { user with Commits := c }
        (baseStats { user with Commits := c } totalCommits) =
      finishStats F P includeAllCommits excludeRepo includeMergedPRs includeDiscussions
        includeDiscussionAnswers user (baseStats user totalCommits) :=
  rfl

/-- The field `TotalCommits` of the record built by `finishStats` is the one stored
before. -/
theorem finishStats_TotalCommits (F : Float64) (P : Process) (includeAllCommits : Bool)
    (excludeRepo : List String) (includeMergedPRs : Bool) (includeDiscussions : Bool)
    (includeDiscussionAnswers : Bool) (user : graphQLUser) (totalCommits : Int) :
    (finishStats F P includeAllCommits excludeRepo includeMergedPRs includeDiscussions
      includeDiscussionAnswers user (baseStats user totalCommits)).TotalCommits =
      totalCommits := by
  simp only [finishStats, baseStats]
  (repeat' split) <;> simp_all

/-- **C29.** In all-commits mode, when the stats query has brought back a decodable
response without errors and the commit search `retryRest` succeeds: if the count it
returns is zero, `FetchStats` returns the zero record and the custom error
`GITHUB_REST_API_ERROR` with the message `Could not fetch total commits.`; if the count
is not zero (so in particular if it is positive), `FetchStats` returns a record whose
`TotalCommits` is that count, and the record is the same whatever the windowed commit
counter of the stats query is. -/
theorem C29_all_commits_zero_fails_count_wins {σ : Type} (F : Float64) (L : Strings)
    (P : Process) (J : JSON) (DoGraphQL : Upstream σ) (SearchCommits : SearchUpstream σ)
    (fuel : Nat) (username : String) (excludeRepo : List String)
    (includeMergedPRs : Bool) (includeDiscussions : Bool) (includeDiscussionAnswers : Bool)
    (commitsYear : Option Int) (s : σ) (resp : GraphQLResponse) (data : graphQLUserData)
    (hname : username ≠ "")
    (hfetch : (statsFetcher L P J DoGraphQL fuel username includeMergedPRs includeDiscussions
      includeDiscussionAnswers (startTimeOf commitsYear) s).result = some (resp, none))
    (herrs : resp.Errors = [])
    (hdata : J.Unmarshal resp.Data = .ok data)
    (hlookup : (retryRest L P SearchCommits username
      (statsFetcher L P J DoGraphQL fuel username includeMergedPRs includeDiscussions
        includeDiscussionAnswers (startTimeOf commitsYear) s).state).err = none) :
    ((retryRest L P SearchCommits username
        (statsFetcher L P J DoGraphQL fuel username includeMergedPRs includeDiscussions
          includeDiscussionAnswers (startTimeOf commitsYear) s).state).resp.TotalCount = 0 →
      (FetchStats F L P J DoGraphQL SearchCommits fuel username true excludeRepo
        includeMergedPRs includeDiscussions includeDiscussionAnswers commitsYear s).result =
        some ({}, some (GoError.CustomError "Could not fetch total commits."
          "GITHUB_REST_API_ERROR" "Please try again later"))) ∧
      ((retryRest L P SearchCommits username
        (statsFetcher L P J DoGraphQL fuel username includeMergedPRs includeDiscussions
          includeDiscussionAnswers (startTimeOf commitsYear) s).state).resp.TotalCount ≠ 0 →
        ∃ stats,
          (FetchStats F L P J DoGraphQL SearchCommits fuel username true excludeRepo
            includeMergedPRs includeDiscussions includeDiscussionAnswers commitsYear
            s).result = some (stats, none) ∧
          stats.TotalCommits =
            (retryRest L P SearchCommits username
              (statsFetcher L P J DoGraphQL fuel username includeMergedPRs
                includeDiscussions includeDiscussionAnswers (startTimeOf commitsYear)
                s).state).resp.TotalCount ∧
          ∀ c : Int,
            stats = finishStats F P true excludeRepo includeMergedPRs includeDiscussions
              includeDiscussionAnswers { data.User with Commits := c }
              (baseStats { data.User with Commits := c }
                (retryRest L P SearchCommits username
                  (statsFetcher L P J DoGraphQL fuel username includeMergedPRs
                    includeDiscussions includeDiscussionAnswers (startTimeOf commitsYear)
                    s).state).resp.TotalCount)) := by
  constructor
  · intro hzero
    unfold FetchStats
    simp only [hname, if_false, hfetch, herrs, hdata]
    simp [totalCommitsFetcher, hlookup, hzero]
    rfl
  · intro hpos
    have hok : (totalCommitsFetcher L P SearchCommits username
        (statsFetcher L P J DoGraphQL fuel username includeMergedPRs includeDiscussions
          includeDiscussionAnswers (startTimeOf commitsYear) s).state).err = none := by
      simp [totalCommitsFetcher, hlookup, hpos]
    have hcount : (totalCommitsFetcher L P SearchCommits username
        (statsFetcher L P J DoGraphQL fuel username includeMergedPRs includeDiscussions
          includeDiscussionAnswers (startTimeOf commitsYear) s).state).count =
        (retryRest L P SearchCommits username
          (statsFetcher L P J DoGraphQL fuel username includeMergedPRs includeDiscussions
            includeDiscussionAnswers (startTimeOf commitsYear) s).state).resp.TotalCount := by
      simp [totalCommitsFetcher, hlookup, hpos]
    have h := FetchStats_success F L P J DoGraphQL SearchCommits fuel username true
      excludeRepo includeMergedPRs includeDiscussions includeDiscussionAnswers commitsYear s
      resp data hname hfetch herrs hdata (fun _ => hok)
    simp only [if_true, hcount] at h
    refine ⟨_, h, finishStats_TotalCommits _ _ _ _ _ _ _ _ _, fun c => ?_⟩
    exact (finishStats_ignores_commits F P true excludeRepo includeMergedPRs
      includeDiscussions includeDiscussionAnswers data.User _ c).symm

/-- Witness of C29: `profilePage` is fetched (its windowed counter is 120) and the commit
search counts 321 commits. -/
theorem C29_all_commits_zero_fails_count_wins_witness :
    ((retryRest Strings.ascii (demoProcess "false") demoSearch "ann"
        (statsFetcher Strings.ascii (demoProcess "false") profileJSON profileUpstream 3
          "ann" true false false (startTimeOf none) ()).state).resp.TotalCount = 0 →
      (FetchStats Float64.ieee Strings.ascii (demoProcess "false") profileJSON
        profileUpstream demoSearch 3 "ann" true [] true false false none ()).result =
        some ({}, some (GoError.CustomError "Could not fetch total commits."
          "GITHUB_REST_API_ERROR" "Please try again later"))) ∧
      ((retryRest Strings.ascii (demoProcess "false") demoSearch "ann"
        (statsFetcher Strings.ascii (demoProcess "false") profileJSON profileUpstream 3
          "ann" true false false (startTimeOf none) ()).state).resp.TotalCount ≠ 0 →
        ∃ stats,
          (FetchStats Float64.ieee Strings.ascii (demoProcess "false") profileJSON
            profileUpstream demoSearch 3 "ann" true [] true false false none ()).result =
            some (stats, none) ∧
          stats.TotalCommits =
            (retryRest Strings.ascii (demoProcess "false") demoSearch "ann"
              (statsFetcher Strings.ascii (demoProcess "false") profileJSON profileUpstream
                3 "ann" true false false (startTimeOf none) ()).state).resp.TotalCount ∧
          ∀ c : Int,
            stats = finishStats Float64.ieee (demoProcess "false") true [] true false false
              { profilePage.User with Commits := c }
              (baseStats { profilePage.User with Commits := c }
                (retryRest Strings.ascii (demoProcess "false") demoSearch "ann"
                  (statsFetcher Strings.ascii (demoProcess "false") profileJSON
                    profileUpstream 3 "ann" true false false (startTimeOf none)
                    ()).state).resp.TotalCount)) :=
  C29_all_commits_zero_fails_count_wins Float64.ieee Strings.ascii (demoProcess "false")
    profileJSON profileUpstream demoSearch 3 "ann" [] true false false none ()
    { Data := [7] } profilePage (by decide) (by decide) rfl rfl (by decide)

/-- Two runs of the all-commits mode on `profilePage`: a search that counts zero commits
makes `FetchStats` fail although the stats query succeeded, and a search that counts 321
commits gives `TotalCommits = 321`, not the windowed 120. -/
theorem FetchStats_all_commits_runs :
    (FetchStats Float64.ieee Strings.ascii (demoProcess "false") profileJSON
        profileUpstream zeroSearch 3 "ann" true [] true false false none ()).result =
        some ({}, some (GoError.CustomError "Could not fetch total commits."
          "GITHUB_REST_API_ERROR" "Please try again later")) ∧
      ((FetchStats Float64.ieee Strings.ascii (demoProcess "false") profileJSON
        profileUpstream demoSearch 3 "ann" true [] true false false none ()).result.map
          fun r => (r.1.TotalCommits, r.2)) = some ((321 : Int), (none : Option GoError)) ∧
      profilePage.User.Commits = 120 :=
  ⟨by decide!, by decide!, by decide⟩

/-- **C26.** When `FetchStats` returns a record for the fetched repositories
`data.User.Repositories.Nodes`, its `TotalStars` is the sum (as a Go `int`) of the star
counts of the fetched repositories whose name is not, as a string, an element of the
exclusion list (the list given by the caller followed by `EXCLUDE_REPO`): a repository
is left out exactly when its name equals some entry.  So an entry that equals the name of
no fetched repository excludes nothing, whether or not it differs only in letter case
from one of them: the run with that entry added returns the same `TotalStars`. -/
theorem C26_exclusion_is_exact_name_membership {σ : Type} (F : Float64) (L : Strings)
    (P : Process) (J : JSON) (DoGraphQL : Upstream σ) (SearchCommits : SearchUpstream σ)
    (fuel : Nat) (username : String) (includeAllCommits : Bool) (excludeRepo : List String)
    (includeMergedPRs : Bool) (includeDiscussions : Bool) (includeDiscussionAnswers : Bool)
    (commitsYear : Option Int) (s : σ) (resp : GraphQLResponse) (data : graphQLUserData)
    (hname : username ≠ "")
    (hfetch : (statsFetcher L P J DoGraphQL fuel username includeMergedPRs includeDiscussions
      includeDiscussionAnswers (startTimeOf commitsYear) s).result = some (resp, none))
    (herrs : resp.Errors = [])
    (hdata : J.Unmarshal resp.Data = .ok data)
    (hcommits : includeAllCommits = true →
      (totalCommitsFetcher L P SearchCommits username
        (statsFetcher L P J DoGraphQL fuel username includeMergedPRs includeDiscussions
          includeDiscussionAnswers (startTimeOf commitsYear) s).state).err = none) :
    ∃ stats,
      (FetchStats F L P J DoGraphQL SearchCommits fuel username includeAllCommits excludeRepo
        includeMergedPRs includeDiscussions includeDiscussionAnswers commitsYear s).result =
        some (stats, none) ∧
      stats.TotalStars =
        wrapInt (((data.User.Repositories.Nodes.filter fun node =>
          ¬ ∃ entry ∈ excludeRepo ++ ExcludeRepositories P, entry = node.Name).map
            fun node => node.Stargazers).sum) ∧
      ∀ entry : String,
        (∀ node ∈ data.User.Repositories.Nodes, node.Name ≠ entry) →
        ∃ stats',
          (FetchStats F L P J DoGraphQL SearchCommits fuel username includeAllCommits
            (excludeRepo ++ [entry]) includeMergedPRs includeDiscussions
            includeDiscussionAnswers commitsYear s).result = some (stats', none) ∧
          stats'.TotalStars = stats.TotalStars := by
  have h1 := FetchStats_success F L P J DoGraphQL SearchCommits fuel username
    includeAllCommits excludeRepo includeMergedPRs includeDiscussions includeDiscussionAnswers
    commitsYear s resp data hname hfetch herrs hdata hcommits
  refine ⟨_, h1, ?_, ?_⟩
  · rw [finishStats_TotalStars]
    unfold starsCounted
    congr 3
    apply List.filter_congr
    intro node _
    simp
  · intro entry habs
    have h2 := FetchStats_success F L P J DoGraphQL SearchCommits fuel username
      includeAllCommits (excludeRepo ++ [entry]) includeMergedPRs includeDiscussions
      includeDiscussionAnswers commitsYear s resp data hname hfetch herrs hdata hcommits
    refine ⟨_, h2, ?_⟩
    have hmem : ∀ x, x ∈ (excludeRepo ++ [entry]) ++ ExcludeRepositories P ↔
        x ∈ excludeRepo ++ ExcludeRepositories P ∨ x = entry := by
      intro x
      simp only [List.mem_append, List.mem_singleton]
      tauto
    have hsum := starsCounted_add_name (excludeRepo ++ ExcludeRepositories P)
      ((excludeRepo ++ [entry]) ++ ExcludeRepositories P) entry hmem
      data.User.Repositories.Nodes
    have hnone : starsNamed entry data.User.Repositories.Nodes = 0 :=
      starsNamed_absent entry _ habs
    rw [finishStats_TotalStars, finishStats_TotalStars, hsum, hnone]
    simp


/-- Witness of C26: `profilePage` is fetched with `b` excluded. -/
theorem C26_exclusion_is_exact_name_membership_witness :
    ∃ stats,
      (FetchStats Float64.ieee Strings.ascii (demoProcess "false") profileJSON
        profileUpstream demoSearch 3 "ann" false ["b"] true false false none ()).result =
        some (stats, none) ∧
      stats.TotalStars =
        wrapInt (((profilePage.User.Repositories.Nodes.filter fun node =>
          ¬ ∃ entry ∈ ["b"] ++ ExcludeRepositories (demoProcess "false"),
            entry = node.Name).map fun node => node.Stargazers).sum) ∧
      ∀ entry : String,
        (∀ node ∈ profilePage.User.Repositories.Nodes, node.Name ≠ entry) →
        ∃ stats',
          (FetchStats Float64.ieee Strings.ascii (demoProcess "false") profileJSON
            profileUpstream demoSearch 3 "ann" false (["b"] ++ [entry]) true false false
            none ()).result = some (stats', none) ∧
          stats'.TotalStars = stats.TotalStars :=
  C26_exclusion_is_exact_name_membership Float64.ieee Strings.ascii (demoProcess "false")
    profileJSON profileUpstream demoSearch 3 "ann" false ["b"] true false false none ()
    { Data := [7] } profilePage (by decide) (by decide) rfl rfl (by decide)

/-- Three runs on `profilePage`, whose repositories `a`, `b`, `c` hold 9, 8 and 0 stars:
without exclusion `TotalStars` is 17, with the entry `A` it is still 17, and with the
entry `a` it is 8. -/
theorem FetchStats_exclusion_case_runs :
    ((FetchStats Float64.ieee Strings.ascii (demoProcess "false") profileJSON
        profileUpstream demoSearch 3 "ann" false [] true false false none ()).result.map
          fun r => (r.1.TotalStars, r.2)) = some ((17 : Int), (none : Option GoError)) ∧
      ((FetchStats Float64.ieee Strings.ascii (demoProcess "false") profileJSON
        profileUpstream demoSearch 3 "ann" false ["A"] true false false none ()).result.map
          fun r => (r.1.TotalStars, r.2)) = some ((17 : Int), (none : Option GoError)) ∧
      ((FetchStats Float64.ieee Strings.ascii (demoProcess "false") profileJSON
        profileUpstream demoSearch 3 "ann" false ["a"] true false false none ()).result.map
          fun r => (r.1.TotalStars, r.2)) = some ((8 : Int), (none : Option GoError)) :=
  ⟨by decide, by decide, by decide⟩

/-! ## Theorems: `collectPATInfo` -/

/-- One iteration of the loop of `collectPATInfo` that stores an entry: the loop goes on
with the entry stored under the key. -/
theorem collectLoop_cons_recorded {σ : Type} (L : Strings) (P : Process)
    (QueryRateLimit : QuotaUpstream σ) (minutesUntil : String → σ → Option Int)
    (key : String) (rest : List String) (details : Details) (s : σ) (d : patDetail)
    (h : recordedDetail L minutesUntil (QueryRateLimit (P.GetString key) s).1
      (QueryRateLimit (P.GetString key) s).2 = some d) :
    collectLoop L P QueryRateLimit minutesUntil (key :: rest) details s =
      (collectLoop L P QueryRateLimit minutesUntil rest (setDetail details key d)
        (QueryRateLimit (P.GetString key) s).2).after key := by
  unfold recordedDetail at h
  rw [collectLoop]
  generalize QueryRateLimit (P.GetString key) s = q at h ⊢
  obtain ⟨⟨data, errors, restErr, err⟩, s'⟩ := q
  cases err with
  | some e => simp at h
  | none =>
    cases restErr with
    | some e =>
      simp only at h ⊢
      by_cases h1 : L.ToLower e.Message = "bad credentials"
      · rw [if_pos h1] at h ⊢
        cases h
        rfl
      · by_cases h2 : L.ToLower e.Message = "sorry. your account was suspended."
        · rw [if_neg h1, if_pos h2] at h ⊢
          cases h
          rfl
        · rw [if_neg h1, if_neg h2] at h
          cases h
    | none =>
      simp only at h ⊢
      by_cases h1 : errors.length > 0 ∧ (errors.headD ⟨"", ""⟩).Type_ ≠ "RATE_LIMITED"
      · rw [if_pos h1] at h ⊢
        cases h
        rfl
      · rw [if_neg h1] at h ⊢
        by_cases h2 : errors.length > 0 ∧ (errors.headD ⟨"", ""⟩).Type_ = "RATE_LIMITED"
        · rw [if_pos (Or.inl h2)] at h
          cases h
          have hl : (if data.RateLimit.Remaining = 0 then true
              else if errors.length > 0 ∧ (errors.headD ⟨"", ""⟩).Type_ = "RATE_LIMITED"
                then true else false) = true := by
            by_cases h3 : data.RateLimit.Remaining = 0
            · rw [if_pos h3]
            · rw [if_neg h3, if_pos h2]
          rw [if_pos hl]
        · by_cases h3 : data.RateLimit.Remaining = 0
          · rw [if_pos (Or.inr h3)] at h
            cases h
            rw [if_pos h3, if_pos rfl]
          · rw [if_neg (not_or.mpr ⟨h2, h3⟩)] at h
            cases h
            rw [if_neg h3, if_neg h2, if_neg Bool.false_ne_true]

/-- One iteration of the loop of `collectPATInfo` that stores no entry: the function
returns an error. -/
theorem collectLoop_cons_abort {σ : Type} (L : Strings) (P : Process)
    (QueryRateLimit : QuotaUpstream σ) (minutesUntil : String → σ → Option Int)
    (key : String) (rest : List String) (details : Details) (s : σ)
    (h : recordedDetail L minutesUntil (QueryRateLimit (P.GetString key) s).1
      (QueryRateLimit (P.GetString key) s).2 = none) :
    (collectLoop L P QueryRateLimit minutesUntil (key :: rest) details s).err ≠ none ∧
      (collectLoop L P QueryRateLimit minutesUntil (key :: rest) details s).attempts =
        [key] := by
  unfold recordedDetail at h
  rw [collectLoop]
  generalize QueryRateLimit (P.GetString key) s = q at h ⊢
  obtain ⟨⟨data, errors, restErr, err⟩, s'⟩ := q
  cases err with
  | some e => simp
  | none =>
    cases restErr with
    | some e =>
      simp only at h ⊢
      by_cases h1 : L.ToLower e.Message = "bad credentials"
      · rw [if_pos h1] at h
        cases h
      · by_cases h2 : L.ToLower e.Message = "sorry. your account was suspended."
        · rw [if_neg h1, if_pos h2] at h
          cases h
        · rw [if_neg h1, if_neg h2]
          simp
    | none =>
      simp only at h
      split at h
      · simp at h
      · split at h <;> simp at h

/-- Every entry that the loop of `collectPATInfo` stores has one of the five statuses. -/
theorem recordedDetail_status {σ : Type} (L : Strings)
    (minutesUntil : String → σ → Option Int) (r : QuotaResult) (s : σ) (d : patDetail)
    (h : recordedDetail L minutesUntil r s = some d) : d.Status ∈ patStatuses := by
  unfold recordedDetail at h
  (repeat' split at h) <;> simp at h <;> subst h <;> simp [patStatuses]

/-- The loop of `collectPATInfo` leaves the entries of the keys it is not given as they
are. -/
theorem collectLoop_frame {σ : Type} (L : Strings) (P : Process)
    (QueryRateLimit : QuotaUpstream σ) (minutesUntil : String → σ → Option Int) :
    ∀ (keys : List String) (details : Details) (s : σ) (k : String), k ∉ keys →
      (collectLoop L P QueryRateLimit minutesUntil keys details s).err = none →
      (collectLoop L P QueryRateLimit minutesUntil keys details s).details k = details k := by
  intro keys
  induction keys with
  | nil => intro details s k _ _; simp [collectLoop]
  | cons key rest ih =>
    intro details s k hk herr
    cases hd : recordedDetail L minutesUntil (QueryRateLimit (P.GetString key) s).1
        (QueryRateLimit (P.GetString key) s).2 with
    | none =>
      exact absurd herr
        (collectLoop_cons_abort L P QueryRateLimit minutesUntil key rest details s hd).1
    | some d =>
      rw [collectLoop_cons_recorded L P QueryRateLimit minutesUntil key rest details s d hd]
        at herr ⊢
      have hk1 : k ≠ key := fun h => hk (by simp [h])
      have hk2 : k ∉ rest := fun h => hk (by simp [h])
      have := ih (setDetail details key d) (QueryRateLimit (P.GetString key) s).2 k hk2 herr
      simp only [CollectOutcome.after] at this ⊢
      rw [this]
      simp [setDetail, hk1]

/-- When the loop of `collectPATInfo` runs to its end, every key it was given has an
entry with one of the five statuses. -/
theorem collectLoop_statuses {σ : Type} (L : Strings) (P : Process)
    (QueryRateLimit : QuotaUpstream σ) (minutesUntil : String → σ → Option Int) :
    ∀ (keys : List String) (details : Details) (s : σ),
      (collectLoop L P QueryRateLimit minutesUntil keys details s).err = none →
      ∀ k ∈ keys, ∃ d,
        (collectLoop L P QueryRateLimit minutesUntil keys details s).details k = some d ∧
          d.Status ∈ patStatuses := by
  intro keys
  induction keys with
  | nil => intro details s _ k hk; simp at hk
  | cons key rest ih =>
    intro details s herr k hk
    cases hd : recordedDetail L minutesUntil (QueryRateLimit (P.GetString key) s).1
        (QueryRateLimit (P.GetString key) s).2 with
    | none =>
      exact absurd herr
        (collectLoop_cons_abort L P QueryRateLimit minutesUntil key rest details s hd).1
    | some d =>
      rw [collectLoop_cons_recorded L P QueryRateLimit minutesUntil key rest details s d hd]
        at herr ⊢
      by_cases hmem : k ∈ rest
      · exact ih (setDetail details key d) (QueryRateLimit (P.GetString key) s).2 herr k hmem
      · have hkey : k = key := by
          rcases List.mem_cons.mp hk with h | h
          · exact h
          · exact absurd h hmem
        have := collectLoop_frame L P QueryRateLimit minutesUntil rest
          (setDetail details key d) (QueryRateLimit (P.GetString key) s).2 k hmem herr
        refine ⟨d, ?_, recordedDetail_status L minutesUntil _ _ d hd⟩
        simp only [CollectOutcome.after] at this ⊢
        rw [this]
        simp [setDetail, hkey]

/-- The loop of `filterPATs` appends the keys that hold the status, in their order. -/
theorem filterPATsLoop_eq (details : Details) (status : String) :
    ∀ (keys pats : List String),
      filterPATsLoop details status keys pats =
        pats ++ keys.filter (hasStatus details status) := by
  intro keys
  induction keys with
  | nil => intro pats; simp [filterPATsLoop]
  | cons key rest ih =>
    intro pats
    rw [filterPATsLoop]
    cases hd : details key with
    | none => simp [ih, hasStatus, hd, List.filter_cons]
    | some d =>
      by_cases hs : d.Status = status
      · simp [ih, hasStatus, hd, hs, List.filter_cons]
      · simp [ih, hasStatus, hd, hs, List.filter_cons]

/-- The list `filterPATs` returns: the keys that hold the status, in their order. -/
theorem filterPATs_eq (details : Details) (keys : List String) (status : String) :
    filterPATs details keys status = keys.filter (hasStatus details status) := by
  simp [filterPATs, filterPATsLoop_eq]

/-- The map `sortDetails` returns agrees with `details` on the keys. -/
theorem sortDetailsLoop_eq (details : Details) :
    ∀ (keys : List String) (sorted : Details) (k : String),
      sortDetailsLoop details keys sorted k =
        if k ∈ keys ∧ (details k).isSome then details k else sorted k := by
  intro keys
  induction keys with
  | nil => intro sorted k; simp [sortDetailsLoop]
  | cons key rest ih =>
    intro sorted k
    rw [sortDetailsLoop]
    cases hd : details key with
    | none =>
      simp only [ih]
      by_cases hk : k = key
      · subst hk
        simp [hd]
      · simp [hk]
    | some d =>
      simp only [ih]
      by_cases hr : k ∈ rest ∧ (details k).isSome
      · simp [hr]
      · by_cases hk : k = key
        · subst hk
          simp [hd, setDetail] at hr ⊢
        · have : ¬ (k ∈ key :: rest ∧ (details k).isSome) := by
            simp only [List.mem_cons, not_and] at hr ⊢
            rintro (h | h)
            · exact absurd h hk
            · exact hr h
          simp [hr, this, setDetail, hk]

/-- Two statuses that differ select disjoint lists. -/
theorem filter_hasStatus_disjoint (details : Details) (keys : List String)
    (a b : String) (hab : a ≠ b) :
    List.Disjoint (keys.filter (hasStatus details a)) (keys.filter (hasStatus details b)) := by
  intro k ha hb
  simp only [List.mem_filter, hasStatus] at ha hb
  cases hd : details k with
  | none => simp [hd] at ha
  | some d =>
    simp only [hd, decide_eq_true_eq] at ha hb
    exact hab (ha.2.symm.trans hb.2)

/-- The number of times a key occurs among the keys of a status. -/
theorem count_filter_hasStatus (details : Details) (keys : List String) (status : String)
    (k : String) :
    (keys.filter (hasStatus details status)).count k =
      if hasStatus details status k = true then keys.count k else 0 := by
  by_cases h : hasStatus details status k = true
  · rw [if_pos h]
    exact List.count_filter h
  · rw [if_neg h]
    apply List.count_eq_zero.mpr
    intro hmem
    exact h (List.mem_filter.mp hmem).2

/-- When every key holds one of the five statuses, the five lists together are a
rearrangement of the keys. -/
theorem five_filters_perm (details : Details) (keys : List String)
    (h : ∀ k ∈ keys, ∃ d, details k = some d ∧ d.Status ∈ patStatuses) :
    (keys.filter (hasStatus details "valid") ++ keys.filter (hasStatus details "expired") ++
      keys.filter (hasStatus details "exhausted") ++
      keys.filter (hasStatus details "suspended") ++
      keys.filter (hasStatus details "error")).Perm keys := by
  rw [List.perm_iff_count]
  intro k
  simp only [List.count_append, count_filter_hasStatus]
  by_cases hk : k ∈ keys
  · obtain ⟨d, hd, hs⟩ := h k hk
    simp only [patStatuses, List.mem_cons, List.mem_singleton, List.not_mem_nil,
      or_false] at hs
    rcases hs with hs | hs | hs | hs | hs <;> simp [hasStatus, hd, hs]
  · simp [List.count_eq_zero.mpr hk]

/-- The report of `collectPATInfo`, when there is one: the loop has run to its end and
the five lists are those of `filterPATs` on the map it has built. -/
theorem collectPATInfo_report {σ : Type} (L : Strings) (P : Process)
    (QueryRateLimit : QuotaUpstream σ) (minutesUntil : String → σ → Option Int) (s : σ)
    (info : patInfo)
    (h : (collectPATInfo L P QueryRateLimit minutesUntil s).info = some info) :
    (collectLoop L P QueryRateLimit minutesUntil (GetPATKeys L P) (fun _ => none) s).err
        = none ∧
      info =
        { ValidPATs := filterPATs
            (collectLoop L P QueryRateLimit minutesUntil (GetPATKeys L P) (fun _ => none)
              s).details (GetPATKeys L P) "valid"
          ExpiredPATs := filterPATs
            (collectLoop L P QueryRateLimit minutesUntil (GetPATKeys L P) (fun _ => none)
              s).details (GetPATKeys L P) "expired"
          ExhaustedPATs := filterPATs
            (collectLoop L P QueryRateLimit minutesUntil (GetPATKeys L P) (fun _ => none)
              s).details (GetPATKeys L P) "exhausted"
          SuspendedPATs := filterPATs
            (collectLoop L P QueryRateLimit minutesUntil (GetPATKeys L P) (fun _ => none)
              s).details (GetPATKeys L P) "suspended"
          ErrorPATs := filterPATs
            (collectLoop L P QueryRateLimit minutesUntil (GetPATKeys L P) (fun _ => none)
              s).details (GetPATKeys L P) "error"
          Details := sortDetails
            (collectLoop L P QueryRateLimit minutesUntil (GetPATKeys L P) (fun _ => none)
              s).details (GetPATKeys L P) } := by
  unfold collectPATInfo at h
  cases herr : (collectLoop L P QueryRateLimit minutesUntil (GetPATKeys L P)
      (fun _ => none) s).err with
  | some e => simp [herr] at h
  | none =>
    simp only [herr, Option.some.injEq] at h
    exact ⟨rfl, h.symm⟩

/-- **C30.** Whenever `collectPATInfo` returns a report `info`: every credential of the
pool has an entry in `Details` whose status is one of `valid`, `expired`, `exhausted`,
`suspended` and `error`, and it is listed in the list of that status and in no other; the
five lists are pairwise disjoint; each of them is a sublist of the pool, so in pool order;
their concatenation is a rearrangement of the pool; and every credential of the pool
occurs in it exactly once. -/
theorem C30_report_partitions_pool {σ : Type} (L : Strings) (P : Process)
    (QueryRateLimit : QuotaUpstream σ) (minutesUntil : String → σ → Option Int) (s : σ)
    (info : patInfo)
    (hreport : (collectPATInfo L P QueryRateLimit minutesUntil s).info = some info) :
    (∀ key ∈ GetPATKeys L P, ∃ d,
      info.Details key = some d ∧
        d.Status ∈ ["valid", "expired", "exhausted", "suspended", "error"] ∧
        (key ∈ info.ValidPATs ↔ d.Status = "valid") ∧
        (key ∈ info.ExpiredPATs ↔ d.Status = "expired") ∧
        (key ∈ info.ExhaustedPATs ↔ d.Status = "exhausted") ∧
        (key ∈ info.SuspendedPATs ↔ d.Status = "suspended") ∧
        (key ∈ info.ErrorPATs ↔ d.Status = "error")) ∧
      [info.ValidPATs, info.ExpiredPATs, info.ExhaustedPATs, info.SuspendedPATs,
        info.ErrorPATs].Pairwise List.Disjoint ∧
      (∀ l ∈ [info.ValidPATs, info.ExpiredPATs, info.ExhaustedPATs, info.SuspendedPATs,
        info.ErrorPATs], l.Sublist (GetPATKeys L P)) ∧
      (info.ValidPATs ++ info.ExpiredPATs ++ info.ExhaustedPATs ++ info.SuspendedPATs ++
        info.ErrorPATs).Perm (GetPATKeys L P) ∧
      (∀ key ∈ GetPATKeys L P,
        (info.ValidPATs ++ info.ExpiredPATs ++ info.ExhaustedPATs ++ info.SuspendedPATs ++
          info.ErrorPATs).count key = 1) := by
  obtain ⟨herr, hinfo⟩ := collectPATInfo_report L P QueryRateLimit minutesUntil s info hreport
  have hst := collectLoop_statuses L P QueryRateLimit minutesUntil (GetPATKeys L P)
    (fun _ => none) s herr
  have hperm := five_filters_perm _ (GetPATKeys L P) hst
  subst hinfo
  simp only [filterPATs_eq]
  refine ⟨?_, ?_, ?_, hperm, ?_⟩
  · intro key hkey
    obtain ⟨d, hd, hs⟩ := hst key hkey
    refine ⟨d, ?_, hs, ?_, ?_, ?_, ?_, ?_⟩
    · simp [sortDetails, sortDetailsLoop_eq, hkey, hd]
    all_goals simp [List.mem_filter, hasStatus, hkey, hd]
  · simp only [List.pairwise_cons, List.mem_cons, List.mem_singleton, List.not_mem_nil,
      forall_eq_or_imp, forall_eq, List.Pairwise.nil, and_true, IsEmpty.forall_iff,
      implies_true]
    refine ⟨⟨?_, ?_, ?_, ?_⟩, ⟨?_, ?_, ?_⟩, ⟨?_, ?_⟩, ?_⟩ <;>
      exact filter_hasStatus_disjoint _ _ _ _ (by decide)
  · intro l hl
    simp only [List.mem_cons, List.mem_singleton, List.not_mem_nil, or_false] at hl
    rcases hl with rfl | rfl | rfl | rfl | rfl <;> exact List.filter_sublist _
  · intro key hkey
    rw [hperm.count_eq]
    exact List.count_eq_one_of_mem (GetPATKeys_nodup L P) hkey

/-- Witness of C30: of the pool of `demoProcess`, `PAT_1` has bad credentials, `PAT_2`
has no quota left and `PAT_3` is valid. -/
theorem C30_report_partitions_pool_witness :
    (∀ key ∈ GetPATKeys Strings.ascii (demoProcess "false"), ∃ d,
      (sortDetails (collectLoop Strings.ascii (demoProcess "false") mixedQuota fixedClock
          (GetPATKeys Strings.ascii (demoProcess "false")) (fun _ => none) ()).details
          (GetPATKeys Strings.ascii (demoProcess "false"))) key = some d ∧
        d.Status ∈ ["valid", "expired", "exhausted", "suspended", "error"] ∧
        (key ∈ ["PAT_3"] ↔ d.Status = "valid") ∧
        (key ∈ ["PAT_1"] ↔ d.Status = "expired") ∧
        (key ∈ ["PAT_2"] ↔ d.Status = "exhausted") ∧
        (key ∈ ([] : List String) ↔ d.Status = "suspended") ∧
        (key ∈ ([] : List String) ↔ d.Status = "error")) ∧
      [["PAT_3"], ["PAT_1"], ["PAT_2"], [], []].Pairwise List.Disjoint ∧
      (∀ l ∈ [["PAT_3"], ["PAT_1"], ["PAT_2"], [], []],
        l.Sublist (GetPATKeys Strings.ascii (demoProcess "false"))) ∧
      (["PAT_3"] ++ ["PAT_1"] ++ ["PAT_2"] ++ [] ++ []).Perm
        (GetPATKeys Strings.ascii (demoProcess "false")) ∧
      (∀ key ∈ GetPATKeys Strings.ascii (demoProcess "false"),
        (["PAT_3"] ++ ["PAT_1"] ++ ["PAT_2"] ++ [] ++ []).count key = 1) :=
  C30_report_partitions_pool Strings.ascii (demoProcess "false") mixedQuota fixedClock ()
    { ValidPATs := ["PAT_3"], ExpiredPATs := ["PAT_1"], ExhaustedPATs := ["PAT_2"],
      SuspendedPATs := [], ErrorPATs := [],
      Details := sortDetails (collectLoop Strings.ascii (demoProcess "false") mixedQuota
        fixedClock (GetPATKeys Strings.ascii (demoProcess "false")) (fun _ => none)
        ()).details (GetPATKeys Strings.ascii (demoProcess "false")) }
    rfl

/-- The report of the run behind the witness of C30, list by list, and its entries. -/
theorem collectPATInfo_mixed_run :
    ((collectPATInfo Strings.ascii (demoProcess "false") mixedQuota fixedClock ()).info.map
        fun i => (i.ValidPATs, i.ExpiredPATs, i.ExhaustedPATs, i.SuspendedPATs, i.ErrorPATs))
        = some (["PAT_3"], ["PAT_1"], ["PAT_2"], [], []) ∧
      ((collectPATInfo Strings.ascii (demoProcess "false") mixedQuota fixedClock ()).info.map
        fun i => (i.Details "PAT_1", i.Details "PAT_3")) =
        some (some { Status := "expired" }, some { Status := "valid", Remaining := some 4999 })
      ∧
      (collectPATInfo Strings.ascii (demoProcess "false") mixedQuota fixedClock ()).attempts
        = ["PAT_1", "PAT_2", "PAT_3"] :=
  ⟨by decide, by decide, by decide⟩

/-! ## Theorems: `collectPATInfo` against `RetryRateLimit` -/

/-- An entry of status `valid` is stored only for a quota result without any error and
with quota left. -/
theorem recordedDetail_valid {σ : Type} (L : Strings)
    (minutesUntil : String → σ → Option Int) (r : QuotaResult) (s : σ) (d : patDetail)
    (h : recordedDetail L minutesUntil r s = some d) (hs : d.Status = "valid") :
    r.err = none ∧ r.restErr = none ∧ r.errors = [] ∧ r.data.RateLimit.Remaining ≠ 0 := by
  obtain ⟨data, errors, restErr, err⟩ := r
  unfold recordedDetail at h
  cases err with
  | some e => simp at h
  | none =>
    cases restErr with
    | some e =>
      simp only at h
      (repeat' split at h) <;> simp at h <;> subst h <;> simp at hs
    | none =>
      cases errors with
      | nil =>
        simp only at h
        by_cases h3 : data.RateLimit.Remaining = 0
        · simp [h3] at h
          subst h
          simp at hs
        · simp [h3]
      | cons e rest =>
        simp only at h
        by_cases ht : e.Type_ = "RATE_LIMITED"
        · simp [ht] at h
          subst h
          simp at hs
        · simp [ht] at h
          subst h
          simp at hs

/-- An entry of status `expired` or `suspended` is stored only for a REST error whose
lower-cased message is the bad-credentials or the account-suspended message. -/
theorem recordedDetail_credential {σ : Type} (L : Strings)
    (minutesUntil : String → σ → Option Int) (r : QuotaResult) (s : σ) (d : patDetail)
    (h : recordedDetail L minutesUntil r s = some d)
    (hs : d.Status = "expired" ∨ d.Status = "suspended") :
    r.err = none ∧ ∃ e, r.restErr = some e ∧
      (L.ToLower e.Message = "bad credentials" ∨
        L.ToLower e.Message = "sorry. your account was suspended.") := by
  obtain ⟨data, errors, restErr, err⟩ := r
  unfold recordedDetail at h
  cases err with
  | some e => simp at h
  | none =>
    cases restErr with
    | some e =>
      refine ⟨rfl, e, rfl, ?_⟩
      simp only at h
      by_cases h1 : L.ToLower e.Message = "bad credentials"
      · exact Or.inl h1
      · by_cases h2 : L.ToLower e.Message = "sorry. your account was suspended."
        · exact Or.inr h2
        · rw [if_neg h1, if_neg h2] at h
          cases h
    | none =>
      simp only at h
      (repeat' split at h) <;> simp at h <;> subst h <;> simp at hs

/-- The entry stored for a REST error with one of the two credential messages. -/
theorem recordedDetail_bound {σ : Type} (L : Strings)
    (minutesUntil : String → σ → Option Int) (r : QuotaResult) (s : σ) (e : RestError)
    (herr : r.err = none) (hrest : r.restErr = some e)
    (hm : L.ToLower e.Message = "bad credentials" ∨
      L.ToLower e.Message = "sorry. your account was suspended.") :
    ∃ d, recordedDetail L minutesUntil r s = some d ∧
      (d.Status = "expired" ∨ d.Status = "suspended") := by
  unfold recordedDetail
  simp only [herr, hrest]
  by_cases h1 : L.ToLower e.Message = "bad credentials"
  · rw [if_pos h1]
    exact ⟨_, rfl, Or.inl rfl⟩
  · have h2 : L.ToLower e.Message = "sorry. your account was suspended." := by
      rcases hm with h | h
      · exact absurd h h1
      · exact h
    rw [if_neg h1, if_pos h2]
    exact ⟨_, rfl, Or.inr rfl⟩

/-- The entry stored for a quota result without transport or REST error: `error` when
the first error has a type other than `RATE_LIMITED`, `exhausted` when the first error
has that type or no quota is left, `valid` otherwise. -/
theorem recordedDetail_envelope {σ : Type} (L : Strings)
    (minutesUntil : String → σ → Option Int) (r : QuotaResult) (s : σ)
    (herr : r.err = none) (hrest : r.restErr = none) :
    ∃ d, recordedDetail L minutesUntil r s = some d ∧
      (d.Status = "error" ↔ ∃ e rest, r.errors = e :: rest ∧ e.Type_ ≠ "RATE_LIMITED") ∧
      (d.Status = "exhausted" ↔
        (∃ e rest, r.errors = e :: rest ∧ e.Type_ = "RATE_LIMITED") ∨
          (r.errors = [] ∧ r.data.RateLimit.Remaining = 0)) ∧
      (d.Status = "valid" ↔ r.errors = [] ∧ r.data.RateLimit.Remaining ≠ 0) := by
  obtain ⟨data, errors, restErr, err⟩ := r
  simp only at herr hrest
  subst herr hrest
  unfold recordedDetail
  cases errors with
  | nil =>
    by_cases h3 : data.RateLimit.Remaining = 0
    · simp [h3]
    · simp [h3]
  | cons e rest =>
    by_cases ht : e.Type_ = "RATE_LIMITED"
    · simp [ht]
    · simp [ht]

/-- The report of `collectPATInfo` on a pool of one credential: there is a report exactly
when the loop stores an entry for the quota result of the credential, and the credential
is in the list of the status of that entry and in no other. -/
theorem collectPATInfo_solo {σ : Type} (L : Strings) (P : Process)
    (QueryRateLimit : QuotaUpstream σ) (minutesUntil : String → σ → Option Int) (s : σ)
    (key : String) (hpool : GetPATKeys L P = [key]) :
    (∀ info, (collectPATInfo L P QueryRateLimit minutesUntil s).info = some info →
      ∃ d, recordedDetail L minutesUntil (QueryRateLimit (P.GetString key) s).1
          (QueryRateLimit (P.GetString key) s).2 = some d ∧
        (key ∈ info.ValidPATs ↔ d.Status = "valid") ∧
        (key ∈ info.ExpiredPATs ↔ d.Status = "expired") ∧
        (key ∈ info.ExhaustedPATs ↔ d.Status = "exhausted") ∧
        (key ∈ info.SuspendedPATs ↔ d.Status = "suspended") ∧
        (key ∈ info.ErrorPATs ↔ d.Status = "error")) ∧
      (∀ d, recordedDetail L minutesUntil (QueryRateLimit (P.GetString key) s).1
          (QueryRateLimit (P.GetString key) s).2 = some d →
        ∃ info, (collectPATInfo L P QueryRateLimit minutesUntil s).info = some info) := by
  constructor
  · intro info hinfo
    obtain ⟨herr, hrep⟩ := collectPATInfo_report L P QueryRateLimit minutesUntil s info hinfo
    rw [hpool] at herr hrep
    cases hd : recordedDetail L minutesUntil (QueryRateLimit (P.GetString key) s).1
        (QueryRateLimit (P.GetString key) s).2 with
    | none =>
      exact absurd herr
        (collectLoop_cons_abort L P QueryRateLimit minutesUntil key [] _ s hd).1
    | some d =>
      rw [collectLoop_cons_recorded L P QueryRateLimit minutesUntil key [] _ s d hd] at hrep
      subst hrep
      refine ⟨d, rfl, ?_, ?_, ?_, ?_, ?_⟩ <;>
        simp [filterPATs_eq, hasStatus, collectLoop, CollectOutcome.after, setDetail]
  · intro d hd
    unfold collectPATInfo
    simp only [hpool]
    rw [collectLoop_cons_recorded L P QueryRateLimit minutesUntil key [] _ s d hd]
    simp [collectLoop, CollectOutcome.after]

/-- The run of `RetryRateLimit` on a pool of one credential is one of three: the quota
result is accepted (no error, nothing logged), the credential is skipped (the failure is
logged), or the run is aborted (an error, nothing logged). -/
theorem RetryRateLimit_solo {σ : Type} (L : Strings) (P : Process)
    (QueryRateLimit : QuotaUpstream σ) (Marshal : RateLimitData → RawMessage) (s : σ)
    (key : String) (hpool : GetPATKeys L P = [key]) :
    ((RetryRateLimit L P QueryRateLimit Marshal s).err = none ∧
        (RetryRateLimit L P QueryRateLimit Marshal s).log = [] ∧
        (QueryRateLimit (P.GetString key) s).1.err = none ∧
        (QueryRateLimit (P.GetString key) s).1.restErr = none ∧
        isRateLimited L (QueryRateLimit (P.GetString key) s).1.errors = false) ∨
      ((RetryRateLimit L P QueryRateLimit Marshal s).err ≠ none ∧
        (RetryRateLimit L P QueryRateLimit Marshal s).log = [key ++ " Failed"] ∧
        (QueryRateLimit (P.GetString key) s).1.err = none ∧
        ((∃ e, (QueryRateLimit (P.GetString key) s).1.restErr = some e ∧
            (isBadCredential L e.Message || isSuspended L e.Message) = true) ∨
          ((QueryRateLimit (P.GetString key) s).1.restErr = none ∧
            isRateLimited L (QueryRateLimit (P.GetString key) s).1.errors = true))) ∨
      ((RetryRateLimit L P QueryRateLimit Marshal s).err ≠ none ∧
        (RetryRateLimit L P QueryRateLimit Marshal s).log = [] ∧
        ((QueryRateLimit (P.GetString key) s).1.err ≠ none ∨
          ∃ e, (QueryRateLimit (P.GetString key) s).1.restErr = some e ∧
            (isBadCredential L e.Message || isSuspended L e.Message) = false)) := by
  unfold RetryRateLimit
  simp only [hpool, List.length_singleton, one_ne_zero, if_false]
  rw [retryRateLimitLoop]
  simp only [getEnv]
  generalize QueryRateLimit (P.GetString key) s = q
  obtain ⟨⟨data, errors, restErr, err⟩, s'⟩ := q
  cases err with
  | some e => simp
  | none =>
    cases restErr with
    | some e =>
      cases hb : (isBadCredential L e.Message || isSuspended L e.Message) with
      | true =>
        simp only [hb, if_true]
        simpa [retryRateLimitLoop, RetryOutcome.skipped] using hb
      | false =>
        simp only [hb]
        simpa using hb
    | none =>
      cases hl : isRateLimited L errors with
      | true => simp [hl, retryRateLimitLoop, RetryOutcome.skipped]
      | false => simp [hl]

/-- On the ASCII instance the case-folded comparison with the two credential messages
agrees with the comparison of the lower-cased text. -/
theorem ascii_fold_agrees (m : String) :
    (isBadCredential Strings.ascii m = true ↔
        Strings.ascii.ToLower m = "bad credentials") ∧
      (isSuspended Strings.ascii m = true ↔
        Strings.ascii.ToLower m = "sorry. your account was suspended.") := by
  constructor
  · simp only [isBadCredential, Strings.ascii, decide_eq_true_eq]
    constructor
    · intro h
      rw [h]
      rfl
    · intro h
      have := congrArg String.data h
      simp only at this
      rw [this]
      rfl
  · simp only [isSuspended, Strings.ascii, decide_eq_true_eq]
    constructor
    · intro h
      rw [h]
      rfl
    · intro h
      have := congrArg String.data h
      simp only at this
      rw [this]
      rfl

/-- **C27 (amended).** For the quota result of a credential, checked by `collectPATInfo`
and by `RetryRateLimit` on the pool of that one credential, and a REST error message (if
any) on which the case-folded comparison with the two credential messages agrees with
the comparison of the lower-cased text: a credential reported `valid` is accepted by
`RetryRateLimit` as a success; a credential reported `expired` or `suspended` is skipped
by `RetryRateLimit` (its failure is logged); a result without transport or REST error
whose first error has type `RATE_LIMITED` is reported `exhausted` and is skipped.  The
converses hold only in this form: an accepted credential is reported `valid`, `exhausted`
or `error`, and a skipped credential is reported `expired`, `suspended`, `exhausted` or
`error`. -/
theorem C27_health_check_against_retry_rate_limit {σ : Type} (L : Strings) (P : Process)
    (QueryRateLimit : QuotaUpstream σ) (Marshal : RateLimitData → RawMessage)
    (minutesUntil : String → σ → Option Int) (s : σ) (key : String)
    (hpool : GetPATKeys L P = [key])
    (hfold : ∀ e, (QueryRateLimit (P.GetString key) s).1.restErr = some e →
      (isBadCredential L e.Message = true ↔ L.ToLower e.Message = "bad credentials") ∧
        (isSuspended L e.Message = true ↔
          L.ToLower e.Message = "sorry. your account was suspended.")) :
    (∀ info, (collectPATInfo L P QueryRateLimit minutesUntil s).info = some info →
      key ∈ info.ValidPATs →
      (RetryRateLimit L P QueryRateLimit Marshal s).err = none ∧
        (RetryRateLimit L P QueryRateLimit Marshal s).log = []) ∧
      (∀ info, (collectPATInfo L P QueryRateLimit minutesUntil s).info = some info →
        key ∈ info.ExpiredPATs ∨ key ∈ info.SuspendedPATs →
        (RetryRateLimit L P QueryRateLimit Marshal s).log = [key ++ " Failed"]) ∧
      (∀ e rest, (QueryRateLimit (P.GetString key) s).1.err = none →
        (QueryRateLimit (P.GetString key) s).1.restErr = none →
        (QueryRateLimit (P.GetString key) s).1.errors = e :: rest →
        e.Type_ = "RATE_LIMITED" →
        (∃ info, (collectPATInfo L P QueryRateLimit minutesUntil s).info = some info ∧
          key ∈ info.ExhaustedPATs) ∧
        (RetryRateLimit L P QueryRateLimit Marshal s).log = [key ++ " Failed"]) ∧
      ((RetryRateLimit L P QueryRateLimit Marshal s).err = none →
        ∃ info, (collectPATInfo L P QueryRateLimit minutesUntil s).info = some info ∧
          (key ∈ info.ValidPATs ∨ key ∈ info.ExhaustedPATs ∨ key ∈ info.ErrorPATs)) ∧
      ((RetryRateLimit L P QueryRateLimit Marshal s).log = [key ++ " Failed"] →
        ∃ info, (collectPATInfo L P QueryRateLimit minutesUntil s).info = some info ∧
          (key ∈ info.ExpiredPATs ∨ key ∈ info.SuspendedPATs ∨ key ∈ info.ExhaustedPATs ∨
            key ∈ info.ErrorPATs)) := by
  obtain ⟨hrep, hex⟩ := collectPATInfo_solo L P QueryRateLimit minutesUntil s key hpool
  have hrun := RetryRateLimit_solo L P QueryRateLimit Marshal s key hpool
  have hbound : ∀ e, (QueryRateLimit (P.GetString key) s).1.restErr = some e →
      ((isBadCredential L e.Message || isSuspended L e.Message) = true ↔
        (L.ToLower e.Message = "bad credentials" ∨
          L.ToLower e.Message = "sorry. your account was suspended.")) := by
    intro e he
    rw [Bool.or_eq_true, (hfold e he).1, (hfold e he).2]
  refine ⟨?_, ?_, ?_, ?_, ?_⟩
  · intro info hinfo hvalid
    obtain ⟨d, hd, hv, -⟩ := hrep info hinfo
    obtain ⟨h1, h2, h3, -⟩ := recordedDetail_valid L minutesUntil _ _ d hd (hv.mp hvalid)
    rcases hrun with h | h | h
    · exact ⟨h.1, h.2.1⟩
    · rcases h.2.2.2 with ⟨e, he, -⟩ | ⟨-, hl⟩
      · rw [h2] at he
        cases he
      · rw [h3] at hl
        simp [isRateLimited] at hl
    · rcases h.2.2 with he | ⟨e, he, -⟩
      · exact absurd h1 he
      · rw [h2] at he
        cases he
  · intro info hinfo hcred
    obtain ⟨d, hd, -, hexp, -, hsus, -⟩ := hrep info hinfo
    obtain ⟨h1, e, h2, hm⟩ := recordedDetail_credential L minutesUntil _ _ d hd
      (hcred.imp hexp.mp hsus.mp)
    have hb := (hbound e h2).mpr hm
    rcases hrun with h | h | h
    · rw [h.2.2.2.1] at h2
      cases h2
    · exact h.2.1
    · rcases h.2.2 with he | ⟨e', he', hb'⟩
      · exact absurd h1 he
      · rw [h2] at he'
        cases he'
        rw [hb] at hb'
        cases hb'
  · intro e rest h1 h2 h3 ht
    obtain ⟨d, hd, -, hexh, -⟩ := recordedDetail_envelope L minutesUntil
      (QueryRateLimit (P.GetString key) s).1 (QueryRateLimit (P.GetString key) s).2 h1 h2
    have hst : d.Status = "exhausted" := hexh.mpr (Or.inl ⟨e, rest, h3, ht⟩)
    obtain ⟨info, hinfo⟩ := hex d hd
    obtain ⟨d', hd', -, -, hmem, -⟩ := hrep info hinfo
    rw [hd] at hd'
    cases hd'
    refine ⟨⟨info, hinfo, hmem.mpr hst⟩, ?_⟩
    have hl : isRateLimited L (QueryRateLimit (P.GetString key) s).1.errors = true := by
      rw [h3]
      simp [isRateLimited, ht]
    rcases hrun with h | h | h
    · rw [h.2.2.2.2] at hl
      cases hl
    · exact h.2.1
    · rcases h.2.2 with he | ⟨e', he', -⟩
      · exact absurd h1 he
      · rw [h2] at he'
        cases he'
  · intro hacc
    rcases hrun with h | h | h
    · obtain ⟨d, hd, herror, hexh, hval⟩ := recordedDetail_envelope L minutesUntil
        (QueryRateLimit (P.GetString key) s).1 (QueryRateLimit (P.GetString key) s).2
        h.2.2.1 h.2.2.2.1
      obtain ⟨info, hinfo⟩ := hex d hd
      obtain ⟨d', hd', hv, -, hx, -, he⟩ := hrep info hinfo
      rw [hd] at hd'
      cases hd'
      refine ⟨info, hinfo, ?_⟩
      rw [hv, hx, he, herror, hexh, hval]
      cases herrs : (QueryRateLimit (P.GetString key) s).1.errors with
      | nil =>
        by_cases h3 : (QueryRateLimit (P.GetString key) s).1.data.RateLimit.Remaining = 0
        · exact Or.inr (Or.inl (Or.inr ⟨rfl, h3⟩))
        · exact Or.inl ⟨rfl, h3⟩
      | cons e rest =>
        by_cases ht : e.Type_ = "RATE_LIMITED"
        · exact Or.inr (Or.inl (Or.inl ⟨e, rest, rfl, ht⟩))
        · exact Or.inr (Or.inr ⟨e, rest, rfl, ht⟩)
    · exact absurd hacc h.1
    · exact absurd hacc h.1
  · intro hskip
    rcases hrun with h | h | h
    · rw [h.2.1] at hskip
      cases hskip
    · rcases h.2.2.2 with ⟨e, he, hb⟩ | ⟨hr, hl⟩
      · obtain ⟨d, hd, hst⟩ := recordedDetail_bound L minutesUntil
          (QueryRateLimit (P.GetString key) s).1 (QueryRateLimit (P.GetString key) s).2 e
          h.2.2.1 he ((hbound e he).mp hb)
        obtain ⟨info, hinfo⟩ := hex d hd
        obtain ⟨d', hd', -, hexp, -, hsus, -⟩ := hrep info hinfo
        rw [hd] at hd'
        cases hd'
        refine ⟨info, hinfo, ?_⟩
        rcases hst with hst | hst
        · exact Or.inl (hexp.mpr hst)
        · exact Or.inr (Or.inl (hsus.mpr hst))
      · obtain ⟨d, hd, herror, hexh, -⟩ := recordedDetail_envelope L minutesUntil
          (QueryRateLimit (P.GetString key) s).1 (QueryRateLimit (P.GetString key) s).2
          h.2.2.1 hr
        obtain ⟨info, hinfo⟩ := hex d hd
        obtain ⟨d', hd', -, -, hx, -, he⟩ := hrep info hinfo
        rw [hd] at hd'
        cases hd'
        refine ⟨info, hinfo, Or.inr (Or.inr ?_)⟩
        rw [hx, he, herror, hexh]
        obtain ⟨e, rest, herrs, -⟩ := (isRateLimited_iff L _).mp hl
        by_cases ht : e.Type_ = "RATE_LIMITED"
        · exact Or.inl (Or.inl ⟨e, rest, herrs, ht⟩)
        · exact Or.inr ⟨e, rest, herrs, ht⟩
    · rw [h.2.1] at hskip
      cases hskip

/-- Witness of C27 (amended): the single credential `PAT_7` has bad credentials. -/
theorem C27_health_check_against_retry_rate_limit_witness :
    (∀ info, (collectPATInfo Strings.ascii soloProcess
        (constantQuota { restErr := some ⟨"Bad credentials"⟩ }) fixedClock ()).info
        = some info →
      "PAT_7" ∈ info.ValidPATs →
      (RetryRateLimit Strings.ascii soloProcess
        (constantQuota { restErr := some ⟨"Bad credentials"⟩ }) byteMarshal ()).err = none ∧
        (RetryRateLimit Strings.ascii soloProcess
          (constantQuota { restErr := some ⟨"Bad credentials"⟩ }) byteMarshal ()).log = []) ∧
      (∀ info, (collectPATInfo Strings.ascii soloProcess
          (constantQuota { restErr := some ⟨"Bad credentials"⟩ }) fixedClock ()).info
          = some info →
        "PAT_7" ∈ info.ExpiredPATs ∨ "PAT_7" ∈ info.SuspendedPATs →
        (RetryRateLimit Strings.ascii soloProcess
          (constantQuota { restErr := some ⟨"Bad credentials"⟩ }) byteMarshal ()).log =
          ["PAT_7" ++ " Failed"]) ∧
      (∀ e rest,
        (constantQuota { restErr := some ⟨"Bad credentials"⟩ }
          (soloProcess.GetString "PAT_7") ()).1.err = none →
        (constantQuota { restErr := some ⟨"Bad credentials"⟩ }
          (soloProcess.GetString "PAT_7") ()).1.restErr = none →
        (constantQuota { restErr := some ⟨"Bad credentials"⟩ }
          (soloProcess.GetString "PAT_7") ()).1.errors = e :: rest →
        e.Type_ = "RATE_LIMITED" →
        (∃ info, (collectPATInfo Strings.ascii soloProcess
            (constantQuota { restErr := some ⟨"Bad credentials"⟩ }) fixedClock ()).info
            = some info ∧
          "PAT_7" ∈ info.ExhaustedPATs) ∧
        (RetryRateLimit Strings.ascii soloProcess
          (constantQuota { restErr := some ⟨"Bad credentials"⟩ }) byteMarshal ()).log =
          ["PAT_7" ++ " Failed"]) ∧
      ((RetryRateLimit Strings.ascii soloProcess
          (constantQuota { restErr := some ⟨"Bad credentials"⟩ }) byteMarshal ()).err = none →
        ∃ info, (collectPATInfo Strings.ascii soloProcess
            (constantQuota { restErr := some ⟨"Bad credentials"⟩ }) fixedClock ()).info
            = some info ∧
          ("PAT_7" ∈ info.ValidPATs ∨ "PAT_7" ∈ info.ExhaustedPATs ∨
            "PAT_7" ∈ info.ErrorPATs)) ∧
      ((RetryRateLimit Strings.ascii soloProcess
          (constantQuota { restErr := some ⟨"Bad credentials"⟩ }) byteMarshal ()).log =
          ["PAT_7" ++ " Failed"] →
        ∃ info, (collectPATInfo Strings.ascii soloProcess
            (constantQuota { restErr := some ⟨"Bad credentials"⟩ }) fixedClock ()).info
            = some info ∧
          ("PAT_7" ∈ info.ExpiredPATs ∨ "PAT_7" ∈ info.SuspendedPATs ∨
            "PAT_7" ∈ info.ExhaustedPATs ∨ "PAT_7" ∈ info.ErrorPATs)) :=
  C27_health_check_against_retry_rate_limit Strings.ascii soloProcess
    (constantQuota { restErr := some ⟨"Bad credentials"⟩ }) byteMarshal fixedClock ()
    "PAT_7" (by decide) (fun e _ => ascii_fold_agrees e.Message)

/-- The run behind the witness of C27: the credential is reported `expired` and
`RetryRateLimit` skips it. -/
theorem quota_bad_credentials_run :
    ((collectPATInfo Strings.ascii soloProcess
        (constantQuota { restErr := some ⟨"Bad credentials"⟩ }) fixedClock ()).info.map
        fun i => (i.ValidPATs, i.ExpiredPATs, i.ExhaustedPATs, i.SuspendedPATs, i.ErrorPATs))
        = some ([], ["PAT_7"], [], [], []) ∧
      (RetryRateLimit Strings.ascii soloProcess
        (constantQuota { restErr := some ⟨"Bad credentials"⟩ }) byteMarshal ()).log =
        ["PAT_7 Failed"] ∧
      (RetryRateLimit Strings.ascii soloProcess
        (constantQuota { restErr := some ⟨"Bad credentials"⟩ }) byteMarshal ()).err =
        some (GoError.errorString "all github api tokens failed") :=
  ⟨by decide, by decide, by decide⟩

/-- **C27, counterexample.** Three quota results for the single credential `PAT_7`.  A
result without errors and with no quota left is accepted by `RetryRateLimit` as a success
and reported `exhausted`, not `valid`, by `collectPATInfo`.  A result whose first error
has type `FORBIDDEN` and a text that `isRateLimited` recognises as a rate limit is skipped
by `RetryRateLimit` and reported `error`, not `exhausted`.  A result whose first error
has type `FORBIDDEN` and another text is accepted by `RetryRateLimit` and reported
`error`. -/
theorem C27_counterexample_classifications_differ :
    ((RetryRateLimit Strings.ascii soloProcess
        (constantQuota { data := { RateLimit := { Remaining := 0 } } }) byteMarshal ()).err
        = none ∧
      (RetryRateLimit Strings.ascii soloProcess
        (constantQuota { data := { RateLimit := { Remaining := 0 } } }) byteMarshal ()).log
        = [] ∧
      ((collectPATInfo Strings.ascii soloProcess
        (constantQuota { data := { RateLimit := { Remaining := 0 } } }) fixedClock
        ()).info.map fun i =>
          (i.ValidPATs, i.ExpiredPATs, i.ExhaustedPATs, i.SuspendedPATs, i.ErrorPATs))
        = some ([], [], ["PAT_7"], [], [])) ∧
      (isRateLimited Strings.ascii [⟨"FORBIDDEN", "API rate limit exceeded"⟩] = true ∧
        (RetryRateLimit Strings.ascii soloProcess
          (constantQuota { errors := [⟨"FORBIDDEN", "API rate limit exceeded"⟩] })
          byteMarshal ()).log = ["PAT_7 Failed"] ∧
        ((collectPATInfo Strings.ascii soloProcess
          (constantQuota { errors := [⟨"FORBIDDEN", "API rate limit exceeded"⟩] })
          fixedClock ()).info.map fun i =>
            (i.ValidPATs, i.ExpiredPATs, i.ExhaustedPATs, i.SuspendedPATs, i.ErrorPATs))
          = some ([], [], [], [], ["PAT_7"])) ∧
      ((RetryRateLimit Strings.ascii soloProcess
          (constantQuota { data := { RateLimit := { Remaining := 10 } },
                           errors := [⟨"FORBIDDEN", "Resource not accessible"⟩] })
          byteMarshal ()).err = none ∧
        ((collectPATInfo Strings.ascii soloProcess
          (constantQuota { data := { RateLimit := { Remaining := 10 } },
                           errors := [⟨"FORBIDDEN", "Resource not accessible"⟩] })
          fixedClock ()).info.map fun i =>
            (i.ValidPATs, i.ExpiredPATs, i.ExhaustedPATs, i.SuspendedPATs, i.ErrorPATs))
          = some ([], [], [], [], ["PAT_7"])) :=
  ⟨⟨by decide, by decide, by decide⟩, ⟨by decide, by decide, by decide⟩,
    ⟨by decide, by decide⟩⟩

/-! ## Theorems: the envelope of the stats query in `FetchStats` -/

/-- When the attempts on credentials `0..k-1` are recoverable and the attempt on
credential `k` is accepted, its data decode and the paging ends with that page,
`statsFetcher` returns the envelope of attempt `k` as it came from the upstream. -/
theorem statsFetcher_first_page_envelope {σ : Type} (L : Strings) (P : Process) (J : JSON)
    (DoGraphQL : Upstream σ) (fuel : Nat) (username : String) (includeMergedPRs : Bool)
    (includeDiscussions : Bool) (includeDiscussionAnswers : Bool) (startTime : String)
    (s : σ) (k : Nat) (rk : FetchResult) (data : graphQLUserData)
    (hskip : ∀ r ∈ (attemptResults L P
        (firstPageCall DoGraphQL username includeMergedPRs includeDiscussions
          includeDiscussionAnswers startTime) (GetPATKeys L P) s).take k,
      r.recoverable L (statsRetryConfig L) = true)
    (hk : (attemptResults L P
        (firstPageCall DoGraphQL username includeMergedPRs includeDiscussions
          includeDiscussionAnswers startTime) (GetPATKeys L P) s)[k]? = some rk)
    (hsucc : rk.succeeds (statsRetryConfig L) = true)
    (hdec : J.Unmarshal rk.resp.Data = .ok data)
    (hend : pagingEnds L P data = true) :
    (statsFetcher L P J DoGraphQL (fuel + 1) username includeMergedPRs includeDiscussions
      includeDiscussionAnswers startTime s).result = some (rk.resp, none) := by
  have hne : GetPATKeys L P ≠ [] := by
    intro h
    rw [h] at hk
    simp [attemptResults] at hk
  obtain ⟨h1, h2, -⟩ := retryLoop_first_success L P
    (firstPageCall DoGraphQL username includeMergedPRs includeDiscussions
      includeDiscussionAnswers startTime) (statsRetryConfig L) (GetPATKeys L P) s k rk
    hskip hk hsucc
  rw [← RetryGraphQL_eq_loop L P _ _ s hne] at h1 h2
  unfold firstPageCall statsRetryConfig pageQuery pageVars at h1 h2
  have hmerge : mergeGraphQL J {} rk.resp = rk.resp := by
    simp [mergeGraphQL]
  unfold statsFetcher
  rw [statsFetcherLoop]
  simp only [h2, h1, hmerge, hdec]
  unfold pagingEnds at hend
  by_cases hnodes : data.User.Repositories.Nodes.length = 0
  · simp [hnodes]
  · simp only [hnodes, decide_False, Bool.false_or, Bool.not_eq_true'] at hend
    simp only [Bool.and_eq_false_imp, Bool.and_eq_true, decide_eq_true_eq] at hend
    simp only [hnodes, if_false]
    split
    · rename_i hc
      simp only [Bool.and_eq_true, decide_eq_true_eq] at hc
      have := hend ⟨hc.1.1, hc.1.2⟩
      rw [this] at hc
      exact absurd hc.2 (by decide)
    · rfl

/-- **C20 (amended).** When the attempts on credentials `0..k-1` are recoverable and the
upstream answers the stats query on credential `k` with an envelope whose first error has
type `NOT_FOUND` and a text that does not contain `rate limit`, whose data decode and
with which the paging ends, `FetchStats` returns the zero record and the custom error of
type `USER_NOT_FOUND` whose message is the upstream message and whose secondary message
is the user-not-found hint; that error differs from the generic GraphQL error with the
same message. -/
theorem C20_not_found_envelope_is_user_not_found {σ : Type} (F : Float64) (L : Strings)
    (P : Process) (J : JSON) (DoGraphQL : Upstream σ) (SearchCommits : SearchUpstream σ)
    (fuel : Nat) (username : String) (includeAllCommits : Bool) (excludeRepo : List String)
    (includeMergedPRs : Bool) (includeDiscussions : Bool) (includeDiscussionAnswers : Bool)
    (commitsYear : Option Int) (s : σ) (k : Nat) (rk : FetchResult) (e : GraphQLError)
    (rest : List GraphQLError) (data : graphQLUserData)
    (hname : username ≠ "")
    (hskip : ∀ r ∈ (attemptResults L P
        (firstPageCall DoGraphQL username includeMergedPRs includeDiscussions
          includeDiscussionAnswers (startTimeOf commitsYear)) (GetPATKeys L P) s).take k,
      r.recoverable L (statsRetryConfig L) = true)
    (hk : (attemptResults L P
        (firstPageCall DoGraphQL username includeMergedPRs includeDiscussions
          includeDiscussionAnswers (startTimeOf commitsYear)) (GetPATKeys L P) s)[k]?
      = some rk)
    (herr : rk.err = none) (hrest : rk.restErr = none)
    (herrs : rk.resp.Errors = e :: rest)
    (htype : e.Type_ = "NOT_FOUND")
    (hmsg : Contains (L.ToLower e.Message) "rate limit" = false)
    (hdec : J.Unmarshal rk.resp.Data = .ok data)
    (hend : pagingEnds L P data = true) :
    (FetchStats F L P J DoGraphQL SearchCommits (fuel + 1) username includeAllCommits
        excludeRepo includeMergedPRs includeDiscussions includeDiscussionAnswers commitsYear
        s).result =
        some ({}, some (GoError.CustomError e.Message "USER_NOT_FOUND"
          "Make sure the provided username is not an organization")) ∧
      GoError.CustomError e.Message "USER_NOT_FOUND"
          "Make sure the provided username is not an organization" ≠
        NewCustomError e.Message ErrorGraphQL := by
  have hsucc : rk.succeeds (statsRetryConfig L) = true := by
    have hnot : e.Type_ ≠ "RATE_LIMITED" := by
      rw [htype]
      decide
    simp [FetchResult.succeeds, herr, hrest, statsRetryConfig, RetryConfig.rateLimited,
      isRateLimitedGraphQL, herrs, hnot, hmsg]
  exact FetchStats_not_found_response F L P J DoGraphQL SearchCommits (fuel + 1) username
    includeAllCommits excludeRepo includeMergedPRs includeDiscussions includeDiscussionAnswers
    commitsYear s rk.resp e rest hname
    (statsFetcher_first_page_envelope L P J DoGraphQL fuel username includeMergedPRs
      includeDiscussions includeDiscussionAnswers (startTimeOf commitsYear) s k rk data hskip
      hk hsucc hdec hend)
    herrs htype

/-- Witness of C20 (amended): the token of `PAT_1` has bad credentials and the upstream
answers the token of `PAT_2` with zero data and the first error `NOT_FOUND`. -/
theorem C20_not_found_envelope_is_user_not_found_witness :
    (FetchStats Float64.ieee Strings.ascii (demoProcess "false") profileJSON
        (staleThenErrorUpstream "NOT_FOUND"
          "Could not resolve to a User with the login of nobody.")
        (fun _ _ n => ({ resp := { TotalCount := 321 }, status := 200 }, n)) (2 + 1) "nobody"
        false [] false false false none 0).result =
        some ({}, some (GoError.CustomError
          (GraphQLError.mk "NOT_FOUND"
            "Could not resolve to a User with the login of nobody.").Message
          "USER_NOT_FOUND" "Make sure the provided username is not an organization")) ∧
      GoError.CustomError
          (GraphQLError.mk "NOT_FOUND"
            "Could not resolve to a User with the login of nobody.").Message
          "USER_NOT_FOUND" "Make sure the provided username is not an organization" ≠
        NewCustomError
          (GraphQLError.mk "NOT_FOUND"
            "Could not resolve to a User with the login of nobody.").Message ErrorGraphQL :=
  C20_not_found_envelope_is_user_not_found Float64.ieee Strings.ascii (demoProcess "false")
    profileJSON
    (staleThenErrorUpstream "NOT_FOUND"
      "Could not resolve to a User with the login of nobody.")
    (fun _ _ n => ({ resp := { TotalCount := 321 }, status := 200 }, n)) 2 "nobody"
    false [] false false false none 0 1
    { resp := { Data := [9],
                Errors := [⟨"NOT_FOUND",
                  "Could not resolve to a User with the login of nobody."⟩] } }
    ⟨"NOT_FOUND", "Could not resolve to a User with the login of nobody."⟩ [] {}
    (by decide) (by decide) (by decide) rfl rfl rfl rfl (by decide) rfl (by decide)

/-- **C20, counterexample.** Two upstream answers to the stats query whose first error has
the kind `NOT_FOUND`.  The first envelope holds no data: `statsFetcher` decodes the data
before `FetchStats` looks at the errors, and `FetchStats` returns the error of
`json.Unmarshal`, not the not-found error.  The text of the second contains `rate limit`:
every credential is skipped as rate limited and `FetchStats` returns the `MAX_RETRY`
error. -/
theorem C20_counterexample_not_found_not_reported :
    (FetchStats Float64.ieee Strings.ascii (demoProcess "false") profileJSON
        (bareErrorUpstream "NOT_FOUND"
          "Could not resolve to a User with the login of nobody.")
        demoSearch 3 "nobody" false [] false false false none ()).result =
        some ({}, some (GoError.foreign "unexpected end of JSON input")) ∧
      (FetchStats Float64.ieee Strings.ascii (demoProcess "false") profileJSON
        (envelopeErrorUpstream "NOT_FOUND" "No rate limit bucket for the login of nobody.")
        demoSearch 3 "nobody" false [] false false false none ()).result =
        some ({}, some (GoError.CustomError "Downtime due to GitHub API rate limiting"
          "MAX_RETRY"
          "You can deploy own instance or wait until public will be no longer limited")) :=
  ⟨by decide, by decide⟩

/-- **C21 (amended).** When the attempts on credentials `0..k-1` are recoverable and the
upstream answers the stats query on credential `k` with an envelope that is not rate
limited, whose first error has a type other than `NOT_FOUND`, whose data decode and with
which the paging ends, `FetchStats` aborts with the zero record and the custom error of
type `GRAPHQL_ERROR`, whatever the type of that error is: its message is the upstream
message unchanged when that message is not empty and a fixed generic text when it is
empty, and its secondary message is the try-again hint. -/
theorem C21_envelope_error_becomes_graphql_error {σ : Type} (F : Float64) (L : Strings)
    (P : Process) (J : JSON) (DoGraphQL : Upstream σ) (SearchCommits : SearchUpstream σ)
    (fuel : Nat) (username : String) (includeAllCommits : Bool) (excludeRepo : List String)
    (includeMergedPRs : Bool) (includeDiscussions : Bool) (includeDiscussionAnswers : Bool)
    (commitsYear : Option Int) (s : σ) (k : Nat) (rk : FetchResult) (e : GraphQLError)
    (rest : List GraphQLError) (data : graphQLUserData)
    (hname : username ≠ "")
    (hskip : ∀ r ∈ (attemptResults L P
        (firstPageCall DoGraphQL username includeMergedPRs includeDiscussions
          includeDiscussionAnswers (startTimeOf commitsYear)) (GetPATKeys L P) s).take k,
      r.recoverable L (statsRetryConfig L) = true)
    (hk : (attemptResults L P
        (firstPageCall DoGraphQL username includeMergedPRs includeDiscussions
          includeDiscussionAnswers (startTimeOf commitsYear)) (GetPATKeys L P) s)[k]?
      = some rk)
    (herr : rk.err = none) (hrest : rk.restErr = none)
    (herrs : rk.resp.Errors = e :: rest)
    (htype : e.Type_ ≠ "NOT_FOUND")
    (hlimit : isRateLimitedGraphQL L rk.resp = false)
    (hdec : J.Unmarshal rk.resp.Data = .ok data)
    (hend : pagingEnds L P data = true) :
    (FetchStats F L P J DoGraphQL SearchCommits (fuel + 1) username includeAllCommits
        excludeRepo includeMergedPRs includeDiscussions includeDiscussionAnswers commitsYear
        s).result =
      some ({}, some (GoError.CustomError
        (if e.Message ≠ "" then e.Message
          else "Something went wrong while trying to retrieve the stats data using the GraphQL API.")
        "GRAPHQL_ERROR" "Please try again later")) := by
  have hsucc : rk.succeeds (statsRetryConfig L) = true := by
    simp [FetchResult.succeeds, herr, hrest, statsRetryConfig, RetryConfig.rateLimited,
      hlimit]
  exact FetchStats_other_error_response F L P J DoGraphQL SearchCommits (fuel + 1) username
    includeAllCommits excludeRepo includeMergedPRs includeDiscussions includeDiscussionAnswers
    commitsYear s rk.resp e rest hname
    (statsFetcher_first_page_envelope L P J DoGraphQL fuel username includeMergedPRs
      includeDiscussions includeDiscussionAnswers (startTimeOf commitsYear) s k rk data hskip
      hk hsucc hdec hend)
    herrs htype

/-- Witness of C21 (amended): the token of `PAT_1` has bad credentials and the upstream
answers the token of `PAT_2` with zero data and the first error `FORBIDDEN`. -/
theorem C21_envelope_error_becomes_graphql_error_witness :
    (FetchStats Float64.ieee Strings.ascii (demoProcess "false") profileJSON
        (staleThenErrorUpstream "FORBIDDEN" "Resource not accessible by integration")
        (fun _ _ n => ({ resp := { TotalCount := 321 }, status := 200 }, n)) (2 + 1) "ann"
        false [] false false false none 0).result =
      some ({}, some (GoError.CustomError
        (if (GraphQLError.mk "FORBIDDEN" "Resource not accessible by integration").Message
            ≠ "" then
          (GraphQLError.mk "FORBIDDEN" "Resource not accessible by integration").Message
          else "Something went wrong while trying to retrieve the stats data using the GraphQL API.")
        "GRAPHQL_ERROR" "Please try again later")) :=
  C21_envelope_error_becomes_graphql_error Float64.ieee Strings.ascii (demoProcess "false")
    profileJSON (staleThenErrorUpstream "FORBIDDEN" "Resource not accessible by integration")
    (fun _ _ n => ({ resp := { TotalCount := 321 }, status := 200 }, n)) 2 "ann"
    false [] false false false none 0 1
    { resp := { Data := [9],
                Errors := [⟨"FORBIDDEN", "Resource not accessible by integration"⟩] } }
    ⟨"FORBIDDEN", "Resource not accessible by integration"⟩ [] {}
    (by decide) (by decide) (by decide) rfl rfl rfl (by decide) (by decide) rfl (by decide)

/-- **C21, counterexample.** The upstream envelope lists the single error of kind
`FORBIDDEN`, which is neither credential-bound nor a rate limit nor `NOT_FOUND`.  With
data that decode, the error that `FetchStats` returns has the kind `GRAPHQL_ERROR` and
holds `FORBIDDEN` nowhere, and it is the very error returned for the kind
`INSUFFICIENT_SCOPES` with the same message; with an empty upstream message the returned
message is not the upstream one.  And when the envelope holds no data, `FetchStats`
returns the error of `json.Unmarshal`, which holds neither the kind nor the message. -/
theorem C21_counterexample_kind_is_dropped :
    (FetchStats Float64.ieee Strings.ascii (demoProcess "false") profileJSON
        (envelopeErrorUpstream "FORBIDDEN" "Resource not accessible by integration")
        demoSearch 3 "ann" false [] false false false none ()).result =
        some ({}, some (GoError.CustomError "Resource not accessible by integration"
          "GRAPHQL_ERROR" "Please try again later")) ∧
      (FetchStats Float64.ieee Strings.ascii (demoProcess "false") profileJSON
        (envelopeErrorUpstream "INSUFFICIENT_SCOPES" "Resource not accessible by integration")
        demoSearch 3 "ann" false [] false false false none ()).result =
        some ({}, some (GoError.CustomError "Resource not accessible by integration"
          "GRAPHQL_ERROR" "Please try again later")) ∧
      (FetchStats Float64.ieee Strings.ascii (demoProcess "false") profileJSON
        (envelopeErrorUpstream "FORBIDDEN" "")
        demoSearch 3 "ann" false [] false false false none ()).result =
        some ({}, some (GoError.CustomError
          "Something went wrong while trying to retrieve the stats data using the GraphQL API."
          "GRAPHQL_ERROR" "Please try again later")) ∧
      (FetchStats Float64.ieee Strings.ascii (demoProcess "false") profileJSON
        (bareErrorUpstream "FORBIDDEN" "Resource not accessible by integration")
        demoSearch 3 "ann" false [] false false false none ()).result =
        some ({}, some (GoError.foreign "unexpected end of JSON input")) :=
  ⟨by decide, by decide, by decide, by decide⟩

end GithubReadmeStats
